import Mathlib

/-!
# DTLS core of `lib/gnutls_dtls.c`, `gnutls_memcmp` and `gostdsa_unmask_key`

A shallow embedding of the anti-replay window (`rot_window`,
`_dtls_record_check`), the cookie engine (`gnutls_dtls_cookie_send`,
`gnutls_dtls_cookie_verify`), the flight transmitter (`transmit_message`,
`_dtls_transmit`, `_dtls_wait_and_retransmit`), the timer and prestate
functions, `gnutls_memcmp` of `lib/safe-memfuncs.c` and `gostdsa_unmask_key` of
`lib/nettle/gost/gostdsa-mask.c`, with the properties of the specification that
concern them.

Conventions.
* A C array of bytes is a `List Nat`; reading slot `k` is `getD k 0`.
* `unsigned int` subtraction is taken modulo `2^32` (`sub_u32`), `uint64_t`
  shifts modulo `2^64`.
* Constants that the source takes from headers outside `src/` and whose value
  the specification does not give (`DTLS_RECORD_WINDOW_SIZE`, the content and
  handshake type codes) are parameters of the functions using them.
* An `mpz_t` is an `Int`; the GMP functions are the integer operations that
  the GMP manual describes.
-/

namespace GnutlsDtls

/-! ## Anti-replay window -/

/-- The C type `uint64` of the record layer: eight bytes `i[0..7]`, of which
`i[2..7]` carry the 48-bit DTLS sequence number. -/
structure uint64 where
  i : List Nat
deriving DecidableEq, Repr

/-- The replay-window part of `struct record_parameters_st`: the slots
`record_sw[DTLS_RECORD_WINDOW_SIZE]` and the count `record_sw_size`. -/
structure record_parameters_st where
  record_sw : List Nat
  record_sw_size : Nat
deriving DecidableEq, Repr

/-- `#define MOVE_SIZE 20`. -/
def MOVE_SIZE : Nat := 20

/-- Subtraction of two `unsigned int` values, wrapping modulo `2^32`. -/
def sub_u32 (a b : Nat) : Nat := (a + 4294967296 - b % 4294967296) % 4294967296

/-- Slot `k` of the window table (`window_table[k]`). -/
def slot (t : List Nat) (k : Nat) : Nat := t.getD k 0

/-- The call `memmove(window_table, &window_table[places], n*sizeof(window_table[0]))`:
the `n` slots starting at `places` are copied to the front, the slots from `n`
on keep their content. -/
def memmove_window (t : List Nat) (places n : Nat) : List Nat :=
  (t.drop places).take n ++ t.drop n

/-- `rot_window`: the size drops by `places` and the retained slots move to the
front of the table. -/
def rot_window (rp : record_parameters_st) (places : Nat) : record_parameters_st :=
  let window_size := sub_u32 rp.record_sw_size places
  { record_sw := memmove_window rp.record_sw places window_size,
    record_sw_size := window_size }

/-- The loop `for (i=2;i<8;i++) { seq <<= 8; seq |= _seq->i[i] & 0xff; }`. -/
def parse_seq (_seq : uint64) : Nat :=
  (List.range' 2 6).foldl
    (fun seq k => ((seq <<< 8) % 18446744073709551616) ||| (slot _seq.i k &&& 0xff)) 0

/-- The body of `_dtls_record_check` after the sequence number has been parsed.
`W` is `DTLS_RECORD_WINDOW_SIZE`.  The result is the return value (`0`
accepted, `-1` replayed) and the window after the call. -/
def record_check_seq (W : Nat) (rp : record_parameters_st) (seq : Nat) :
    Int × record_parameters_st :=
  if rp.record_sw_size = 0 then
    (0, { record_sw := rp.record_sw.set 0 seq, record_sw_size := 1 })
  else if seq ≤ slot rp.record_sw 0 then
    (-1, rp)
  else
    let rp := if rp.record_sw_size = W then rot_window rp MOVE_SIZE else rp
    let last := slot rp.record_sw (sub_u32 rp.record_sw_size 1)
    if seq < last then
      let diff := last - seq
      if diff ≥ rp.record_sw_size then
        (-1, rp)
      else
        let offset := (sub_u32 rp.record_sw_size 1 - diff) % 4294967296
        if slot rp.record_sw offset = seq then
          (-1, rp)
        else
          (0, { rp with record_sw := rp.record_sw.set offset seq })
    else if seq = last then
      (-1, rp)
    else
      let diff := seq - last
      if diff ≤ sub_u32 W rp.record_sw_size then
        let offset := (diff + rp.record_sw_size - 1) % 4294967296
        (0, { record_sw := rp.record_sw.set offset seq,
              record_sw_size := (offset + 1) % 4294967296 })
      else if diff > W / 2 then
        (0, { record_sw := rp.record_sw.set (W - 1) seq, record_sw_size := W })
      else
        let rp := rot_window rp diff
        let offset := (diff + rp.record_sw_size - 1) % 4294967296
        (0, { record_sw := rp.record_sw.set offset seq,
              record_sw_size := (offset + 1) % 4294967296 })

/-- `_dtls_record_check(rp, _seq)`. -/
def _dtls_record_check (W : Nat) (rp : record_parameters_st) (_seq : uint64) :
    Int × record_parameters_st :=
  record_check_seq W rp (parse_seq _seq)

/-- A window that has seen no record: `record_sw_size = 0`, every slot zero. -/
def empty_window (W : Nat) : record_parameters_st :=
  { record_sw := List.replicate W 0, record_sw_size := 0 }

/-- The window after a sequence of `_dtls_record_check` calls, the return
values being dropped. -/
def run_checks (W : Nat) (rp : record_parameters_st) : List uint64 → record_parameters_st
  | [] => rp
  | s :: rest => run_checks W (_dtls_record_check W rp s).2 rest

/-- The return values of a sequence of `_dtls_record_check` calls, in call order. -/
def check_results (W : Nat) (rp : record_parameters_st) : List uint64 → List Int
  | [] => []
  | s :: rest =>
    (_dtls_record_check W rp s).1 :: check_results W (_dtls_record_check W rp s).2 rest

/-- The eight-byte field whose 48-bit sequence number is `n`, in network byte order. -/
def seq_bytes (n : Nat) : uint64 :=
  { i := [0, 0, (n >>> 40) % 256, (n >>> 32) % 256, (n >>> 24) % 256,
          (n >>> 16) % 256, (n >>> 8) % 256, n % 256] }

/-- The part of `_dtls_record_check` behind the rotation of a full window: the
branches on `seq` against the last live slot. -/
def record_check_tail (W : Nat) (rp : record_parameters_st) (seq : Nat) :
    Int × record_parameters_st :=
  let last := slot rp.record_sw (sub_u32 rp.record_sw_size 1)
  if seq < last then
    let diff := last - seq
    if diff ≥ rp.record_sw_size then
      (-1, rp)
    else
      let offset := (sub_u32 rp.record_sw_size 1 - diff) % 4294967296
      if slot rp.record_sw offset = seq then
        (-1, rp)
      else
        (0, { rp with record_sw := rp.record_sw.set offset seq })
  else if seq = last then
    (-1, rp)
  else
    let diff := seq - last
    if diff ≤ sub_u32 W rp.record_sw_size then
      let offset := (diff + rp.record_sw_size - 1) % 4294967296
      (0, { record_sw := rp.record_sw.set offset seq,
            record_sw_size := (offset + 1) % 4294967296 })
    else if diff > W / 2 then
      (0, { record_sw := rp.record_sw.set (W - 1) seq, record_sw_size := W })
    else
      let rp := rot_window rp diff
      let offset := (diff + rp.record_sw_size - 1) % 4294967296
      (0, { record_sw := rp.record_sw.set offset seq,
            record_sw_size := (offset + 1) % 4294967296 })

/-- The last live slot of the window, `window_table[window_size-1]`. -/
def window_top (rp : record_parameters_st) : Nat :=
  slot rp.record_sw (rp.record_sw_size - 1)

/-- The invariant of a window that has seen at least one record, relative to a
bound `m`: the table has `W` slots, the size is between 1 and `W`, every slot
`i` holds at most the sequence number that belongs to position `i`
(`top - (size - 1) + i`), `m` is at most the number that belongs to position 0,
and if it is that number then slot 0 holds it. -/
def window_inv (W m : Nat) (rp : record_parameters_st) : Prop :=
  rp.record_sw.length = W ∧ 1 ≤ rp.record_sw_size ∧ rp.record_sw_size ≤ W ∧
  (∀ i, i < W → slot rp.record_sw i + rp.record_sw_size ≤ window_top rp + 1 + i) ∧
  m + rp.record_sw_size ≤ window_top rp + 1 ∧
  (m + rp.record_sw_size = window_top rp + 1 → slot rp.record_sw 0 = m)

/-- A window is well formed when it is empty or satisfies the invariant. -/
def window_ok (W : Nat) (rp : record_parameters_st) : Prop :=
  rp = empty_window W ∨ window_inv W 0 rp

/-! ## Cookie engine -/

/-- The negative return codes the DTLS core uses (`GNUTLS_E_*`); `other` stands
for any further negative code a callee reports. -/
inductive gnutls_error where
  | GNUTLS_E_INVALID_REQUEST
  | GNUTLS_E_UNEXPECTED_PACKET_LENGTH
  | GNUTLS_E_BAD_COOKIE
  | GNUTLS_E_PUSH_ERROR
  | GNUTLS_E_MEMORY_ERROR
  | GNUTLS_E_TIMEDOUT
  | GNUTLS_E_AGAIN
  | GNUTLS_E_INTERRUPTED
  | GNUTLS_E_UNEXPECTED_HANDSHAKE_PACKET
  | other (code : Int)
deriving DecidableEq, Repr

open gnutls_error

deriving instance DecidableEq for Except

/-- The C type `gnutls_datum_t`: a data pointer (`none` for `NULL`) and a size. -/
structure gnutls_datum_t where
  data : Option (List Nat)
  size : Nat
deriving DecidableEq, Repr

/-- The C type `gnutls_dtls_prestate_st`. -/
structure gnutls_dtls_prestate_st where
  record_seq : Nat
  hsk_read_seq : Nat
  hsk_write_seq : Nat
deriving DecidableEq, Repr

/-- Modelled from the spec: the macro `DTLS_RECORD_HEADER_SIZE`, whose header is
not part of the sources; the DTLS record header is 13 bytes. -/
def DTLS_RECORD_HEADER_SIZE : Nat := 13

/-- Modelled from the spec: the macro `DTLS_HANDSHAKE_HEADER_SIZE`, whose header
is not part of the sources; the DTLS handshake fragment header is 12 bytes. -/
def DTLS_HANDSHAKE_HEADER_SIZE : Nat := 12

/-- `#define COOKIE_SIZE 16`. -/
def COOKIE_SIZE : Nat := 16

/-- `#define COOKIE_MAC_SIZE 16`. -/
def COOKIE_MAC_SIZE : Nat := 16

/-- `#define C_HASH_SIZE 20`. -/
def C_HASH_SIZE : Nat := 20

/-- The type of `_gnutls_hmac_fast(C_HASH, key, keysize, text, textsize, digest)`,
which is not part of the sources: from the key bytes, the key size and the text
it gives an error code or the digest. -/
abbrev hmac_fn := List Nat → Nat → List Nat → Except gnutls_error (List Nat)

/-- The type of a `gnutls_push_func`: it is handed a buffer and returns the
number of bytes sent or a negative value. -/
abbrev push_fn := List Nat → Int

/-- Byte `k` of a buffer (`buf[k]`). -/
def byte_at (buf : List Nat) (k : Nat) : Nat := buf.getD k 0

/-- The C call `memset(&buf[pos], c, n)`. -/
def memset_at (buf : List Nat) (pos c n : Nat) : List Nat :=
  buf.take pos ++ List.replicate n c ++ buf.drop (pos + n)

/-- The C call `memcpy(&buf[pos], src, n)`. -/
def memcpy_at (buf : List Nat) (pos : Nat) (src : List Nat) (n : Nat) : List Nat :=
  buf.take pos ++ src.take n ++ buf.drop (pos + n)

/-- Modelled from the spec: `_gnutls_write_uint16`, not part of the sources;
it writes a 16-bit value in network byte order at the given offset. -/
def _gnutls_write_uint16 (num : Nat) (buf : List Nat) (pos : Nat) : List Nat :=
  (buf.set pos (num / 256 % 256)).set (pos + 1) (num % 256)

/-- Modelled from the spec: `_gnutls_write_uint24`, not part of the sources;
it writes a 24-bit value in network byte order at the given offset. -/
def _gnutls_write_uint24 (num : Nat) (buf : List Nat) (pos : Nat) : List Nat :=
  ((buf.set pos (num / 65536 % 256)).set (pos + 1) (num / 256 % 256)).set (pos + 2) (num % 256)

/-- The test `memcmp(s1, s2, n) != 0` on two buffers. -/
def memcmp_ne (s1 s2 : List Nat) (n : Nat) : Bool := s1.take n != s2.take n

/-- The part of `gnutls_dtls_cookie_send` that fills the record header, the
handshake header and the first three payload bytes of the local array `hvr`
(from `hvr[hvr_size++] = GNUTLS_HANDSHAKE` to `hvr[hvr_size++] = COOKIE_SIZE`).
The result is the array and `hvr_size`.  `GNUTLS_HANDSHAKE` and
`GNUTLS_HANDSHAKE_HELLO_VERIFY_REQUEST` are the content type and handshake type
codes.  The array starts with unspecified content, taken as zeros. -/
def cookie_send_header (GNUTLS_HANDSHAKE GNUTLS_HANDSHAKE_HELLO_VERIFY_REQUEST : Nat)
    (prestate : gnutls_dtls_prestate_st) : List Nat × Nat :=
  let hvr : List Nat := List.replicate (20 + DTLS_HANDSHAKE_HEADER_SIZE + COOKIE_SIZE) 0
  let hvr_size := 0
  let hvr := hvr.set hvr_size (GNUTLS_HANDSHAKE % 256)
  let hvr_size := hvr_size + 1
  -- version
  let hvr := hvr.set hvr_size 254
  let hvr_size := hvr_size + 1
  let hvr := hvr.set hvr_size 255
  let hvr_size := hvr_size + 1
  -- epoch + seq
  let hvr := memset_at hvr hvr_size 0 8
  let hvr_size := hvr_size + 7
  let hvr := hvr.set hvr_size (prestate.record_seq % 256)
  let hvr_size := hvr_size + 1
  -- length
  let hvr := _gnutls_write_uint16 (DTLS_HANDSHAKE_HEADER_SIZE + COOKIE_SIZE + 3) hvr hvr_size
  let hvr_size := hvr_size + 2
  -- now handshake headers
  let hvr := hvr.set hvr_size (GNUTLS_HANDSHAKE_HELLO_VERIFY_REQUEST % 256)
  let hvr_size := hvr_size + 1
  let hvr := _gnutls_write_uint24 (COOKIE_SIZE + 3) hvr hvr_size
  let hvr_size := hvr_size + 3
  -- handshake seq
  let hvr := hvr.set hvr_size 0
  let hvr_size := hvr_size + 1
  let hvr := hvr.set hvr_size (prestate.hsk_write_seq % 256)
  let hvr_size := hvr_size + 1
  let hvr := _gnutls_write_uint24 0 hvr hvr_size
  let hvr_size := hvr_size + 3
  let hvr := _gnutls_write_uint24 (COOKIE_SIZE + 3) hvr hvr_size
  let hvr_size := hvr_size + 3
  -- version
  let hvr := hvr.set hvr_size 254
  let hvr_size := hvr_size + 1
  let hvr := hvr.set hvr_size 255
  let hvr_size := hvr_size + 1
  let hvr := hvr.set hvr_size COOKIE_SIZE
  let hvr_size := hvr_size + 1
  (hvr, hvr_size)

/-- `gnutls_dtls_cookie_send`: the key check, the header (`cookie_send_header`),
the HMAC over the client data, the copy of its first `COOKIE_MAC_SIZE` bytes
and the push.  `hmac` is `_gnutls_hmac_fast`.  The result is the return value
(bytes sent or an error) and the buffers handed to `push_func`, in call order. -/
def gnutls_dtls_cookie_send (GNUTLS_HANDSHAKE GNUTLS_HANDSHAKE_HELLO_VERIFY_REQUEST : Nat)
    (hmac : hmac_fn) (key : Option gnutls_datum_t) (client_data : List Nat)
    (prestate : gnutls_dtls_prestate_st) (push_func : push_fn) :
    Except gnutls_error Int × List (List Nat) :=
  match key with
  | none => (.error GNUTLS_E_INVALID_REQUEST, [])
  | some k =>
    match k.data with
    | none => (.error GNUTLS_E_INVALID_REQUEST, [])
    | some key_data =>
      if k.size = 0 then (.error GNUTLS_E_INVALID_REQUEST, [])
      else
        let hvr := (cookie_send_header GNUTLS_HANDSHAKE GNUTLS_HANDSHAKE_HELLO_VERIFY_REQUEST
          prestate).1
        let hvr_size := (cookie_send_header GNUTLS_HANDSHAKE
          GNUTLS_HANDSHAKE_HELLO_VERIFY_REQUEST prestate).2
        match hmac key_data k.size client_data with
        | .error e => (.error e, [])
        | .ok digest =>
          let hvr := memcpy_at hvr hvr_size digest COOKIE_MAC_SIZE
          let hvr_size := hvr_size + COOKIE_MAC_SIZE
          let ret := push_func (hvr.take hvr_size)
          if ret < 0 then (.error GNUTLS_E_PUSH_ERROR, [hvr.take hvr_size])
          else (.ok ret, [hvr.take hvr_size])

/-- `gnutls_dtls_cookie_verify`.  The message is the buffer `_msg` of
`msg_size = msg.length` bytes; the result is the return value (`ok` for `0`)
and the content of `*prestate` after the call. -/
def gnutls_dtls_cookie_verify (hmac : hmac_fn) (key : Option gnutls_datum_t)
    (client_data : List Nat) (msg : List Nat) (prestate : gnutls_dtls_prestate_st) :
    Except gnutls_error Unit × gnutls_dtls_prestate_st :=
  match key with
  | none => (.error GNUTLS_E_INVALID_REQUEST, prestate)
  | some k =>
    match k.data with
    | none => (.error GNUTLS_E_INVALID_REQUEST, prestate)
    | some key_data =>
      if k.size = 0 then (.error GNUTLS_E_INVALID_REQUEST, prestate)
      else
        let msg_size := msg.length
        let pos := 34 + DTLS_RECORD_HEADER_SIZE + DTLS_HANDSHAKE_HEADER_SIZE
        if msg_size < pos + 1 then (.error GNUTLS_E_UNEXPECTED_PACKET_LENGTH, prestate)
        else
          let sid_size := byte_at msg pos
          let pos := pos + 1
          if sid_size > 32 ∨ msg_size < pos + sid_size + 1 then
            (.error GNUTLS_E_UNEXPECTED_PACKET_LENGTH, prestate)
          else
            let pos := pos + sid_size
            let cookie_size := byte_at msg pos
            let pos := pos + 1
            if msg_size < pos + cookie_size + 1 then
              (.error GNUTLS_E_UNEXPECTED_PACKET_LENGTH, prestate)
            else
              let cookie_data := msg.drop pos
              if cookie_size ≠ COOKIE_SIZE then (.error GNUTLS_E_BAD_COOKIE, prestate)
              else
                match hmac key_data k.size client_data with
                | .error e => (.error e, prestate)
                | .ok digest =>
                  if memcmp_ne digest cookie_data COOKIE_MAC_SIZE then
                    (.error GNUTLS_E_BAD_COOKIE, prestate)
                  else
                    (.ok (),
                      { record_seq := byte_at msg 10,
                        hsk_read_seq := byte_at msg (DTLS_RECORD_HEADER_SIZE + 5),
                        hsk_write_seq := 0 })

/-- A stand-in for `_gnutls_hmac_fast` used to evaluate the functions at
concrete inputs: a 20-byte digest that depends on the key and on the text. -/
def sample_hmac : hmac_fn := fun key_data key_size text =>
  .ok ((List.range 20).map fun j =>
    ((key_data.take key_size).sum + text.sum + 7 * j + text.length) % 256)

/-- A push function that reports the whole buffer as sent. -/
def sample_push : push_fn := fun buf => buf.length

/-- A non-empty key of three bytes. -/
def sample_key : Option gnutls_datum_t := some { data := some [1, 2, 3], size := 3 }

/-- The framing conditions under which `gnutls_dtls_cookie_verify` gives
`GNUTLS_E_UNEXPECTED_PACKET_LENGTH`. -/
def bad_framing (msg : List Nat) : Prop :=
  msg.length < 60 ∨ byte_at msg 59 > 32 ∨ msg.length < 61 + byte_at msg 59 ∨
    msg.length < 62 + byte_at msg 59 + byte_at msg (60 + byte_at msg 59)

instance (msg : List Nat) : Decidable (bad_framing msg) := by
  unfold bad_framing; infer_instance

/-- The cookie reply as the wire format lays it out: the 13-byte record header
(content type, version 254.255, epoch 0, sequence number ending in the low byte
of `record_seq`, length 31), the 12-byte handshake header (type, length 19,
message sequence, fragment offset 0, fragment length 19) and the payload
(version 254.255, cookie length 16, cookie). -/
def hello_verify_datagram (GH HVR : Nat) (prestate : gnutls_dtls_prestate_st)
    (cookie : List Nat) : List Nat :=
  [GH % 256, 254, 255, 0, 0, 0, 0, 0, 0, 0, prestate.record_seq % 256, 0, 31,
    HVR % 256, 0, 0, 19, 0, prestate.hsk_write_seq % 256, 0, 0, 0, 0, 0, 19,
    254, 255, 16] ++ cookie

/-- A ClientHello datagram with record sequence byte 1, handshake sequence
byte 1, an empty session id and the given cookie, followed by two more bytes. -/
def sample_client_hello (cookie : List Nat) : List Nat :=
  List.replicate 10 0 ++ [1] ++ List.replicate 7 0 ++ [1] ++ List.replicate 40 0 ++
    [0, cookie.length] ++ cookie ++ [0, 0]

/-- The first 16 bytes of `sample_hmac` for the key `[1, 2, 3]` and the client
data `[10, 0, 0, 1]`. -/
def sample_cookie : List Nat :=
  [21, 28, 35, 42, 49, 56, 63, 70, 77, 84, 91, 98, 105, 112, 119, 126]

/-! ## Flight transmitter -/

/-- A point in time as `gettime` reports it (`struct timespec`). -/
structure timespec where
  tv_sec : Nat
  tv_nsec : Nat
deriving DecidableEq, Repr

/-- The `int` a callee returns: `ok n` for the value `n ≥ 0`, `error e` for the
negative code `e`. -/
abbrev ret_t := Except gnutls_error Nat

/-- The test `ret < 0`. -/
def ret_neg (ret : ret_t) : Bool :=
  match ret with
  | .ok _ => false
  | .error _ => true

/-- A buffered outgoing message (`mbuffer_st`): content type, handshake type,
handshake sequence, epoch, the bytes that `_mbuffer_get_uhead_ptr` and
`_mbuffer_get_uhead_size` give and the bytes that `_mbuffer_get_udata_ptr` and
`_mbuffer_get_udata_size` give. -/
structure mbuffer_st where
  type : Nat
  htype : Nat
  handshake_sequence : Nat
  epoch : Nat
  uhead : List Nat
  udata : List Nat
deriving DecidableEq, Repr

/-- The DTLS sub-state of a session (`session->internals.dtls`). -/
structure dtls_st where
  mtu : Nat
  retrans_timeout_ms : Nat
  total_timeout_ms : Nat
  actual_retrans_timeout_ms : Nat
  handshake_start_time : timespec
  last_retransmit : timespec
  flight_init : Bool
  last_flight : Bool
  blocking : Bool
  packets_dropped : Nat
  hsk_read_seq : Nat
  hsk_write_seq : Nat
deriving DecidableEq, Repr

/-- A call from the DTLS core into the record layer, the transport or the
clock, with its arguments. -/
inductive io_event where
  | gettime
  | io_write_flush
  | io_check_recv (ms : Nat)
  | send_int (type : Nat) (htype : Int) (epoch : Nat) (data : List Nat)
  | recv_in_buffers
  | parse_record_buffered_msgs
  | epoch_refcount_dec (epoch : Nat)
deriving DecidableEq, Repr

/-- The part of a session (`gnutls_session_t`) that the DTLS core reads and
writes: the DTLS sub-state, the handshake send buffer, the write sequence
number of the record parameters of `EPOCH_WRITE_CURRENT` (`none` when
`_gnutls_epoch_get` fails), and the calls made to the outside so far, oldest
first. -/
structure session_st where
  dtls : dtls_st
  handshake_send_buffer : List mbuffer_st
  write_sequence_number : Option uint64
  calls : List io_event
deriving DecidableEq, Repr

/-- What the DTLS core takes from outside `gnutls_dtls.c`: the constants of
headers that are not part of the sources and the callees, each giving its
result from the calls made so far and its arguments.  The callees are taken
not to write the fields of `session_st`. -/
structure dtls_env where
  GNUTLS_CHANGE_CIPHER_SPEC : Nat
  GNUTLS_HANDSHAKE_FINISHED : Nat
  MAX_DTLS_TIMEOUT : Nat
  RECORD_HEADER_SIZE : Nat
  gettime : List io_event → timespec
  timespec_sub_ms : timespec → timespec → Nat
  _gnutls_record_overhead_rt : List io_event → ret_t
  gnutls_malloc : List io_event → Nat → Bool
  _gnutls_send_int : List io_event → Nat → Int → Nat → List Nat → ret_t
  _gnutls_io_write_flush : List io_event → ret_t
  _gnutls_io_check_recv : List io_event → Nat → ret_t
  _gnutls_recv_in_buffers : List io_event → ret_t
  _gnutls_parse_record_buffered_msgs : List io_event → ret_t
  handshake_recv_buffer_size : List io_event → Nat
  _gnutls_epoch_refcount_dec : List io_event → Nat → ret_t
  _dtls_is_async : session_st → Bool
  RETURN_DTLS_EAGAIN_OR_TIMEOUT : session_st → ret_t → ret_t × session_st

/-- The session with one more call on record. -/
def log_call (session : session_st) (e : io_event) : session_st :=
  { session with calls := session.calls ++ [e] }

/-- `gnutls_dtls_set_timeouts`. -/
def gnutls_dtls_set_timeouts (session : session_st) (retrans_timeout total_timeout : Nat) :
    session_st :=
  { session with dtls := { session.dtls with
      retrans_timeout_ms := retrans_timeout, total_timeout_ms := total_timeout } }

/-- `gnutls_dtls_set_mtu`. -/
def gnutls_dtls_set_mtu (session : session_st) (mtu : Nat) : session_st :=
  { session with dtls := { session.dtls with mtu := mtu } }

/-- `gnutls_dtls_get_data_mtu`: the MTU minus the record overhead, or minus the
record header size when the overhead is not available (`unsigned int`
arithmetic). -/
def gnutls_dtls_get_data_mtu (env : dtls_env) (session : session_st) : Nat :=
  match env._gnutls_record_overhead_rt session.calls with
  | .ok ret => sub_u32 session.dtls.mtu ret
  | .error _ => sub_u32 session.dtls.mtu env.RECORD_HEADER_SIZE

/-- `gnutls_dtls_get_mtu`. -/
def gnutls_dtls_get_mtu (session : session_st) : Nat := session.dtls.mtu

/-- `gnutls_dtls_get_timeout`: the value returned and the session with the
call of `gettime` on record. -/
def gnutls_dtls_get_timeout (env : dtls_env) (session : session_st) : Nat × session_st :=
  let now := env.gettime session.calls
  let session := log_call session io_event.gettime
  let diff := env.timespec_sub_ms now session.dtls.last_retransmit
  if diff ≥ session.dtls.actual_retrans_timeout_ms then (0, session)
  else (sub_u32 session.dtls.actual_retrans_timeout_ms diff, session)

/-- `gnutls_dtls_prestate_set`; a `NULL` prestate is `none`. -/
def gnutls_dtls_prestate_set (session : session_st)
    (prestate : Option gnutls_dtls_prestate_st) : session_st :=
  match prestate with
  | none => session
  | some p =>
    match session.write_sequence_number with
    | none => session
    | some sequence_number =>
      { session with
        write_sequence_number := some { i := sequence_number.i.set 7 (p.record_seq % 256) },
        dtls := { session.dtls with
          hsk_read_seq := p.hsk_read_seq, hsk_write_seq := p.hsk_write_seq + 1 } }

/-- The macro `UPDATE_TIMER`: the timer is doubled as an `unsigned int` and
reduced modulo `MAX_DTLS_TIMEOUT`. -/
def UPDATE_TIMER (env : dtls_env) (session : session_st) : session_st :=
  { session with dtls := { session.dtls with
      actual_retrans_timeout_ms :=
        (session.dtls.actual_retrans_timeout_ms * 2 % 4294967296) % env.MAX_DTLS_TIMEOUT } }

/-- The macro `RESET_TIMER`. -/
def RESET_TIMER (session : session_st) : session_st :=
  { session with dtls := { session.dtls with
      actual_retrans_timeout_ms := session.dtls.retrans_timeout_ms } }

/-- The fragmentation loop of `transmit_message`,
`for (offset=0; offset <= data_size; offset += mtu)`, from the given offset on.
`fuel` bounds the number of loop tests; the result is `none` when it runs out.
Otherwise it is the last return value, the calls and the scratch buffer. -/
def transmit_fragments (env : dtls_env) (bufel : mbuffer_st) (mtu : Nat) :
    Nat → Nat → List Nat → ret_t → List io_event → Option (ret_t × List io_event × List Nat)
  | 0, _, _, _, _ => none
  | fuel + 1, offset, mtu_data, ret, calls =>
    let data := bufel.udata
    let data_size := data.length % 4294967296
    if offset ≤ data_size then
      let frag_len :=
        if (offset + mtu) % 4294967296 > data_size then data_size - offset else mtu
      let mtu_data := _gnutls_write_uint24 offset mtu_data 6
      let mtu_data := _gnutls_write_uint24 frag_len mtu_data 9
      let mtu_data := memcpy_at mtu_data DTLS_HANDSHAKE_HEADER_SIZE (data.drop offset) frag_len
      let ret := env._gnutls_send_int calls bufel.type bufel.htype bufel.epoch
        (mtu_data.take (DTLS_HANDSHAKE_HEADER_SIZE + frag_len))
      let calls := calls ++ [io_event.send_int bufel.type bufel.htype bufel.epoch
        (mtu_data.take (DTLS_HANDSHAKE_HEADER_SIZE + frag_len))]
      if ret_neg ret then some (ret, calls, mtu_data)
      else transmit_fragments env bufel mtu fuel ((offset + mtu) % 4294967296) mtu_data ret calls
    else some (ret, calls, mtu_data)

/-- `transmit_message`.  `buf` is the scratch buffer `*buf` (`none` for `NULL`);
a fresh one has unspecified content, taken as zeros.  The result is `none` when
the fragmentation loop runs out of `fuel`, otherwise the return value, the
session and the scratch buffer. -/
def transmit_message (env : dtls_env) (fuel : Nat) (session : session_st) (bufel : mbuffer_st)
    (buf : Option (List Nat)) : Option (ret_t × session_st × Option (List Nat)) :=
  let mtu := sub_u32 (gnutls_dtls_get_data_mtu env session) DTLS_HANDSHAKE_HEADER_SIZE
  if bufel.type = env.GNUTLS_CHANGE_CIPHER_SPEC then
    some (env._gnutls_send_int session.calls bufel.type (-1) bufel.epoch bufel.uhead,
      log_call session (io_event.send_int bufel.type (-1) bufel.epoch bufel.uhead), buf)
  else
    let buf :=
      match buf with
      | some b => some b
      | none =>
        if env.gnutls_malloc session.calls ((mtu + DTLS_HANDSHAKE_HEADER_SIZE) % 4294967296)
        then some (List.replicate ((mtu + DTLS_HANDSHAKE_HEADER_SIZE) % 4294967296) 0)
        else none
    match buf with
    | none => some (.error GNUTLS_E_MEMORY_ERROR, session, none)
    | some mtu_data =>
      let data_size := bufel.udata.length % 4294967296
      let mtu_data := mtu_data.set 0 (bufel.htype % 256)
      let mtu_data := _gnutls_write_uint24 data_size mtu_data 1
      let mtu_data := _gnutls_write_uint16 bufel.handshake_sequence mtu_data 4
      match transmit_fragments env bufel mtu fuel 0 mtu_data (.ok 0) session.calls with
      | none => none
      | some (ret, calls, mtu_data) => some (ret, { session with calls := calls }, some mtu_data)

/-- `drop_usage_count`: the reference count of the epoch of each message is
decremented in buffer order until one decrement fails. -/
def drop_usage_count (env : dtls_env) (session : session_st) :
    List mbuffer_st → ret_t × session_st
  | [] => (.ok 0, session)
  | cur :: rest =>
    let ret := env._gnutls_epoch_refcount_dec session.calls cur.epoch
    let session := log_call session (io_event.epoch_refcount_dec cur.epoch)
    if ret_neg ret then (ret, session)
    else drop_usage_count env session rest

/-- `is_next_hpacket_expected`. -/
def is_next_hpacket_expected (env : dtls_env) (session : session_st) : ret_t × session_st :=
  let ret := env._gnutls_recv_in_buffers session.calls
  let session := log_call session io_event.recv_in_buffers
  if ret_neg ret then (ret, session)
  else
    let ret := env._gnutls_parse_record_buffered_msgs session.calls
    let session := log_call session io_event.parse_record_buffered_msgs
    if ret_neg ret then (ret, session)
    else if env.handshake_recv_buffer_size session.calls > 0 then (.ok 0, session)
    else (.error GNUTLS_E_UNEXPECTED_HANDSHAKE_PACKET, session)

/-- The loop over the send buffer in `_dtls_transmit`,
`for (cur = send_buffer->head; cur != NULL; cur = cur->next)`: each message is
handed to `transmit_message`; a negative result ends the loop.  The result is
the last return value (`ok 0` when no message was sent), the session, the
scratch buffer and `last_type`. -/
def transmit_flight (env : dtls_env) (fuel : Nat) :
    List mbuffer_st → session_st → Option (List Nat) → Nat →
      Option (ret_t × session_st × Option (List Nat) × Nat)
  | [], session, buf, last_type => some (.ok 0, session, buf, last_type)
  | cur :: rest, session, buf, last_type =>
    match transmit_message env fuel session cur buf with
    | none => none
    | some (ret, session, buf) =>
      if ret_neg ret then some (ret, session, buf, last_type)
      else transmit_flight env fuel rest session buf cur.htype

/-- The label `cleanup` of `_dtls_transmit`: the scratch buffer is freed and
`ret` is returned. -/
def dtls_cleanup (session : session_st) (ret : ret_t) : ret_t × session_st :=
  (ret, session)

/-- The label `end_flight` of `_dtls_transmit`: `flight_init` is reset, the
usage counts are dropped, the send buffer is cleared (`_mbuffer_head_clear`),
then `cleanup`. -/
def dtls_end_flight (env : dtls_env) (session : session_st) (ret : ret_t) :
    ret_t × session_st :=
  let session := { session with dtls := { session.dtls with flight_init := false } }
  let session := (drop_usage_count env session session.handshake_send_buffer).2
  let session := { session with handshake_send_buffer := [] }
  dtls_cleanup session ret

/-- The label `nb_timeout` of `_dtls_transmit`: the scratch buffer is freed and
the macro `RETURN_DTLS_EAGAIN_OR_TIMEOUT` gives the result. -/
def dtls_nb_timeout (env : dtls_env) (session : session_st) (ret : ret_t) :
    ret_t × session_st :=
  env.RETURN_DTLS_EAGAIN_OR_TIMEOUT session ret

/-- The (re)transmission step of one iteration of the loop of `_dtls_transmit`
(from the test `flight_init == 0 || diff >= TIMER_WINDOW` to the end of that
`if`).  The result is `none` when a fragmentation loop runs out of `fuel`,
`inl` with the failed return value when a message could not be sent, otherwise
`inr` with the session, the scratch buffer, `timeout` and `last_type`. -/
def dtls_send_phase (env : dtls_env) (fuel : Nat) (session : session_st)
    (buf : Option (List Nat)) (diff timeout last_type : Nat) :
    Option ((ret_t × session_st) ⊕ (session_st × Option (List Nat) × Nat × Nat)) :=
  if session.dtls.flight_init = false ∨ diff ≥ session.dtls.actual_retrans_timeout_ms then
    match transmit_flight env fuel session.handshake_send_buffer session buf last_type with
    | none => none
    | some (ret, session, buf, last_type) =>
      if ret_neg ret then some (.inl (ret, session))
      else
        let last_retransmit := env.gettime session.calls
        let session := log_call session io_event.gettime
        let session := { session with dtls := { session.dtls with
          last_retransmit := last_retransmit } }
        if session.dtls.flight_init = false then
          let session := { session with dtls := { session.dtls with flight_init := true } }
          let session := RESET_TIMER session
          let timeout := session.dtls.actual_retrans_timeout_ms
          let session := { session with dtls := { session.dtls with
            last_flight := decide (last_type = env.GNUTLS_HANDSHAKE_FINISHED) } }
          some (.inr (session, buf, timeout, last_type))
        else
          some (.inr (UPDATE_TIMER env session, buf, timeout, last_type))
  else some (.inr (session, buf, timeout, last_type))

/-- The `do ... while(ret == GNUTLS_E_TIMEDOUT)` loop of `_dtls_transmit` and
what follows it.  `fuel` bounds the number of iterations (and the loop tests of
each fragmentation loop); the result is `none` when it runs out. -/
def dtls_transmit_loop (env : dtls_env) :
    Nat → session_st → Option (List Nat) → timespec → Nat → Option (ret_t × session_st)
  | 0, _, _, _, _ => none
  | fuel + 1, session, buf, now, last_type =>
    let timeout := session.dtls.actual_retrans_timeout_ms
    let diff := env.timespec_sub_ms now session.dtls.handshake_start_time
    if diff ≥ session.dtls.total_timeout_ms then
      some (dtls_end_flight env session (.error GNUTLS_E_TIMEDOUT))
    else
      let diff := env.timespec_sub_ms now session.dtls.last_retransmit
      match dtls_send_phase env fuel session buf diff timeout last_type with
      | none => none
      | some (.inl (ret, session)) => some (dtls_end_flight env session ret)
      | some (.inr (session, buf, timeout, last_type)) =>
        let ret := env._gnutls_io_write_flush session.calls
        let session := log_call session io_event.io_write_flush
        if ret_neg ret then some (dtls_cleanup session ret)
        else if session.dtls.last_flight then some (dtls_cleanup session (.ok 0))
        else
          let ms := if session.dtls.blocking then timeout else 0
          let ret := env._gnutls_io_check_recv session.calls ms
          let session := log_call session (io_event.io_check_recv ms)
          if session.dtls.blocking = false ∧ ret = .error GNUTLS_E_TIMEDOUT then
            some (dtls_nb_timeout env session ret)
          else if ret = .ok 0 then
            let ret := (is_next_hpacket_expected env session).1
            let session := (is_next_hpacket_expected env session).2
            if ret = .error GNUTLS_E_AGAIN ∨ ret = .error GNUTLS_E_INTERRUPTED then
              some (dtls_nb_timeout env session ret)
            else if ret = .error GNUTLS_E_UNEXPECTED_HANDSHAKE_PACKET then
              -- keep_up with ret = GNUTLS_E_TIMEDOUT
              let now := env.gettime session.calls
              let session := log_call session io_event.gettime
              dtls_transmit_loop env fuel session buf now last_type
            else if ret_neg ret then some (dtls_cleanup session ret)
            else some (dtls_end_flight env session ret)
          else
            -- keep_up
            let now := env.gettime session.calls
            let session := log_call session io_event.gettime
            if ret = .error GNUTLS_E_TIMEDOUT then
              dtls_transmit_loop env fuel session buf now last_type
            else if ret_neg ret then some (dtls_end_flight env session ret)
            else some (dtls_end_flight env session (.ok 0))

/-- `_dtls_transmit`.  `fuel` bounds the iterations of its loops; the result is
`none` when it runs out, otherwise the return value and the session. -/
def _dtls_transmit (env : dtls_env) (fuel : Nat) (session : session_st) :
    Option (ret_t × session_st) :=
  let buf : Option (List Nat) := none
  let last_type := 0
  let now := env.gettime session.calls
  let session := log_call session io_event.gettime
  if session.dtls.flight_init = true ∧ session.dtls.blocking = false then
    let ret := env._gnutls_io_write_flush session.calls
    let session := log_call session io_event.io_write_flush
    if ret_neg ret then some (dtls_cleanup session ret)
    else if session.dtls.last_flight = false ∨ env._dtls_is_async session = false then
      let ret := env._gnutls_io_check_recv session.calls 0
      let session := log_call session (io_event.io_check_recv 0)
      if ret = .error GNUTLS_E_TIMEDOUT then
        if env.timespec_sub_ms now session.dtls.last_retransmit <
            session.dtls.actual_retrans_timeout_ms then
          some (dtls_nb_timeout env session ret)
        else dtls_transmit_loop env fuel session buf now last_type
      else if ret = .ok 0 then
        let ret := (is_next_hpacket_expected env session).1
        let session := (is_next_hpacket_expected env session).2
        if ret = .error GNUTLS_E_AGAIN ∨ ret = .error GNUTLS_E_INTERRUPTED then
          some (dtls_nb_timeout env session ret)
        else if ret_neg ret ∧ ret ≠ .error GNUTLS_E_UNEXPECTED_HANDSHAKE_PACKET then
          some (dtls_cleanup session ret)
        else if ret = .ok 0 then some (dtls_end_flight env session ret)
        else dtls_transmit_loop env fuel session buf now last_type
      else some (dtls_nb_timeout env session ret)
    else dtls_transmit_loop env fuel session buf now last_type
  else dtls_transmit_loop env fuel session buf now last_type

/-- Milliseconds between two points in time, zero when the first is the
earlier one; a stand-in for `timespec_sub_ms` used at concrete inputs. -/
def sample_sub_ms (a b : timespec) : Nat :=
  (a.tv_sec * 1000 + a.tv_nsec / 1000000) - (b.tv_sec * 1000 + b.tv_nsec / 1000000)

/-- An environment used to evaluate the functions at concrete inputs: the
clock advances by one millisecond with every call on record, the record
overhead is 13, every callee succeeds, a peer message is always buffered. -/
def sample_env : dtls_env :=
  { GNUTLS_CHANGE_CIPHER_SPEC := 20
    GNUTLS_HANDSHAKE_FINISHED := 20
    MAX_DTLS_TIMEOUT := 60000
    RECORD_HEADER_SIZE := 13
    gettime := fun calls => { tv_sec := 0, tv_nsec := 1000000 * calls.length }
    timespec_sub_ms := sample_sub_ms
    _gnutls_record_overhead_rt := fun _ => .ok 13
    gnutls_malloc := fun _ _ => true
    _gnutls_send_int := fun _ _ _ _ data => .ok data.length
    _gnutls_io_write_flush := fun _ => .ok 0
    _gnutls_io_check_recv := fun _ _ => .ok 0
    _gnutls_recv_in_buffers := fun _ => .ok 0
    _gnutls_parse_record_buffered_msgs := fun _ => .ok 0
    handshake_recv_buffer_size := fun _ => 1
    _gnutls_epoch_refcount_dec := fun _ _ => .ok 0
    _dtls_is_async := fun _ => false
    RETURN_DTLS_EAGAIN_OR_TIMEOUT := fun session _ => (.error GNUTLS_E_AGAIN, session) }

/-- A DTLS sub-state with MTU 425, retransmission base 1000 ms, total budget
60000 ms, in blocking mode, before the first flight. -/
def sample_dtls : dtls_st :=
  { mtu := 425
    retrans_timeout_ms := 1000
    total_timeout_ms := 60000
    actual_retrans_timeout_ms := 1000
    handshake_start_time := { tv_sec := 0, tv_nsec := 0 }
    last_retransmit := { tv_sec := 0, tv_nsec := 0 }
    flight_init := false
    last_flight := false
    blocking := true
    packets_dropped := 0
    hsk_read_seq := 0
    hsk_write_seq := 0 }

/-- A session with the given send buffer, an all-zero write sequence number
and no call on record. -/
def sample_session (flight : List mbuffer_st) : session_st :=
  { dtls := sample_dtls
    handshake_send_buffer := flight
    write_sequence_number := some { i := [0, 0, 0, 0, 0, 0, 0, 0] }
    calls := [] }

/-- A handshake message (content type 22) of the given handshake type and
sequence, in epoch 0, whose payload is `size` bytes `0, 1, 2, …` modulo 251. -/
def sample_message (htype seq size : Nat) : mbuffer_st :=
  { type := 22
    htype := htype
    handshake_sequence := seq
    epoch := 0
    uhead := []
    udata := (List.range size).map (· % 251) }

/-- A ChangeCipherSpec message (content type 20) in epoch 0 with the one-byte
payload `1`. -/
def sample_ccs : mbuffer_st :=
  { type := 20, htype := 0, handshake_sequence := 0, epoch := 0, uhead := [1], udata := [] }

/-- Whether a call is a send through `_gnutls_send_int`. -/
def is_send_int : io_event → Bool
  | io_event.send_int _ _ _ _ => true
  | _ => false

/-- Whether a call is a poll of the receive side through `_gnutls_io_check_recv`. -/
def is_check_recv : io_event → Bool
  | io_event.io_check_recv _ => true
  | _ => false

/-- Whether a call is a decrement through `_gnutls_epoch_refcount_dec`. -/
def is_refcount_dec : io_event → Bool
  | io_event.epoch_refcount_dec _ => true
  | _ => false

/-- The record that carries one fragment of a handshake message, as the wire
format lays it out: handshake type, total length (uint24), handshake sequence
(uint16), fragment offset (uint24), fragment length (uint24), then the
`frag_len` payload bytes from `offset` on. -/
def fragment_record (bufel : mbuffer_st) (offset frag_len : Nat) : List Nat :=
  [bufel.htype % 256,
    bufel.udata.length / 65536 % 256, bufel.udata.length / 256 % 256, bufel.udata.length % 256,
    bufel.handshake_sequence / 256 % 256, bufel.handshake_sequence % 256,
    offset / 65536 % 256, offset / 256 % 256, offset % 256,
    frag_len / 65536 % 256, frag_len / 256 % 256, frag_len % 256] ++
    (bufel.udata.drop offset).take frag_len

/-- The fragment offsets `0, m, 2m, …` up to the payload size. -/
def fragment_offsets (m size : Nat) : List Nat :=
  (List.range (size / m + 1)).map (· * m)

/-- The send of the fragment at `offset` for a fragment MTU `m`: a record with
the `min(m, size - offset)` payload bytes from `offset` on. -/
def fragment_send (bufel : mbuffer_st) (m offset : Nat) : io_event :=
  io_event.send_int bufel.type bufel.htype bufel.epoch
    (fragment_record bufel offset (min m (bufel.udata.length - offset)))

/-- The session with further calls on record. -/
def add_calls (session : session_st) (evs : List io_event) : session_st :=
  { session with calls := session.calls ++ evs }

/-! ## Anti-replay window with checked accesses -/

/-- An unsigned subtraction `a - b` that reports an underflow: `none` when
`b > a`. -/
def checked_sub (a b : Nat) : Option Nat :=
  if b ≤ a then some (a - b) else none

/-- A read of `window_table[k]` in a table of `W` slots that reports an index
outside `0 .. W - 1` as `none`. -/
def checked_read (W : Nat) (t : List Nat) (k : Nat) : Option Nat :=
  if k < W then some (slot t k) else none

/-- A write `window_table[k] = v` in a table of `W` slots that reports an index
outside `0 .. W - 1` as `none`. -/
def checked_write (W : Nat) (t : List Nat) (k v : Nat) : Option (List Nat) :=
  if k < W then some (t.set k v) else none

/-- `rot_window` with its accesses checked: `window_size -= places` must not
underflow and the `memmove`, which reads the slots `places .. places +
window_size - 1` and writes the slots `0 .. window_size - 1`, must stay inside
the `W` slots. -/
def rot_window_checked (W : Nat) (rp : record_parameters_st) (places : Nat) :
    Option record_parameters_st :=
  match checked_sub rp.record_sw_size places with
  | none => none
  | some window_size =>
    if places + window_size ≤ W then
      some { record_sw := memmove_window rp.record_sw places window_size,
             record_sw_size := window_size }
    else none

/-- The part of `_dtls_record_check` behind the rotation of a full window, with
every slot access and every unsigned subtraction checked: the result is `none`
as soon as an index leaves `0 .. W - 1` or a subtraction underflows. -/
def record_check_tail_checked (W : Nat) (rp : record_parameters_st) (seq : Nat) :
    Option (Int × record_parameters_st) :=
  match checked_sub rp.record_sw_size 1 with
  | none => none
  | some top =>
    match checked_read W rp.record_sw top with
    | none => none
    | some last =>
      if seq < last then
        let diff := last - seq
        if diff ≥ rp.record_sw_size then some (-1, rp)
        else
          match checked_sub top diff with
          | none => none
          | some offset =>
            match checked_read W rp.record_sw offset with
            | none => none
            | some v =>
              if v = seq then some (-1, rp)
              else
                match checked_write W rp.record_sw offset seq with
                | none => none
                | some t => some (0, { rp with record_sw := t })
      else if seq = last then some (-1, rp)
      else
        let diff := seq - last
        match checked_sub W rp.record_sw_size with
        | none => none
        | some room =>
          if diff ≤ room then
            match checked_sub (diff + rp.record_sw_size) 1 with
            | none => none
            | some offset =>
              match checked_write W rp.record_sw offset seq with
              | none => none
              | some t => some (0, { record_sw := t, record_sw_size := offset + 1 })
          else if diff > W / 2 then
            match checked_sub W 1 with
            | none => none
            | some k =>
              match checked_write W rp.record_sw k seq with
              | none => none
              | some t => some (0, { record_sw := t, record_sw_size := W })
          else
            match rot_window_checked W rp diff with
            | none => none
            | some rp =>
              match checked_sub (diff + rp.record_sw_size) 1 with
              | none => none
              | some offset =>
                match checked_write W rp.record_sw offset seq with
                | none => none
                | some t => some (0, { record_sw := t, record_sw_size := offset + 1 })

/-- The body of `_dtls_record_check` after the sequence number has been parsed,
with every slot access and every unsigned subtraction checked: the result is
`none` as soon as an index leaves `0 .. W - 1` or a subtraction underflows,
otherwise the return value and the window after the call. -/
def record_check_checked (W : Nat) (rp : record_parameters_st) (seq : Nat) :
    Option (Int × record_parameters_st) :=
  if rp.record_sw_size = 0 then
    match checked_write W rp.record_sw 0 seq with
    | none => none
    | some t => some (0, { record_sw := t, record_sw_size := 1 })
  else
    match checked_read W rp.record_sw 0 with
    | none => none
    | some first =>
      if seq ≤ first then some (-1, rp)
      else
        match (if rp.record_sw_size = W then rot_window_checked W rp MOVE_SIZE else some rp) with
        | none => none
        | some rp => record_check_tail_checked W rp seq

/-- The sequence numbers that a sequence of `_dtls_record_check` calls accepted
(return value 0), in call order. -/
def accepted_seqs (W : Nat) (rp : record_parameters_st) : List uint64 → List Nat
  | [] => []
  | s :: rest =>
    if (_dtls_record_check W rp s).1 = 0 then
      parse_seq s :: accepted_seqs W (_dtls_record_check W rp s).2 rest
    else accepted_seqs W (_dtls_record_check W rp s).2 rest

/-! ## `gnutls_memcmp` of `lib/safe-memfuncs.c` -/

/-- `_dtls_retransmit`. -/
def _dtls_retransmit (env : dtls_env) (fuel : Nat) (session : session_st) :
    Option (ret_t × session_st) :=
  _dtls_transmit env fuel session

/-- `_dtls_wait_and_retransmit`.  `fuel` bounds the loops of the transmitter;
the result is `none` when it runs out, otherwise the return value and the
session. -/
def _dtls_wait_and_retransmit (env : dtls_env) (fuel : Nat) (session : session_st) :
    Option (ret_t × session_st) :=
  let ms := if session.dtls.blocking then session.dtls.actual_retrans_timeout_ms else 0
  let ret := env._gnutls_io_check_recv session.calls ms
  let session := log_call session (io_event.io_check_recv ms)
  if ret = .error GNUTLS_E_TIMEDOUT then
    match _dtls_retransmit env fuel session with
    | none => none
    | some (ret, session) =>
      if ret = .ok 0 then some (env.RETURN_DTLS_EAGAIN_OR_TIMEOUT session (.ok 0))
      else some (ret, session)
  else some (.ok 0, RESET_TIMER session)

/-- The sends that transmit one buffered message once, for the content type
code `CCS` of ChangeCipherSpec and the fragment MTU `m`: the one send of a
ChangeCipherSpec message, or the sends of the fragments of a handshake message
at the offsets `0, m, 2m, …` in increasing order. -/
def message_sends (CCS m : Nat) (bufel : mbuffer_st) : List io_event :=
  if bufel.type = CCS then [io_event.send_int bufel.type (-1) bufel.epoch bufel.uhead]
  else (fragment_offsets m bufel.udata.length).map (fragment_send bufel m)

/-- The sends that transmit every message of a flight once, in buffer order. -/
def flight_sends (CCS m : Nat) : List mbuffer_st → List io_event
  | [] => []
  | cur :: rest => message_sends CCS m cur ++ flight_sends CCS m rest

/-- The decrements of the epoch reference counts of the messages of a flight,
one for each message, in buffer order. -/
def flight_decrements (msgs : List mbuffer_st) : List io_event :=
  msgs.map (fun cur => io_event.epoch_refcount_dec cur.epoch)

/-- The environment `sample_env` with a transport whose flush fails. -/
def sample_env_flush_fails : dtls_env :=
  { sample_env with _gnutls_io_write_flush := fun _ => .error GNUTLS_E_PUSH_ERROR }

/-- The environment `sample_env` with an epoch table in which no epoch is
found, so that every reference count decrement fails. -/
def sample_env_refcount_fails : dtls_env :=
  { sample_env with _gnutls_epoch_refcount_dec := fun _ _ => .error GNUTLS_E_INVALID_REQUEST }

/-- The environment `sample_env` with a peer that stays silent: every poll of
the receive side times out. -/
def sample_env_silent_peer : dtls_env :=
  { sample_env with _gnutls_io_check_recv := fun _ _ => .error GNUTLS_E_TIMEDOUT }

/-- A session whose last flight (ChangeCipherSpec and Finished) has been sent,
with a timer of 1 ms. -/
def sample_session_last_flight : session_st :=
  { sample_session [sample_ccs, sample_message 20 3 5] with
    dtls := { sample_dtls with
      flight_init := true, last_flight := true, actual_retrans_timeout_ms := 1 } }

/-- The session `sample_session_last_flight` after a poll of the receive side
and one more transmission of the flight: the timer is doubled and
`last_retransmit` is the time of the fourth call. -/
def sample_session_resent : session_st :=
  { sample_session [sample_ccs, sample_message 20 3 5] with
    dtls := { sample_dtls with
      flight_init := true, last_flight := true, actual_retrans_timeout_ms := 2
      last_retransmit := { tv_sec := 0, tv_nsec := 4000000 } }
    calls := [io_event.io_check_recv 1, io_event.gettime,
      io_event.send_int 20 (-1) 0 [1],
      io_event.send_int 22 20 0 [20, 0, 0, 5, 0, 3, 0, 0, 0, 0, 0, 5, 0, 1, 2, 3, 4],
      io_event.gettime, io_event.io_write_flush] }

/-- The fragmentation loop of `transmit_message`,
`for (offset=0; offset <= data_size; offset += mtu)`, as in `transmit_fragments`,
with a record of the values that the loop variable `offset` has at the loop
tests, in order (the last one is the value at which the loop is left, by the
test or by the `break` after a failed send).  The result is `none` when the
loop runs out of `fuel`, otherwise what `transmit_fragments` gives and the
values of `offset`. -/
def transmit_fragments_traced (env : dtls_env) (bufel : mbuffer_st) (mtu : Nat) :
    Nat → Nat → List Nat → ret_t → List io_event →
      Option ((ret_t × List io_event × List Nat) × List Nat)
  | 0, _, _, _, _ => none
  | fuel + 1, offset, mtu_data, ret, calls =>
    let data := bufel.udata
    let data_size := data.length % 4294967296
    if offset ≤ data_size then
      let frag_len :=
        if (offset + mtu) % 4294967296 > data_size then data_size - offset else mtu
      let mtu_data := _gnutls_write_uint24 offset mtu_data 6
      let mtu_data := _gnutls_write_uint24 frag_len mtu_data 9
      let mtu_data := memcpy_at mtu_data DTLS_HANDSHAKE_HEADER_SIZE (data.drop offset) frag_len
      let ret := env._gnutls_send_int calls bufel.type bufel.htype bufel.epoch
        (mtu_data.take (DTLS_HANDSHAKE_HEADER_SIZE + frag_len))
      let calls := calls ++ [io_event.send_int bufel.type bufel.htype bufel.epoch
        (mtu_data.take (DTLS_HANDSHAKE_HEADER_SIZE + frag_len))]
      if ret_neg ret then some ((ret, calls, mtu_data), [offset])
      else
        match transmit_fragments_traced env bufel mtu fuel ((offset + mtu) % 4294967296)
          mtu_data ret calls with
        | none => none
        | some (res, offsets) => some (res, offset :: offsets)
    else some ((ret, calls, mtu_data), [offset])

/-! ## Cookie verification with checked reads -/

/-- A read of `msg[k]` in a message of `msg_size = msg.length` bytes that
reports an index outside `0 .. msg_size - 1` as `none`. -/
def checked_byte (msg : List Nat) (k : Nat) : Option Nat :=
  if k < msg.length then some (byte_at msg k) else none

/-- A read of the `n` bytes `msg[pos .. pos + n - 1]` that reports an index
outside `0 .. msg_size - 1` as `none`. -/
def checked_bytes (msg : List Nat) (pos n : Nat) : Option (List Nat) :=
  if pos + n ≤ msg.length then some ((msg.drop pos).take n) else none

/-- `gnutls_dtls_cookie_verify` with every read of the message checked against
`msg_size`: the result is `none` as soon as an index is not below `msg_size`,
otherwise the return value and the content of `*prestate` after the call. -/
def gnutls_dtls_cookie_verify_checked (hmac : hmac_fn) (key : Option gnutls_datum_t)
    (client_data : List Nat) (msg : List Nat) (prestate : gnutls_dtls_prestate_st) :
    Option (Except gnutls_error Unit × gnutls_dtls_prestate_st) :=
  match key with
  | none => some (.error GNUTLS_E_INVALID_REQUEST, prestate)
  | some k =>
    match k.data with
    | none => some (.error GNUTLS_E_INVALID_REQUEST, prestate)
    | some key_data =>
      if k.size = 0 then some (.error GNUTLS_E_INVALID_REQUEST, prestate)
      else
        let msg_size := msg.length
        let pos := 34 + DTLS_RECORD_HEADER_SIZE + DTLS_HANDSHAKE_HEADER_SIZE
        if msg_size < pos + 1 then some (.error GNUTLS_E_UNEXPECTED_PACKET_LENGTH, prestate)
        else
          match checked_byte msg pos with
          | none => none
          | some sid_size =>
            let pos := pos + 1
            if sid_size > 32 ∨ msg_size < pos + sid_size + 1 then
              some (.error GNUTLS_E_UNEXPECTED_PACKET_LENGTH, prestate)
            else
              let pos := pos + sid_size
              match checked_byte msg pos with
              | none => none
              | some cookie_size =>
                let pos := pos + 1
                if msg_size < pos + cookie_size + 1 then
                  some (.error GNUTLS_E_UNEXPECTED_PACKET_LENGTH, prestate)
                else if cookie_size ≠ COOKIE_SIZE then
                  some (.error GNUTLS_E_BAD_COOKIE, prestate)
                else
                  match hmac key_data k.size client_data with
                  | .error e => some (.error e, prestate)
                  | .ok digest =>
                    match checked_bytes msg pos COOKIE_MAC_SIZE with
                    | none => none
                    | some cookie_data =>
                      if memcmp_ne digest cookie_data COOKIE_MAC_SIZE then
                        some (.error GNUTLS_E_BAD_COOKIE, prestate)
                      else
                        match checked_byte msg 10 with
                        | none => none
                        | some record_seq =>
                          match checked_byte msg (DTLS_RECORD_HEADER_SIZE + 5) with
                          | none => none
                          | some hsk_read_seq =>
                            some (.ok (),
                              { record_seq := record_seq,
                                hsk_read_seq := hsk_read_seq,
                                hsk_write_seq := 0 })

/-! ## Re-entry of the flight transmitter -/

/-- Where the block of `_dtls_transmit` for a call in non-blocking mode after
the flight has been sent (`if (flight_init != 0 && blocking == 0)`) leaves to:
one of the labels, with the value of `ret`, or the loop that follows it. -/
inductive transmit_exit where
  | to_cleanup (ret : ret_t)
  | to_end_flight (ret : ret_t)
  | to_nb_timeout (ret : ret_t)
  | to_loop

/-- The block `if (flight_init != 0 && blocking == 0) { ... }` of
`_dtls_transmit`, entered with the time `now` read at the start of the call:
the session when the block is left and where it is left to. -/
def dtls_reentry (env : dtls_env) (session : session_st) (now : timespec) :
    session_st × transmit_exit :=
  if session.dtls.flight_init = true ∧ session.dtls.blocking = false then
    let ret := env._gnutls_io_write_flush session.calls
    let session := log_call session io_event.io_write_flush
    if ret_neg ret then (session, .to_cleanup ret)
    else if session.dtls.last_flight = false ∨ env._dtls_is_async session = false then
      let ret := env._gnutls_io_check_recv session.calls 0
      let session := log_call session (io_event.io_check_recv 0)
      if ret = .error GNUTLS_E_TIMEDOUT then
        if env.timespec_sub_ms now session.dtls.last_retransmit <
            session.dtls.actual_retrans_timeout_ms then
          (session, .to_nb_timeout ret)
        else (session, .to_loop)
      else if ret = .ok 0 then
        let ret := (is_next_hpacket_expected env session).1
        let session := (is_next_hpacket_expected env session).2
        if ret = .error GNUTLS_E_AGAIN ∨ ret = .error GNUTLS_E_INTERRUPTED then
          (session, .to_nb_timeout ret)
        else if ret_neg ret ∧ ret ≠ .error GNUTLS_E_UNEXPECTED_HANDSHAKE_PACKET then
          (session, .to_cleanup ret)
        else if ret = .ok 0 then (session, .to_end_flight ret)
        else (session, .to_loop)
      else (session, .to_nb_timeout ret)
    else (session, .to_loop)
  else (session, .to_loop)

/-- What `_dtls_transmit` does after the block for a call in non-blocking mode:
the code at the label the block left to, or the loop with `buf = NULL` and
`last_type = 0`. -/
def dtls_resume (env : dtls_env) (fuel : Nat) (session : session_st) (now : timespec) :
    transmit_exit → Option (ret_t × session_st)
  | .to_cleanup ret => some (dtls_cleanup session ret)
  | .to_end_flight ret => some (dtls_end_flight env session ret)
  | .to_nb_timeout ret => some (dtls_nb_timeout env session ret)
  | .to_loop => dtls_transmit_loop env fuel session none now 0

/-- The part of one iteration of the loop of `_dtls_transmit` that follows the
(re)transmission step: the flush, the wait for the next flight of the peer and,
through `keep_up`, the later iterations. -/
def dtls_after_send (env : dtls_env) (fuel : Nat) (session : session_st)
    (buf : Option (List Nat)) (timeout last_type : Nat) : Option (ret_t × session_st) :=
  let ret := env._gnutls_io_write_flush session.calls
  let session := log_call session io_event.io_write_flush
  if ret_neg ret then some (dtls_cleanup session ret)
  else if session.dtls.last_flight then some (dtls_cleanup session (.ok 0))
  else
    let ms := if session.dtls.blocking then timeout else 0
    let ret := env._gnutls_io_check_recv session.calls ms
    let session := log_call session (io_event.io_check_recv ms)
    if session.dtls.blocking = false ∧ ret = .error GNUTLS_E_TIMEDOUT then
      some (dtls_nb_timeout env session ret)
    else if ret = .ok 0 then
      let ret := (is_next_hpacket_expected env session).1
      let session := (is_next_hpacket_expected env session).2
      if ret = .error GNUTLS_E_AGAIN ∨ ret = .error GNUTLS_E_INTERRUPTED then
        some (dtls_nb_timeout env session ret)
      else if ret = .error GNUTLS_E_UNEXPECTED_HANDSHAKE_PACKET then
        let now := env.gettime session.calls
        let session := log_call session io_event.gettime
        dtls_transmit_loop env fuel session buf now last_type
      else if ret_neg ret then some (dtls_cleanup session ret)
      else some (dtls_end_flight env session ret)
    else
      let now := env.gettime session.calls
      let session := log_call session io_event.gettime
      if ret = .error GNUTLS_E_TIMEDOUT then
        dtls_transmit_loop env fuel session buf now last_type
      else if ret_neg ret then some (dtls_end_flight env session ret)
      else some (dtls_end_flight env session (.ok 0))

/-- The environment `sample_env` with an asynchronous session. -/
def sample_env_async : dtls_env :=
  { sample_env with _dtls_is_async := fun _ => true }

/-- The environment `sample_env` with a peer whose buffered message is not the
next handshake message (it repeats its previous flight). -/
def sample_env_peer_repeats : dtls_env :=
  { sample_env with handshake_recv_buffer_size := fun _ => 0 }

/-- The session `sample_session_last_flight` in non-blocking mode. -/
def sample_session_nonblocking : session_st :=
  { sample_session_last_flight with
    dtls := { sample_session_last_flight.dtls with blocking := false } }

/-- A session in non-blocking mode whose first flight (one ClientHello-like
message, not the last flight) has been sent, with a timer of 1000 ms. -/
def sample_session_waiting : session_st :=
  { sample_session [sample_message 1 0 5] with
    dtls := { sample_dtls with flight_init := true, blocking := false } }

/-! ## Unmasking of GOST private keys (`lib/nettle/gost/gostdsa-mask.c`) -/

/-- The curves that `gostdsa_unmask_key` tells apart by comparing its argument
with `nettle_get_gost_gc256b()` and `nettle_get_gost_gc512a()`. -/
inductive ecc_curve where
  | gost_gc256b
  | gost_gc512a
  | other
deriving DecidableEq, Repr

/-- The macro `GOST_GC256B_Q`, read in base 16. -/
def GOST_GC256B_Q : Int :=
  0xffffffffffffffffffffffffffffffff6c611070995ad10045841b09b761b893

/-- The macro `GOST_GC512A_Q`, read in base 16. -/
def GOST_GC512A_Q : Int :=
  0xffffffffffffffffffffffffffffffffffffffffffffffffffffffffffffffff27e69532f48d89116ff22b8d4e0560609b4b38abfad2b85dcacdb1411f10b275

/-- The number of binary digits of `n` (0 for 0), by repeated halving; `fuel`
bounds the number of halvings and `fuel = n` is enough. -/
def bit_length : Nat → Nat → Nat
  | 0, _ => 0
  | fuel + 1, n => if n = 0 then 0 else bit_length fuel (n / 2) + 1

/-- GMP's `mpz_sizeinbase(op, 2)`: the number of binary digits of the absolute
value of `op`, and 1 when `op` is zero. -/
def mpz_sizeinbase2 (op : Int) : Nat :=
  if op = 0 then 1 else bit_length op.natAbs op.natAbs

/-- The loop `while (keybits > bits)` of `gostdsa_unmask_key`, with GMP's
`mpz_tdiv_r_2exp` and `mpz_tdiv_q_2exp` as truncating remainder and quotient by
`2^bits` and `mpz_mod` as the non-negative remainder; `keybits` is an
`unsigned`.  `fuel` bounds the number of loop tests; the result is `none` when
it runs out, otherwise `unmasked` and `key` when the loop is left. -/
def unmask_loop (bits : Nat) (q : Int) : Nat → Int → Int → Nat → Option (Int × Int)
  | 0, _, _, _ => none
  | fuel + 1, unmasked, key, keybits =>
    if keybits > bits then
      let temp2 := Int.tmod key ((2 ^ bits : Nat) : Int)
      let key := Int.tdiv key ((2 ^ bits : Nat) : Int)
      let keybits := sub_u32 keybits bits
      let temp := unmasked * temp2
      let unmasked := temp % q
      unmask_loop bits q fuel unmasked key keybits
    else some (unmasked, key)

/-- `gostdsa_unmask_key(ecc, key)`.  `ecc_bit_size` is nettle's function of that
name, whose result is stored in an `unsigned`.  The result is `none` when the
function does not return (`abort()` for a curve without a group order here, or
the loop running out of `fuel`), otherwise the return value and `key` after the
call. -/
def gostdsa_unmask_key (ecc_bit_size : ecc_curve → Nat) (fuel : Nat) (ecc : ecc_curve)
    (key : Int) : Option (Int × Int) :=
  let bits := ecc_bit_size ecc % 4294967296
  let keybits := mpz_sizeinbase2 key % 4294967296
  if keybits ≤ bits then some (0, key)
  else
    let q : Option Int :=
      match ecc with
      | .gost_gc256b => some GOST_GC256B_Q
      | .gost_gc512a => some GOST_GC512A_Q
      | .other => none
    match q with
    | none => none
    | some q =>
      let unmasked := Int.tmod key ((2 ^ bits : Nat) : Int)
      let key := Int.tdiv key ((2 ^ bits : Nat) : Int)
      let keybits := sub_u32 keybits bits
      match unmask_loop bits q fuel unmasked key keybits with
      | none => none
      | some (unmasked, key) => some (0, (unmasked * key) % q)

/-- The session `sample_session` with an MTU of 25: with the record overhead
of 13 the data MTU is 12, the size of the handshake header alone. -/
def sample_session_small_mtu (flight : List mbuffer_st) : session_st :=
  { sample_session flight with dtls := { sample_dtls with mtu := 25 } }

/-- The environment `sample_env` with a record layer in which every send
fails. -/
def sample_env_send_fails : dtls_env :=
  { sample_env with _gnutls_send_int := fun _ _ _ _ _ => .error GNUTLS_E_PUSH_ERROR }

/-! ## Theorems: anti-replay window -/

/-- `_dtls_record_check` is the cold start, the too-old test, the rotation of a
full window and then `record_check_tail`. -/
theorem record_check_seq_eq (W : Nat) (rp : record_parameters_st) (seq : Nat) :
    record_check_seq W rp seq =
      if rp.record_sw_size = 0 then
        (0, { record_sw := rp.record_sw.set 0 seq, record_sw_size := 1 })
      else if seq ≤ slot rp.record_sw 0 then (-1, rp)
      else record_check_tail W
        (if rp.record_sw_size = W then rot_window rp MOVE_SIZE else rp) seq := by
  rfl

/-- Reading a slot after a write. -/
theorem slot_set (t : List Nat) (i j v : Nat) (hi : i < t.length) :
    slot (t.set i v) j = if i = j then v else slot t j := by
  unfold slot
  rw [List.getD_eq_getElem?_getD, List.getD_eq_getElem?_getD, List.getElem?_set]
  by_cases h : i = j
  · subst h
    simp [hi]
  · simp [h]

/-- Reading a slot after the `memmove` of `rot_window`. -/
theorem slot_memmove (t : List Nat) (places n j : Nat) (h : places + n ≤ t.length) :
    slot (memmove_window t places n) j = if j < n then slot t (places + j) else slot t j := by
  unfold slot memmove_window
  have hl : ((t.drop places).take n).length = n := by
    rw [List.length_take, List.length_drop]
    omega
  rw [List.getD_eq_getElem?_getD, List.getD_eq_getElem?_getD, List.getD_eq_getElem?_getD,
    List.getElem?_append, hl]
  by_cases hj : j < n
  · rw [if_pos hj, if_pos hj, List.getElem?_take, if_pos hj, List.getElem?_drop]
  · rw [if_neg hj, if_neg hj, List.getElem?_drop]
    congr 2
    omega

/-- The `memmove` of `rot_window` keeps the number of slots. -/
theorem length_memmove (t : List Nat) (places n : Nat) (h : places + n ≤ t.length) :
    (memmove_window t places n).length = t.length := by
  unfold memmove_window
  rw [List.length_append, List.length_take, List.length_drop, List.length_drop]
  omega

/-- A slot of the all-zero table is zero. -/
theorem slot_replicate (W i : Nat) : slot (List.replicate W 0) i = 0 := by
  unfold slot
  rw [List.getD_eq_getElem?_getD, List.getElem?_replicate]
  by_cases h : i < W
  · simp [h]
  · simp [h]

/-- `rot_window` by at least one and by less than the size keeps the invariant
and the last live slot. -/
theorem window_inv_rot (W m : Nat) (rp : record_parameters_st) (places : Nat)
    (hW32 : W < 4294967296) (h : window_inv W m rp) (hp1 : 1 ≤ places)
    (hp2 : places < rp.record_sw_size) :
    window_inv W m (rot_window rp places) ∧
    (rot_window rp places).record_sw_size = rp.record_sw_size - places ∧
    window_top (rot_window rp places) = window_top rp := by
  obtain ⟨hl, h1, h2, hI, hJ, hJe⟩ := h
  have hs : sub_u32 rp.record_sw_size places = rp.record_sw_size - places := by
    unfold sub_u32
    omega
  have hfit : places + (rp.record_sw_size - places) ≤ rp.record_sw.length := by omega
  have htop : window_top (rot_window rp places) = window_top rp := by
    simp only [window_top, rot_window, hs]
    rw [slot_memmove _ _ _ _ hfit, if_pos (by omega)]
    congr 1
    omega
  refine ⟨⟨?_, ?_, ?_, ?_, ?_, ?_⟩, ?_, htop⟩
  · simp only [rot_window, hs]
    rw [length_memmove _ _ _ hfit, hl]
  · simp only [rot_window, hs]
    omega
  · simp only [rot_window, hs]
    omega
  · intro i hi
    rw [htop]
    simp only [rot_window, hs]
    rw [slot_memmove _ _ _ _ hfit]
    by_cases c : i < rp.record_sw_size - places
    · rw [if_pos c]
      have := hI (places + i) (by omega)
      omega
    · rw [if_neg c]
      have := hI i hi
      omega
  · rw [htop]
    simp only [rot_window, hs]
    omega
  · rw [htop]
    simp only [rot_window, hs]
    intro he
    omega
  · simp only [rot_window, hs]

/-- Writing a sequence number above the last live slot at an offset that is not
further from the old top than the numbers are apart keeps the invariant. -/
theorem window_inv_place (W m : Nat) (rp : record_parameters_st) (seq o : Nat)
    (h : window_inv W m rp) (hseq : window_top rp < seq) (ho2 : o < W)
    (ho3 : o + 1 ≤ rp.record_sw_size + (seq - window_top rp)) :
    window_inv W m { record_sw := rp.record_sw.set o seq, record_sw_size := o + 1 } := by
  obtain ⟨hl, h1, h2, hI, hJ, hJe⟩ := h
  have ho : o < rp.record_sw.length := by omega
  have htop : window_top { record_sw := rp.record_sw.set o seq, record_sw_size := o + 1 } =
      seq := by
    simp only [window_top, Nat.add_sub_cancel]
    rw [slot_set _ _ _ _ ho, if_pos rfl]
  refine ⟨?_, ?_, ?_, ?_, ?_, ?_⟩
  · simp only [List.length_set]
    exact hl
  · simp only
    omega
  · simp only
    omega
  · intro i hi
    rw [htop]
    simp only
    rw [slot_set _ _ _ _ ho]
    by_cases c : o = i
    · rw [if_pos c]
      omega
    · rw [if_neg c]
      have := hI i hi
      omega
  · rw [htop]
    simp only
    omega
  · rw [htop]
    simp only
    intro he
    rw [slot_set _ _ _ _ ho]
    have hne : ¬ o = 0 := by omega
    rw [if_neg hne]
    exact hJe (by omega)

/-- Writing a sequence number below the last live slot at its own position
keeps the invariant. -/
theorem window_inv_write (W m : Nat) (rp : record_parameters_st) (seq : Nat)
    (h : window_inv W m rp) (hseq : seq < window_top rp)
    (hd : window_top rp - seq < rp.record_sw_size) :
    window_inv W m
      { record_sw := rp.record_sw.set (rp.record_sw_size - 1 - (window_top rp - seq)) seq,
        record_sw_size := rp.record_sw_size } := by
  obtain ⟨hl, h1, h2, hI, hJ, hJe⟩ := h
  have ho : rp.record_sw_size - 1 - (window_top rp - seq) < rp.record_sw.length := by omega
  have htop : window_top
      { record_sw := rp.record_sw.set (rp.record_sw_size - 1 - (window_top rp - seq)) seq,
        record_sw_size := rp.record_sw_size } = window_top rp := by
    show slot (rp.record_sw.set (rp.record_sw_size - 1 - (window_top rp - seq)) seq)
      (rp.record_sw_size - 1) = window_top rp
    rw [slot_set _ _ _ _ ho, if_neg (by omega)]
    rfl
  refine ⟨?_, h1, h2, ?_, ?_, ?_⟩
  · simp only [List.length_set]
    exact hl
  · intro i hi
    rw [htop]
    simp only
    rw [slot_set _ _ _ _ ho]
    by_cases c : rp.record_sw_size - 1 - (window_top rp - seq) = i
    · rw [if_pos c]
      omega
    · rw [if_neg c]
      exact hI i hi
  · rw [htop]
    exact hJ
  · rw [htop]
    simp only
    intro he
    rw [slot_set _ _ _ _ ho]
    by_cases c : rp.record_sw_size - 1 - (window_top rp - seq) = 0
    · rw [if_pos c]
      omega
    · rw [if_neg c]
      exact hJe he

/-- The branches behind the rotation keep the invariant. -/
theorem record_check_tail_inv (W m : Nat) (rp : record_parameters_st) (seq : Nat)
    (hW32 : W < 4294967296) (h : window_inv W m rp) :
    window_inv W m (record_check_tail W rp seq).2 := by
  have h' := h
  obtain ⟨hl, h1, h2, hI, hJ, hJe⟩ := h'
  have e1 : sub_u32 rp.record_sw_size 1 = rp.record_sw_size - 1 := by
    unfold sub_u32
    omega
  have e2 : sub_u32 W rp.record_sw_size = W - rp.record_sw_size := by
    unfold sub_u32
    omega
  have et : slot rp.record_sw (rp.record_sw_size - 1) = window_top rp := rfl
  simp only [record_check_tail, e1, e2, et]
  by_cases c1 : seq < window_top rp
  · rw [if_pos c1]
    by_cases c2 : window_top rp - seq ≥ rp.record_sw_size
    · rw [if_pos c2]
      exact h
    · rw [if_neg c2]
      have eo : (rp.record_sw_size - 1 - (window_top rp - seq)) % 4294967296 =
          rp.record_sw_size - 1 - (window_top rp - seq) := by omega
      rw [eo]
      by_cases c3 : slot rp.record_sw (rp.record_sw_size - 1 - (window_top rp - seq)) = seq
      · rw [if_pos c3]
        exact h
      · rw [if_neg c3]
        exact window_inv_write W m rp seq h c1 (by omega)
  · rw [if_neg c1]
    by_cases c4 : seq = window_top rp
    · rw [if_pos c4]
      exact h
    · rw [if_neg c4]
      by_cases c5 : seq - window_top rp ≤ W - rp.record_sw_size
      · rw [if_pos c5]
        have eo : (seq - window_top rp + rp.record_sw_size - 1) % 4294967296 =
            seq - window_top rp + rp.record_sw_size - 1 := by omega
        have es : (seq - window_top rp + rp.record_sw_size - 1 + 1) % 4294967296 =
            seq - window_top rp + rp.record_sw_size - 1 + 1 := by omega
        rw [eo, es]
        exact window_inv_place W m rp seq _ h (by omega) (by omega) (by omega)
      · rw [if_neg c5]
        by_cases c6 : seq - window_top rp > W / 2
        · rw [if_pos c6]
          have hp := window_inv_place W m rp seq (W - 1) h (by omega) (by omega) (by omega)
          have ew : W - 1 + 1 = W := by omega
          rw [ew] at hp
          exact hp
        · rw [if_neg c6]
          obtain ⟨r1, r2, r3⟩ := window_inv_rot W m rp (seq - window_top rp) hW32 h
            (by omega) (by omega)
          have eo : (seq - window_top rp + (rot_window rp (seq - window_top rp)).record_sw_size
              - 1) % 4294967296 = rp.record_sw_size - 1 := by
            rw [r2]
            omega
          have es : (rp.record_sw_size - 1 + 1) % 4294967296 = rp.record_sw_size - 1 + 1 := by
            omega
          rw [eo, es]
          exact window_inv_place W m (rot_window rp (seq - window_top rp)) seq
            (rp.record_sw_size - 1) r1 (by omega) (by omega) (by omega)

/-- `_dtls_record_check` keeps the invariant of a window that has seen a record. -/
theorem record_check_seq_inv (W m : Nat) (rp : record_parameters_st) (seq : Nat)
    (hW : MOVE_SIZE < W) (hW32 : W < 4294967296) (h : window_inv W m rp) :
    window_inv W m (record_check_seq W rp seq).2 := by
  have h' := h
  obtain ⟨hl, h1, h2, hI, hJ, hJe⟩ := h'
  unfold MOVE_SIZE at hW
  rw [record_check_seq_eq, if_neg (by omega)]
  by_cases c0 : seq ≤ slot rp.record_sw 0
  · rw [if_pos c0]
    exact h
  · rw [if_neg c0]
    apply record_check_tail_inv W m _ seq hW32
    by_cases cW : rp.record_sw_size = W
    · rw [if_pos cW]
      exact (window_inv_rot W m rp MOVE_SIZE hW32 h (by decide)
        (by unfold MOVE_SIZE; omega)).1
    · rw [if_neg cW]
      exact h

/-- Behind the rotation, a sequence number that is at most the bound `m` of the
invariant is reported as replayed. -/
theorem record_check_tail_old (W m : Nat) (rp : record_parameters_st) (seq : Nat)
    (hW32 : W < 4294967296) (h : window_inv W m rp) (hle : seq ≤ m) :
    (record_check_tail W rp seq).1 = -1 := by
  obtain ⟨hl, h1, h2, hI, hJ, hJe⟩ := h
  have e1 : sub_u32 rp.record_sw_size 1 = rp.record_sw_size - 1 := by
    unfold sub_u32
    omega
  have et : slot rp.record_sw (rp.record_sw_size - 1) = window_top rp := rfl
  simp only [record_check_tail, e1, et]
  by_cases c1 : seq < window_top rp
  · rw [if_pos c1]
    by_cases c2 : window_top rp - seq ≥ rp.record_sw_size
    · rw [if_pos c2]
    · rw [if_neg c2]
      have eo : (rp.record_sw_size - 1 - (window_top rp - seq)) % 4294967296 = 0 := by omega
      have hs : slot rp.record_sw 0 = seq := by
        rw [hJe (by omega)]
        omega
      rw [eo, if_pos hs]
  · rw [if_neg c1, if_pos (by omega)]

/-- A sequence number that is at most the bound `m` of the invariant is
reported as replayed by `_dtls_record_check`. -/
theorem record_check_seq_old (W m : Nat) (rp : record_parameters_st) (seq : Nat)
    (hW : MOVE_SIZE < W) (hW32 : W < 4294967296) (h : window_inv W m rp) (hle : seq ≤ m) :
    (record_check_seq W rp seq).1 = -1 := by
  have h' := h
  obtain ⟨hl, h1, h2, hI, hJ, hJe⟩ := h'
  unfold MOVE_SIZE at hW
  rw [record_check_seq_eq, if_neg (by omega)]
  by_cases c0 : seq ≤ slot rp.record_sw 0
  · rw [if_pos c0]
  · rw [if_neg c0]
    apply record_check_tail_old W m _ seq hW32 _ hle
    by_cases cW : rp.record_sw_size = W
    · rw [if_pos cW]
      exact (window_inv_rot W m rp MOVE_SIZE hW32 h (by decide)
        (by unfold MOVE_SIZE; omega)).1
    · rw [if_neg cW]
      exact h

/-- The first call on an empty window establishes the invariant. -/
theorem record_check_first (W seq : Nat) (hW : 1 ≤ W) :
    window_inv W 0 (record_check_seq W (empty_window W) seq).2 := by
  have hlen : 0 < (List.replicate W 0).length := by
    rw [List.length_replicate]
    omega
  have hs : ∀ i, slot ((List.replicate W 0).set 0 seq) i = if 0 = i then seq else 0 := by
    intro i
    rw [slot_set _ _ _ _ hlen, slot_replicate]
  have htop : window_top { record_sw := (List.replicate W 0).set 0 seq, record_sw_size := 1 } =
      seq := by
    show slot ((List.replicate W 0).set 0 seq) 0 = seq
    rw [hs, if_pos rfl]
  rw [record_check_seq_eq]
  simp only [empty_window, if_true]
  refine ⟨?_, ?_, ?_, ?_, ?_, ?_⟩
  · simp only [List.length_set, List.length_replicate]
  · simp only
    omega
  · simp only
    omega
  · intro i _
    rw [htop]
    simp only
    rw [hs]
    by_cases c : 0 = i
    · rw [if_pos c]
      omega
    · rw [if_neg c]
      omega
  · rw [htop]
    simp only
    omega
  · rw [htop]
    simp only
    intro he
    rw [hs, if_pos rfl]
    omega

/-- The bound of the invariant may be taken to be the content of slot 0. -/
theorem window_inv_slot_zero (W m : Nat) (rp : record_parameters_st) (h : window_inv W m rp) :
    window_inv W (slot rp.record_sw 0) rp := by
  obtain ⟨hl, h1, h2, hI, hJ, hJe⟩ := h
  refine ⟨hl, h1, h2, hI, ?_, fun _ => rfl⟩
  have := hI 0 (by omega)
  omega

/-- After a call of `_dtls_record_check` on a well-formed window the invariant
holds. -/
theorem record_check_ok (W : Nat) (rp : record_parameters_st) (s : uint64)
    (hW : MOVE_SIZE < W) (hW32 : W < 4294967296) (h : window_ok W rp) :
    window_inv W 0 (_dtls_record_check W rp s).2 := by
  unfold _dtls_record_check
  rcases h with h | h
  · rw [h]
    exact record_check_first W _ (by unfold MOVE_SIZE at hW; omega)
  · exact record_check_seq_inv W 0 rp _ hW hW32 h

/-- A sequence of calls keeps a window well formed. -/
theorem run_checks_ok (W : Nat) (hW : MOVE_SIZE < W) (hW32 : W < 4294967296)
    (xs : List uint64) :
    ∀ rp, window_ok W rp → window_ok W (run_checks W rp xs) := by
  induction xs with
  | nil => intro rp h; exact h
  | cons x rest ih =>
    intro rp h
    exact ih _ (Or.inr (record_check_ok W rp x hW hW32 h))

/-- A sequence of calls keeps the invariant. -/
theorem run_checks_inv (W m : Nat) (hW : MOVE_SIZE < W) (hW32 : W < 4294967296)
    (xs : List uint64) :
    ∀ rp, window_inv W m rp → window_inv W m (run_checks W rp xs) := by
  induction xs with
  | nil => intro rp h; exact h
  | cons x rest ih =>
    intro rp h
    exact ih _ (record_check_seq_inv W m rp _ hW hW32 h)

/-- C1, evaluated at the failing input: with a window of 64 slots the calls
with sequence numbers 1, 40, 73, 40 on an empty window all return 0, so 40 is
accepted twice. -/
theorem record_check_replay_accepted :
    parse_seq (seq_bytes 40) = 40 ∧
    check_results 64 (empty_window 64)
      [seq_bytes 1, seq_bytes 40, seq_bytes 73, seq_bytes 40] = [0, 0, 0, 0] := by
  decide

/-- C2: on a window that started empty, if `m` is the content of
`record_sw[0]` right after a call to `_dtls_record_check` (in particular one
that accepts its sequence number), then every later call on the same window
with a sequence number `s' ≤ m` returns a negative value, whatever calls
happened before and in between.  `W` is `DTLS_RECORD_WINDOW_SIZE`, larger than
`MOVE_SIZE` and an `unsigned int`. -/
theorem monotone_discard (W : Nat) (hW : MOVE_SIZE < W) (hW32 : W < 4294967296)
    (before between : List uint64) (s s' : uint64)
    (hle : parse_seq s' ≤
      slot (_dtls_record_check W (run_checks W (empty_window W) before) s).2.record_sw 0) :
    (_dtls_record_check W
      (run_checks W (_dtls_record_check W (run_checks W (empty_window W) before) s).2 between)
      s').1 < 0 := by
  have h0 := run_checks_ok W hW hW32 before (empty_window W) (Or.inl rfl)
  have h1 := window_inv_slot_zero W 0 _ (record_check_ok W _ s hW hW32 h0)
  have h2 := run_checks_inv W _ hW hW32 between _ h1
  have h3 := record_check_seq_old W _ _ (parse_seq s') hW hW32 h2 hle
  unfold _dtls_record_check at h3 ⊢
  rw [h3]
  decide

/-- C2 at a concrete input: 163 is accepted after 100 and leaves 100 in slot 0;
after the further calls 164 and 165, the first of which rotates the window,
100 is refused. -/
theorem monotone_discard_witness :
    (_dtls_record_check 64 (run_checks 64 (empty_window 64) [seq_bytes 100])
      (seq_bytes 163)).1 = 0 ∧
    slot (_dtls_record_check 64 (run_checks 64 (empty_window 64) [seq_bytes 100])
      (seq_bytes 163)).2.record_sw 0 = 100 ∧
    (_dtls_record_check 64
      (run_checks 64 (_dtls_record_check 64
        (run_checks 64 (empty_window 64) [seq_bytes 100]) (seq_bytes 163)).2
        [seq_bytes 164, seq_bytes 165])
      (seq_bytes 100)).1 < 0 :=
  ⟨by decide, by decide,
    monotone_discard 64 (by decide) (by decide) [seq_bytes 100]
      [seq_bytes 164, seq_bytes 165] (seq_bytes 163) (seq_bytes 100) (by decide)⟩

/-! ## Theorems: cookie engine -/

/-- With a non-empty key `gnutls_dtls_cookie_verify` is a cascade of four
decisions: framing, cookie length, HMAC result, MAC comparison. -/
theorem cookie_verify_cascade (hmac : hmac_fn) (key_data : List Nat) (key_size : Nat)
    (client_data msg : List Nat) (prestate : gnutls_dtls_prestate_st) (hkey : key_size ≠ 0) :
    gnutls_dtls_cookie_verify hmac (some ⟨some key_data, key_size⟩) client_data msg prestate =
      if bad_framing msg then (.error GNUTLS_E_UNEXPECTED_PACKET_LENGTH, prestate)
      else if byte_at msg (60 + byte_at msg 59) ≠ 16 then (.error GNUTLS_E_BAD_COOKIE, prestate)
      else match hmac key_data key_size client_data with
        | .error e => (.error e, prestate)
        | .ok digest =>
          if digest.take 16 = (msg.drop (61 + byte_at msg 59)).take 16 then
            (.ok (), { record_seq := byte_at msg 10, hsk_read_seq := byte_at msg 18,
                       hsk_write_seq := 0 })
          else (.error GNUTLS_E_BAD_COOKIE, prestate) := by
  have e59 : 34 + DTLS_RECORD_HEADER_SIZE + DTLS_HANDSHAKE_HEADER_SIZE = 59 := rfl
  have e18 : DTLS_RECORD_HEADER_SIZE + 5 = 18 := rfl
  simp only [gnutls_dtls_cookie_verify, bad_framing, memcmp_ne, e59, e18, COOKIE_SIZE,
    COOKIE_MAC_SIZE, hkey, if_false]
  by_cases h1 : msg.length < 60
  · simp [h1]
  by_cases h2 : byte_at msg 59 > 32 ∨ msg.length < 59 + 1 + byte_at msg 59 + 1
  · have h2b : byte_at msg 59 > 32 ∨ msg.length < 61 + byte_at msg 59 := by omega
    have h2c : 32 < byte_at msg 59 ∨ msg.length < 61 + byte_at msg 59 ∨
        msg.length < 62 + byte_at msg 59 + byte_at msg (60 + byte_at msg 59) := by omega
    simp only [h1, h2, if_true, if_false, false_or, gt_iff_lt, h2c]
  have h2a : ¬ byte_at msg 59 > 32 := fun h => h2 (Or.inl h)
  have h2b : ¬ msg.length < 61 + byte_at msg 59 := fun h => h2 (Or.inr (by omega))
  have e60 : 59 + 1 + byte_at msg 59 = 60 + byte_at msg 59 := by omega
  have e61 : 60 + byte_at msg 59 + 1 = 61 + byte_at msg 59 := by omega
  simp only [h1, h2, if_false, e60, e61]
  by_cases h3 : msg.length < 61 + byte_at msg 59 + byte_at msg (60 + byte_at msg 59) + 1
  · have h3b : msg.length < 62 + byte_at msg 59 + byte_at msg (60 + byte_at msg 59) := by omega
    simp [h3, h3b]
  have h3b : ¬ msg.length < 62 + byte_at msg 59 + byte_at msg (60 + byte_at msg 59) := by omega
  simp only [h3, h3b, h2a, h2b, h1, or_self, if_false]
  by_cases h4 : byte_at msg (60 + byte_at msg 59) = 16
  · simp only [h4, ne_eq, not_true_eq_false, if_false]
    cases hmac key_data key_size client_data with
    | error e => rfl
    | ok digest =>
      by_cases h5 : List.take 16 digest = List.take 16 (List.drop (61 + byte_at msg 59) msg)
      · simp [h5]
      · simp [h5]
  · simp [h4]

/-- The header part of the cookie reply: 28 fixed bytes, 20 bytes untouched. -/
theorem cookie_send_header_eq (GH HVR : Nat) (prestate : gnutls_dtls_prestate_st) :
    cookie_send_header GH HVR prestate =
      ([GH % 256, 254, 255, 0, 0, 0, 0, 0, 0, 0, prestate.record_seq % 256, 0, 31,
          HVR % 256, 0, 0, 19, 0, prestate.hsk_write_seq % 256, 0, 0, 0, 0, 0, 19,
          254, 255, 16] ++ List.replicate 20 0, 28) := by
  have h48 : List.replicate 48 0 = [0, 0, 0, 0, 0, 0, 0, 0, 0, 0, 0, 0, 0, 0, 0, 0, 0, 0, 0, 0,
      0, 0, 0, 0, 0, 0, 0, 0, 0, 0, 0, 0, 0, 0, 0, 0, 0, 0, 0, 0, 0, 0, 0, 0, 0, 0, 0, 0] := by
    decide
  have h20 : List.replicate 20 0 = [0, 0, 0, 0, 0, 0, 0, 0, 0, 0, 0, 0, 0, 0, 0, 0, 0, 0, 0, 0] := by
    decide
  have h8 : List.replicate 8 0 = [0, 0, 0, 0, 0, 0, 0, 0] := by decide
  simp only [cookie_send_header, memset_at, _gnutls_write_uint16, _gnutls_write_uint24,
    DTLS_HANDSHAKE_HEADER_SIZE, COOKIE_SIZE, Nat.reduceAdd, zero_add, Nat.reduceDiv,
    Nat.reduceMod, h48, h20, h8, List.set_cons_zero, List.set_cons_succ, List.take_succ_cons,
    List.take_zero, List.drop_succ_cons, List.drop_zero, List.cons_append, List.nil_append]

/-- With a non-empty key and a digest of at least 16 bytes
`gnutls_dtls_cookie_send` pushes one datagram: 28 header bytes and the cookie. -/
theorem cookie_send_cascade (GH HVR : Nat) (hmac : hmac_fn) (key_data : List Nat)
    (key_size : Nat) (client_data digest : List Nat) (prestate : gnutls_dtls_prestate_st)
    (push_func : push_fn) (hkey : key_size ≠ 0)
    (hmac_ok : hmac key_data key_size client_data = .ok digest) (hlen : 16 ≤ digest.length) :
    gnutls_dtls_cookie_send GH HVR hmac (some ⟨some key_data, key_size⟩) client_data prestate
        push_func =
      (if push_func (hello_verify_datagram GH HVR prestate (digest.take 16)) < 0
        then .error GNUTLS_E_PUSH_ERROR
        else .ok (push_func (hello_verify_datagram GH HVR prestate (digest.take 16))),
       [hello_verify_datagram GH HVR prestate (digest.take 16)]) := by
  have hcopy : List.take (28 + COOKIE_MAC_SIZE)
      (memcpy_at ([GH % 256, 254, 255, 0, 0, 0, 0, 0, 0, 0, prestate.record_seq % 256, 0, 31,
          HVR % 256, 0, 0, 19, 0, prestate.hsk_write_seq % 256, 0, 0, 0, 0, 0, 19,
          254, 255, 16] ++ List.replicate 20 0) 28 digest COOKIE_MAC_SIZE) =
      hello_verify_datagram GH HVR prestate (digest.take 16) := by
    have ht : ∀ (n : Nat) (a b : List Nat), a.length = n → (a ++ b).take n = a :=
      fun n a b h => List.take_left' h
    unfold memcpy_at COOKIE_MAC_SIZE hello_verify_datagram
    rw [ht 28]
    · apply ht
      simp only [List.length_append, List.length_cons, List.length_nil, List.length_take]
      omega
    · rfl
  simp only [gnutls_dtls_cookie_send, hkey, if_false, hmac_ok, cookie_send_header_eq, hcopy]
  split_ifs <;> rfl

/-- Reading a byte below the cut of a truncated buffer gives the byte of the
whole buffer. -/
theorem byte_at_take (msg : List Nat) (n i : Nat) (h : i < n) :
    byte_at (msg.take n) i = byte_at msg i := by
  unfold byte_at
  rw [List.getD_eq_getElem?_getD, List.getD_eq_getElem?_getD, List.getElem?_take, if_pos h]

/-- The 16 bytes at an offset survive a truncation that ends behind them. -/
theorem take_drop_take (msg : List Nat) (n p : Nat) (h : p + 16 ≤ n) :
    ((msg.take n).drop p).take 16 = (msg.drop p).take 16 := by
  rw [List.drop_take, List.take_take]
  congr 1
  omega

/-- Bytes 10 and 18 and the cookie of the datagram laid out by
`hello_verify_datagram`. -/
theorem hello_verify_datagram_fields (GH HVR : Nat) (prestate : gnutls_dtls_prestate_st)
    (cookie : List Nat) (hlen : cookie.length = 16) :
    (hello_verify_datagram GH HVR prestate cookie).length = 44 ∧
    byte_at (hello_verify_datagram GH HVR prestate cookie) 10 = prestate.record_seq % 256 ∧
    byte_at (hello_verify_datagram GH HVR prestate cookie) 18 = prestate.hsk_write_seq % 256 ∧
    ((hello_verify_datagram GH HVR prestate cookie).drop 28).take 16 = cookie := by
  refine ⟨?_, rfl, rfl, ?_⟩
  · simp only [hello_verify_datagram, List.length_append, List.length_cons, List.length_nil,
      hlen]
  · have hd : (hello_verify_datagram GH HVR prestate cookie).drop 28 = cookie := rfl
    rw [hd, ← hlen, List.take_length]

/-- With a non-empty key and a successful HMAC computation, success of
`gnutls_dtls_cookie_verify` means good framing, a cookie length byte of 16 and a
cookie equal to the first 16 bytes of the digest. -/
theorem cookie_verify_ok_iff (hmac : hmac_fn) (key_data : List Nat) (key_size : Nat)
    (client_data msg digest : List Nat) (prestate : gnutls_dtls_prestate_st)
    (hkey : key_size ≠ 0) (hmac_ok : hmac key_data key_size client_data = .ok digest) :
    (gnutls_dtls_cookie_verify hmac (some ⟨some key_data, key_size⟩) client_data msg
        prestate).1 = .ok () ↔
      (¬ bad_framing msg ∧ byte_at msg (60 + byte_at msg 59) = 16 ∧
        (msg.drop (61 + byte_at msg 59)).take 16 = digest.take 16) := by
  rw [cookie_verify_cascade hmac key_data key_size client_data msg prestate hkey, hmac_ok]
  by_cases hb : bad_framing msg
  · rw [if_pos hb]
    exact ⟨fun h => (by cases h), fun h => absurd hb h.1⟩
  · rw [if_neg hb]
    by_cases hc : byte_at msg (60 + byte_at msg 59) = 16
    · rw [if_neg (not_not_intro hc)]
      by_cases hm : List.take 16 digest = List.take 16 (List.drop (61 + byte_at msg 59) msg)
      · simp only [if_pos hm]
        exact ⟨fun _ => ⟨hb, hc, hm.symm⟩, fun _ => trivial⟩
      · simp only [if_neg hm]
        exact ⟨fun h => (by cases h), fun h => absurd h.2.2.symm hm⟩
    · rw [if_pos hc]
      exact ⟨fun h => (by cases h), fun h => absurd h.2.1 hc⟩

/-- C3: with a non-empty key and a successful HMAC computation,
`gnutls_dtls_cookie_verify` returns 0 exactly when, with `sid = msg[59]`, the
message has at least 60 bytes, `sid ≤ 32`, `msg_size ≥ 62 + sid + msg[60+sid]`,
the cookie length byte `msg[60+sid]` is 16 and the 16 bytes from `msg[61+sid]`
equal the first 16 bytes of the digest; on success the prestate is
`record_seq = msg[10]`, `hsk_read_seq = msg[18]`, `hsk_write_seq = 0`. -/
theorem cookie_verify_success_iff (hmac : hmac_fn) (key_data : List Nat) (key_size : Nat)
    (client_data msg digest : List Nat) (prestate : gnutls_dtls_prestate_st)
    (hkey : key_size ≠ 0) (hmac_ok : hmac key_data key_size client_data = .ok digest) :
    ((gnutls_dtls_cookie_verify hmac (some ⟨some key_data, key_size⟩) client_data msg
        prestate).1 = .ok () ↔
      (60 ≤ msg.length ∧ byte_at msg 59 ≤ 32 ∧
        62 + byte_at msg 59 + byte_at msg (60 + byte_at msg 59) ≤ msg.length ∧
        byte_at msg (60 + byte_at msg 59) = 16 ∧
        (msg.drop (61 + byte_at msg 59)).take 16 = digest.take 16)) ∧
    ((gnutls_dtls_cookie_verify hmac (some ⟨some key_data, key_size⟩) client_data msg
        prestate).1 = .ok () →
      (gnutls_dtls_cookie_verify hmac (some ⟨some key_data, key_size⟩) client_data msg
        prestate).2 =
        { record_seq := byte_at msg 10, hsk_read_seq := byte_at msg 18, hsk_write_seq := 0 }) := by
  rw [cookie_verify_cascade hmac key_data key_size client_data msg prestate hkey, hmac_ok]
  by_cases hb : bad_framing msg
  · have hb2 := hb
    unfold bad_framing at hb2
    rw [if_pos hb]
    refine ⟨⟨fun h => ?_, fun h => ?_⟩, fun h => ?_⟩
    · cases h
    · omega
    · cases h
  · have hb2 := hb
    unfold bad_framing at hb2
    rw [if_neg hb]
    by_cases hc : byte_at msg (60 + byte_at msg 59) = 16
    · rw [if_neg (not_not_intro hc)]
      by_cases hm : List.take 16 digest = List.take 16 (List.drop (61 + byte_at msg 59) msg)
      · simp only [if_pos hm]
        exact ⟨⟨fun _ => ⟨by omega, by omega, by omega, hc, hm.symm⟩, fun _ => trivial⟩,
          fun _ => trivial⟩
      · simp only [if_neg hm]
        refine ⟨⟨fun h => ?_, fun h => ?_⟩, fun h => ?_⟩
        · cases h
        · exact absurd h.2.2.2.2.symm hm
        · cases h
    · rw [if_pos hc]
      refine ⟨⟨fun h => ?_, fun h => ?_⟩, fun h => ?_⟩
      · cases h
      · exact absurd h.2.2.2.1 hc
      · cases h

/-- C3 at a concrete input: a ClientHello echoing the cookie verifies and gives
the prestate `(1, 1, 0)`. -/
theorem cookie_verify_success_iff_witness :
    (gnutls_dtls_cookie_verify sample_hmac sample_key [10, 0, 0, 1]
        (sample_client_hello sample_cookie) ⟨9, 9, 9⟩).1 = .ok () ∧
    (gnutls_dtls_cookie_verify sample_hmac sample_key [10, 0, 0, 1]
        (sample_client_hello sample_cookie) ⟨9, 9, 9⟩).2 = ⟨1, 1, 0⟩ :=
  have h := cookie_verify_success_iff sample_hmac [1, 2, 3] 3 [10, 0, 0, 1]
    (sample_client_hello sample_cookie) (sample_cookie ++ [133, 140, 147, 154]) ⟨9, 9, 9⟩
    (by decide) (by decide)
  ⟨h.1.mpr (by decide), h.2 (h.1.mpr (by decide))⟩

/-- C7: for a non-empty key (and a successful HMAC computation giving a
`C_HASH_SIZE`-byte digest) `gnutls_dtls_cookie_send` hands exactly one buffer
to `push_func`; it has 44 bytes: content type, 254, 255, seven zero bytes, the
low byte of `record_seq`, 0, 31, the HelloVerifyRequest type, 0, 0, 19, 0, the
low byte of `hsk_write_seq`, 0, 0, 0, 0, 0, 19, 254, 255, 16 and the first 16
bytes of the digest.  Hence the buffer is the same for any two calls with the
same key, client data, `record_seq` and `hsk_write_seq`. -/
theorem cookie_send_wire_layout (GH HVR : Nat) (hmac : hmac_fn) (key_data : List Nat)
    (key_size : Nat) (client_data digest : List Nat) (prestate : gnutls_dtls_prestate_st)
    (push_func : push_fn) (hkey : key_size ≠ 0)
    (hmac_ok : hmac key_data key_size client_data = .ok digest)
    (hlen : digest.length = C_HASH_SIZE) :
    (gnutls_dtls_cookie_send GH HVR hmac (some ⟨some key_data, key_size⟩) client_data prestate
        push_func).2 =
      [[GH % 256, 254, 255, 0, 0, 0, 0, 0, 0, 0, prestate.record_seq % 256, 0, 31,
        HVR % 256, 0, 0, 19, 0, prestate.hsk_write_seq % 256, 0, 0, 0, 0, 0, 19,
        254, 255, 16] ++ digest.take 16] ∧
    ([GH % 256, 254, 255, 0, 0, 0, 0, 0, 0, 0, prestate.record_seq % 256, 0, 31,
        HVR % 256, 0, 0, 19, 0, prestate.hsk_write_seq % 256, 0, 0, 0, 0, 0, 19,
        254, 255, 16] ++ digest.take 16).length = 44 ∧
    (∀ (prestate2 : gnutls_dtls_prestate_st) (push_func2 : push_fn),
      prestate2.record_seq = prestate.record_seq →
      prestate2.hsk_write_seq = prestate.hsk_write_seq →
      (gnutls_dtls_cookie_send GH HVR hmac (some ⟨some key_data, key_size⟩) client_data
        prestate2 push_func2).2 =
      (gnutls_dtls_cookie_send GH HVR hmac (some ⟨some key_data, key_size⟩) client_data
        prestate push_func).2) := by
  have h16 : 16 ≤ digest.length := by rw [hlen]; decide
  refine ⟨?_, ?_, ?_⟩
  · rw [cookie_send_cascade GH HVR hmac key_data key_size client_data digest prestate push_func
      hkey hmac_ok h16]
    rfl
  · simp only [List.length_append, List.length_cons, List.length_nil, List.length_take]
    omega
  · intro prestate2 push_func2 h1 h2
    rw [cookie_send_cascade GH HVR hmac key_data key_size client_data digest prestate push_func
      hkey hmac_ok h16,
      cookie_send_cascade GH HVR hmac key_data key_size client_data digest prestate2 push_func2
      hkey hmac_ok h16]
    simp only [hello_verify_datagram, h1, h2]

/-- C7 at a concrete input: the datagram for record sequence 5 and handshake
write sequence 2. -/
theorem cookie_send_wire_layout_witness :
    (gnutls_dtls_cookie_send 22 3 sample_hmac sample_key [10, 0, 0, 1] ⟨5, 0, 2⟩
        sample_push).2 =
      [[22, 254, 255, 0, 0, 0, 0, 0, 0, 0, 5, 0, 31, 3, 0, 0, 19, 0, 2, 0, 0, 0, 0, 0, 19,
        254, 255, 16] ++ sample_cookie] :=
  (cookie_send_wire_layout 22 3 sample_hmac [1, 2, 3] 3 [10, 0, 0, 1]
    (sample_cookie ++ [133, 140, 147, 154]) ⟨5, 0, 2⟩ sample_push (by decide) (by decide)
    (by decide)).1.trans (by decide)

/-- C8: with a non-empty key (and an HMAC that does not itself report that
code) `gnutls_dtls_cookie_verify` returns `GNUTLS_E_UNEXPECTED_PACKET_LENGTH`
exactly when `msg_size < 60`, or `msg[59] > 32`, or `msg_size < 61 + msg[59]`,
or `msg_size < 62 + msg[59] + msg[60 + msg[59]]`; on such a message that is the
result for every HMAC, every non-empty key and every client data, and the
prestate is left as it was. -/
theorem cookie_verify_malformed_iff (hmac : hmac_fn) (key_data : List Nat) (key_size : Nat)
    (client_data msg : List Nat) (prestate : gnutls_dtls_prestate_st) (hkey : key_size ≠ 0)
    (hmac_code : hmac key_data key_size client_data ≠
      .error GNUTLS_E_UNEXPECTED_PACKET_LENGTH) :
    ((gnutls_dtls_cookie_verify hmac (some ⟨some key_data, key_size⟩) client_data msg
        prestate).1 = .error GNUTLS_E_UNEXPECTED_PACKET_LENGTH ↔
      (msg.length < 60 ∨ byte_at msg 59 > 32 ∨ msg.length < 61 + byte_at msg 59 ∨
        msg.length < 62 + byte_at msg 59 + byte_at msg (60 + byte_at msg 59))) ∧
    ((msg.length < 60 ∨ byte_at msg 59 > 32 ∨ msg.length < 61 + byte_at msg 59 ∨
        msg.length < 62 + byte_at msg 59 + byte_at msg (60 + byte_at msg 59)) →
      ∀ (hmac2 : hmac_fn) (key_data2 : List Nat) (key_size2 : Nat) (client_data2 : List Nat)
        (prestate2 : gnutls_dtls_prestate_st), key_size2 ≠ 0 →
        gnutls_dtls_cookie_verify hmac2 (some ⟨some key_data2, key_size2⟩) client_data2 msg
          prestate2 = (.error GNUTLS_E_UNEXPECTED_PACKET_LENGTH, prestate2)) := by
  constructor
  · rw [cookie_verify_cascade hmac key_data key_size client_data msg prestate hkey]
    by_cases hb : bad_framing msg
    · rw [if_pos hb]
      exact ⟨fun _ => hb, fun _ => rfl⟩
    · rw [if_neg hb]
      refine ⟨fun h => ?_, fun h => absurd h hb⟩
      exfalso
      by_cases hc : byte_at msg (60 + byte_at msg 59) = 16
      · rw [if_neg (not_not_intro hc)] at h
        cases hd : hmac key_data key_size client_data with
        | error e =>
          rw [hd] at h hmac_code
          simp only at h
          cases h
          exact hmac_code rfl
        | ok digest =>
          rw [hd] at h
          simp only at h
          split_ifs at h
          all_goals cases h
      · rw [if_pos hc] at h
        cases h
  · intro hb hmac2 key_data2 key_size2 client_data2 prestate2 hkey2
    rw [cookie_verify_cascade hmac2 key_data2 key_size2 client_data2 msg prestate2 hkey2]
    exact if_pos hb

/-- C8 at a concrete input: a 44-byte datagram is malformed. -/
theorem cookie_verify_malformed_iff_witness :
    (gnutls_dtls_cookie_verify sample_hmac sample_key [10, 0, 0, 1] (List.replicate 44 0)
        ⟨9, 9, 9⟩).1 = .error GNUTLS_E_UNEXPECTED_PACKET_LENGTH :=
  (cookie_verify_malformed_iff sample_hmac [1, 2, 3] 3 [10, 0, 0, 1] (List.replicate 44 0)
    ⟨9, 9, 9⟩ (by decide) (by decide)).1.mpr (by decide)

/-- C9: when the message passes the framing checks of `gnutls_dtls_cookie_verify`
and its cookie length byte is not 16, the result is `GNUTLS_E_BAD_COOKIE` for
every non-empty key, every client data and every HMAC, and the prestate is
not written. -/
theorem cookie_verify_length_mismatch (hmac : hmac_fn) (key_data : List Nat) (key_size : Nat)
    (client_data msg : List Nat) (prestate : gnutls_dtls_prestate_st) (hkey : key_size ≠ 0)
    (hsize : 60 ≤ msg.length) (hsid : byte_at msg 59 ≤ 32)
    (hcookie : 62 + byte_at msg 59 + byte_at msg (60 + byte_at msg 59) ≤ msg.length)
    (hlen : byte_at msg (60 + byte_at msg 59) ≠ 16) :
    gnutls_dtls_cookie_verify hmac (some ⟨some key_data, key_size⟩) client_data msg prestate =
      (.error GNUTLS_E_BAD_COOKIE, prestate) := by
  rw [cookie_verify_cascade hmac key_data key_size client_data msg prestate hkey]
  have hb : ¬ bad_framing msg := by
    unfold bad_framing
    omega
  rw [if_neg hb, if_pos hlen]

/-- C9 at a concrete input: an initial ClientHello with an empty cookie. -/
theorem cookie_verify_length_mismatch_witness :
    gnutls_dtls_cookie_verify sample_hmac sample_key [10, 0, 0, 1] (sample_client_hello [])
        ⟨9, 9, 9⟩ = (.error GNUTLS_E_BAD_COOKIE, ⟨9, 9, 9⟩) :=
  cookie_verify_length_mismatch sample_hmac [1, 2, 3] 3 [10, 0, 0, 1] (sample_client_hello [])
    ⟨9, 9, 9⟩ (by decide) (by decide) (by decide) (by decide) (by decide)

/-- C10: when the key is `NULL`, has `NULL` data or has size 0, both
`gnutls_dtls_cookie_send` and `gnutls_dtls_cookie_verify` return
`GNUTLS_E_INVALID_REQUEST`; the former hands nothing to `push_func`, the latter
leaves the prestate unchanged, whatever the message is. -/
theorem cookie_invalid_request (GH HVR : Nat) (hmac : hmac_fn) (key : Option gnutls_datum_t)
    (client_data msg : List Nat) (prestate : gnutls_dtls_prestate_st) (push_func : push_fn)
    (hkey : ∀ k, key = some k → k.data = none ∨ k.size = 0) :
    gnutls_dtls_cookie_send GH HVR hmac key client_data prestate push_func =
      (.error GNUTLS_E_INVALID_REQUEST, []) ∧
    gnutls_dtls_cookie_verify hmac key client_data msg prestate =
      (.error GNUTLS_E_INVALID_REQUEST, prestate) := by
  cases key with
  | none => exact ⟨rfl, rfl⟩
  | some k =>
    obtain ⟨data, size⟩ := k
    cases data with
    | none => exact ⟨rfl, rfl⟩
    | some key_data =>
      have hz : size = 0 := by
        rcases hkey ⟨some key_data, size⟩ rfl with h | h
        · cases h
        · exact h
      subst hz
      exact ⟨rfl, rfl⟩

/-- C10 at a concrete input: a key with data but size 0. -/
theorem cookie_invalid_request_witness :
    gnutls_dtls_cookie_send 22 3 sample_hmac (some ⟨some [1, 2, 3], 0⟩) [10, 0, 0, 1] ⟨5, 0, 2⟩
        sample_push = (.error GNUTLS_E_INVALID_REQUEST, []) ∧
    gnutls_dtls_cookie_verify sample_hmac (some ⟨some [1, 2, 3], 0⟩) [10, 0, 0, 1]
        (sample_client_hello sample_cookie) ⟨5, 0, 2⟩ =
      (.error GNUTLS_E_INVALID_REQUEST, ⟨5, 0, 2⟩) :=
  cookie_invalid_request 22 3 sample_hmac (some ⟨some [1, 2, 3], 0⟩) [10, 0, 0, 1]
    (sample_client_hello sample_cookie) ⟨5, 0, 2⟩ sample_push
    (fun k hk => by cases hk; exact Or.inr rfl)

/-- C4, the claim as stated fails: the datagram that `gnutls_dtls_cookie_send`
pushes has 44 bytes, and `gnutls_dtls_cookie_verify` applied to it with the same
key and client data returns `GNUTLS_E_UNEXPECTED_PACKET_LENGTH`. -/
theorem cookie_round_trip_counterexample :
    (gnutls_dtls_cookie_send 22 3 sample_hmac sample_key [10, 0, 0, 1] ⟨5, 7, 2⟩
        sample_push).2 =
      [[22, 254, 255, 0, 0, 0, 0, 0, 0, 0, 5, 0, 31, 3, 0, 0, 19, 0, 2, 0, 0, 0, 0, 0, 19,
        254, 255, 16, 21, 28, 35, 42, 49, 56, 63, 70, 77, 84, 91, 98, 105, 112, 119, 126]] ∧
    gnutls_dtls_cookie_verify sample_hmac sample_key [10, 0, 0, 1]
      [22, 254, 255, 0, 0, 0, 0, 0, 0, 0, 5, 0, 31, 3, 0, 0, 19, 0, 2, 0, 0, 0, 0, 0, 19,
        254, 255, 16, 21, 28, 35, 42, 49, 56, 63, 70, 77, 84, 91, 98, 105, 112, 119, 126]
      ⟨0, 0, 0⟩ = (.error GNUTLS_E_UNEXPECTED_PACKET_LENGTH, ⟨0, 0, 0⟩) := by
  decide

/-- C4 as amended: for a non-empty key (and a successful HMAC computation giving
a `C_HASH_SIZE`-byte digest), the datagram `d` pushed by
`gnutls_dtls_cookie_send` is itself rejected by `gnutls_dtls_cookie_verify`
with `GNUTLS_E_UNEXPECTED_PACKET_LENGTH`; a well-framed ClientHello that
carries the cookie bytes `d[28..43]` and repeats `d[10]` and `d[18]` at the same
offsets verifies under the same key and client data with the prestate
`record_seq = pre.record_seq mod 256`, `hsk_read_seq = pre.hsk_write_seq mod 256`,
`hsk_write_seq = 0`. -/
theorem cookie_echo_round_trip (GH HVR : Nat) (hmac : hmac_fn) (key_data : List Nat)
    (key_size : Nat) (client_data digest d msg : List Nat)
    (pre prestate : gnutls_dtls_prestate_st) (push_func : push_fn) (hkey : key_size ≠ 0)
    (hmac_ok : hmac key_data key_size client_data = .ok digest)
    (hlen : digest.length = C_HASH_SIZE)
    (hsend : (gnutls_dtls_cookie_send GH HVR hmac (some ⟨some key_data, key_size⟩) client_data
      pre push_func).2 = [d])
    (hsid : byte_at msg 59 ≤ 32) (hsize : 78 + byte_at msg 59 ≤ msg.length)
    (hclen : byte_at msg (60 + byte_at msg 59) = 16)
    (hcookie : (msg.drop (61 + byte_at msg 59)).take 16 = (d.drop 28).take 16)
    (hrec : byte_at msg 10 = byte_at d 10) (hhsk : byte_at msg 18 = byte_at d 18) :
    gnutls_dtls_cookie_verify hmac (some ⟨some key_data, key_size⟩) client_data d prestate =
      (.error GNUTLS_E_UNEXPECTED_PACKET_LENGTH, prestate) ∧
    gnutls_dtls_cookie_verify hmac (some ⟨some key_data, key_size⟩) client_data msg prestate =
      (.ok (), { record_seq := pre.record_seq % 256, hsk_read_seq := pre.hsk_write_seq % 256,
                 hsk_write_seq := 0 }) := by
  have h16 : 16 ≤ digest.length := by rw [hlen]; decide
  have hl16 : (digest.take 16).length = 16 := by rw [List.length_take]; omega
  rw [cookie_send_cascade GH HVR hmac key_data key_size client_data digest pre push_func
    hkey hmac_ok h16] at hsend
  have hd : d = hello_verify_datagram GH HVR pre (digest.take 16) := by
    simp only [List.cons.injEq, and_true] at hsend
    exact hsend.symm
  obtain ⟨f1, f2, f3, f4⟩ := hello_verify_datagram_fields GH HVR pre (digest.take 16) hl16
  rw [← hd] at f1 f2 f3 f4
  constructor
  · rw [cookie_verify_cascade hmac key_data key_size client_data d prestate hkey]
    have hb : bad_framing d := Or.inl (by omega)
    rw [if_pos hb]
  · rw [cookie_verify_cascade hmac key_data key_size client_data msg prestate hkey, hmac_ok]
    have hb : ¬ bad_framing msg := by
      unfold bad_framing
      omega
    rw [if_neg hb, if_neg (not_not_intro hclen)]
    simp only
    rw [if_pos (by rw [hcookie, f4]), hrec, hhsk, f2, f3]

/-- C4 as amended, at a concrete input: the reply for the prestate `(1, 0, 1)`
and a ClientHello echoing its cookie. -/
theorem cookie_echo_round_trip_witness :
    gnutls_dtls_cookie_verify sample_hmac sample_key [10, 0, 0, 1]
      (hello_verify_datagram 22 3 ⟨1, 0, 1⟩ sample_cookie) ⟨9, 9, 9⟩ =
      (.error GNUTLS_E_UNEXPECTED_PACKET_LENGTH, ⟨9, 9, 9⟩) ∧
    gnutls_dtls_cookie_verify sample_hmac sample_key [10, 0, 0, 1]
      (sample_client_hello sample_cookie) ⟨9, 9, 9⟩ = (.ok (), ⟨1, 1, 0⟩) :=
  cookie_echo_round_trip 22 3 sample_hmac [1, 2, 3] 3 [10, 0, 0, 1]
    (sample_cookie ++ [133, 140, 147, 154]) (hello_verify_datagram 22 3 ⟨1, 0, 1⟩ sample_cookie)
    (sample_client_hello sample_cookie) ⟨1, 0, 1⟩ ⟨9, 9, 9⟩ sample_push (by decide) (by decide)
    (by decide) (by decide) (by decide) (by decide) (by decide) (by decide) (by decide)
    (by decide)

/-- C5, the claim as stated fails: a 79-byte ClientHello that verifies still
verifies after its last byte is cut off. -/
theorem cookie_truncation_counterexample :
    (sample_client_hello sample_cookie).length = 79 ∧
    (gnutls_dtls_cookie_verify sample_hmac sample_key [10, 0, 0, 1]
      (sample_client_hello sample_cookie) ⟨0, 0, 0⟩).1 = .ok () ∧
    (gnutls_dtls_cookie_verify sample_hmac sample_key [10, 0, 0, 1]
      ((sample_client_hello sample_cookie).take (79 - 1)) ⟨0, 0, 0⟩).1 = .ok () := by
  decide

/-- C5 as amended: for a message on which `gnutls_dtls_cookie_verify` succeeds,
with `sid = msg[59]`, and `1 ≤ k ≤ msg_size`: when fewer than `78 + sid` bytes
remain after cutting `k` bytes the result is
`GNUTLS_E_UNEXPECTED_PACKET_LENGTH` and the prestate is not written; when at
least `78 + sid` bytes remain the call gives the same result as on the whole
message. -/
theorem cookie_verify_truncation (hmac : hmac_fn) (key : Option gnutls_datum_t)
    (client_data msg : List Nat) (prestate : gnutls_dtls_prestate_st) (k : Nat)
    (hok : (gnutls_dtls_cookie_verify hmac key client_data msg prestate).1 = .ok ())
    (hk1 : 1 ≤ k) (hk2 : k ≤ msg.length) :
    (msg.length - k < 78 + byte_at msg 59 →
      gnutls_dtls_cookie_verify hmac key client_data (msg.take (msg.length - k)) prestate =
        (.error GNUTLS_E_UNEXPECTED_PACKET_LENGTH, prestate)) ∧
    (78 + byte_at msg 59 ≤ msg.length - k →
      gnutls_dtls_cookie_verify hmac key client_data (msg.take (msg.length - k)) prestate =
        gnutls_dtls_cookie_verify hmac key client_data msg prestate) := by
  cases key with
  | none => cases hok
  | some kk =>
    obtain ⟨data, size⟩ := kk
    cases data with
    | none => cases hok
    | some key_data =>
      by_cases hkey : size = 0
      · subst hkey
        cases hok
      · cases hd : hmac key_data size client_data with
        | error e =>
          rw [cookie_verify_cascade hmac key_data size client_data msg prestate hkey, hd] at hok
          split_ifs at hok
        | ok digest =>
          obtain ⟨g0, g4, g5⟩ := (cookie_verify_ok_iff hmac key_data size client_data msg
            digest prestate hkey hd).mp hok
          have g0' := g0
          unfold bad_framing at g0'
          have hn : (msg.take (msg.length - k)).length = msg.length - k := by
            rw [List.length_take]
            omega
          constructor
          · intro hlt
            rw [cookie_verify_cascade hmac key_data size client_data _ prestate hkey]
            have hb : bad_framing (msg.take (msg.length - k)) := by
              unfold bad_framing
              rw [hn]
              by_cases c1 : msg.length - k < 60
              · exact Or.inl c1
              · rw [byte_at_take msg _ 59 (by omega)]
                by_cases c2 : msg.length - k < 61 + byte_at msg 59
                · exact Or.inr (Or.inr (Or.inl c2))
                · rw [byte_at_take msg _ (60 + byte_at msg 59) (by omega), g4]
                  exact Or.inr (Or.inr (Or.inr (by omega)))
            rw [if_pos hb]
          · intro hge
            rw [cookie_verify_cascade hmac key_data size client_data _ prestate hkey,
              cookie_verify_cascade hmac key_data size client_data msg prestate hkey]
            have e59 := byte_at_take msg (msg.length - k) 59 (by omega)
            have e10 := byte_at_take msg (msg.length - k) 10 (by omega)
            have e18 := byte_at_take msg (msg.length - k) 18 (by omega)
            have e60 := byte_at_take msg (msg.length - k) (60 + byte_at msg 59) (by omega)
            have ec := take_drop_take msg (msg.length - k) (61 + byte_at msg 59) (by omega)
            have hb1 : ¬ bad_framing (msg.take (msg.length - k)) := by
              unfold bad_framing
              rw [hn, e59, e60]
              omega
            rw [if_neg hb1, if_neg g0, e59, e60, e10, e18, ec]

/-- C5 as amended, at a concrete input: a verifying 79-byte ClientHello cut by
two bytes is malformed, cut by one byte it still verifies. -/
theorem cookie_verify_truncation_witness :
    gnutls_dtls_cookie_verify sample_hmac sample_key [10, 0, 0, 1]
      ((sample_client_hello sample_cookie).take
        ((sample_client_hello sample_cookie).length - 2)) ⟨9, 9, 9⟩ =
      (.error GNUTLS_E_UNEXPECTED_PACKET_LENGTH, ⟨9, 9, 9⟩) :=
  (cookie_verify_truncation sample_hmac sample_key [10, 0, 0, 1]
    (sample_client_hello sample_cookie) ⟨9, 9, 9⟩ 2 (by decide) (by decide) (by decide)).1
    (by decide)

/-- C6: a ClientHello carrying the 16-byte cookie that
`gnutls_dtls_cookie_send` issued under a key for the client data `cid1` is
rejected by `gnutls_dtls_cookie_verify` called with the same key and any client
data `cid2 ≠ cid1`, and the prestate is not written.  The HMAC is a parameter;
what is used of it is that the truncated MACs of `cid1` and `cid2` under this
key coincide only if `cid1` and `cid2` do. -/
theorem cookie_client_binding (GH HVR : Nat) (hmac : hmac_fn) (key_data : List Nat)
    (key_size : Nat) (cid1 cid2 digest1 d msg : List Nat)
    (pre prestate : gnutls_dtls_prestate_st) (push_func : push_fn) (hkey : key_size ≠ 0)
    (hmac1 : hmac key_data key_size cid1 = .ok digest1)
    (hlen : digest1.length = C_HASH_SIZE)
    (hsend : (gnutls_dtls_cookie_send GH HVR hmac (some ⟨some key_data, key_size⟩) cid1
      pre push_func).2 = [d])
    (hcookie : (msg.drop (61 + byte_at msg 59)).take 16 = (d.drop 28).take 16)
    (hne : cid2 ≠ cid1)
    (hmac_sep : ∀ digest2, hmac key_data key_size cid2 = .ok digest2 →
      digest2.take 16 = digest1.take 16 → cid2 = cid1) :
    (gnutls_dtls_cookie_verify hmac (some ⟨some key_data, key_size⟩) cid2 msg prestate).1 ≠
      .ok () ∧
    (gnutls_dtls_cookie_verify hmac (some ⟨some key_data, key_size⟩) cid2 msg prestate).2 =
      prestate := by
  have h16 : 16 ≤ digest1.length := by rw [hlen]; decide
  have hl16 : (digest1.take 16).length = 16 := by rw [List.length_take]; omega
  rw [cookie_send_cascade GH HVR hmac key_data key_size cid1 digest1 pre push_func
    hkey hmac1 h16] at hsend
  have hd : d = hello_verify_datagram GH HVR pre (digest1.take 16) := by
    simp only [List.cons.injEq, and_true] at hsend
    exact hsend.symm
  obtain ⟨_, _, _, f4⟩ := hello_verify_datagram_fields GH HVR pre (digest1.take 16) hl16
  rw [← hd] at f4
  rw [cookie_verify_cascade hmac key_data key_size cid2 msg prestate hkey]
  by_cases hb : bad_framing msg
  · rw [if_pos hb]
    exact ⟨fun h => (by cases h), rfl⟩
  · rw [if_neg hb]
    by_cases hc : byte_at msg (60 + byte_at msg 59) = 16
    · rw [if_neg (not_not_intro hc)]
      cases h2 : hmac key_data key_size cid2 with
      | error e => exact ⟨fun h => (by cases h), rfl⟩
      | ok digest2 =>
        have hm : ¬ List.take 16 digest2 = List.take 16 (List.drop (61 + byte_at msg 59) msg) := by
          intro hm
          rw [hcookie, f4] at hm
          exact hne (hmac_sep digest2 h2 hm)
        simp only [if_neg hm]
        exact ⟨fun h => (by cases h), trivial⟩
    · rw [if_pos hc]
      exact ⟨fun h => (by cases h), rfl⟩

/-- C6 at a concrete input: the cookie issued for `[10, 0, 0, 1]` is refused for
`[10, 0, 0, 2]`. -/
theorem cookie_client_binding_witness :
    (gnutls_dtls_cookie_verify sample_hmac sample_key [10, 0, 0, 2]
      (sample_client_hello sample_cookie) ⟨9, 9, 9⟩).1 ≠ .ok () ∧
    (gnutls_dtls_cookie_verify sample_hmac sample_key [10, 0, 0, 2]
      (sample_client_hello sample_cookie) ⟨9, 9, 9⟩).2 = ⟨9, 9, 9⟩ :=
  cookie_client_binding 22 3 sample_hmac [1, 2, 3] 3 [10, 0, 0, 1] [10, 0, 0, 2]
    (sample_cookie ++ [133, 140, 147, 154]) (hello_verify_datagram 22 3 ⟨1, 0, 1⟩ sample_cookie)
    (sample_client_hello sample_cookie) ⟨1, 0, 1⟩ ⟨9, 9, 9⟩ sample_push (by decide) (by decide)
    (by decide) (by decide) (by decide) (by decide)
    (fun digest2 h1 h2 => by
      cases h1
      exact absurd h2 (by decide))

/-! ## Theorems: prestate, timers, MTU -/

/-- `gnutls_dtls_cookie_verify` leaves `hsk_write_seq = 0` in the prestate when
it succeeds. -/
theorem cookie_verify_hsk_write_seq (hmac : hmac_fn) (key : Option gnutls_datum_t)
    (client_data msg : List Nat) (prestate : gnutls_dtls_prestate_st)
    (hok : (gnutls_dtls_cookie_verify hmac key client_data msg prestate).1 = .ok ()) :
    (gnutls_dtls_cookie_verify hmac key client_data msg prestate).2.hsk_write_seq = 0 := by
  cases key with
  | none => cases hok
  | some kk =>
    obtain ⟨data, size⟩ := kk
    cases data with
    | none => cases hok
    | some key_data =>
      by_cases hkey : size = 0
      · subst hkey
        cases hok
      · rw [cookie_verify_cascade hmac key_data size client_data msg prestate hkey] at hok ⊢
        split_ifs at hok ⊢
        cases hd : hmac key_data size client_data with
        | error e =>
          rw [hd] at hok
          cases hok
        | ok digest =>
          rw [hd] at hok
          simp only at hok ⊢
          split_ifs at hok ⊢
          rfl

/-- C11: with a prestate and an available current write epoch (whose sequence
number has its eight bytes) `gnutls_dtls_prestate_set` sets `hsk_read_seq` to
`prestate.hsk_read_seq`, `hsk_write_seq` to `prestate.hsk_write_seq + 1` and
byte 7 of the write sequence number to the low byte of `prestate.record_seq`
(to `prestate.record_seq` itself when that is a byte), and leaves the other
seven bytes unchanged; installing the prestate of a successful
`gnutls_dtls_cookie_verify` gives `hsk_write_seq = 1`; with a `NULL` prestate
the session is unchanged. -/
theorem prestate_set_installs (session : session_st) (prestate : gnutls_dtls_prestate_st)
    (sequence_number : uint64) (hepoch : session.write_sequence_number = some sequence_number)
    (hlen : sequence_number.i.length = 8) :
    (gnutls_dtls_prestate_set session (some prestate)).dtls.hsk_read_seq =
      prestate.hsk_read_seq ∧
    (gnutls_dtls_prestate_set session (some prestate)).dtls.hsk_write_seq =
      prestate.hsk_write_seq + 1 ∧
    (∃ sn, (gnutls_dtls_prestate_set session (some prestate)).write_sequence_number = some sn ∧
      sn.i.length = 8 ∧
      byte_at sn.i 7 = prestate.record_seq % 256 ∧
      (prestate.record_seq < 256 → byte_at sn.i 7 = prestate.record_seq) ∧
      ∀ k, k ≠ 7 → byte_at sn.i k = byte_at sequence_number.i k) ∧
    (∀ (hmac : hmac_fn) (key : Option gnutls_datum_t) (client_data msg : List Nat)
      (pre : gnutls_dtls_prestate_st),
      (gnutls_dtls_cookie_verify hmac key client_data msg pre).1 = .ok () →
      (gnutls_dtls_prestate_set session
        (some (gnutls_dtls_cookie_verify hmac key client_data msg pre).2)).dtls.hsk_write_seq
        = 1) ∧
    gnutls_dtls_prestate_set session none = session := by
  have h7 : 7 < sequence_number.i.length := by omega
  have hb : ∀ (v k : Nat), byte_at (sequence_number.i.set 7 v) k =
      if 7 = k then v else byte_at sequence_number.i k := by
    intro v k
    exact slot_set sequence_number.i 7 k v h7
  refine ⟨?_, ?_, ?_, ?_, rfl⟩
  · simp only [gnutls_dtls_prestate_set, hepoch]
  · simp only [gnutls_dtls_prestate_set, hepoch]
  · refine ⟨{ i := sequence_number.i.set 7 (prestate.record_seq % 256) }, ?_, ?_, ?_, ?_, ?_⟩
    · simp only [gnutls_dtls_prestate_set, hepoch]
    · simp only [List.length_set, hlen]
    · rw [hb, if_pos rfl]
    · intro hlt
      rw [hb, if_pos rfl]
      exact Nat.mod_eq_of_lt hlt
    · intro k hk
      rw [hb, if_neg (fun h => hk h.symm)]
  · intro hmac key client_data msg pre hok
    simp only [gnutls_dtls_prestate_set, hepoch]
    rw [cookie_verify_hsk_write_seq hmac key client_data msg pre hok]

/-- C11 at a concrete input: the prestate `(5, 3, 0)` installed into a fresh
session. -/
theorem prestate_set_installs_witness :
    (gnutls_dtls_prestate_set (sample_session []) (some ⟨5, 3, 0⟩)).dtls.hsk_read_seq = 3 ∧
    (gnutls_dtls_prestate_set (sample_session []) (some ⟨5, 3, 0⟩)).dtls.hsk_write_seq = 0 + 1 :=
  have h := prestate_set_installs (sample_session []) ⟨5, 3, 0⟩ { i := [0, 0, 0, 0, 0, 0, 0, 0] }
    rfl rfl
  ⟨h.1, h.2.1⟩

/-- C14: for a message of type ChangeCipherSpec, whatever the MTU and the
scratch buffer, `transmit_message` performs exactly one send, at the message's
epoch and with handshake type argument `-1`, of the bytes of the message as
they are (no fragment header), and returns the result of that send. -/
theorem ccs_sent_verbatim (env : dtls_env) (fuel : Nat) (session : session_st)
    (bufel : mbuffer_st) (buf : Option (List Nat))
    (hccs : bufel.type = env.GNUTLS_CHANGE_CIPHER_SPEC) :
    transmit_message env fuel session bufel buf =
      some (env._gnutls_send_int session.calls bufel.type (-1) bufel.epoch bufel.uhead,
        { session with calls :=
          session.calls ++ [io_event.send_int bufel.type (-1) bufel.epoch bufel.uhead] },
        buf) := by
  simp only [transmit_message, hccs, if_true, log_call]

/-- C14 at a concrete input: the ChangeCipherSpec message with payload `1`. -/
theorem ccs_sent_verbatim_witness :
    transmit_message sample_env 0 (sample_session [sample_ccs]) sample_ccs none =
      some (.ok 1, { sample_session [sample_ccs] with
        calls := [io_event.send_int 20 (-1) 0 [1]] }, none) :=
  ccs_sent_verbatim sample_env 0 (sample_session [sample_ccs]) sample_ccs none rfl

/-- C17, evaluated at the failing input: on a blocking session
`gnutls_dtls_set_timeouts(session, 0, 60000)` stores the two values and leaves
`blocking` set. -/
theorem set_timeouts_keeps_blocking :
    (sample_session []).dtls.blocking = true ∧
    (gnutls_dtls_set_timeouts (sample_session []) 0 60000).dtls.retrans_timeout_ms = 0 ∧
    (gnutls_dtls_set_timeouts (sample_session []) 0 60000).dtls.total_timeout_ms = 60000 ∧
    (gnutls_dtls_set_timeouts (sample_session []) 0 60000).dtls.blocking = true := by
  decide

/-- C18: with `elapsed` the milliseconds from `last_retransmit` to the time
`gettime` reports, `gnutls_dtls_get_timeout` returns
`max(0, actual_retrans_timeout_ms - elapsed)`: it is 0 exactly when
`elapsed ≥ actual_retrans_timeout_ms` and never exceeds
`actual_retrans_timeout_ms`.  The timer is an `unsigned int`. -/
theorem get_timeout_value (env : dtls_env) (session : session_st)
    (h32 : session.dtls.actual_retrans_timeout_ms < 4294967296) :
    ((gnutls_dtls_get_timeout env session).1 : Int) =
      max 0 ((session.dtls.actual_retrans_timeout_ms : Int) -
        (env.timespec_sub_ms (env.gettime session.calls) session.dtls.last_retransmit : Int)) ∧
    ((gnutls_dtls_get_timeout env session).1 = 0 ↔
      env.timespec_sub_ms (env.gettime session.calls) session.dtls.last_retransmit ≥
        session.dtls.actual_retrans_timeout_ms) ∧
    (gnutls_dtls_get_timeout env session).1 ≤ session.dtls.actual_retrans_timeout_ms := by
  simp only [gnutls_dtls_get_timeout, log_call]
  by_cases h : env.timespec_sub_ms (env.gettime session.calls) session.dtls.last_retransmit ≥
      session.dtls.actual_retrans_timeout_ms
  · rw [if_pos h]
    refine ⟨?_, ?_, ?_⟩
    · simp only [Nat.cast_zero]
      omega
    · exact ⟨fun _ => h, fun _ => rfl⟩
    · exact Nat.zero_le _
  · rw [if_neg h]
    have hs : sub_u32 session.dtls.actual_retrans_timeout_ms
        (env.timespec_sub_ms (env.gettime session.calls) session.dtls.last_retransmit) =
        session.dtls.actual_retrans_timeout_ms -
        env.timespec_sub_ms (env.gettime session.calls) session.dtls.last_retransmit := by
      unfold sub_u32
      omega
    simp only [hs]
    refine ⟨?_, ?_, ?_⟩
    · omega
    · constructor
      · intro h0
        omega
      · intro h1
        exact absurd h1 h
    · omega

/-- C18 at a concrete input: 4 ms after the last retransmission a timer of
1000 ms has 996 ms left. -/
theorem get_timeout_value_witness :
    (gnutls_dtls_get_timeout sample_env
      { sample_session [] with calls := List.replicate 4 io_event.gettime }).1 = 996 ∧
    (gnutls_dtls_get_timeout sample_env
      { sample_session [] with calls := List.replicate 4 io_event.gettime }).1 ≤ 1000 :=
  ⟨by decide, (get_timeout_value sample_env
    { sample_session [] with calls := List.replicate 4 io_event.gettime } (by decide)).2.2⟩

/-! ## Theorems: flight transmitter -/

/-- The fragmentation loop only adds sends to the calls on record. -/
theorem transmit_fragments_calls (env : dtls_env) (bufel : mbuffer_st) (mtu : Nat) :
    ∀ (fuel offset : Nat) (mtu_data : List Nat) (ret : ret_t) (calls : List io_event)
      (r : ret_t) (calls2 : List io_event) (b : List Nat),
      transmit_fragments env bufel mtu fuel offset mtu_data ret calls = some (r, calls2, b) →
      ∃ evs, calls2 = calls ++ evs ∧ ∀ e ∈ evs, is_send_int e = true := by
  intro fuel
  induction fuel with
  | zero =>
    intro offset mtu_data ret calls r calls2 b h
    simp only [transmit_fragments] at h
    cases h
  | succ n ih =>
    intro offset mtu_data ret calls r calls2 b h
    simp only [transmit_fragments] at h
    generalize (if (offset + mtu) % 4294967296 > bufel.udata.length % 4294967296
      then bufel.udata.length % 4294967296 - offset else mtu) = frag_len at h
    split_ifs at h with h1 h2
    · simp only [Option.some.injEq, Prod.mk.injEq] at h
      refine ⟨[_], h.2.1.symm, ?_⟩
      intro e he
      simp only [List.mem_singleton] at he
      rw [he]
      rfl
    · obtain ⟨evs, h3, h4⟩ := ih _ _ _ _ _ _ _ h
      rw [List.append_assoc] at h3
      refine ⟨_, h3, ?_⟩
      intro e he
      rcases List.mem_append.mp he with he | he
      · simp only [List.mem_singleton] at he
        rw [he]
        rfl
      · exact h4 e he
    · simp only [Option.some.injEq, Prod.mk.injEq] at h
      exact ⟨[], by rw [List.append_nil]; exact h.2.1.symm, fun e he => by cases he⟩

/-- `transmit_message` leaves the DTLS sub-state, the send buffer and the write
sequence number as they are and only adds sends to the calls on record. -/
theorem transmit_message_session (env : dtls_env) (fuel : Nat) (session : session_st)
    (bufel : mbuffer_st) (buf : Option (List Nat)) (r : ret_t) (s2 : session_st)
    (b2 : Option (List Nat))
    (h : transmit_message env fuel session bufel buf = some (r, s2, b2)) :
    s2.dtls = session.dtls ∧ s2.handshake_send_buffer = session.handshake_send_buffer ∧
    s2.write_sequence_number = session.write_sequence_number ∧
    ∃ evs, s2.calls = session.calls ++ evs ∧ ∀ e ∈ evs, is_send_int e = true := by
  have key : ∀ (mtu_data : List Nat),
      (match transmit_fragments env bufel
          (sub_u32 (gnutls_dtls_get_data_mtu env session) DTLS_HANDSHAKE_HEADER_SIZE) fuel 0
          (_gnutls_write_uint16 bufel.handshake_sequence
            (_gnutls_write_uint24 (bufel.udata.length % 4294967296)
              (mtu_data.set 0 (bufel.htype % 256)) 1) 4)
          (Except.ok 0) session.calls with
        | none => none
        | some (ret, calls, mtu_data) =>
          some (ret, { session with calls := calls }, some mtu_data)) = some (r, s2, b2) →
      s2.dtls = session.dtls ∧ s2.handshake_send_buffer = session.handshake_send_buffer ∧
      s2.write_sequence_number = session.write_sequence_number ∧
      ∃ evs, s2.calls = session.calls ++ evs ∧ ∀ e ∈ evs, is_send_int e = true := by
    intro mtu_data hk
    split at hk
    · cases hk
    · rename_i hf
      simp only [Option.some.injEq, Prod.mk.injEq] at hk
      obtain ⟨_, h2, _⟩ := hk
      subst h2
      obtain ⟨evs, h3, h4⟩ := transmit_fragments_calls env bufel _ _ _ _ _ _ _ _ _ hf
      exact ⟨rfl, rfl, rfl, evs, h3, h4⟩
  unfold transmit_message at h
  simp only at h
  by_cases hc : bufel.type = env.GNUTLS_CHANGE_CIPHER_SPEC
  · rw [if_pos hc] at h
    simp only [Option.some.injEq, Prod.mk.injEq] at h
    obtain ⟨_, h2, _⟩ := h
    subst h2
    refine ⟨rfl, rfl, rfl, [_], rfl, ?_⟩
    intro e he
    simp only [List.mem_singleton] at he
    rw [he]
    rfl
  · rw [if_neg hc] at h
    cases buf with
    | some b0 => exact key b0 h
    | none =>
      by_cases hm : env.gnutls_malloc session.calls
          ((sub_u32 (gnutls_dtls_get_data_mtu env session) DTLS_HANDSHAKE_HEADER_SIZE +
            DTLS_HANDSHAKE_HEADER_SIZE) % 4294967296) = true
      · simp only [hm, if_true] at h
        exact key _ h
      · simp only [hm] at h
        simp only [Bool.false_eq_true, if_false, Option.some.injEq, Prod.mk.injEq] at h
        obtain ⟨_, h2, _⟩ := h
        subst h2
        exact ⟨rfl, rfl, rfl, [], (List.append_nil _).symm, fun e he => by cases he⟩

/-- The loop over the send buffer leaves the DTLS sub-state, the send buffer
and the write sequence number as they are, only adds sends to the calls on
record, and when no send failed `last_type` is the handshake type of the last
message (or as before for an empty buffer). -/
theorem transmit_flight_session (env : dtls_env) (fuel : Nat) :
    ∀ (msgs : List mbuffer_st) (session : session_st) (buf : Option (List Nat))
      (last_type : Nat) (r : ret_t) (s2 : session_st) (b2 : Option (List Nat)) (lt : Nat),
      transmit_flight env fuel msgs session buf last_type = some (r, s2, b2, lt) →
      s2.dtls = session.dtls ∧ s2.handshake_send_buffer = session.handshake_send_buffer ∧
      s2.write_sequence_number = session.write_sequence_number ∧
      (∃ evs, s2.calls = session.calls ++ evs ∧ ∀ e ∈ evs, is_send_int e = true) ∧
      (ret_neg r = false → lt = ((msgs.getLast?).map (·.htype)).getD last_type) := by
  intro msgs
  induction msgs with
  | nil =>
    intro session buf last_type r s2 b2 lt h
    simp only [transmit_flight, Option.some.injEq, Prod.mk.injEq] at h
    obtain ⟨_, h2, _, h4⟩ := h
    subst h2 h4
    exact ⟨rfl, rfl, rfl, ⟨[], (List.append_nil _).symm, fun e he => by cases he⟩, fun _ => rfl⟩
  | cons cur rest ih =>
    intro session buf last_type r s2 b2 lt h
    simp only [transmit_flight] at h
    split at h
    · cases h
    · rename_i ret s1 b1 hm
      obtain ⟨m1, m2, m3, evs1, m4, m5⟩ := transmit_message_session env fuel session cur buf
        ret s1 b1 hm
      split_ifs at h with hn
      · simp only [Option.some.injEq, Prod.mk.injEq] at h
        obtain ⟨h1, h2, _, _⟩ := h
        subst h1 h2
        refine ⟨m1, m2, m3, ⟨evs1, m4, m5⟩, ?_⟩
        intro hr
        rw [hn] at hr
        cases hr
      · obtain ⟨f1, f2, f3, ⟨evs2, f4, f5⟩, f6⟩ := ih s1 b1 cur.htype r s2 b2 lt h
        refine ⟨f1.trans m1, f2.trans m2, f3.trans m3, ⟨evs1 ++ evs2, ?_, ?_⟩, ?_⟩
        · rw [f4, m4, List.append_assoc]
        · intro e he
          rcases List.mem_append.mp he with he | he
          · exact m5 e he
          · exact f5 e he
        · intro hr
          rw [f6 hr]
          cases rest with
          | nil => rfl
          | cons x xs => rfl

/-- `drop_usage_count` leaves the DTLS sub-state and the send buffer as they
are and only adds reference count decrements to the calls on record. -/
theorem drop_usage_count_session (env : dtls_env) :
    ∀ (msgs : List mbuffer_st) (session : session_st),
      (drop_usage_count env session msgs).2.dtls = session.dtls ∧
      (drop_usage_count env session msgs).2.handshake_send_buffer =
        session.handshake_send_buffer ∧
      ∃ evs, (drop_usage_count env session msgs).2.calls = session.calls ++ evs ∧
        ∀ e ∈ evs, is_refcount_dec e = true := by
  intro msgs
  induction msgs with
  | nil =>
    intro session
    exact ⟨rfl, rfl, [], (List.append_nil _).symm, fun e he => by cases he⟩
  | cons cur rest ih =>
    intro session
    simp only [drop_usage_count]
    split_ifs with hn
    · refine ⟨rfl, rfl, [_], rfl, ?_⟩
      intro e he
      simp only [List.mem_singleton] at he
      rw [he]
      rfl
    · obtain ⟨f1, f2, evs, f3, f4⟩ := ih (log_call session (io_event.epoch_refcount_dec cur.epoch))
      simp only [log_call, List.append_assoc] at f3
      refine ⟨f1, f2, _, f3, ?_⟩
      intro e he
      rcases List.mem_append.mp he with he | he
      · simp only [List.mem_singleton] at he
        rw [he]
        rfl
      · exact f4 e he

/-- A re-send in `_dtls_transmit` (the session has `flight_init` set and the
timer has expired) that fails on no message applies `UPDATE_TIMER` to the
timer. -/
theorem send_phase_resend_timer (env : dtls_env) (fuel : Nat) (session s2 : session_st)
    (buf b2 : Option (List Nat)) (diff timeout last_type t2 lt2 : Nat)
    (hinit : session.dtls.flight_init = true)
    (hdue : diff ≥ session.dtls.actual_retrans_timeout_ms)
    (h : dtls_send_phase env fuel session buf diff timeout last_type =
      some (.inr (s2, b2, t2, lt2))) :
    s2.dtls.actual_retrans_timeout_ms =
      (session.dtls.actual_retrans_timeout_ms * 2 % 4294967296) % env.MAX_DTLS_TIMEOUT := by
  unfold dtls_send_phase at h
  rw [if_pos (Or.inr hdue)] at h
  split at h
  · cases h
  · rename_i ret s1 b1 lt1 hf
    obtain ⟨f1, _, _, _, _⟩ := transmit_flight_session env fuel _ _ _ _ _ _ _ _ hf
    have hfi : s1.dtls.flight_init = true := by rw [f1]; exact hinit
    by_cases hn : ret_neg ret = true
    · simp only [hn, if_true] at h
      cases h
    · simp only [hn, log_call, hfi, Bool.true_eq_false, Bool.false_eq_true, if_false,
        Option.some.injEq, Sum.inr.injEq, Prod.mk.injEq] at h
      obtain ⟨h1, _⟩ := h
      subst h1
      simp only [UPDATE_TIMER, f1]

/-- C15 as amended: `UPDATE_TIMER` replaces the timer by
`((2 * old) mod 2^32) mod MAX_DTLS_TIMEOUT`, the double being taken as an
`unsigned int`; this is `(2 * old) mod MAX_DTLS_TIMEOUT` whenever the doubling
stays below `2^32`; it is what a re-send of an already sent flight in
`_dtls_transmit` does to the timer; after any number of retransmissions (one
at least) the timer is below `MAX_DTLS_TIMEOUT`; from 1000 the first
retransmission gives 2000 when `MAX_DTLS_TIMEOUT` is above that. -/
theorem retransmit_backoff_step (env : dtls_env) (session : session_st)
    (hmax : 0 < env.MAX_DTLS_TIMEOUT) :
    (UPDATE_TIMER env session).dtls.actual_retrans_timeout_ms =
      (session.dtls.actual_retrans_timeout_ms * 2 % 4294967296) % env.MAX_DTLS_TIMEOUT ∧
    (2 * session.dtls.actual_retrans_timeout_ms < 4294967296 →
      (UPDATE_TIMER env session).dtls.actual_retrans_timeout_ms =
        (2 * session.dtls.actual_retrans_timeout_ms) % env.MAX_DTLS_TIMEOUT) ∧
    (∀ n, 1 ≤ n →
      ((UPDATE_TIMER env)^[n] session).dtls.actual_retrans_timeout_ms < env.MAX_DTLS_TIMEOUT) ∧
    (session.dtls.actual_retrans_timeout_ms = 1000 → 2000 < env.MAX_DTLS_TIMEOUT →
      (UPDATE_TIMER env session).dtls.actual_retrans_timeout_ms = 2000) ∧
    (∀ (fuel : Nat) (s2 : session_st) (buf b2 : Option (List Nat))
      (diff timeout last_type t2 lt2 : Nat),
      session.dtls.flight_init = true →
      diff ≥ session.dtls.actual_retrans_timeout_ms →
      dtls_send_phase env fuel session buf diff timeout last_type =
        some (.inr (s2, b2, t2, lt2)) →
      s2.dtls.actual_retrans_timeout_ms =
        (session.dtls.actual_retrans_timeout_ms * 2 % 4294967296) % env.MAX_DTLS_TIMEOUT) := by
  refine ⟨rfl, ?_, ?_, ?_, ?_⟩
  · intro h
    simp only [UPDATE_TIMER]
    rw [Nat.mul_comm, Nat.mod_eq_of_lt h]
  · intro n hn
    obtain ⟨k, rfl⟩ : ∃ k, n = k + 1 := ⟨n - 1, by omega⟩
    rw [Function.iterate_succ_apply']
    simp only [UPDATE_TIMER]
    exact Nat.mod_lt _ hmax
  · intro h1 h2
    simp only [UPDATE_TIMER, h1]
    exact Nat.mod_eq_of_lt h2
  · intro fuel s2 buf b2 diff timeout last_type t2 lt2 hinit hdue h
    exact send_phase_resend_timer env fuel session s2 buf b2 diff timeout last_type t2 lt2
      hinit hdue h

/-- C15 at a concrete input: with `MAX_DTLS_TIMEOUT = 60000` the timer 1000
becomes 2000. -/
theorem retransmit_backoff_step_witness :
    (UPDATE_TIMER sample_env (sample_session [])).dtls.actual_retrans_timeout_ms = 2000 :=
  (retransmit_backoff_step sample_env (sample_session []) (by decide)).2.2.2.1 rfl (by decide)

/-- C16, the claim as stated fails: with `MAX_DTLS_TIMEOUT = 60000` a
retransmission turns the timer 32000 into 4000, not into 60000, and the timer
30000 into 0. -/
theorem backoff_cap_counterexample :
    (UPDATE_TIMER sample_env { sample_session [] with
      dtls := { sample_dtls with actual_retrans_timeout_ms := 32000 } }
      ).dtls.actual_retrans_timeout_ms = 4000 ∧
    (UPDATE_TIMER sample_env { sample_session [] with
      dtls := { sample_dtls with actual_retrans_timeout_ms := 30000 } }
      ).dtls.actual_retrans_timeout_ms = 0 := by
  decide

/-- C16 as amended: a retransmission replaces the timer by its double (taken
as an `unsigned int`) modulo `MAX_DTLS_TIMEOUT`; the new value is below
`MAX_DTLS_TIMEOUT`, and as long as the double of the old value is below
`MAX_DTLS_TIMEOUT` it is exactly that double, so the timer does not decrease
and does not become 0 unless it was 0. -/
theorem backoff_doubles_below_ceiling (env : dtls_env) (session : session_st)
    (hmax : 0 < env.MAX_DTLS_TIMEOUT) (hmax32 : env.MAX_DTLS_TIMEOUT ≤ 4294967296) :
    (UPDATE_TIMER env session).dtls.actual_retrans_timeout_ms =
      (session.dtls.actual_retrans_timeout_ms * 2 % 4294967296) % env.MAX_DTLS_TIMEOUT ∧
    (UPDATE_TIMER env session).dtls.actual_retrans_timeout_ms < env.MAX_DTLS_TIMEOUT ∧
    (2 * session.dtls.actual_retrans_timeout_ms < env.MAX_DTLS_TIMEOUT →
      (UPDATE_TIMER env session).dtls.actual_retrans_timeout_ms =
        2 * session.dtls.actual_retrans_timeout_ms ∧
      session.dtls.actual_retrans_timeout_ms ≤
        (UPDATE_TIMER env session).dtls.actual_retrans_timeout_ms ∧
      (session.dtls.actual_retrans_timeout_ms ≠ 0 →
        (UPDATE_TIMER env session).dtls.actual_retrans_timeout_ms ≠ 0)) := by
  refine ⟨rfl, ?_, ?_⟩
  · simp only [UPDATE_TIMER]
    exact Nat.mod_lt _ hmax
  · intro h
    have e : (UPDATE_TIMER env session).dtls.actual_retrans_timeout_ms =
        2 * session.dtls.actual_retrans_timeout_ms := by
      simp only [UPDATE_TIMER]
      rw [Nat.mul_comm, Nat.mod_eq_of_lt (Nat.lt_of_lt_of_le h hmax32), Nat.mod_eq_of_lt h]
    rw [e]
    omega

/-- C16 as amended, at a concrete input: with `MAX_DTLS_TIMEOUT = 60000` the
timer 1000 becomes 2000. -/
theorem backoff_doubles_below_ceiling_witness :
    (UPDATE_TIMER sample_env (sample_session [])).dtls.actual_retrans_timeout_ms =
      2 * 1000 :=
  ((backoff_doubles_below_ceiling sample_env (sample_session []) (by decide) (by decide)).2.2
    (by decide)).1

/-- The label `end_flight` returns the given value, resets `flight_init`, empties
the send buffer and adds only reference count decrements to the calls on
record. -/
theorem dtls_end_flight_session (env : dtls_env) (session : session_st) (ret : ret_t) :
    (dtls_end_flight env session ret).1 = ret ∧
    (dtls_end_flight env session ret).2.dtls = { session.dtls with flight_init := false } ∧
    (dtls_end_flight env session ret).2.handshake_send_buffer = [] ∧
    ∃ evs, (dtls_end_flight env session ret).2.calls = session.calls ++ evs ∧
      ∀ e ∈ evs, is_refcount_dec e = true := by
  obtain ⟨d1, _, d3⟩ := drop_usage_count_session env session.handshake_send_buffer
    { session with dtls := { session.dtls with flight_init := false } }
  exact ⟨rfl, d1, rfl, d3⟩

/-- C19: when `_dtls_transmit` reaches its send loop (`flight_init = 0`, or
blocking mode) and the time from `handshake_start_time` to now is at least
`total_timeout_ms`, it returns `GNUTLS_E_TIMEDOUT`; on return `flight_init` is 0
and the send buffer is empty, and no send is among the calls it made. -/
theorem global_timeout (env : dtls_env) (fuel : Nat) (session : session_st)
    (hreach : session.dtls.flight_init = false ∨ session.dtls.blocking = true)
    (hover : env.timespec_sub_ms (env.gettime session.calls)
      session.dtls.handshake_start_time ≥ session.dtls.total_timeout_ms) :
    ∃ s2 evs, _dtls_transmit env (fuel + 1) session = some (.error GNUTLS_E_TIMEDOUT, s2) ∧
      s2.dtls.flight_init = false ∧ s2.handshake_send_buffer = [] ∧
      s2.calls = session.calls ++ evs ∧ ∀ e ∈ evs, is_send_int e = false := by
  have hfirst : ¬ ((log_call session io_event.gettime).dtls.flight_init = true ∧
      (log_call session io_event.gettime).dtls.blocking = false) := by
    simp only [log_call]
    rintro ⟨h1, h2⟩
    rcases hreach with h | h
    · rw [h] at h1
      cases h1
    · rw [h] at h2
      cases h2
  obtain ⟨_, d1, d2, evs, d3, d4⟩ := dtls_end_flight_session env
    (log_call session io_event.gettime) (.error GNUTLS_E_TIMEDOUT)
  have hrun : _dtls_transmit env (fuel + 1) session =
      some (dtls_end_flight env (log_call session io_event.gettime)
        (.error GNUTLS_E_TIMEDOUT)) := by
    unfold _dtls_transmit
    simp only
    rw [if_neg hfirst]
    unfold dtls_transmit_loop
    simp only [log_call] at hover ⊢
    rw [if_pos hover]
  refine ⟨(dtls_end_flight env (log_call session io_event.gettime)
    (.error GNUTLS_E_TIMEDOUT)).2, [io_event.gettime] ++ evs, hrun, ?_, d2, ?_, ?_⟩
  · rw [d1]
  · rw [d3]
    simp only [log_call, List.append_assoc]
  · intro e he
    rcases List.mem_append.mp he with he | he
    · simp only [List.mem_singleton] at he
      rw [he]
      rfl
    · have := d4 e he
      cases e <;> simp_all [is_refcount_dec, is_send_int]

/-- C19 at a concrete input: a blocking session with a total budget of 0 ms,
on which `_dtls_transmit` is called with two messages buffered. -/
theorem global_timeout_witness :
    ∃ s2 evs, _dtls_transmit sample_env 1
      { sample_session [sample_message 1 0 5, sample_message 2 1 5] with
        dtls := { sample_dtls with total_timeout_ms := 0 } } =
        some (.error GNUTLS_E_TIMEDOUT, s2) ∧
      s2.dtls.flight_init = false ∧ s2.handshake_send_buffer = [] ∧
      s2.calls = [] ++ evs ∧ ∀ e ∈ evs, is_send_int e = false :=
  global_timeout sample_env 0
    { sample_session [sample_message 1 0 5, sample_message 2 1 5] with
      dtls := { sample_dtls with total_timeout_ms := 0 } } (Or.inl rfl) (by decide)

/-- A buffer of at least twelve bytes is twelve bytes followed by the rest. -/
theorem scratch_split (b : List Nat) (h : 12 ≤ b.length) :
    ∃ x0 x1 x2 x3 x4 x5 x6 x7 x8 x9 x10 x11 rest,
      b = x0 :: x1 :: x2 :: x3 :: x4 :: x5 :: x6 :: x7 :: x8 :: x9 :: x10 :: x11 :: rest := by
  match b, h with
  | x0 :: x1 :: x2 :: x3 :: x4 :: x5 :: x6 :: x7 :: x8 :: x9 :: x10 :: x11 :: rest, _ =>
    exact ⟨x0, x1, x2, x3, x4, x5, x6, x7, x8, x9, x10, x11, rest, rfl⟩
  | [], h => simp at h
  | [_], h => simp at h
  | [_, _], h => simp at h
  | [_, _, _], h => simp at h
  | [_, _, _, _], h => simp at h
  | [_, _, _, _, _], h => simp at h
  | [_, _, _, _, _, _], h => simp at h
  | [_, _, _, _, _, _, _], h => simp at h
  | [_, _, _, _, _, _, _, _], h => simp at h
  | [_, _, _, _, _, _, _, _, _], h => simp at h
  | [_, _, _, _, _, _, _, _, _, _], h => simp at h
  | [_, _, _, _, _, _, _, _, _, _, _], h => simp at h

/-- One pass of the fragmentation loop over the scratch buffer: the offset and
the length are written behind the six fixed header bytes, the payload slice is
copied behind the header, and the first `12 + frag_len` bytes are the record of
the fragment. -/
theorem fragment_buffer_step (data : List Nat) (offset frag_len : Nat)
    (h0 h1 h2 h3 h4 h5 x6 x7 x8 x9 x10 x11 : Nat) (rest : List Nat)
    (hfl : frag_len ≤ rest.length) (hoff : offset + frag_len ≤ data.length) :
    memcpy_at (_gnutls_write_uint24 frag_len (_gnutls_write_uint24 offset
        (h0 :: h1 :: h2 :: h3 :: h4 :: h5 :: x6 :: x7 :: x8 :: x9 :: x10 :: x11 :: rest) 6) 9)
        DTLS_HANDSHAKE_HEADER_SIZE (data.drop offset) frag_len =
      h0 :: h1 :: h2 :: h3 :: h4 :: h5 ::
        (offset / 65536 % 256) :: (offset / 256 % 256) :: (offset % 256) ::
        (frag_len / 65536 % 256) :: (frag_len / 256 % 256) :: (frag_len % 256) ::
        ((data.drop offset).take frag_len ++ rest.drop frag_len) ∧
    (memcpy_at (_gnutls_write_uint24 frag_len (_gnutls_write_uint24 offset
        (h0 :: h1 :: h2 :: h3 :: h4 :: h5 :: x6 :: x7 :: x8 :: x9 :: x10 :: x11 :: rest) 6) 9)
        DTLS_HANDSHAKE_HEADER_SIZE (data.drop offset) frag_len).take
        (DTLS_HANDSHAKE_HEADER_SIZE + frag_len) =
      [h0, h1, h2, h3, h4, h5,
        offset / 65536 % 256, offset / 256 % 256, offset % 256,
        frag_len / 65536 % 256, frag_len / 256 % 256, frag_len % 256] ++
        (data.drop offset).take frag_len ∧
    ((data.drop offset).take frag_len ++ rest.drop frag_len).length = rest.length := by
  have hw : _gnutls_write_uint24 frag_len (_gnutls_write_uint24 offset
      (h0 :: h1 :: h2 :: h3 :: h4 :: h5 :: x6 :: x7 :: x8 :: x9 :: x10 :: x11 :: rest) 6) 9 =
      [h0, h1, h2, h3, h4, h5,
        offset / 65536 % 256, offset / 256 % 256, offset % 256,
        frag_len / 65536 % 256, frag_len / 256 % 256, frag_len % 256] ++ rest := by
    simp only [_gnutls_write_uint24, Nat.reduceAdd, List.set_cons_succ, List.set_cons_zero,
      List.cons_append, List.nil_append]
  have hpl : ((data.drop offset).take frag_len).length = frag_len := by
    rw [List.length_take, List.length_drop]
    omega
  have ht : ∀ (n : Nat) (a b : List Nat), a.length = n → (a ++ b).take n = a :=
    fun n a b h => List.take_left' h
  have hd : ∀ (a b : List Nat) (k : Nat), a.length = 12 →
      (a ++ b).drop (DTLS_HANDSHAKE_HEADER_SIZE + k) = b.drop k := by
    intro a b k ha
    have := @List.drop_append Nat a b k
    rw [ha] at this
    exact this
  have hm : memcpy_at ([h0, h1, h2, h3, h4, h5,
        offset / 65536 % 256, offset / 256 % 256, offset % 256,
        frag_len / 65536 % 256, frag_len / 256 % 256, frag_len % 256] ++ rest)
        DTLS_HANDSHAKE_HEADER_SIZE (data.drop offset) frag_len =
      [h0, h1, h2, h3, h4, h5,
        offset / 65536 % 256, offset / 256 % 256, offset % 256,
        frag_len / 65536 % 256, frag_len / 256 % 256, frag_len % 256] ++
        ((data.drop offset).take frag_len ++ rest.drop frag_len) := by
    unfold memcpy_at
    rw [ht DTLS_HANDSHAKE_HEADER_SIZE, hd, List.append_assoc]
    all_goals rfl
  rw [hw, hm]
  refine ⟨rfl, ?_, ?_⟩
  · rw [← List.append_assoc]
    apply ht
    rw [List.length_append, hpl]
    rfl
  · rw [List.length_append, hpl, List.length_drop]
    omega

/-- The fragmentation loop with enough fuel, when no send fails: started at the
offset `k * m` with `n` fragments left (`k + n = size / m + 1`), it performs the
sends of the fragments at `k * m, (k + 1) * m, …` and returns a value that is
not negative. -/
theorem transmit_fragments_run (env : dtls_env) (bufel : mbuffer_st) (m : Nat)
    (hm : 1 ≤ m) (hsz : bufel.udata.length + m < 4294967296)
    (hsend : ∀ calls d,
      ret_neg (env._gnutls_send_int calls bufel.type bufel.htype bufel.epoch d) = false) :
    ∀ (n fuel k : Nat) (x6 x7 x8 x9 x10 x11 : Nat) (rest : List Nat) (ret : ret_t)
      (calls : List io_event),
      n < fuel → k + n = bufel.udata.length / m + 1 → m ≤ rest.length →
      ret_neg ret = false →
      ∃ r b, transmit_fragments env bufel m fuel (k * m)
          ((bufel.htype % 256) :: (bufel.udata.length / 65536 % 256) ::
            (bufel.udata.length / 256 % 256) :: (bufel.udata.length % 256) ::
            (bufel.handshake_sequence / 256 % 256) :: (bufel.handshake_sequence % 256) ::
            x6 :: x7 :: x8 :: x9 :: x10 :: x11 :: rest) ret calls =
          some (r, calls ++ (List.range n).map (fun j => fragment_send bufel m ((k + j) * m)), b)
        ∧ ret_neg r = false := by
  have hq1 : bufel.udata.length / m * m ≤ bufel.udata.length := Nat.div_mul_le_self _ _
  have hq2 : bufel.udata.length < (bufel.udata.length / m + 1) * m := by
    have := Nat.lt_mul_div_succ bufel.udata.length (by omega : 0 < m)
    rw [Nat.mul_comm] at this
    exact this
  have h32 : bufel.udata.length % 4294967296 = bufel.udata.length :=
    Nat.mod_eq_of_lt (by omega)
  intro n
  induction n with
  | zero =>
    intro fuel k x6 x7 x8 x9 x10 x11 rest ret calls hfuel hk _ hret
    obtain ⟨f, rfl⟩ : ∃ f, fuel = f + 1 := ⟨fuel - 1, by omega⟩
    have hgt : ¬ k * m ≤ bufel.udata.length % 4294967296 := by
      rw [h32]
      have : k = bufel.udata.length / m + 1 := by omega
      rw [this]
      omega
    simp only [transmit_fragments, if_neg hgt, List.range_zero, List.map_nil, List.append_nil]
    exact ⟨_, _, rfl, hret⟩
  | succ n ih =>
    intro fuel k x6 x7 x8 x9 x10 x11 rest ret calls hfuel hk hrest _
    obtain ⟨f, rfl⟩ : ∃ f, fuel = f + 1 := ⟨fuel - 1, by omega⟩
    have hkq : k ≤ bufel.udata.length / m := by omega
    have hle : k * m ≤ bufel.udata.length :=
      Nat.le_trans (Nat.mul_le_mul_right m hkq) hq1
    have hnext : (k * m + m) % 4294967296 = (k + 1) * m := by
      rw [Nat.succ_mul]
      exact Nat.mod_eq_of_lt (by omega)
    have hfl : (if (k * m + m) % 4294967296 > bufel.udata.length % 4294967296
        then bufel.udata.length % 4294967296 - k * m else m) =
        min m (bufel.udata.length - k * m) := by
      rw [hnext, h32, Nat.succ_mul]
      split_ifs with hc
      · omega
      · omega
    have hflm : min m (bufel.udata.length - k * m) ≤ rest.length := by omega
    have hoff : k * m + min m (bufel.udata.length - k * m) ≤ bufel.udata.length := by omega
    obtain ⟨b1, b2, b3⟩ := fragment_buffer_step bufel.udata (k * m)
      (min m (bufel.udata.length - k * m))
      (bufel.htype % 256) (bufel.udata.length / 65536 % 256)
      (bufel.udata.length / 256 % 256) (bufel.udata.length % 256)
      (bufel.handshake_sequence / 256 % 256) (bufel.handshake_sequence % 256)
      x6 x7 x8 x9 x10 x11 rest hflm hoff
    have hev : io_event.send_int bufel.type (bufel.htype : Int) bufel.epoch
        ([bufel.htype % 256, bufel.udata.length / 65536 % 256,
          bufel.udata.length / 256 % 256, bufel.udata.length % 256,
          bufel.handshake_sequence / 256 % 256, bufel.handshake_sequence % 256,
          k * m / 65536 % 256, k * m / 256 % 256, k * m % 256,
          min m (bufel.udata.length - k * m) / 65536 % 256,
          min m (bufel.udata.length - k * m) / 256 % 256,
          min m (bufel.udata.length - k * m) % 256] ++
          (bufel.udata.drop (k * m)).take (min m (bufel.udata.length - k * m))) =
        fragment_send bufel m (k * m) := rfl
    obtain ⟨r, b, hrun, hr⟩ := ih f (k + 1) _ _ _ _ _ _ _
      (env._gnutls_send_int calls bufel.type bufel.htype bufel.epoch
        (fragment_record bufel (k * m) (min m (bufel.udata.length - k * m))))
      (calls ++ [fragment_send bufel m (k * m)]) (by omega) (by omega)
      (b3.symm ▸ hrest) (hsend _ _)
    have hfun : (fun j => fragment_send bufel m ((k + 1 + j) * m)) =
        (fun j => fragment_send bufel m ((k + (j + 1)) * m)) := by
      funext j
      have : k + 1 + j = k + (j + 1) := by omega
      rw [this]
    rw [hfun] at hrun
    refine ⟨r, b, ?_, hr⟩
    simp only [transmit_fragments]
    rw [if_pos (by rw [h32]; exact hle), hfl, b2, b1, hnext, hev]
    have hs := hsend calls (fragment_record bufel (k * m) (min m (bufel.udata.length - k * m)))
    unfold fragment_record at hs
    rw [hs]
    simp only [Bool.false_eq_true, if_false]
    unfold fragment_record at hrun
    rw [hrun, List.range_succ_eq_map, List.map_cons, List.map_map, List.append_assoc]
    simp only [List.singleton_append, Nat.add_zero, Function.comp_def, Nat.succ_eq_add_one]

/-- The data MTU is an `unsigned int`. -/
theorem data_mtu_lt (env : dtls_env) (session : session_st) :
    gnutls_dtls_get_data_mtu env session < 4294967296 := by
  unfold gnutls_dtls_get_data_mtu
  split
  · unfold sub_u32
    omega
  · unfold sub_u32
    omega

/-- The payload slices at the fragment offsets, put together in order, are the
payload. -/
theorem fragments_flatten (data : List Nat) (m : Nat) (hm : 1 ≤ m) :
    ((fragment_offsets m data.length).map
      (fun o => (data.drop o).take (min m (data.length - o)))).flatten = data := by
  have key : ∀ n, ((List.range n).map
      (fun j => (data.drop (j * m)).take (min m (data.length - j * m)))).flatten =
      data.take (n * m) := by
    intro n
    induction n with
    | zero => simp
    | succ n ih =>
      have hc : (data.drop (n * m)).take (min m (data.length - n * m)) =
          (data.drop (n * m)).take m := by
        apply List.take_eq_take.mpr
        rw [List.length_drop]
        omega
      rw [List.range_succ, List.map_append, List.flatten_append, ih, List.map_singleton,
        List.flatten_singleton, hc, Nat.succ_mul, List.take_add]
  have hq : data.length ≤ (data.length / m + 1) * m := by
    have := Nat.lt_mul_div_succ data.length (by omega : 0 < m)
    rw [Nat.mul_comm] at this
    omega
  unfold fragment_offsets
  rw [List.map_map]
  have := key (data.length / m + 1)
  rw [List.take_of_length_le hq] at this
  exact this

/-- `transmit_message` on a handshake message with a fragment MTU
`m = data_mtu - 12 ≥ 1`, a scratch buffer that is large enough (or can be
allocated), no overflow of `data_size + m`, enough fuel and no failing send:
it performs the sends of the fragments at the offsets `0, m, 2m, …` and
returns a value that is not negative. -/
theorem transmit_message_fragments (env : dtls_env) (fuel : Nat) (session : session_st)
    (bufel : mbuffer_st) (buf : Option (List Nat))
    (hccs : bufel.type ≠ env.GNUTLS_CHANGE_CIPHER_SPEC)
    (hdm : 13 ≤ gnutls_dtls_get_data_mtu env session)
    (hsz : bufel.udata.length + (gnutls_dtls_get_data_mtu env session - 12) < 4294967296)
    (hsend : ∀ calls d,
      ret_neg (env._gnutls_send_int calls bufel.type bufel.htype bufel.epoch d) = false)
    (hmalloc : buf = none →
      env.gnutls_malloc session.calls (gnutls_dtls_get_data_mtu env session) = true)
    (hbuf : ∀ b, buf = some b → gnutls_dtls_get_data_mtu env session ≤ b.length)
    (hfuel : bufel.udata.length / (gnutls_dtls_get_data_mtu env session - 12) + 1 < fuel) :
    ∃ r b2, transmit_message env fuel session bufel buf =
        some (r, add_calls session
          ((fragment_offsets (gnutls_dtls_get_data_mtu env session - 12)
            bufel.udata.length).map
            (fragment_send bufel (gnutls_dtls_get_data_mtu env session - 12))), some b2) ∧
      ret_neg r = false := by
  have hlt := data_mtu_lt env session
  have hmtu : sub_u32 (gnutls_dtls_get_data_mtu env session) DTLS_HANDSHAKE_HEADER_SIZE =
      gnutls_dtls_get_data_mtu env session - 12 := by
    unfold sub_u32 DTLS_HANDSHAKE_HEADER_SIZE
    omega
  have hsize : (gnutls_dtls_get_data_mtu env session - 12 + DTLS_HANDSHAKE_HEADER_SIZE) %
      4294967296 = gnutls_dtls_get_data_mtu env session := by
    unfold DTLS_HANDSHAKE_HEADER_SIZE
    omega
  have h32 : bufel.udata.length % 4294967296 = bufel.udata.length :=
    Nat.mod_eq_of_lt (by omega)
  have key : ∀ (mtu_data : List Nat), gnutls_dtls_get_data_mtu env session ≤ mtu_data.length →
      ∃ r b2, transmit_fragments env bufel (gnutls_dtls_get_data_mtu env session - 12) fuel 0
          (_gnutls_write_uint16 bufel.handshake_sequence
            (_gnutls_write_uint24 (bufel.udata.length % 4294967296)
              (mtu_data.set 0 (bufel.htype % 256)) 1) 4)
          (Except.ok 0) session.calls =
        some (r, session.calls ++
          (fragment_offsets (gnutls_dtls_get_data_mtu env session - 12)
            bufel.udata.length).map
            (fragment_send bufel (gnutls_dtls_get_data_mtu env session - 12)), b2) ∧
        ret_neg r = false := by
    intro mtu_data hlen
    obtain ⟨x0, x1, x2, x3, x4, x5, x6, x7, x8, x9, x10, x11, rest, rfl⟩ :=
      scratch_split mtu_data (by omega)
    have hrest : gnutls_dtls_get_data_mtu env session - 12 ≤ rest.length := by
      simp only [List.length_cons] at hlen
      omega
    have hw : _gnutls_write_uint16 bufel.handshake_sequence
        (_gnutls_write_uint24 (bufel.udata.length % 4294967296)
          ((x0 :: x1 :: x2 :: x3 :: x4 :: x5 :: x6 :: x7 :: x8 :: x9 :: x10 :: x11 :: rest).set 0
            (bufel.htype % 256)) 1) 4 =
        (bufel.htype % 256) :: (bufel.udata.length / 65536 % 256) ::
          (bufel.udata.length / 256 % 256) :: (bufel.udata.length % 256) ::
          (bufel.handshake_sequence / 256 % 256) :: (bufel.handshake_sequence % 256) ::
          x6 :: x7 :: x8 :: x9 :: x10 :: x11 :: rest := by
      rw [h32]
      simp only [_gnutls_write_uint24, _gnutls_write_uint16, Nat.reduceAdd, List.set_cons_succ,
        List.set_cons_zero]
    obtain ⟨r, b2, hrun, hr⟩ := transmit_fragments_run env bufel
      (gnutls_dtls_get_data_mtu env session - 12) (by omega) hsz hsend
      (bufel.udata.length / (gnutls_dtls_get_data_mtu env session - 12) + 1) fuel 0
      x6 x7 x8 x9 x10 x11 rest (Except.ok 0) session.calls hfuel (by omega) hrest rfl
    refine ⟨r, b2, ?_, hr⟩
    rw [hw]
    rw [Nat.zero_mul] at hrun
    rw [hrun]
    unfold fragment_offsets
    rw [List.map_map]
    simp only [Nat.zero_add, Function.comp_def]
  unfold transmit_message
  simp only [hmtu, hsize, if_neg hccs]
  cases buf with
  | some b0 =>
    obtain ⟨r, b2, hrun, hr⟩ := key b0 (hbuf b0 rfl)
    simp only [hrun]
    exact ⟨r, b2, rfl, hr⟩
  | none =>
    obtain ⟨r, b2, hrun, hr⟩ := key
      (List.replicate (gnutls_dtls_get_data_mtu env session) 0)
      (by rw [List.length_replicate])
    simp only [hmalloc rfl, if_true, hrun]
    exact ⟨r, b2, rfl, hr⟩

/-- C12: for a handshake (non-ChangeCipherSpec) message whose fragment MTU
`m = data_mtu - 12` is at least 1, when no send fails (the scratch buffer is
available, `data_size + m` does not overflow an `unsigned int`, enough fuel),
`transmit_message` returns and the calls it makes are the sends of the fragments
at the offsets `0, m, 2m, …` up to `data_size`, in increasing order, each with
the `min(m, data_size - offset)` payload bytes from its offset on; these slices
put together in emission order are the payload. -/
theorem fragmentation_reassembles (env : dtls_env) (fuel : Nat) (session : session_st)
    (bufel : mbuffer_st) (buf : Option (List Nat))
    (hccs : bufel.type ≠ env.GNUTLS_CHANGE_CIPHER_SPEC)
    (hdm : 13 ≤ gnutls_dtls_get_data_mtu env session)
    (hsz : bufel.udata.length + (gnutls_dtls_get_data_mtu env session - 12) < 4294967296)
    (hsend : ∀ calls d,
      ret_neg (env._gnutls_send_int calls bufel.type bufel.htype bufel.epoch d) = false)
    (hmalloc : buf = none →
      env.gnutls_malloc session.calls (gnutls_dtls_get_data_mtu env session) = true)
    (hbuf : ∀ b, buf = some b → gnutls_dtls_get_data_mtu env session ≤ b.length)
    (hfuel : bufel.udata.length / (gnutls_dtls_get_data_mtu env session - 12) + 1 < fuel) :
    (∃ r b2, transmit_message env fuel session bufel buf =
        some (r, add_calls session
          ((fragment_offsets (gnutls_dtls_get_data_mtu env session - 12)
            bufel.udata.length).map
            (fun o => io_event.send_int bufel.type bufel.htype bufel.epoch
              (fragment_record bufel o
                (min (gnutls_dtls_get_data_mtu env session - 12) (bufel.udata.length - o))))),
          some b2) ∧
      ret_neg r = false) ∧
    fragment_offsets (gnutls_dtls_get_data_mtu env session - 12) bufel.udata.length =
      (List.range (bufel.udata.length / (gnutls_dtls_get_data_mtu env session - 12) + 1)).map
        (fun k => k * (gnutls_dtls_get_data_mtu env session - 12)) ∧
    List.Pairwise (fun a b => a < b)
      (fragment_offsets (gnutls_dtls_get_data_mtu env session - 12) bufel.udata.length) ∧
    (∀ o frag_len, (fragment_record bufel o frag_len).drop 12 =
      (bufel.udata.drop o).take frag_len) ∧
    ((fragment_offsets (gnutls_dtls_get_data_mtu env session - 12) bufel.udata.length).map
      (fun o => (bufel.udata.drop o).take
        (min (gnutls_dtls_get_data_mtu env session - 12) (bufel.udata.length - o)))).flatten =
      bufel.udata := by
  refine ⟨?_, rfl, ?_, fun _ _ => rfl, ?_⟩
  · exact transmit_message_fragments env fuel session bufel buf hccs hdm hsz hsend hmalloc hbuf
      hfuel
  · unfold fragment_offsets
    apply List.Pairwise.map _ _ (List.pairwise_lt_range _)
    intro a b hab
    exact Nat.mul_lt_mul_of_pos_right hab (by omega)
  · exact fragments_flatten bufel.udata _ (by omega)

/-- C12 at a concrete input: a message of 5 bytes with a fragment MTU of 2
(MTU 27, overhead 13) goes out as three fragments of 2, 2 and 1 bytes. -/
theorem fragmentation_reassembles_witness :
    ∃ r b2, transmit_message sample_env 4
        { sample_session [] with dtls := { sample_dtls with mtu := 27 } }
        (sample_message 1 0 5) none =
      some (r, add_calls { sample_session [] with dtls := { sample_dtls with mtu := 27 } }
        [io_event.send_int 22 1 0 [1, 0, 0, 5, 0, 0, 0, 0, 0, 0, 0, 2, 0, 1],
         io_event.send_int 22 1 0 [1, 0, 0, 5, 0, 0, 0, 0, 2, 0, 0, 2, 2, 3],
         io_event.send_int 22 1 0 [1, 0, 0, 5, 0, 0, 0, 0, 4, 0, 0, 1, 4]], some b2) ∧
      ret_neg r = false :=
  (fragmentation_reassembles sample_env 4
    { sample_session [] with dtls := { sample_dtls with mtu := 27 } }
    (sample_message 1 0 5) none (by decide) (by decide) (by decide)
    (fun _ _ => rfl) (fun _ => rfl) (fun _ h => by cases h) (by decide)).1

/-- C13, the claim as stated fails: with a fragment MTU of 400 (MTU 425,
overhead 13) a message of 800 bytes goes out as three records, the last one a
zero-length fragment at offset 800. -/
theorem fragment_count_counterexample :
    ∃ r b2, transmit_message sample_env 4 (sample_session []) (sample_message 1 0 800) none =
      some (r, add_calls (sample_session [])
        [fragment_send (sample_message 1 0 800) 400 0,
         fragment_send (sample_message 1 0 800) 400 400,
         fragment_send (sample_message 1 0 800) 400 800], some b2) ∧
      fragment_send (sample_message 1 0 800) 400 800 =
        io_event.send_int 22 1 0 [1, 0, 3, 32, 0, 0, 0, 3, 32, 0, 0, 0] := by
  have hlen : (sample_message 1 0 800).udata.length = 800 := by
    simp only [sample_message, List.length_map, List.length_range]
  have hdm : gnutls_dtls_get_data_mtu sample_env (sample_session []) = 412 := by decide
  obtain ⟨r, b2, h, _⟩ := transmit_message_fragments sample_env 4 (sample_session [])
    (sample_message 1 0 800) none (by decide) (by rw [hdm]; decide)
    (by rw [hdm, hlen]; decide) (fun _ _ => rfl) (fun _ => rfl) (fun _ h => by cases h)
    (by rw [hdm, hlen]; decide)
  rw [hdm, hlen] at h
  refine ⟨r, b2, h, ?_⟩
  simp only [fragment_send, fragment_record, hlen, List.drop_of_length_le (Nat.le_of_eq hlen),
    Nat.sub_self, Nat.min_zero, List.take_zero, List.append_nil]
  rfl

/-- C13 as amended: for a handshake message of `data_size` bytes and a fragment
MTU `m ≥ 1`, when no send fails `transmit_message` makes exactly
`data_size / m + 1` sends; when `data_size` is a multiple of `m` the last
offset is `data_size` and its record is the twelve header bytes with length 0;
for `m` between 401 and 799 messages of 200 and 800 bytes give one and two
records. -/
theorem fragment_count (env : dtls_env) (fuel : Nat) (session : session_st)
    (bufel : mbuffer_st) (buf : Option (List Nat))
    (hccs : bufel.type ≠ env.GNUTLS_CHANGE_CIPHER_SPEC)
    (hdm : 13 ≤ gnutls_dtls_get_data_mtu env session)
    (hsz : bufel.udata.length + (gnutls_dtls_get_data_mtu env session - 12) < 4294967296)
    (hsend : ∀ calls d,
      ret_neg (env._gnutls_send_int calls bufel.type bufel.htype bufel.epoch d) = false)
    (hmalloc : buf = none →
      env.gnutls_malloc session.calls (gnutls_dtls_get_data_mtu env session) = true)
    (hbuf : ∀ b, buf = some b → gnutls_dtls_get_data_mtu env session ≤ b.length)
    (hfuel : bufel.udata.length / (gnutls_dtls_get_data_mtu env session - 12) + 1 < fuel) :
    (∃ r s2 b2 evs, transmit_message env fuel session bufel buf = some (r, s2, b2) ∧
      s2.calls = session.calls ++ evs ∧ (∀ e ∈ evs, is_send_int e = true) ∧
      evs.length = bufel.udata.length / (gnutls_dtls_get_data_mtu env session - 12) + 1 ∧
      (bufel.udata.length % (gnutls_dtls_get_data_mtu env session - 12) = 0 →
        evs.getLast? = some (io_event.send_int bufel.type bufel.htype bufel.epoch
          (fragment_record bufel bufel.udata.length 0)) ∧
        (fragment_record bufel bufel.udata.length 0).length = 12 ∧
        (fragment_record bufel bufel.udata.length 0).drop 6 = [
          bufel.udata.length / 65536 % 256, bufel.udata.length / 256 % 256,
          bufel.udata.length % 256, 0, 0, 0])) ∧
    (401 ≤ gnutls_dtls_get_data_mtu env session - 12 →
      gnutls_dtls_get_data_mtu env session - 12 ≤ 799 →
      (bufel.udata.length = 200 →
        bufel.udata.length / (gnutls_dtls_get_data_mtu env session - 12) + 1 = 1) ∧
      (bufel.udata.length = 800 →
        bufel.udata.length / (gnutls_dtls_get_data_mtu env session - 12) + 1 = 2)) := by
  obtain ⟨r, b2, h, _⟩ := transmit_message_fragments env fuel session bufel buf hccs hdm hsz
    hsend hmalloc hbuf hfuel
  constructor
  · refine ⟨r, _, _, _, h, rfl, ?_, ?_, ?_⟩
    · intro e he
      obtain ⟨o, _, rfl⟩ := List.mem_map.mp he
      rfl
    · simp only [fragment_offsets, List.length_map, List.length_range]
    · intro hdiv
      have hmul : bufel.udata.length / (gnutls_dtls_get_data_mtu env session - 12) *
          (gnutls_dtls_get_data_mtu env session - 12) = bufel.udata.length :=
        Nat.div_mul_cancel (Nat.dvd_of_mod_eq_zero hdiv)
      refine ⟨?_, ?_, ?_⟩
      · unfold fragment_offsets
        rw [List.range_succ, List.map_append, List.map_append, List.map_singleton,
          List.map_singleton, List.getLast?_concat]
        simp only [fragment_send, hmul, Nat.sub_self, Nat.min_zero]
      · simp only [fragment_record, List.take_zero, List.append_nil, List.length_cons,
          List.length_nil]
      · simp only [fragment_record, List.take_zero, List.append_nil, Nat.zero_div,
          Nat.zero_mod]
        rfl
  · intro h1 h2
    constructor
    · intro hs
      rw [hs, Nat.div_eq_of_lt (by omega)]
    · intro hs
      rw [hs]
      have : 800 / (gnutls_dtls_get_data_mtu env session - 12) = 1 := by
        apply Nat.div_eq_of_lt_le
        · omega
        · omega
      rw [this]

/-- C13 as amended, at a concrete input: with a fragment MTU of 2 a message of
4 bytes goes out as three records, the last one a zero-length fragment. -/
theorem fragment_count_witness :
    ∃ r s2 b2 evs, transmit_message sample_env 4
        { sample_session [] with dtls := { sample_dtls with mtu := 27 } }
        (sample_message 1 0 4) none = some (r, s2, b2) ∧
      s2.calls = [] ++ evs ∧ (∀ e ∈ evs, is_send_int e = true) ∧ evs.length = 4 / 2 + 1 ∧
      (4 % 2 = 0 →
        evs.getLast? = some (io_event.send_int 22 1 0
          (fragment_record (sample_message 1 0 4) 4 0)) ∧
        (fragment_record (sample_message 1 0 4) 4 0).length = 12 ∧
        (fragment_record (sample_message 1 0 4) 4 0).drop 6 = [0, 0, 4, 0, 0, 0]) :=
  (fragment_count sample_env 4
    { sample_session [] with dtls := { sample_dtls with mtu := 27 } }
    (sample_message 1 0 4) none (by decide) (by decide) (by decide)
    (fun _ _ => rfl) (fun _ => rfl) (fun _ h => by cases h) (by decide)).1

/-- The data MTU depends on the MTU of the session and on the record overhead
only. -/
theorem data_mtu_congr (env : dtls_env) (s1 s2 : session_st)
    (hov : env._gnutls_record_overhead_rt s1.calls = env._gnutls_record_overhead_rt s2.calls)
    (hd : s1.dtls = s2.dtls) :
    gnutls_dtls_get_data_mtu env s1 = gnutls_dtls_get_data_mtu env s2 := by
  unfold gnutls_dtls_get_data_mtu
  rw [hov, hd]

/-- The scratch buffer keeps its length in the fragmentation loop, when it
holds a header and `m` bytes and `data_size + m` does not overflow. -/
theorem transmit_fragments_length (env : dtls_env) (bufel : mbuffer_st) (m : Nat)
    (hsz : bufel.udata.length + m < 4294967296) :
    ∀ (fuel offset : Nat) (mtu_data : List Nat) (ret : ret_t) (calls : List io_event)
      (r : ret_t) (calls2 : List io_event) (b : List Nat),
      12 + m ≤ mtu_data.length →
      transmit_fragments env bufel m fuel offset mtu_data ret calls = some (r, calls2, b) →
      b.length = mtu_data.length := by
  have h32 : bufel.udata.length % 4294967296 = bufel.udata.length :=
    Nat.mod_eq_of_lt (by omega)
  intro fuel
  induction fuel with
  | zero =>
    intro offset mtu_data ret calls r calls2 b _ h
    simp only [transmit_fragments] at h
    cases h
  | succ f ih =>
    intro offset mtu_data ret calls r calls2 b hlen h
    unfold transmit_fragments at h
    simp only [h32] at h
    by_cases ho : offset ≤ bufel.udata.length
    · rw [if_pos ho] at h
      obtain ⟨frag_len, hfl⟩ : ∃ fl, fl = (if (offset + m) % 4294967296 > bufel.udata.length
          then bufel.udata.length - offset else m) := ⟨_, rfl⟩
      rw [← hfl] at h
      have hb : frag_len ≤ m ∧ offset + frag_len ≤ bufel.udata.length := by
        rw [hfl]
        split_ifs with hc
        · omega
        · omega
      have hnb : (memcpy_at (_gnutls_write_uint24 frag_len
          (_gnutls_write_uint24 offset mtu_data 6) 9) DTLS_HANDSHAKE_HEADER_SIZE
          (bufel.udata.drop offset) frag_len).length = mtu_data.length := by
        simp only [memcpy_at, _gnutls_write_uint24, DTLS_HANDSHAKE_HEADER_SIZE,
          List.length_append, List.length_take, List.length_drop, List.length_set]
        omega
      split_ifs at h with hn
      · simp only [Option.some.injEq, Prod.mk.injEq] at h
        rw [← h.2.2, hnb]
      · rw [ih _ _ _ _ _ _ _ (by rw [hnb]; exact hlen) h, hnb]
    · rw [if_neg ho] at h
      simp only [Option.some.injEq, Prod.mk.injEq] at h
      rw [← h.2.2]

/-- The scratch buffer that `transmit_message` leaves is at least as long as
the data MTU, when the one it was given is. -/
theorem transmit_message_buffer (env : dtls_env) (fuel : Nat) (session : session_st)
    (bufel : mbuffer_st) (buf : Option (List Nat)) (r : ret_t) (s2 : session_st)
    (b2 : Option (List Nat))
    (hdm : 12 ≤ gnutls_dtls_get_data_mtu env session)
    (hsz : bufel.type ≠ env.GNUTLS_CHANGE_CIPHER_SPEC →
      bufel.udata.length + (gnutls_dtls_get_data_mtu env session - 12) < 4294967296)
    (hbuf : ∀ b, buf = some b → gnutls_dtls_get_data_mtu env session ≤ b.length)
    (h : transmit_message env fuel session bufel buf = some (r, s2, b2)) :
    ∀ b, b2 = some b → gnutls_dtls_get_data_mtu env session ≤ b.length := by
  have hlt := data_mtu_lt env session
  have hmtu : sub_u32 (gnutls_dtls_get_data_mtu env session) DTLS_HANDSHAKE_HEADER_SIZE =
      gnutls_dtls_get_data_mtu env session - 12 := by
    unfold sub_u32 DTLS_HANDSHAKE_HEADER_SIZE
    omega
  have hsize : (gnutls_dtls_get_data_mtu env session - 12 + DTLS_HANDSHAKE_HEADER_SIZE) %
      4294967296 = gnutls_dtls_get_data_mtu env session := by
    unfold DTLS_HANDSHAKE_HEADER_SIZE
    omega
  have key : ∀ (mtu_data : List Nat), gnutls_dtls_get_data_mtu env session ≤ mtu_data.length →
      bufel.type ≠ env.GNUTLS_CHANGE_CIPHER_SPEC →
      (match transmit_fragments env bufel (gnutls_dtls_get_data_mtu env session - 12) fuel 0
          (_gnutls_write_uint16 bufel.handshake_sequence
            (_gnutls_write_uint24 (bufel.udata.length % 4294967296)
              (mtu_data.set 0 (bufel.htype % 256)) 1) 4)
          (Except.ok 0) session.calls with
        | none => none
        | some (ret, calls, mtu_data) =>
          some (ret, { session with calls := calls }, some mtu_data)) = some (r, s2, b2) →
      ∀ b, b2 = some b → gnutls_dtls_get_data_mtu env session ≤ b.length := by
    intro mtu_data hlen hccs hk b hb
    cases hf : transmit_fragments env bufel (gnutls_dtls_get_data_mtu env session - 12) fuel 0
        (_gnutls_write_uint16 bufel.handshake_sequence
          (_gnutls_write_uint24 (bufel.udata.length % 4294967296)
            (mtu_data.set 0 (bufel.htype % 256)) 1) 4)
        (Except.ok 0) session.calls with
    | none =>
      rw [hf] at hk
      cases hk
    | some res =>
      obtain ⟨r1, c1, d1⟩ := res
      rw [hf] at hk
      simp only [Option.some.injEq, Prod.mk.injEq] at hk
      have hl := transmit_fragments_length env bufel _ (hsz hccs) _ _ _ _ _ _ _ _
        (by
          simp only [_gnutls_write_uint16, _gnutls_write_uint24, List.length_set]
          omega) hf
      simp only [_gnutls_write_uint16, _gnutls_write_uint24, List.length_set] at hl
      rw [hb] at hk
      have := hk.2.2
      simp only [Option.some.injEq] at this
      rw [← this, hl]
      exact hlen
  unfold transmit_message at h
  simp only [hmtu, hsize] at h
  by_cases hc : bufel.type = env.GNUTLS_CHANGE_CIPHER_SPEC
  · rw [if_pos hc] at h
    simp only [Option.some.injEq, Prod.mk.injEq] at h
    intro b hb
    exact hbuf b (by rw [h.2.2, hb])
  · rw [if_neg hc] at h
    cases buf with
    | some b0 => exact key b0 (hbuf b0 rfl) hc h
    | none =>
      by_cases hm : env.gnutls_malloc session.calls (gnutls_dtls_get_data_mtu env session) = true
      · simp only [hm, if_true] at h
        exact key _ (by rw [List.length_replicate]) hc h
      · simp only [hm, Bool.false_eq_true, if_false, Option.some.injEq, Prod.mk.injEq] at h
        intro b hb
        rw [hb] at h
        cases h.2.2

/-- The loop over the send buffer returns, with a value that is not negative,
when no send fails, the scratch buffer can be allocated, the record overhead
does not change, the data MTU leaves room for a fragment header and one byte,
no `data_size + m` overflows an `unsigned int` and the fuel covers the
fragments of each message. -/
theorem transmit_flight_run (env : dtls_env) (fuel : Nat)
    (hsend : ∀ calls t h e d, ret_neg (env._gnutls_send_int calls t h e d) = false)
    (hmalloc : ∀ calls n, env.gnutls_malloc calls n = true)
    (hov : ∀ c1 c2, env._gnutls_record_overhead_rt c1 = env._gnutls_record_overhead_rt c2) :
    ∀ (msgs : List mbuffer_st) (session : session_st) (buf : Option (List Nat))
      (last_type : Nat),
      13 ≤ gnutls_dtls_get_data_mtu env session →
      (∀ b ∈ msgs, b.type ≠ env.GNUTLS_CHANGE_CIPHER_SPEC →
        b.udata.length + (gnutls_dtls_get_data_mtu env session - 12) < 4294967296 ∧
        b.udata.length / (gnutls_dtls_get_data_mtu env session - 12) + 1 < fuel) →
      (∀ b, buf = some b → gnutls_dtls_get_data_mtu env session ≤ b.length) →
      ∃ r s1 b1 lt, transmit_flight env fuel msgs session buf last_type =
          some (r, s1, b1, lt) ∧ ret_neg r = false := by
  intro msgs
  induction msgs with
  | nil =>
    intro session buf last_type _ _ _
    exact ⟨.ok 0, session, buf, last_type, rfl, rfl⟩
  | cons cur rest ih =>
    intro session buf last_type hdm hmsgs hbuf
    have hex : ∃ r s2 b2, transmit_message env fuel session cur buf = some (r, s2, b2) ∧
        ret_neg r = false := by
      by_cases hc : cur.type = env.GNUTLS_CHANGE_CIPHER_SPEC
      · refine ⟨env._gnutls_send_int session.calls cur.type (-1) cur.epoch cur.uhead,
          log_call session (io_event.send_int cur.type (-1) cur.epoch cur.uhead), buf, ?_,
          hsend session.calls cur.type (-1) cur.epoch cur.uhead⟩
        simp only [transmit_message, hc, if_true]
      · obtain ⟨h1, h2⟩ := hmsgs cur (List.mem_cons_self _ _) hc
        obtain ⟨r, b2, h, hr⟩ := transmit_message_fragments env fuel session cur buf hc hdm h1
          (fun _ _ => hsend _ _ _ _ _) (fun _ => hmalloc _ _) hbuf h2
        exact ⟨r, _, _, h, hr⟩
    obtain ⟨r, s2, b2, ht, hr⟩ := hex
    obtain ⟨e1, _, _, _⟩ := transmit_message_session env fuel session cur buf r s2 b2 ht
    have hdm2 : gnutls_dtls_get_data_mtu env s2 = gnutls_dtls_get_data_mtu env session :=
      data_mtu_congr env s2 session (hov _ _) e1
    have hb2 := transmit_message_buffer env fuel session cur buf r s2 b2 (by omega)
      (fun hc => (hmsgs cur (List.mem_cons_self _ _) hc).1) hbuf ht
    obtain ⟨r2, s3, b3, lt3, h3, hr3⟩ := ih s2 b2 cur.htype (by rw [hdm2]; exact hdm)
      (by
        rw [hdm2]
        intro b hb hc
        exact hmsgs b (List.mem_cons_of_mem _ hb) hc)
      (by rw [hdm2]; exact hb2)
    refine ⟨r2, s3, b3, lt3, ?_, hr3⟩
    simp only [transmit_flight, ht, hr, Bool.false_eq_true, if_false]
    exact h3

/-- C20 as amended: when `_dtls_transmit` is called with `flight_init = 0`, the
global budget not used up, a send buffer whose last message has handshake type
Finished, neither a send nor the flush fails, the scratch buffer can be
allocated, the record overhead stays the same during the call, the data MTU is
at least 13 (room for the fragment header and one byte) and `data_size + m`
stays below `2^32` for each handshake message (and the fuel covers the
fragments), it returns 0 with `last_flight = 1`, `flight_init = 1` and the timer
at its base, the send buffer is as before, and `_gnutls_io_check_recv` is not
among the calls it made. -/
theorem terminal_flight (env : dtls_env) (fuel : Nat) (session : session_st)
    (last : mbuffer_st)
    (hinit : session.dtls.flight_init = false)
    (hbudget : env.timespec_sub_ms (env.gettime session.calls)
      session.dtls.handshake_start_time < session.dtls.total_timeout_ms)
    (hlast : session.handshake_send_buffer.getLast? = some last)
    (hfin : last.htype = env.GNUTLS_HANDSHAKE_FINISHED)
    (hsend : ∀ calls t h e d, ret_neg (env._gnutls_send_int calls t h e d) = false)
    (hflush : ∀ calls, ret_neg (env._gnutls_io_write_flush calls) = false)
    (hmalloc : ∀ calls n, env.gnutls_malloc calls n = true)
    (hov : ∀ c1 c2, env._gnutls_record_overhead_rt c1 = env._gnutls_record_overhead_rt c2)
    (hdm : 13 ≤ gnutls_dtls_get_data_mtu env session)
    (hmsgs : ∀ b ∈ session.handshake_send_buffer, b.type ≠ env.GNUTLS_CHANGE_CIPHER_SPEC →
      b.udata.length + (gnutls_dtls_get_data_mtu env session - 12) < 4294967296 ∧
      b.udata.length / (gnutls_dtls_get_data_mtu env session - 12) + 1 < fuel) :
    ∃ s2 evs, _dtls_transmit env (fuel + 1) session = some (.ok 0, s2) ∧
      s2.dtls.last_flight = true ∧ s2.dtls.flight_init = true ∧
      s2.dtls.actual_retrans_timeout_ms = session.dtls.retrans_timeout_ms ∧
      s2.handshake_send_buffer = session.handshake_send_buffer ∧
      s2.calls = session.calls ++ evs ∧ ∀ e ∈ evs, is_check_recv e = false := by
  have hdm0 : gnutls_dtls_get_data_mtu env (log_call session io_event.gettime) =
      gnutls_dtls_get_data_mtu env session :=
    data_mtu_congr env (log_call session io_event.gettime) session (hov _ _) rfl
  obtain ⟨r, s1, b1, lt, hsends, hr⟩ := transmit_flight_run env fuel hsend hmalloc hov
    session.handshake_send_buffer (log_call session io_event.gettime) none 0
    (by rw [hdm0]; exact hdm) (by rw [hdm0]; exact hmsgs) (fun _ h => by cases h)
  obtain ⟨f1, f2, f3, ⟨evs, f4, f5⟩, f6⟩ := transmit_flight_session env fuel _ _ _ _ _ _ _ _
    hsends
  have hlt : lt = env.GNUTLS_HANDSHAKE_FINISHED := by
    rw [f6 hr]
    simp only [log_call, hlast, Option.map_some', Option.getD_some]
    exact hfin
  have hfi : s1.dtls.flight_init = false := by
    rw [f1]
    exact hinit
  have hfirst : ¬ ((log_call session io_event.gettime).dtls.flight_init = true ∧
      (log_call session io_event.gettime).dtls.blocking = false) := by
    simp only [log_call, hinit]
    rintro ⟨h1, _⟩
    cases h1
  have hnb : ¬ env.timespec_sub_ms (env.gettime session.calls)
      (log_call session io_event.gettime).dtls.handshake_start_time ≥
      (log_call session io_event.gettime).dtls.total_timeout_ms := by
    simp only [log_call]
    omega
  have hphase : dtls_send_phase env fuel (log_call session io_event.gettime) none
      (env.timespec_sub_ms (env.gettime session.calls)
        (log_call session io_event.gettime).dtls.last_retransmit)
      (log_call session io_event.gettime).dtls.actual_retrans_timeout_ms 0 =
      some (.inr ({ s1 with
          dtls := { s1.dtls with
            last_retransmit := env.gettime s1.calls
            flight_init := true
            actual_retrans_timeout_ms := s1.dtls.retrans_timeout_ms
            last_flight := true }
          calls := s1.calls ++ [io_event.gettime] },
        b1, s1.dtls.retrans_timeout_ms, lt)) := by
    unfold dtls_send_phase
    have hc : (log_call session io_event.gettime).dtls.flight_init = false ∨
        env.timespec_sub_ms (env.gettime session.calls)
          (log_call session io_event.gettime).dtls.last_retransmit ≥
        (log_call session io_event.gettime).dtls.actual_retrans_timeout_ms :=
      Or.inl hinit
    rw [if_pos hc]
    have hs : transmit_flight env fuel (log_call session io_event.gettime).handshake_send_buffer
        (log_call session io_event.gettime) none 0 = some (r, s1, b1, lt) := hsends
    rw [hs]
    simp only [hr, Bool.false_eq_true, if_false, log_call, hfi, if_true, RESET_TIMER, hlt,
      decide_True]
  have hrun : _dtls_transmit env (fuel + 1) session = some (.ok 0,
      { s1 with
        dtls := { s1.dtls with
          last_retransmit := env.gettime s1.calls
          flight_init := true
          actual_retrans_timeout_ms := s1.dtls.retrans_timeout_ms
          last_flight := true }
        calls := s1.calls ++ [io_event.gettime] ++ [io_event.io_write_flush] }) := by
    unfold _dtls_transmit
    simp only
    rw [if_neg hfirst]
    unfold dtls_transmit_loop
    simp only
    rw [if_neg hnb, hphase]
    simp only [log_call, hflush _, Bool.false_eq_true, if_false, if_true, dtls_cleanup]
  refine ⟨_, [io_event.gettime] ++ evs ++ [io_event.gettime, io_event.io_write_flush], hrun,
    rfl, rfl, ?_, f2, ?_, ?_⟩
  · simp only [f1, log_call]
  · simp only [f4, log_call, List.append_assoc, List.singleton_append, List.cons_append,
      List.nil_append]
  · intro e he
    simp only [List.mem_append, List.mem_singleton, List.mem_cons, List.mem_nil_iff,
      or_false] at he
    rcases he with (he | he) | he | he
    · rw [he]
      rfl
    · have := f5 e he
      cases e <;> simp_all [is_check_recv, is_send_int]
    · rw [he]
      rfl
    · rw [he]
      rfl

/-- C20 at a concrete input: a flight of a ChangeCipherSpec message and a
Finished message of 5 bytes. -/
theorem terminal_flight_witness :
    ∃ s2 evs, _dtls_transmit sample_env (4 + 1)
        (sample_session [sample_ccs, sample_message 20 3 5]) = some (.ok 0, s2) ∧
      s2.dtls.last_flight = true ∧ s2.dtls.flight_init = true ∧
      s2.dtls.actual_retrans_timeout_ms = 1000 ∧
      s2.handshake_send_buffer = [sample_ccs, sample_message 20 3 5] ∧
      s2.calls = [] ++ evs ∧ ∀ e ∈ evs, is_check_recv e = false :=
  terminal_flight sample_env 4 (sample_session [sample_ccs, sample_message 20 3 5])
    (sample_message 20 3 5) rfl (by decide) rfl rfl (fun _ _ _ _ _ => rfl) (fun _ => rfl)
    (fun _ _ => rfl) (fun _ _ => rfl) (by decide) (by decide)

/-! ## Theorems: window bounds, ordering and maximum -/

/-- C25: on an empty window `_dtls_record_check` accepts every sequence number
`s`, leaving `record_sw_size = 1` and `record_sw[0] = s`, and the call that
follows with a sequence number `s' ≤ s` returns `-1` (replayed). `W` is
`DTLS_RECORD_WINDOW_SIZE`. -/
theorem cold_start (W : Nat) (hW : 1 ≤ W) (s s' : uint64)
    (hle : parse_seq s' ≤ parse_seq s) :
    (_dtls_record_check W (empty_window W) s).1 = 0 ∧
    (_dtls_record_check W (empty_window W) s).2.record_sw_size = 1 ∧
    slot (_dtls_record_check W (empty_window W) s).2.record_sw 0 = parse_seq s ∧
    (_dtls_record_check W (_dtls_record_check W (empty_window W) s).2 s').1 = -1 := by
  have hlen : 0 < (List.replicate W 0).length := by
    rw [List.length_replicate]
    omega
  have h0 : _dtls_record_check W (empty_window W) s =
      (0, { record_sw := (List.replicate W 0).set 0 (parse_seq s), record_sw_size := 1 }) := by
    simp only [_dtls_record_check, record_check_seq, empty_window, if_true]
  have hs : slot ((List.replicate W 0).set 0 (parse_seq s)) 0 = parse_seq s := by
    rw [slot_set _ _ _ _ hlen, if_pos rfl]
  rw [h0]
  refine ⟨rfl, rfl, hs, ?_⟩
  simp only [_dtls_record_check]
  rw [record_check_seq_eq]
  simp only [Nat.one_ne_zero, if_false, hs, hle, if_true]

/-- C25 at a concrete input: on an empty window of 64 slots the sequence number
`10^9` is accepted and `10^9 - 1` is then refused. -/
theorem cold_start_witness :
    parse_seq (seq_bytes 1000000000) = 1000000000 ∧
    parse_seq (seq_bytes 999999999) = 999999999 ∧
    (_dtls_record_check 64 (empty_window 64) (seq_bytes 1000000000)).1 = 0 ∧
    (_dtls_record_check 64 (_dtls_record_check 64 (empty_window 64)
      (seq_bytes 1000000000)).2 (seq_bytes 999999999)).1 = -1 :=
  have h := cold_start 64 (by decide) (seq_bytes 1000000000) (seq_bytes 999999999) (by decide)
  ⟨by decide, by decide, h.1, h.2.2.2⟩

/-- With `places` at most the size and the size at most `W`, the checked
`rot_window` finds no underflow and no slot outside the table. -/
theorem rot_window_checked_eq (W : Nat) (rp : record_parameters_st) (places : Nat)
    (hW32 : W < 4294967296) (hp : places ≤ rp.record_sw_size) (hs : rp.record_sw_size ≤ W) :
    rot_window_checked W rp places = some (rot_window rp places) := by
  have e : sub_u32 rp.record_sw_size places = rp.record_sw_size - places := by
    unfold sub_u32
    omega
  simp only [rot_window_checked, rot_window, checked_sub, if_pos hp, e]
  rw [if_pos (by omega)]

/-- On a window that satisfies the invariant the checked branches behind the
rotation find no underflow and no slot outside the table. -/
theorem record_check_tail_checked_eq (W m : Nat) (rp : record_parameters_st) (seq : Nat)
    (hW32 : W < 4294967296) (h : window_inv W m rp) :
    record_check_tail_checked W rp seq = some (record_check_tail W rp seq) := by
  obtain ⟨hl, h1, h2, hI, hJ, hJe⟩ := h
  have e1 : sub_u32 rp.record_sw_size 1 = rp.record_sw_size - 1 := by
    unfold sub_u32
    omega
  have e2 : sub_u32 W rp.record_sw_size = W - rp.record_sw_size := by
    unfold sub_u32
    omega
  have et : slot rp.record_sw (rp.record_sw_size - 1) = window_top rp := rfl
  have r1 : checked_sub rp.record_sw_size 1 = some (rp.record_sw_size - 1) := by
    simp only [checked_sub, if_pos h1]
  have r2 : checked_read W rp.record_sw (rp.record_sw_size - 1) = some (window_top rp) := by
    simp only [checked_read, et]
    rw [if_pos (by omega)]
  have r3 : checked_sub W rp.record_sw_size = some (W - rp.record_sw_size) := by
    simp only [checked_sub, if_pos h2]
  simp only [record_check_tail_checked, record_check_tail, e1, e2, et, r1, r2, r3]
  by_cases c1 : seq < window_top rp
  · rw [if_pos c1, if_pos c1]
    by_cases c2 : window_top rp - seq ≥ rp.record_sw_size
    · rw [if_pos c2, if_pos c2]
    · rw [if_neg c2, if_neg c2]
      have eo : (rp.record_sw_size - 1 - (window_top rp - seq)) % 4294967296 =
          rp.record_sw_size - 1 - (window_top rp - seq) := by omega
      have r4 : checked_sub (rp.record_sw_size - 1) (window_top rp - seq) =
          some (rp.record_sw_size - 1 - (window_top rp - seq)) := by
        simp only [checked_sub]
        rw [if_pos (by omega)]
      have r5 : checked_read W rp.record_sw (rp.record_sw_size - 1 - (window_top rp - seq)) =
          some (slot rp.record_sw (rp.record_sw_size - 1 - (window_top rp - seq))) := by
        simp only [checked_read]
        rw [if_pos (by omega)]
      have r6 : checked_write W rp.record_sw (rp.record_sw_size - 1 - (window_top rp - seq))
          seq = some (rp.record_sw.set (rp.record_sw_size - 1 - (window_top rp - seq)) seq) := by
        simp only [checked_write]
        rw [if_pos (by omega)]
      simp only [eo, r4, r5, r6]
      by_cases c3 : slot rp.record_sw (rp.record_sw_size - 1 - (window_top rp - seq)) = seq
      · rw [if_pos c3, if_pos c3]
      · rw [if_neg c3, if_neg c3]
  · rw [if_neg c1, if_neg c1]
    by_cases c4 : seq = window_top rp
    · rw [if_pos c4, if_pos c4]
    · rw [if_neg c4, if_neg c4]
      by_cases c5 : seq - window_top rp ≤ W - rp.record_sw_size
      · rw [if_pos c5, if_pos c5]
        have eo : (seq - window_top rp + rp.record_sw_size - 1) % 4294967296 =
            seq - window_top rp + rp.record_sw_size - 1 := by omega
        have es : (seq - window_top rp + rp.record_sw_size - 1 + 1) % 4294967296 =
            seq - window_top rp + rp.record_sw_size - 1 + 1 := by omega
        have r4 : checked_sub (seq - window_top rp + rp.record_sw_size) 1 =
            some (seq - window_top rp + rp.record_sw_size - 1) := by
          simp only [checked_sub]
          rw [if_pos (by omega)]
        have r6 : checked_write W rp.record_sw (seq - window_top rp + rp.record_sw_size - 1)
            seq = some (rp.record_sw.set (seq - window_top rp + rp.record_sw_size - 1) seq) := by
          simp only [checked_write]
          rw [if_pos (by omega)]
        simp only [eo, es, r4, r6]
      · rw [if_neg c5, if_neg c5]
        by_cases c6 : seq - window_top rp > W / 2
        · rw [if_pos c6, if_pos c6]
          have r4 : checked_sub W 1 = some (W - 1) := by
            simp only [checked_sub]
            rw [if_pos (by omega)]
          have r6 : checked_write W rp.record_sw (W - 1) seq =
              some (rp.record_sw.set (W - 1) seq) := by
            simp only [checked_write]
            rw [if_pos (by omega)]
          simp only [r4, r6]
        · rw [if_neg c6, if_neg c6]
          have hrot := rot_window_checked_eq W rp (seq - window_top rp) hW32 (by omega) h2
          have hsz : (rot_window rp (seq - window_top rp)).record_sw_size =
              rp.record_sw_size - (seq - window_top rp) := by
            simp only [rot_window]
            unfold sub_u32
            omega
          have eo : (seq - window_top rp + (rot_window rp (seq - window_top rp)).record_sw_size
              - 1) % 4294967296 =
              seq - window_top rp + (rot_window rp (seq - window_top rp)).record_sw_size - 1 := by
            rw [hsz]
            omega
          have es : (seq - window_top rp + (rot_window rp (seq - window_top rp)).record_sw_size
              - 1 + 1) % 4294967296 =
              seq - window_top rp + (rot_window rp (seq - window_top rp)).record_sw_size - 1
                + 1 := by
            rw [hsz]
            omega
          have r4 : checked_sub
              (seq - window_top rp + (rot_window rp (seq - window_top rp)).record_sw_size) 1 =
              some (seq - window_top rp + (rot_window rp (seq - window_top rp)).record_sw_size
                - 1) := by
            simp only [checked_sub]
            rw [if_pos (by omega)]
          have r6 : checked_write W (rot_window rp (seq - window_top rp)).record_sw
              (seq - window_top rp + (rot_window rp (seq - window_top rp)).record_sw_size - 1)
              seq = some ((rot_window rp (seq - window_top rp)).record_sw.set
              (seq - window_top rp + (rot_window rp (seq - window_top rp)).record_sw_size - 1)
              seq) := by
            simp only [checked_write]
            rw [if_pos (by rw [hsz]; omega)]
          simp only [hrot, eo, es, r4, r6]

/-- On a well-formed window the checked `_dtls_record_check` finds no underflow
and no slot outside the table, and gives the result of the unchecked one. -/
theorem record_check_checked_eq (W : Nat) (rp : record_parameters_st) (seq : Nat)
    (hW : MOVE_SIZE < W) (hW32 : W < 4294967296) (h : window_ok W rp) :
    record_check_checked W rp seq = some (record_check_seq W rp seq) := by
  have hW20 : 20 < W := hW
  rcases h with h | h
  · rw [h, record_check_seq_eq]
    simp only [record_check_checked, empty_window, if_true, checked_write]
    rw [if_pos (by omega)]
  · have h' := h
    obtain ⟨hl, h1, h2, hI, hJ, hJe⟩ := h'
    have r0 : checked_read W rp.record_sw 0 = some (slot rp.record_sw 0) := by
      simp only [checked_read]
      rw [if_pos (by omega)]
    have hne : ¬ rp.record_sw_size = 0 := by omega
    rw [record_check_seq_eq]
    simp only [record_check_checked, r0]
    rw [if_neg hne, if_neg hne]
    by_cases c0 : seq ≤ slot rp.record_sw 0
    · rw [if_pos c0, if_pos c0]
    · rw [if_neg c0, if_neg c0]
      by_cases cW : rp.record_sw_size = W
      · rw [if_pos cW, if_pos cW]
        rw [rot_window_checked_eq W rp MOVE_SIZE hW32 (by unfold MOVE_SIZE; omega) h2]
        exact record_check_tail_checked_eq W 0 _ seq hW32
          (window_inv_rot W 0 rp MOVE_SIZE hW32 h (by decide) (by unfold MOVE_SIZE; omega)).1
      · rw [if_neg cW, if_neg cW]
        exact record_check_tail_checked_eq W 0 rp seq hW32 h

/-- C26: starting from an empty window, in every call of `_dtls_record_check`
each slot index read, written or moved (the `memmove` of `rot_window`
included) is inside `0 .. W - 1` and no unsigned subtraction underflows (the
checked function gives the result of the plain one), and after the call
`1 ≤ record_sw_size ≤ W`.  `W` is `DTLS_RECORD_WINDOW_SIZE`, larger than
`MOVE_SIZE` and an `unsigned int`. -/
theorem window_bounds (W : Nat) (hW : MOVE_SIZE < W) (hW32 : W < 4294967296)
    (before : List uint64) (s : uint64) :
    record_check_checked W (run_checks W (empty_window W) before) (parse_seq s) =
      some (_dtls_record_check W (run_checks W (empty_window W) before) s) ∧
    1 ≤ (_dtls_record_check W (run_checks W (empty_window W) before) s).2.record_sw_size ∧
    (_dtls_record_check W (run_checks W (empty_window W) before) s).2.record_sw_size ≤ W ∧
    (_dtls_record_check W (run_checks W (empty_window W) before) s).2.record_sw.length = W := by
  have h0 := run_checks_ok W hW hW32 before (empty_window W) (Or.inl rfl)
  obtain ⟨hl, h1, h2, _⟩ := record_check_ok W _ s hW hW32 h0
  exact ⟨record_check_checked_eq W _ _ hW hW32 h0, h1, h2, hl⟩

/-- C26 at a concrete input: a window of 64 slots after the sequence numbers 1,
40 and 73, on the call with 74, which rotates the full window. -/
theorem window_bounds_witness :
    record_check_checked 64
        (run_checks 64 (empty_window 64) [seq_bytes 1, seq_bytes 40, seq_bytes 73])
        (parse_seq (seq_bytes 74)) =
      some (_dtls_record_check 64
        (run_checks 64 (empty_window 64) [seq_bytes 1, seq_bytes 40, seq_bytes 73])
        (seq_bytes 74)) ∧
    (run_checks 64 (empty_window 64) [seq_bytes 1, seq_bytes 40, seq_bytes 73]).record_sw_size
      = 64 ∧
    (_dtls_record_check 64
        (run_checks 64 (empty_window 64) [seq_bytes 1, seq_bytes 40, seq_bytes 73])
        (seq_bytes 74)).2.record_sw_size = 45 :=
  ⟨(window_bounds 64 (by decide) (by decide) [seq_bytes 1, seq_bytes 40, seq_bytes 73]
    (seq_bytes 74)).1, by decide, by decide⟩

/-- C27, the claim as stated fails: on an empty window of 64 slots the sequence
numbers 5 and 8 are both accepted and leave the four live entries 5, 0, 0, 8,
which are not increasing by index, and `record_sw[0]` is not their minimum. -/
theorem window_order_counterexample :
    check_results 64 (empty_window 64) [seq_bytes 5, seq_bytes 8] = [0, 0] ∧
    (run_checks 64 (empty_window 64) [seq_bytes 5, seq_bytes 8]).record_sw_size = 4 ∧
    (run_checks 64 (empty_window 64) [seq_bytes 5, seq_bytes 8]).record_sw.take 4 =
      [5, 0, 0, 8] := by
  decide

/-- C27 as amended: after every sequence of `_dtls_record_check` calls that
started on an empty window, each live entry `record_sw[i]` is at most the last
live entry minus the distance `record_sw_size - 1 - i` of the two slots, so
every other live entry is strictly below the last one.  `W` is
`DTLS_RECORD_WINDOW_SIZE`, larger than `MOVE_SIZE` and an `unsigned int`. -/
theorem window_entries_below_top (W : Nat) (hW : MOVE_SIZE < W) (hW32 : W < 4294967296)
    (before : List uint64) (s : uint64) (i : Nat)
    (hi : i < (_dtls_record_check W (run_checks W (empty_window W) before) s).2.record_sw_size) :
    slot (_dtls_record_check W (run_checks W (empty_window W) before) s).2.record_sw i +
        ((_dtls_record_check W (run_checks W (empty_window W) before) s).2.record_sw_size
          - 1 - i) ≤
      slot (_dtls_record_check W (run_checks W (empty_window W) before) s).2.record_sw
        ((_dtls_record_check W (run_checks W (empty_window W) before) s).2.record_sw_size - 1) ∧
    (i + 1 < (_dtls_record_check W (run_checks W (empty_window W) before) s).2.record_sw_size →
      slot (_dtls_record_check W (run_checks W (empty_window W) before) s).2.record_sw i <
        slot (_dtls_record_check W (run_checks W (empty_window W) before) s).2.record_sw
          ((_dtls_record_check W (run_checks W (empty_window W) before) s).2.record_sw_size
            - 1)) := by
  have h0 := run_checks_ok W hW hW32 before (empty_window W) (Or.inl rfl)
  obtain ⟨hl, h1, h2, hI, _, _⟩ := record_check_ok W _ s hW hW32 h0
  have := hI i (by omega)
  unfold window_top at this
  constructor
  · omega
  · intro h
    omega

/-- C27 as amended, at a concrete input: after 5 and 8 on a window of 64 slots
the entry 5 in slot 0 is at most `8 - 3`. -/
theorem window_entries_below_top_witness :
    slot (_dtls_record_check 64 (run_checks 64 (empty_window 64) [seq_bytes 5])
        (seq_bytes 8)).2.record_sw 0 + (4 - 1 - 0) ≤
      slot (_dtls_record_check 64 (run_checks 64 (empty_window 64) [seq_bytes 5])
        (seq_bytes 8)).2.record_sw (4 - 1) :=
  (window_entries_below_top 64 (by decide) (by decide) [seq_bytes 5] (seq_bytes 8) 0
    (by decide)).1

/-- Behind the rotation: the return value is 0 or -1; an accepted sequence
number leaves the larger of itself and the old last live entry in the last
live slot, a refused one leaves the last live entry as it is; a sequence number
above the last live entry is accepted. -/
theorem record_check_tail_top (W m : Nat) (rp : record_parameters_st) (seq : Nat)
    (hW32 : W < 4294967296) (h : window_inv W m rp) :
    ((record_check_tail W rp seq).1 = 0 ∨ (record_check_tail W rp seq).1 = -1) ∧
    ((record_check_tail W rp seq).1 = 0 →
      window_top (record_check_tail W rp seq).2 = max (window_top rp) seq) ∧
    ((record_check_tail W rp seq).1 = -1 →
      window_top (record_check_tail W rp seq).2 = window_top rp) ∧
    (window_top rp < seq → (record_check_tail W rp seq).1 = 0) := by
  have n0 : ¬ ((-1 : Int) = 0) := by decide
  have n1 : ¬ ((0 : Int) = -1) := by decide
  obtain ⟨hl, h1, h2, hI, hJ, hJe⟩ := h
  have e1 : sub_u32 rp.record_sw_size 1 = rp.record_sw_size - 1 := by
    unfold sub_u32
    omega
  have e2 : sub_u32 W rp.record_sw_size = W - rp.record_sw_size := by
    unfold sub_u32
    omega
  have et : slot rp.record_sw (rp.record_sw_size - 1) = window_top rp := rfl
  have hplace : ∀ (t : List Nat) (o : Nat), o < t.length →
      window_top { record_sw := t.set o seq, record_sw_size := o + 1 } = seq := by
    intro t o ho
    simp only [window_top, Nat.add_sub_cancel]
    rw [slot_set _ _ _ _ ho, if_pos rfl]
  simp only [record_check_tail, e1, e2, et]
  by_cases c1 : seq < window_top rp
  · rw [if_pos c1]
    by_cases c2 : window_top rp - seq ≥ rp.record_sw_size
    · rw [if_pos c2]
      exact ⟨Or.inr rfl, fun h => absurd h n0, fun _ => rfl, fun h => (by omega)⟩
    · rw [if_neg c2]
      have eo : (rp.record_sw_size - 1 - (window_top rp - seq)) % 4294967296 =
          rp.record_sw_size - 1 - (window_top rp - seq) := by omega
      rw [eo]
      by_cases c3 : slot rp.record_sw (rp.record_sw_size - 1 - (window_top rp - seq)) = seq
      · rw [if_pos c3]
        exact ⟨Or.inr rfl, fun h => absurd h n0, fun _ => rfl, fun h => (by omega)⟩
      · rw [if_neg c3]
        refine ⟨Or.inl rfl, fun _ => ?_, fun h => absurd h n1, fun h => (by omega)⟩
        show slot (rp.record_sw.set (rp.record_sw_size - 1 - (window_top rp - seq)) seq)
          (rp.record_sw_size - 1) = max (window_top rp) seq
        rw [slot_set _ _ _ _ (by omega), if_neg (by omega), et]
        omega
  · rw [if_neg c1]
    by_cases c4 : seq = window_top rp
    · rw [if_pos c4]
      exact ⟨Or.inr rfl, fun h => absurd h n0, fun _ => rfl, fun h => (by omega)⟩
    · rw [if_neg c4]
      have hmax : max (window_top rp) seq = seq := by omega
      rw [hmax]
      by_cases c5 : seq - window_top rp ≤ W - rp.record_sw_size
      · rw [if_pos c5]
        have eo : (seq - window_top rp + rp.record_sw_size - 1) % 4294967296 =
            seq - window_top rp + rp.record_sw_size - 1 := by omega
        have es : (seq - window_top rp + rp.record_sw_size - 1 + 1) % 4294967296 =
            seq - window_top rp + rp.record_sw_size - 1 + 1 := by omega
        rw [eo, es]
        exact ⟨Or.inl rfl, fun _ => hplace _ _ (by omega), fun h => absurd h n1, fun _ => rfl⟩
      · rw [if_neg c5]
        by_cases c6 : seq - window_top rp > W / 2
        · rw [if_pos c6]
          refine ⟨Or.inl rfl, fun _ => ?_, fun h => absurd h n1, fun _ => rfl⟩
          have hp := hplace rp.record_sw (W - 1) (by omega)
          have ew : W - 1 + 1 = W := by omega
          rw [ew] at hp
          exact hp
        · rw [if_neg c6]
          have hsz : (rot_window rp (seq - window_top rp)).record_sw_size =
              rp.record_sw_size - (seq - window_top rp) := by
            simp only [rot_window]
            unfold sub_u32
            omega
          have hlen : (rot_window rp (seq - window_top rp)).record_sw.length = W := by
            simp only [rot_window]
            rw [length_memmove _ _ _ (by unfold sub_u32; omega), hl]
          have eo : (seq - window_top rp + (rot_window rp (seq - window_top rp)).record_sw_size
              - 1) % 4294967296 = rp.record_sw_size - 1 := by
            rw [hsz]
            omega
          have es : (rp.record_sw_size - 1 + 1) % 4294967296 = rp.record_sw_size - 1 + 1 := by
            omega
          rw [eo, es]
          exact ⟨Or.inl rfl, fun _ => hplace _ _ (by omega), fun h => absurd h n1, fun _ => rfl⟩

/-- The effect of `_dtls_record_check` on the last live entry of a window that
has seen a record: the return value is 0 or -1; an accepted sequence number
leaves the larger of itself and the old last live entry there, a refused one
leaves it as it is; a sequence number above it is accepted. -/
theorem record_check_seq_top (W m : Nat) (rp : record_parameters_st) (seq : Nat)
    (hW : MOVE_SIZE < W) (hW32 : W < 4294967296) (h : window_inv W m rp) :
    ((record_check_seq W rp seq).1 = 0 ∨ (record_check_seq W rp seq).1 = -1) ∧
    ((record_check_seq W rp seq).1 = 0 →
      window_top (record_check_seq W rp seq).2 = max (window_top rp) seq) ∧
    ((record_check_seq W rp seq).1 = -1 →
      window_top (record_check_seq W rp seq).2 = window_top rp) ∧
    (window_top rp < seq → (record_check_seq W rp seq).1 = 0) := by
  have n0 : ¬ ((-1 : Int) = 0) := by decide
  have h' := h
  obtain ⟨hl, h1, h2, hI, hJ, hJe⟩ := h'
  have hW20 : 20 < W := hW
  have hne : ¬ rp.record_sw_size = 0 := by omega
  have h00 := hI 0 (by omega)
  rw [record_check_seq_eq, if_neg hne]
  by_cases c0 : seq ≤ slot rp.record_sw 0
  · rw [if_pos c0]
    exact ⟨Or.inr rfl, fun h => absurd h n0, fun _ => rfl, fun h => (by omega)⟩
  · rw [if_neg c0]
    by_cases cW : rp.record_sw_size = W
    · rw [if_pos cW]
      obtain ⟨r1, _, r3⟩ := window_inv_rot W m rp MOVE_SIZE hW32 h (by decide)
        (by unfold MOVE_SIZE; omega)
      have := record_check_tail_top W m (rot_window rp MOVE_SIZE) seq hW32 r1
      rw [r3] at this
      exact this
    · rw [if_neg cW]
      exact record_check_tail_top W m rp seq hW32 h

/-- Over a sequence of calls on a window that has seen a record, the last live
entry never decreases, it ends up as it was or as one of the accepted sequence
numbers, and every accepted sequence number is at most the final one. -/
theorem run_checks_top (W m : Nat) (hW : MOVE_SIZE < W) (hW32 : W < 4294967296)
    (xs : List uint64) :
    ∀ rp, window_inv W m rp →
      (window_top (run_checks W rp xs) = window_top rp ∨
        window_top (run_checks W rp xs) ∈ accepted_seqs W rp xs) ∧
      window_top rp ≤ window_top (run_checks W rp xs) ∧
      ∀ a ∈ accepted_seqs W rp xs, a ≤ window_top (run_checks W rp xs) := by
  induction xs with
  | nil =>
    intro rp _
    exact ⟨Or.inl rfl, Nat.le_refl _, fun a ha => by cases ha⟩
  | cons x rest ih =>
    intro rp h
    have hinv := record_check_seq_inv W m rp (parse_seq x) hW hW32 h
    obtain ⟨t1, t2, t3, _⟩ := record_check_seq_top W m rp (parse_seq x) hW hW32 h
    obtain ⟨i1, i2, i3⟩ := ih _ hinv
    simp only [run_checks, accepted_seqs, _dtls_record_check] at i1 i2 i3 ⊢
    rcases t1 with t | t
    · have htop := t2 t
      rw [if_pos t]
      rw [htop] at i2
      refine ⟨?_, by omega, ?_⟩
      · rcases i1 with i | i
        · rw [i, htop]
          by_cases c : window_top rp ≤ parse_seq x
          · right
            rw [Nat.max_eq_right c]
            exact List.mem_cons_self _ _
          · left
            exact Nat.max_eq_left (by omega)
        · right
          exact List.mem_cons_of_mem _ i
      · intro a ha
        rcases List.mem_cons.mp ha with ha | ha
        · rw [ha]
          omega
        · exact i3 a ha
    · have htop := t3 t
      have hne : ¬ (record_check_seq W rp (parse_seq x)).1 = 0 := by
        rw [t]
        decide
      rw [if_neg hne]
      rw [htop] at i1 i2
      exact ⟨i1, i2, i3⟩

/-- After at least one call on a window that started empty, the invariant
holds, the last live entry is one of the accepted sequence numbers and every
accepted sequence number is at most the last live entry. -/
theorem run_checks_empty_top (W : Nat) (hW : MOVE_SIZE < W) (hW32 : W < 4294967296)
    (x : uint64) (rest : List uint64) :
    window_inv W 0 (run_checks W (empty_window W) (x :: rest)) ∧
    window_top (run_checks W (empty_window W) (x :: rest)) ∈
      accepted_seqs W (empty_window W) (x :: rest) ∧
    ∀ a ∈ accepted_seqs W (empty_window W) (x :: rest),
      a ≤ window_top (run_checks W (empty_window W) (x :: rest)) := by
  have hW20 : 20 < W := hW
  have hlen : 0 < (List.replicate W 0).length := by
    rw [List.length_replicate]
    omega
  have h0 : _dtls_record_check W (empty_window W) x =
      (0, { record_sw := (List.replicate W 0).set 0 (parse_seq x), record_sw_size := 1 }) := by
    simp only [_dtls_record_check, record_check_seq, empty_window, if_true]
  have hinv : window_inv W 0 (_dtls_record_check W (empty_window W) x).2 :=
    record_check_first W (parse_seq x) (by omega)
  have htop : window_top (_dtls_record_check W (empty_window W) x).2 = parse_seq x := by
    rw [h0]
    show slot ((List.replicate W 0).set 0 (parse_seq x)) (1 - 1) = parse_seq x
    rw [slot_set _ _ _ _ hlen, if_pos rfl]
  obtain ⟨i1, i2, i3⟩ := run_checks_top W 0 hW hW32 rest _ hinv
  have hacc : accepted_seqs W (empty_window W) (x :: rest) =
      parse_seq x :: accepted_seqs W (_dtls_record_check W (empty_window W) x).2 rest := by
    simp only [accepted_seqs, h0, if_true]
  rw [hacc]
  simp only [run_checks]
  rw [htop] at i1 i2
  refine ⟨run_checks_inv W 0 hW hW32 rest _ hinv, ?_, ?_⟩
  · rcases i1 with i | i
    · rw [i]
      exact List.mem_cons_self _ _
    · exact List.mem_cons_of_mem _ i
  · intro a ha
    rcases List.mem_cons.mp ha with ha | ha
    · rw [ha]
      exact i2
    · exact i3 a ha

/-- C28: after every sequence of `_dtls_record_check` calls with at least one
call that started on an empty window, the last live entry
`record_sw[record_sw_size - 1]` is one of the accepted sequence numbers, every
accepted sequence number is at most it (it is the largest accepted so far),
and every live entry is at most it.  `W` is `DTLS_RECORD_WINDOW_SIZE`, larger
than `MOVE_SIZE` and an `unsigned int`. -/
theorem window_top_is_max (W : Nat) (hW : MOVE_SIZE < W) (hW32 : W < 4294967296)
    (x : uint64) (rest : List uint64) :
    slot (run_checks W (empty_window W) (x :: rest)).record_sw
        ((run_checks W (empty_window W) (x :: rest)).record_sw_size - 1) ∈
      accepted_seqs W (empty_window W) (x :: rest) ∧
    (∀ a ∈ accepted_seqs W (empty_window W) (x :: rest),
      a ≤ slot (run_checks W (empty_window W) (x :: rest)).record_sw
        ((run_checks W (empty_window W) (x :: rest)).record_sw_size - 1)) ∧
    (∀ i, i < (run_checks W (empty_window W) (x :: rest)).record_sw_size →
      slot (run_checks W (empty_window W) (x :: rest)).record_sw i ≤
        slot (run_checks W (empty_window W) (x :: rest)).record_sw
          ((run_checks W (empty_window W) (x :: rest)).record_sw_size - 1)) := by
  obtain ⟨⟨hl, h1, h2, hI, _, _⟩, hmem, hmax⟩ := run_checks_empty_top W hW hW32 x rest
  refine ⟨hmem, hmax, ?_⟩
  intro i hi
  have := hI i (by omega)
  unfold window_top at this
  omega

/-- C28 at a concrete input: after 100, 163, 120, 100 and 164 on a window of 64
slots (100 is refused the second time, 164 rotates the full window) the last
live entry is 164. -/
theorem window_top_is_max_witness :
    accepted_seqs 64 (empty_window 64)
      [seq_bytes 100, seq_bytes 163, seq_bytes 120, seq_bytes 100, seq_bytes 164] =
      [100, 163, 120, 164] ∧
    slot (run_checks 64 (empty_window 64)
        [seq_bytes 100, seq_bytes 163, seq_bytes 120, seq_bytes 100, seq_bytes 164]).record_sw
        ((run_checks 64 (empty_window 64)
          [seq_bytes 100, seq_bytes 163, seq_bytes 120, seq_bytes 100,
            seq_bytes 164]).record_sw_size - 1) ∈
      accepted_seqs 64 (empty_window 64)
        [seq_bytes 100, seq_bytes 163, seq_bytes 120, seq_bytes 100, seq_bytes 164] :=
  ⟨by decide, (window_top_is_max 64 (by decide) (by decide) (seq_bytes 100)
    [seq_bytes 163, seq_bytes 120, seq_bytes 100, seq_bytes 164]).1⟩

/-- C30: on a window that started empty, a sequence number strictly greater
than every sequence number accepted before is accepted by `_dtls_record_check`,
whatever the jump and whether or not the window is full, and afterwards it is
the last live entry `record_sw[record_sw_size - 1]`.  `W` is
`DTLS_RECORD_WINDOW_SIZE`, larger than `MOVE_SIZE` and an `unsigned int`. -/
theorem new_maximum_accepted (W : Nat) (hW : MOVE_SIZE < W) (hW32 : W < 4294967296)
    (before : List uint64) (s : uint64)
    (hnew : ∀ a ∈ accepted_seqs W (empty_window W) before, a < parse_seq s) :
    (_dtls_record_check W (run_checks W (empty_window W) before) s).1 = 0 ∧
    slot (_dtls_record_check W (run_checks W (empty_window W) before) s).2.record_sw
      ((_dtls_record_check W (run_checks W (empty_window W) before) s).2.record_sw_size - 1) =
      parse_seq s := by
  have hW20 : 20 < W := hW
  cases before with
  | nil =>
    have hlen : 0 < (List.replicate W 0).length := by
      rw [List.length_replicate]
      omega
    have h0 : _dtls_record_check W (empty_window W) s =
        (0, { record_sw := (List.replicate W 0).set 0 (parse_seq s), record_sw_size := 1 }) := by
      simp only [_dtls_record_check, record_check_seq, empty_window, if_true]
    simp only [run_checks]
    rw [h0]
    refine ⟨rfl, ?_⟩
    show slot ((List.replicate W 0).set 0 (parse_seq s)) (1 - 1) = parse_seq s
    rw [slot_set _ _ _ _ hlen, if_pos rfl]
  | cons x rest =>
    obtain ⟨hinv, hmem, _⟩ := run_checks_empty_top W hW hW32 x rest
    have hlt := hnew _ hmem
    obtain ⟨_, t2, _, t4⟩ := record_check_seq_top W 0 _ (parse_seq s) hW hW32 hinv
    have hacc := t4 hlt
    have htop := t2 hacc
    unfold window_top at htop
    unfold _dtls_record_check
    refine ⟨hacc, ?_⟩
    rw [htop]
    unfold window_top at hlt
    omega

/-- C30 at a concrete input: on a full window of 64 slots (after 1, 40 and 73)
the new maximum 200 is accepted and ends up in the last live slot. -/
theorem new_maximum_accepted_witness :
    (run_checks 64 (empty_window 64) [seq_bytes 1, seq_bytes 40, seq_bytes 73]).record_sw_size
      = 64 ∧
    (_dtls_record_check 64
      (run_checks 64 (empty_window 64) [seq_bytes 1, seq_bytes 40, seq_bytes 73])
      (seq_bytes 200)).1 = 0 ∧
    slot (_dtls_record_check 64
        (run_checks 64 (empty_window 64) [seq_bytes 1, seq_bytes 40, seq_bytes 73])
        (seq_bytes 200)).2.record_sw
      ((_dtls_record_check 64
        (run_checks 64 (empty_window 64) [seq_bytes 1, seq_bytes 40, seq_bytes 73])
        (seq_bytes 200)).2.record_sw_size - 1) = parse_seq (seq_bytes 200) :=
  have h := new_maximum_accepted 64 (by decide) (by decide)
    [seq_bytes 1, seq_bytes 40, seq_bytes 73] (seq_bytes 200) (by decide)
  ⟨by decide, h.1, h.2⟩

/-! ## Theorems: `gnutls_memcmp` -/

/-- Adding no call leaves the session as it is. -/
theorem add_calls_nil (session : session_st) : add_calls session [] = session := by
  cases session
  simp only [add_calls, List.append_nil]

/-- Adding calls twice is adding them all at once. -/
theorem add_calls_add_calls (session : session_st) (a b : List io_event) :
    add_calls (add_calls session a) b = add_calls session (a ++ b) := by
  simp only [add_calls, List.append_assoc]

/-- The loop over the send buffer, when no send fails (the scratch buffer can
be allocated, the record overhead does not change, the data MTU leaves room for
a fragment header and one byte, no `data_size + m` overflows an `unsigned int`,
the fuel covers the fragments of each message): it returns a value that is not
negative and the calls it makes are the sends of every message, once, in
buffer order. -/
theorem transmit_flight_sends (env : dtls_env) (fuel : Nat)
    (hsend : ∀ calls t h e d, ret_neg (env._gnutls_send_int calls t h e d) = false)
    (hmalloc : ∀ calls n, env.gnutls_malloc calls n = true)
    (hov : ∀ c1 c2, env._gnutls_record_overhead_rt c1 = env._gnutls_record_overhead_rt c2) :
    ∀ (msgs : List mbuffer_st) (session : session_st) (buf : Option (List Nat))
      (last_type : Nat),
      13 ≤ gnutls_dtls_get_data_mtu env session →
      (∀ b ∈ msgs, b.type ≠ env.GNUTLS_CHANGE_CIPHER_SPEC →
        b.udata.length + (gnutls_dtls_get_data_mtu env session - 12) < 4294967296 ∧
        b.udata.length / (gnutls_dtls_get_data_mtu env session - 12) + 1 < fuel) →
      (∀ b, buf = some b → gnutls_dtls_get_data_mtu env session ≤ b.length) →
      ∃ r b1 lt, transmit_flight env fuel msgs session buf last_type =
          some (r, add_calls session (flight_sends env.GNUTLS_CHANGE_CIPHER_SPEC
            (gnutls_dtls_get_data_mtu env session - 12) msgs), b1, lt) ∧
        ret_neg r = false := by
  intro msgs
  induction msgs with
  | nil =>
    intro session buf last_type _ _ _
    refine ⟨.ok 0, buf, last_type, ?_, rfl⟩
    simp only [transmit_flight, flight_sends, add_calls_nil]
  | cons cur rest ih =>
    intro session buf last_type hdm hmsgs hbuf
    have hex : ∃ r b2, transmit_message env fuel session cur buf =
        some (r, add_calls session (message_sends env.GNUTLS_CHANGE_CIPHER_SPEC
          (gnutls_dtls_get_data_mtu env session - 12) cur), b2) ∧ ret_neg r = false := by
      by_cases hc : cur.type = env.GNUTLS_CHANGE_CIPHER_SPEC
      · refine ⟨env._gnutls_send_int session.calls cur.type (-1) cur.epoch cur.uhead, buf, ?_,
          hsend session.calls cur.type (-1) cur.epoch cur.uhead⟩
        simp only [transmit_message, message_sends, hc, if_true, log_call, add_calls]
      · obtain ⟨h1, h2⟩ := hmsgs cur (List.mem_cons_self _ _) hc
        obtain ⟨r, b2, h, hr⟩ := transmit_message_fragments env fuel session cur buf hc hdm h1
          (fun _ _ => hsend _ _ _ _ _) (fun _ => hmalloc _ _) hbuf h2
        refine ⟨r, some b2, ?_, hr⟩
        rw [h]
        simp only [message_sends, if_neg hc]
    obtain ⟨r, b2, ht, hr⟩ := hex
    have hdm2 : gnutls_dtls_get_data_mtu env (add_calls session
        (message_sends env.GNUTLS_CHANGE_CIPHER_SPEC
          (gnutls_dtls_get_data_mtu env session - 12) cur)) =
        gnutls_dtls_get_data_mtu env session :=
      data_mtu_congr env _ session (hov _ _) rfl
    have hb2 := transmit_message_buffer env fuel session cur buf r _ b2 (by omega)
      (fun hc => (hmsgs cur (List.mem_cons_self _ _) hc).1) hbuf ht
    obtain ⟨r2, b3, lt3, h3, hr3⟩ := ih (add_calls session
        (message_sends env.GNUTLS_CHANGE_CIPHER_SPEC
          (gnutls_dtls_get_data_mtu env session - 12) cur)) b2 cur.htype
      (by rw [hdm2]; exact hdm)
      (by
        rw [hdm2]
        intro b hb hc
        exact hmsgs b (List.mem_cons_of_mem _ hb) hc)
      (by rw [hdm2]; exact hb2)
    refine ⟨r2, b3, lt3, ?_, hr3⟩
    simp only [transmit_flight, ht, hr, Bool.false_eq_true, if_false]
    rw [h3, hdm2, add_calls_add_calls]
    rfl

/-- When its two callees do not fail and a handshake message of the peer is
buffered, `is_next_hpacket_expected` returns 0 after its two calls. -/
theorem is_next_hpacket_expected_ok (env : dtls_env) (session : session_st)
    (hin : ∀ calls, ret_neg (env._gnutls_recv_in_buffers calls) = false)
    (hparse : ∀ calls, ret_neg (env._gnutls_parse_record_buffered_msgs calls) = false)
    (hbufd : ∀ calls, 0 < env.handshake_recv_buffer_size calls) :
    is_next_hpacket_expected env session =
      (.ok 0, add_calls session
        [io_event.recv_in_buffers, io_event.parse_record_buffered_msgs]) := by
  simp only [is_next_hpacket_expected, hin, hparse, Bool.false_eq_true, if_false, log_call,
    gt_iff_lt, hbufd, if_true, add_calls, List.append_assoc, List.singleton_append]

/-- The first transmission of a flight in `_dtls_transmit` (`flight_init = 0`)
when the loop over the send buffer returned a value that is not negative: the
time is taken for `last_retransmit`, `flight_init` is set, the timer is reset
to its base and `last_flight` tells whether the last message was Finished. -/
theorem send_phase_first (env : dtls_env) (fuel : Nat) (session s1 : session_st)
    (buf b1 : Option (List Nat)) (diff timeout last_type lt : Nat) (r : ret_t)
    (hinit : session.dtls.flight_init = false)
    (hflight : transmit_flight env fuel session.handshake_send_buffer session buf last_type =
      some (r, s1, b1, lt))
    (hr : ret_neg r = false) :
    dtls_send_phase env fuel session buf diff timeout last_type =
      some (.inr ({ s1 with
          dtls := { s1.dtls with
            last_retransmit := env.gettime s1.calls
            flight_init := true
            actual_retrans_timeout_ms := s1.dtls.retrans_timeout_ms
            last_flight := decide (lt = env.GNUTLS_HANDSHAKE_FINISHED) }
          calls := s1.calls ++ [io_event.gettime] },
        b1, s1.dtls.retrans_timeout_ms, lt)) := by
  obtain ⟨f1, _, _, _, _⟩ := transmit_flight_session env fuel _ _ _ _ _ _ _ _ hflight
  have hfi : s1.dtls.flight_init = false := by
    rw [f1]
    exact hinit
  unfold dtls_send_phase
  have hc : session.dtls.flight_init = false ∨
      diff ≥ session.dtls.actual_retrans_timeout_ms := Or.inl hinit
  rw [if_pos hc, hflight]
  simp only [hr, Bool.false_eq_true, if_false, log_call, hfi, if_true, RESET_TIMER]

/-- C21 as amended: in blocking mode with `flight_init = 0`, the budget not used
up, a flight whose last message is not Finished, no failing send or flush, a
scratch buffer that can be allocated, a record overhead that stays the same
during the call, a data MTU of at least 13 (room for the fragment header and
one byte), `data_size + m` below `2^32` for each handshake message (and fuel
that covers the fragments), the receive check returning 0 and a
handshake message of the peer buffered, `_dtls_transmit` returns 0; the calls
it made are `gettime`, the sends of every message once in buffer order,
`gettime` for `last_retransmit`, the flush, the receive check with the base
timeout, the two calls of `is_next_hpacket_expected` and then reference count
decrements only; on return `flight_init = 0`, the send buffer is empty and the
timer is at its base. -/
theorem happy_path (env : dtls_env) (fuel : Nat) (session : session_st) (last : mbuffer_st)
    (hblock : session.dtls.blocking = true)
    (hinit : session.dtls.flight_init = false)
    (hbudget : env.timespec_sub_ms (env.gettime session.calls)
      session.dtls.handshake_start_time < session.dtls.total_timeout_ms)
    (hlast : session.handshake_send_buffer.getLast? = some last)
    (hfin : last.htype ≠ env.GNUTLS_HANDSHAKE_FINISHED)
    (hsend : ∀ calls t h e d, ret_neg (env._gnutls_send_int calls t h e d) = false)
    (hflush : ∀ calls, ret_neg (env._gnutls_io_write_flush calls) = false)
    (hmalloc : ∀ calls n, env.gnutls_malloc calls n = true)
    (hov : ∀ c1 c2, env._gnutls_record_overhead_rt c1 = env._gnutls_record_overhead_rt c2)
    (hdm : 13 ≤ gnutls_dtls_get_data_mtu env session)
    (hmsgs : ∀ b ∈ session.handshake_send_buffer, b.type ≠ env.GNUTLS_CHANGE_CIPHER_SPEC →
      b.udata.length + (gnutls_dtls_get_data_mtu env session - 12) < 4294967296 ∧
      b.udata.length / (gnutls_dtls_get_data_mtu env session - 12) + 1 < fuel)
    (hrecv : ∀ calls ms, env._gnutls_io_check_recv calls ms = .ok 0)
    (hin : ∀ calls, ret_neg (env._gnutls_recv_in_buffers calls) = false)
    (hparse : ∀ calls, ret_neg (env._gnutls_parse_record_buffered_msgs calls) = false)
    (hbufd : ∀ calls, 0 < env.handshake_recv_buffer_size calls) :
    ∃ s2 decs, _dtls_transmit env (fuel + 1) session = some (.ok 0, s2) ∧
      s2.calls = session.calls ++ [io_event.gettime] ++
        flight_sends env.GNUTLS_CHANGE_CIPHER_SPEC (gnutls_dtls_get_data_mtu env session - 12)
          session.handshake_send_buffer ++
        [io_event.gettime, io_event.io_write_flush,
          io_event.io_check_recv session.dtls.retrans_timeout_ms,
          io_event.recv_in_buffers, io_event.parse_record_buffered_msgs] ++ decs ∧
      (∀ e ∈ decs, is_refcount_dec e = true) ∧
      s2.dtls.flight_init = false ∧ s2.handshake_send_buffer = [] ∧
      s2.dtls.actual_retrans_timeout_ms = session.dtls.retrans_timeout_ms ∧
      s2.dtls.last_retransmit = env.gettime (session.calls ++ [io_event.gettime] ++
        flight_sends env.GNUTLS_CHANGE_CIPHER_SPEC (gnutls_dtls_get_data_mtu env session - 12)
          session.handshake_send_buffer) := by
  have hdm0 : gnutls_dtls_get_data_mtu env (log_call session io_event.gettime) =
      gnutls_dtls_get_data_mtu env session :=
    data_mtu_congr env (log_call session io_event.gettime) session (hov _ _) rfl
  obtain ⟨r, b1, lt, hsends, hr⟩ := transmit_flight_sends env fuel hsend hmalloc hov
    session.handshake_send_buffer (log_call session io_event.gettime) none 0
    (by rw [hdm0]; exact hdm) (by rw [hdm0]; exact hmsgs) (fun _ h => by cases h)
  rw [hdm0] at hsends
  obtain ⟨_, _, _, _, f6⟩ := transmit_flight_session env fuel _ _ _ _ _ _ _ _ hsends
  have hlt : lt ≠ env.GNUTLS_HANDSHAKE_FINISHED := by
    rw [f6 hr]
    simp only [log_call, hlast, Option.map_some', Option.getD_some]
    exact hfin
  have hfirst : ¬ ((log_call session io_event.gettime).dtls.flight_init = true ∧
      (log_call session io_event.gettime).dtls.blocking = false) := by
    simp only [log_call, hinit]
    rintro ⟨h1, _⟩
    cases h1
  have hnb : ¬ env.timespec_sub_ms (env.gettime session.calls)
      (log_call session io_event.gettime).dtls.handshake_start_time ≥
      (log_call session io_event.gettime).dtls.total_timeout_ms := by
    simp only [log_call]
    omega
  have hphase := send_phase_first env fuel (log_call session io_event.gettime) _ none b1
    (env.timespec_sub_ms (env.gettime session.calls)
      (log_call session io_event.gettime).dtls.last_retransmit)
    (log_call session io_event.gettime).dtls.actual_retrans_timeout_ms 0 lt r hinit hsends hr
  have hnext := fun s => is_next_hpacket_expected_ok env s hin hparse hbufd
  have hrun : _dtls_transmit env (fuel + 1) session = some (dtls_end_flight env
      { dtls := { session.dtls with
            last_retransmit := env.gettime (session.calls ++ [io_event.gettime] ++
              flight_sends env.GNUTLS_CHANGE_CIPHER_SPEC
                (gnutls_dtls_get_data_mtu env session - 12) session.handshake_send_buffer)
            flight_init := true
            actual_retrans_timeout_ms := session.dtls.retrans_timeout_ms
            last_flight := false }
        handshake_send_buffer := session.handshake_send_buffer
        write_sequence_number := session.write_sequence_number
        calls := session.calls ++ [io_event.gettime] ++
          flight_sends env.GNUTLS_CHANGE_CIPHER_SPEC
            (gnutls_dtls_get_data_mtu env session - 12) session.handshake_send_buffer ++
          [io_event.gettime, io_event.io_write_flush,
            io_event.io_check_recv session.dtls.retrans_timeout_ms,
            io_event.recv_in_buffers, io_event.parse_record_buffered_msgs] }
      (.ok 0)) := by
    unfold _dtls_transmit
    simp only
    rw [if_neg hfirst]
    unfold dtls_transmit_loop
    simp only
    rw [if_neg hnb, hphase]
    have hok : ret_neg (Except.ok 0 : ret_t) = false := rfl
    simp only [log_call, add_calls, hflush _, hrecv, hnext, hblock, hlt, decide_False, hok,
      Bool.false_eq_true, Bool.true_eq_false, if_false, if_true, false_and, and_false,
      or_self, reduceCtorEq, List.append_assoc, List.singleton_append, List.cons_append,
      List.nil_append]
  obtain ⟨_, d1, d2, decs, d3, d4⟩ := dtls_end_flight_session env
      { dtls := { session.dtls with
            last_retransmit := env.gettime (session.calls ++ [io_event.gettime] ++
              flight_sends env.GNUTLS_CHANGE_CIPHER_SPEC
                (gnutls_dtls_get_data_mtu env session - 12) session.handshake_send_buffer)
            flight_init := true
            actual_retrans_timeout_ms := session.dtls.retrans_timeout_ms
            last_flight := false }
        handshake_send_buffer := session.handshake_send_buffer
        write_sequence_number := session.write_sequence_number
        calls := session.calls ++ [io_event.gettime] ++
          flight_sends env.GNUTLS_CHANGE_CIPHER_SPEC
            (gnutls_dtls_get_data_mtu env session - 12) session.handshake_send_buffer ++
          [io_event.gettime, io_event.io_write_flush,
            io_event.io_check_recv session.dtls.retrans_timeout_ms,
            io_event.recv_in_buffers, io_event.parse_record_buffered_msgs] }
      (.ok 0)
  exact ⟨_, decs, hrun, d3, d4, congrArg dtls_st.flight_init d1, d2,
    congrArg dtls_st.actual_retrans_timeout_ms d1, congrArg dtls_st.last_retransmit d1⟩

/-- C21 at a concrete input: a blocking session with a flight of two handshake
messages of 5 bytes, neither of them Finished, and a peer whose reply is
buffered. -/
theorem happy_path_witness :
    flight_sends 20 400 [sample_message 1 0 5, sample_message 2 1 5] =
      [io_event.send_int 22 1 0 [1, 0, 0, 5, 0, 0, 0, 0, 0, 0, 0, 5, 0, 1, 2, 3, 4],
       io_event.send_int 22 2 0 [2, 0, 0, 5, 0, 1, 0, 0, 0, 0, 0, 5, 0, 1, 2, 3, 4]] ∧
    ∃ s2 decs, _dtls_transmit sample_env (4 + 1)
        (sample_session [sample_message 1 0 5, sample_message 2 1 5]) = some (.ok 0, s2) ∧
      s2.calls = [] ++ [io_event.gettime] ++
        flight_sends 20 (412 - 12) [sample_message 1 0 5, sample_message 2 1 5] ++
        [io_event.gettime, io_event.io_write_flush, io_event.io_check_recv 1000,
          io_event.recv_in_buffers, io_event.parse_record_buffered_msgs] ++ decs ∧
      (∀ e ∈ decs, is_refcount_dec e = true) ∧
      s2.dtls.flight_init = false ∧ s2.handshake_send_buffer = [] ∧
      s2.dtls.actual_retrans_timeout_ms = 1000 ∧
      s2.dtls.last_retransmit = sample_env.gettime ([] ++ [io_event.gettime] ++
        flight_sends 20 (412 - 12) [sample_message 1 0 5, sample_message 2 1 5]) :=
  ⟨by decide,
    happy_path sample_env 4 (sample_session [sample_message 1 0 5, sample_message 2 1 5])
      (sample_message 2 1 5) rfl rfl (by decide) rfl (by decide) (fun _ _ _ _ _ => rfl)
      (fun _ => rfl) (fun _ _ => rfl) (fun _ _ => rfl) (by decide) (by decide)
      (fun _ _ => rfl) (fun _ => rfl) (fun _ => rfl) (fun _ => Nat.zero_lt_one)⟩

/-- The calls of `drop_usage_count` are the decrements for the first `k`
messages of the buffer, once each and in buffer order; `k` is short of the
number of messages only when the decrement for message `k - 1` failed, it is
the number of messages when no decrement fails, and every decrement before the
one for message `k - 1` succeeded. -/
theorem drop_usage_count_calls (env : dtls_env) :
    ∀ (msgs : List mbuffer_st) (session : session_st),
      ∃ k, k ≤ msgs.length ∧
        (drop_usage_count env session msgs).2 =
          add_calls session (flight_decrements (msgs.take k)) ∧
        (k < msgs.length → ∃ j cur, k = j + 1 ∧ msgs[j]? = some cur ∧
          ret_neg (env._gnutls_epoch_refcount_dec
            (session.calls ++ flight_decrements (msgs.take j)) cur.epoch) = true) ∧
        ((∀ calls e, ret_neg (env._gnutls_epoch_refcount_dec calls e) = false) →
          k = msgs.length) ∧
        (∀ j cur, j + 1 < k → msgs[j]? = some cur →
          ret_neg (env._gnutls_epoch_refcount_dec
            (session.calls ++ flight_decrements (msgs.take j)) cur.epoch) = false) := by
  intro msgs
  induction msgs with
  | nil =>
    intro session
    refine ⟨0, Nat.le_refl _, ?_, fun h => absurd h (Nat.lt_irrefl _), fun _ => rfl, ?_⟩
    · simp only [drop_usage_count, List.take_nil, flight_decrements, List.map_nil,
        add_calls_nil]
    · intro j cur hj
      omega
  | cons cur rest ih =>
    intro session
    by_cases hn : ret_neg (env._gnutls_epoch_refcount_dec session.calls cur.epoch) = true
    · refine ⟨1, by simp only [List.length_cons]; omega, ?_, ?_, ?_, ?_⟩
      · simp only [drop_usage_count, hn, if_true, log_call, add_calls, flight_decrements,
          List.take_succ_cons, List.take_zero, List.map_cons, List.map_nil]
      · intro _
        refine ⟨0, cur, rfl, List.getElem?_cons_zero, ?_⟩
        simp only [List.take_zero, flight_decrements, List.map_nil, List.append_nil]
        exact hn
      · intro hall
        rw [hall] at hn
        cases hn
      · intro j c hj
        omega
    · obtain ⟨k, hk, hcalls, hfail, hall, hok⟩ := ih (log_call session
        (io_event.epoch_refcount_dec cur.epoch))
      refine ⟨k + 1, by simp only [List.length_cons]; omega, ?_, ?_, ?_, ?_⟩
      · simp only [drop_usage_count, hn, Bool.false_eq_true, if_false]
        rw [hcalls]
        simp only [log_call, add_calls, flight_decrements, List.take_succ_cons, List.map_cons,
          List.append_assoc, List.singleton_append]
      · intro hlt
        obtain ⟨j, c, hj, hc, hneg⟩ := hfail (by simp only [List.length_cons] at hlt; omega)
        refine ⟨j + 1, c, by omega, ?_, ?_⟩
        · rw [List.getElem?_cons_succ]
          exact hc
        · simp only [log_call, flight_decrements, List.take_succ_cons, List.map_cons,
            List.append_assoc, List.singleton_append] at hneg ⊢
          exact hneg
      · intro h
        rw [hall h]
        rfl
      · intro j c hj hc
        cases j with
        | zero =>
          rw [List.getElem?_cons_zero, Option.some.injEq] at hc
          rw [← hc]
          simp only [List.take_zero, flight_decrements, List.map_nil, List.append_nil]
          exact Bool.eq_false_iff.mpr hn
        | succ i =>
          rw [List.getElem?_cons_succ] at hc
          have := hok i c (by omega) hc
          simp only [log_call, flight_decrements, List.take_succ_cons, List.map_cons,
            List.append_assoc, List.singleton_append] at this ⊢
          exact this

/-- C23, the claim as stated fails: with two messages buffered in the epochs 0
and 1 and an epoch table in which the decrement fails, a flight that ends in
`_dtls_transmit` (here by the global timeout) has one decrement on record, for
epoch 0; the message in epoch 1 is dropped from the buffer without a
decrement. -/
theorem refcount_counterexample :
    _dtls_transmit sample_env_refcount_fails 1
      { sample_session [sample_message 1 0 5, { sample_message 2 1 5 with epoch := 1 }] with
        dtls := { sample_dtls with total_timeout_ms := 0 } } =
      some (.error GNUTLS_E_TIMEDOUT,
        { sample_session [] with
          dtls := { sample_dtls with total_timeout_ms := 0 }
          calls := [io_event.gettime, io_event.epoch_refcount_dec 0] }) := by
  decide

/-- C23 as amended: when a flight ends in `_dtls_transmit` (label `end_flight`,
with whatever return value), the reference count decrements are made for the
first `k` messages in buffer order, once each, where every decrement before the
last of them succeeded and `k` is short of the number of messages only when the
last of them failed: the decrements go up to and including the first one that
fails, and a decrement that fails for message `j` means `k ≤ j + 1`, so the
messages behind it get none; the send buffer is cleared afterwards in either
case.  When no decrement fails there is exactly one decrement for every
message of the flight. -/
theorem refcount_dropped_until_failure (env : dtls_env) (session : session_st) (ret : ret_t) :
    (dtls_end_flight env session ret).1 = ret ∧
    (dtls_end_flight env session ret).2.handshake_send_buffer = [] ∧
    (∃ k, k ≤ session.handshake_send_buffer.length ∧
      (dtls_end_flight env session ret).2.calls =
        session.calls ++ flight_decrements (session.handshake_send_buffer.take k) ∧
      (k < session.handshake_send_buffer.length → ∃ j cur, k = j + 1 ∧
        session.handshake_send_buffer[j]? = some cur ∧
        ret_neg (env._gnutls_epoch_refcount_dec
          (session.calls ++ flight_decrements (session.handshake_send_buffer.take j))
          cur.epoch) = true) ∧
      (∀ j cur, j + 1 < k → session.handshake_send_buffer[j]? = some cur →
        ret_neg (env._gnutls_epoch_refcount_dec
          (session.calls ++ flight_decrements (session.handshake_send_buffer.take j))
          cur.epoch) = false) ∧
      (∀ j cur, session.handshake_send_buffer[j]? = some cur →
        ret_neg (env._gnutls_epoch_refcount_dec
          (session.calls ++ flight_decrements (session.handshake_send_buffer.take j))
          cur.epoch) = true → k ≤ j + 1)) ∧
    ((∀ calls e, ret_neg (env._gnutls_epoch_refcount_dec calls e) = false) →
      (dtls_end_flight env session ret).2.calls =
        session.calls ++ flight_decrements session.handshake_send_buffer) := by
  obtain ⟨k, hk, hcalls, hfail, hall, hok⟩ := drop_usage_count_calls env
    session.handshake_send_buffer
    { session with dtls := { session.dtls with flight_init := false } }
  have hc : (dtls_end_flight env session ret).2.calls =
      session.calls ++ flight_decrements (session.handshake_send_buffer.take k) := by
    simp only [dtls_end_flight, dtls_cleanup]
    rw [hcalls]
    rfl
  refine ⟨rfl, rfl, ⟨k, hk, hc, hfail, hok, ?_⟩, ?_⟩
  · intro j cur hj hneg
    by_contra hlt
    have hf := hok j cur (by omega) hj
    have hneg2 : ret_neg (env._gnutls_epoch_refcount_dec
        (session.calls ++ flight_decrements (session.handshake_send_buffer.take j))
        cur.epoch) = true := hneg
    rw [hf] at hneg2
    cases hneg2
  · intro h
    rw [hc, hall h, List.take_length]

/-- C23 as amended, at a concrete input: with an epoch table in which every
decrement succeeds, the end of a flight of two messages in the epochs 0 and 1
makes the two decrements in buffer order; with an epoch table in which the
decrement fails, at most the first message is decremented. -/
theorem refcount_dropped_until_failure_witness :
    (dtls_end_flight sample_env
      (sample_session [sample_message 1 0 5, { sample_message 2 1 5 with epoch := 1 }])
      (.ok 0)).2.calls =
      [] ++ flight_decrements [sample_message 1 0 5, { sample_message 2 1 5 with epoch := 1 }] ∧
    (∃ k, k ≤ 1 ∧
      (dtls_end_flight sample_env_refcount_fails
        (sample_session [sample_message 1 0 5, { sample_message 2 1 5 with epoch := 1 }])
        (.ok 0)).2.calls =
        [] ++ flight_decrements
          ([sample_message 1 0 5, { sample_message 2 1 5 with epoch := 1 }].take k)) ∧
    (dtls_end_flight sample_env_refcount_fails
      (sample_session [sample_message 1 0 5, { sample_message 2 1 5 with epoch := 1 }])
      (.ok 0)).2.calls = [io_event.epoch_refcount_dec 0] :=
  ⟨(refcount_dropped_until_failure sample_env
      (sample_session [sample_message 1 0 5, { sample_message 2 1 5 with epoch := 1 }])
      (.ok 0)).2.2.2 (fun _ _ => rfl),
    match (refcount_dropped_until_failure sample_env_refcount_fails
      (sample_session [sample_message 1 0 5, { sample_message 2 1 5 with epoch := 1 }])
      (.ok 0)).2.2.1 with
    | ⟨k, _, hc, _, _, hle⟩ => ⟨k, hle 0 (sample_message 1 0 5) rfl rfl, hc⟩,
    by decide⟩

/-- The (re)transmission step of `_dtls_transmit` leaves the blocking flag and
the send buffer as they are. -/
theorem send_phase_session (env : dtls_env) (fuel : Nat) (session s2 : session_st)
    (buf b2 : Option (List Nat)) (diff timeout last_type t2 lt2 : Nat)
    (h : dtls_send_phase env fuel session buf diff timeout last_type =
      some (.inr (s2, b2, t2, lt2))) :
    s2.dtls.blocking = session.dtls.blocking ∧
    s2.handshake_send_buffer = session.handshake_send_buffer := by
  unfold dtls_send_phase at h
  by_cases hc : session.dtls.flight_init = false ∨
      diff ≥ session.dtls.actual_retrans_timeout_ms
  · rw [if_pos hc] at h
    split at h
    · cases h
    · rename_i ret s1 b1 lt1 hf
      obtain ⟨f1, f2, _, _, _⟩ := transmit_flight_session env fuel _ _ _ _ _ _ _ _ hf
      have hb : s1.dtls.blocking = session.dtls.blocking := congrArg dtls_st.blocking f1
      by_cases hn : ret_neg ret = true
      · simp only [hn, if_true] at h
        cases h
      · by_cases hfi : s1.dtls.flight_init = false
        · simp only [hn, log_call, hfi, Bool.false_eq_true, if_false, if_true, RESET_TIMER] at h
          cases h
          exact ⟨hb, f2⟩
        · simp only [hn, log_call, hfi, Bool.false_eq_true, if_false, UPDATE_TIMER] at h
          cases h
          exact ⟨hb, f2⟩
  · rw [if_neg hc] at h
    cases h
    exact ⟨rfl, rfl⟩

/-- `is_next_hpacket_expected` leaves the DTLS sub-state as it is, and when its
two callees do not fail it returns 0 or `GNUTLS_E_UNEXPECTED_HANDSHAKE_PACKET`. -/
theorem is_next_hpacket_expected_cases (env : dtls_env) (session : session_st)
    (hin : ∀ calls, ret_neg (env._gnutls_recv_in_buffers calls) = false)
    (hparse : ∀ calls, ret_neg (env._gnutls_parse_record_buffered_msgs calls) = false) :
    (is_next_hpacket_expected env session).2.dtls = session.dtls ∧
    ((is_next_hpacket_expected env session).1 = .ok 0 ∨
      (is_next_hpacket_expected env session).1 =
        .error GNUTLS_E_UNEXPECTED_HANDSHAKE_PACKET) := by
  simp only [is_next_hpacket_expected, hin, hparse, Bool.false_eq_true, if_false, log_call]
  by_cases hb : env.handshake_recv_buffer_size
      (session.calls ++ [io_event.recv_in_buffers] ++ [io_event.parse_record_buffered_msgs]) > 0
  · rw [if_pos hb]
    exact ⟨rfl, Or.inl rfl⟩
  · rw [if_neg hb]
    exact ⟨rfl, Or.inr rfl⟩

/-- In blocking mode, when the flush and the two callees of
`is_next_hpacket_expected` do not fail, every negative result of the loop of
`_dtls_transmit` is returned through `end_flight`: `flight_init` is 0 and the
send buffer is empty. -/
theorem transmit_loop_failure_clears (env : dtls_env)
    (hflush : ∀ calls, ret_neg (env._gnutls_io_write_flush calls) = false)
    (hin : ∀ calls, ret_neg (env._gnutls_recv_in_buffers calls) = false)
    (hparse : ∀ calls, ret_neg (env._gnutls_parse_record_buffered_msgs calls) = false) :
    ∀ (fuel : Nat) (session : session_st) (buf : Option (List Nat)) (now : timespec)
      (last_type : Nat) (ret : ret_t) (s2 : session_st),
      session.dtls.blocking = true →
      dtls_transmit_loop env fuel session buf now last_type = some (ret, s2) →
      ret_neg ret = true →
      s2.dtls.flight_init = false ∧ s2.handshake_send_buffer = [] := by
  intro fuel
  induction fuel with
  | zero =>
    intro session buf now last_type ret s2 _ h _
    simp only [dtls_transmit_loop] at h
    cases h
  | succ f ih =>
    intro session buf now last_type ret s2 hblock h hneg
    have hend : ∀ s r, some (dtls_end_flight env s r) = some (ret, s2) →
        s2.dtls.flight_init = false ∧ s2.handshake_send_buffer = [] := by
      intro s r he
      obtain ⟨_, d1, d2, _⟩ := dtls_end_flight_session env s r
      have e2 : s2 = (dtls_end_flight env s r).2 := by
        rw [Option.some.injEq] at he
        rw [he]
      rw [e2]
      exact ⟨congrArg dtls_st.flight_init d1, d2⟩
    have hclean : ∀ s, some (dtls_cleanup s (Except.ok 0)) = some (ret, s2) →
        s2.dtls.flight_init = false ∧ s2.handshake_send_buffer = [] := by
      intro s he
      simp only [dtls_cleanup, Option.some.injEq, Prod.mk.injEq] at he
      rw [← he.1] at hneg
      cases hneg
    unfold dtls_transmit_loop at h
    simp only at h
    by_cases ht : env.timespec_sub_ms now session.dtls.handshake_start_time ≥
        session.dtls.total_timeout_ms
    · rw [if_pos ht] at h
      exact hend _ _ h
    · rw [if_neg ht] at h
      split at h
      · cases h
      · exact hend _ _ h
      · rename_i s1 b1 t1 lt1 hp
        obtain ⟨p1, _⟩ := send_phase_session env f _ _ _ _ _ _ _ _ _ hp
        have hb1 : s1.dtls.blocking = true := by
          rw [p1]
          exact hblock
        simp only [hflush, Bool.false_eq_true, if_false, log_call, hb1, if_true, false_and,
          Bool.true_eq_false] at h
        by_cases hlf : s1.dtls.last_flight = true
        · rw [if_pos hlf] at h
          exact hclean _ h
        · rw [if_neg hlf] at h
          by_cases hr0 : env._gnutls_io_check_recv (s1.calls ++ [io_event.io_write_flush]) t1 =
              .ok 0
          · rw [if_pos hr0] at h
            obtain ⟨n1, n2⟩ := is_next_hpacket_expected_cases env
              { s1 with calls := s1.calls ++ [io_event.io_write_flush] ++
                  [io_event.io_check_recv t1] } hin hparse
            rcases n2 with n2 | n2
            · simp only [n2, reduceCtorEq, or_self, if_false, ret_neg, Bool.false_eq_true] at h
              exact hend _ _ h
            · simp only [n2, reduceCtorEq, or_self, if_false, if_true] at h
              exact ih _ _ _ _ _ _ (by rw [n1]; exact hb1) h hneg
          · rw [if_neg hr0] at h
            by_cases hrt : env._gnutls_io_check_recv (s1.calls ++ [io_event.io_write_flush])
                t1 = .error GNUTLS_E_TIMEDOUT
            · rw [if_pos hrt] at h
              refine ih _ _ _ _ _ _ ?_ h hneg
              exact hb1
            · rw [if_neg hrt] at h
              split at h
              · exact hend _ _ h
              · exact hend _ _ h

/-- A failing flush after the first transmission of a flight: `_dtls_transmit`
returns the error of the flush through `cleanup`, with `flight_init = 1` and the
send buffer still holding the flight. -/
theorem transmit_flush_fails (env : dtls_env) (fuel : Nat) (session : session_st)
    (hinit : session.dtls.flight_init = false)
    (hbudget : env.timespec_sub_ms (env.gettime session.calls)
      session.dtls.handshake_start_time < session.dtls.total_timeout_ms)
    (hsend : ∀ calls t h e d, ret_neg (env._gnutls_send_int calls t h e d) = false)
    (hflush : ∀ calls, ret_neg (env._gnutls_io_write_flush calls) = true)
    (hmalloc : ∀ calls n, env.gnutls_malloc calls n = true)
    (hov : ∀ c1 c2, env._gnutls_record_overhead_rt c1 = env._gnutls_record_overhead_rt c2)
    (hdm : 13 ≤ gnutls_dtls_get_data_mtu env session)
    (hmsgs : ∀ b ∈ session.handshake_send_buffer, b.type ≠ env.GNUTLS_CHANGE_CIPHER_SPEC →
      b.udata.length + (gnutls_dtls_get_data_mtu env session - 12) < 4294967296 ∧
      b.udata.length / (gnutls_dtls_get_data_mtu env session - 12) + 1 < fuel) :
    ∃ r s2, _dtls_transmit env (fuel + 1) session = some (r, s2) ∧ ret_neg r = true ∧
      s2.dtls.flight_init = true ∧
      s2.handshake_send_buffer = session.handshake_send_buffer := by
  have hdm0 : gnutls_dtls_get_data_mtu env (log_call session io_event.gettime) =
      gnutls_dtls_get_data_mtu env session :=
    data_mtu_congr env (log_call session io_event.gettime) session (hov _ _) rfl
  obtain ⟨r, b1, lt, hsends, hr⟩ := transmit_flight_sends env fuel hsend hmalloc hov
    session.handshake_send_buffer (log_call session io_event.gettime) none 0
    (by rw [hdm0]; exact hdm) (by rw [hdm0]; exact hmsgs) (fun _ h => by cases h)
  rw [hdm0] at hsends
  have hfirst : ¬ ((log_call session io_event.gettime).dtls.flight_init = true ∧
      (log_call session io_event.gettime).dtls.blocking = false) := by
    simp only [log_call, hinit]
    rintro ⟨h1, _⟩
    cases h1
  have hnb : ¬ env.timespec_sub_ms (env.gettime session.calls)
      (log_call session io_event.gettime).dtls.handshake_start_time ≥
      (log_call session io_event.gettime).dtls.total_timeout_ms := by
    simp only [log_call]
    omega
  have hphase := send_phase_first env fuel (log_call session io_event.gettime) _ none b1
    (env.timespec_sub_ms (env.gettime session.calls)
      (log_call session io_event.gettime).dtls.last_retransmit)
    (log_call session io_event.gettime).dtls.actual_retrans_timeout_ms 0 lt r hinit hsends hr
  have hrun : _dtls_transmit env (fuel + 1) session = some
      (env._gnutls_io_write_flush (session.calls ++ [io_event.gettime] ++
          flight_sends env.GNUTLS_CHANGE_CIPHER_SPEC
            (gnutls_dtls_get_data_mtu env session - 12) session.handshake_send_buffer ++
          [io_event.gettime]),
        { dtls := { session.dtls with
            last_retransmit := env.gettime (session.calls ++ [io_event.gettime] ++
              flight_sends env.GNUTLS_CHANGE_CIPHER_SPEC
                (gnutls_dtls_get_data_mtu env session - 12) session.handshake_send_buffer)
            flight_init := true
            actual_retrans_timeout_ms := session.dtls.retrans_timeout_ms
            last_flight := decide (lt = env.GNUTLS_HANDSHAKE_FINISHED) }
          handshake_send_buffer := session.handshake_send_buffer
          write_sequence_number := session.write_sequence_number
          calls := session.calls ++ [io_event.gettime] ++
            flight_sends env.GNUTLS_CHANGE_CIPHER_SPEC
              (gnutls_dtls_get_data_mtu env session - 12) session.handshake_send_buffer ++
            [io_event.gettime, io_event.io_write_flush] }) := by
    unfold _dtls_transmit
    simp only
    rw [if_neg hfirst]
    unfold dtls_transmit_loop
    simp only
    rw [if_neg hnb, hphase]
    simp only [log_call, add_calls, hflush _, if_true, dtls_cleanup, List.append_assoc,
      List.singleton_append, List.cons_append, List.nil_append]
  exact ⟨_, _, hrun, hflush _, rfl, rfl⟩

/-- C22, the claim as stated fails: on the first transmission of a flight of
one message with a transport whose flush fails, `_dtls_transmit` returns the
error of the flush with `flight_init = 1` and the message still in the send
buffer. -/
theorem failure_cleanup_counterexample :
    ∃ r s2, _dtls_transmit sample_env_flush_fails (4 + 1)
        (sample_session [sample_message 1 0 5]) = some (r, s2) ∧ ret_neg r = true ∧
      s2.dtls.flight_init = true ∧
      s2.handshake_send_buffer = (sample_session [sample_message 1 0 5]).handshake_send_buffer :=
  transmit_flush_fails sample_env_flush_fails 4 (sample_session [sample_message 1 0 5])
    rfl (by decide) (fun _ _ _ _ _ => rfl) (fun _ => rfl) (fun _ _ => rfl) (fun _ _ => rfl)
    (by decide) (by decide)

/-- C22 as amended: in blocking mode, when the flush of the write side and the
two callees of `is_next_hpacket_expected` do not fail, whenever `_dtls_transmit`
ends with a failure (the global timeout, an error from sending a message, an
error of the receive check) `flight_init` is 0 and the send buffer is empty on
return.  A failing flush does not end the flight: after the first transmission
`_dtls_transmit` returns its error with `flight_init = 1` and the send buffer as
it was. -/
theorem failure_clears_flight (env : dtls_env) (fuel : Nat) (session : session_st)
    (hblock : session.dtls.blocking = true) :
    ((∀ calls, ret_neg (env._gnutls_io_write_flush calls) = false) →
      (∀ calls, ret_neg (env._gnutls_recv_in_buffers calls) = false) →
      (∀ calls, ret_neg (env._gnutls_parse_record_buffered_msgs calls) = false) →
      ∀ ret s2, _dtls_transmit env fuel session = some (ret, s2) → ret_neg ret = true →
        s2.dtls.flight_init = false ∧ s2.handshake_send_buffer = []) ∧
    ((∀ calls, ret_neg (env._gnutls_io_write_flush calls) = true) →
      session.dtls.flight_init = false →
      env.timespec_sub_ms (env.gettime session.calls) session.dtls.handshake_start_time <
        session.dtls.total_timeout_ms →
      (∀ calls t h e d, ret_neg (env._gnutls_send_int calls t h e d) = false) →
      (∀ calls n, env.gnutls_malloc calls n = true) →
      (∀ c1 c2, env._gnutls_record_overhead_rt c1 = env._gnutls_record_overhead_rt c2) →
      13 ≤ gnutls_dtls_get_data_mtu env session →
      (∀ b ∈ session.handshake_send_buffer, b.type ≠ env.GNUTLS_CHANGE_CIPHER_SPEC →
        b.udata.length + (gnutls_dtls_get_data_mtu env session - 12) < 4294967296 ∧
        b.udata.length / (gnutls_dtls_get_data_mtu env session - 12) + 1 < fuel) →
      ∃ r s2, _dtls_transmit env (fuel + 1) session = some (r, s2) ∧ ret_neg r = true ∧
        s2.dtls.flight_init = true ∧
        s2.handshake_send_buffer = session.handshake_send_buffer) := by
  constructor
  · intro hflush hin hparse ret s2 h hneg
    have hfirst : ¬ ((log_call session io_event.gettime).dtls.flight_init = true ∧
        (log_call session io_event.gettime).dtls.blocking = false) := by
      simp only [log_call, hblock]
      rintro ⟨_, h2⟩
      cases h2
    unfold _dtls_transmit at h
    simp only at h
    rw [if_neg hfirst] at h
    refine transmit_loop_failure_clears env hflush hin hparse fuel _ _ _ _ ret s2 ?_ h hneg
    exact hblock
  · intro hflush hinit hbudget hsend hmalloc hov hdm hmsgs
    exact transmit_flush_fails env fuel session hinit hbudget hsend hflush hmalloc hov hdm hmsgs

/-- C22 as amended, at a concrete input: a blocking session whose total budget
of 0 ms is used up returns `GNUTLS_E_TIMEDOUT` with `flight_init = 0` and an
empty send buffer. -/
theorem failure_clears_flight_witness :
    _dtls_transmit sample_env 1
      { sample_session [sample_message 1 0 5, sample_message 2 1 5] with
        dtls := { sample_dtls with total_timeout_ms := 0 } } =
      some (.error GNUTLS_E_TIMEDOUT,
        { sample_session [] with
          dtls := { sample_dtls with total_timeout_ms := 0 }
          calls := [io_event.gettime, io_event.epoch_refcount_dec 0,
            io_event.epoch_refcount_dec 0] }) ∧
    ({ sample_session [] with
        dtls := { sample_dtls with total_timeout_ms := 0 }
        calls := [io_event.gettime, io_event.epoch_refcount_dec 0,
          io_event.epoch_refcount_dec 0] } : session_st).dtls.flight_init = false ∧
    ({ sample_session [] with
        dtls := { sample_dtls with total_timeout_ms := 0 }
        calls := [io_event.gettime, io_event.epoch_refcount_dec 0,
          io_event.epoch_refcount_dec 0] } : session_st).handshake_send_buffer = [] :=
  have hrun : _dtls_transmit sample_env 1
      { sample_session [sample_message 1 0 5, sample_message 2 1 5] with
        dtls := { sample_dtls with total_timeout_ms := 0 } } =
      some (.error GNUTLS_E_TIMEDOUT,
        { sample_session [] with
          dtls := { sample_dtls with total_timeout_ms := 0 }
          calls := [io_event.gettime, io_event.epoch_refcount_dec 0,
            io_event.epoch_refcount_dec 0] }) := by decide
  ⟨hrun, (failure_clears_flight sample_env 1
    { sample_session [sample_message 1 0 5, sample_message 2 1 5] with
      dtls := { sample_dtls with total_timeout_ms := 0 } } rfl).1
    (fun _ => rfl) (fun _ => rfl) (fun _ => rfl) _ _ hrun rfl⟩

/-- C24: `_dtls_wait_and_retransmit` polls the receive side once (with the
timer as timeout in blocking mode, with 0 otherwise).  If the poll returns
`GNUTLS_E_TIMEDOUT`, the flight transmitter is run once on the session and its
result decides: when it returned 0 the result is that of the macro
`RETURN_DTLS_EAGAIN_OR_TIMEOUT` (taken to give `GNUTLS_E_AGAIN` or
`GNUTLS_E_TIMEDOUT`), otherwise it is the result of the transmitter; in both
cases the return value is not 0.  If the poll returns anything else, nothing
is sent, the timer is set to its base and 0 is returned, for every amount of
fuel. -/
theorem wait_and_retransmit_result (env : dtls_env) (fuel : Nat) (session : session_st)
    (hagain : ∀ s, (env.RETURN_DTLS_EAGAIN_OR_TIMEOUT s (.ok 0)).1 = .error GNUTLS_E_AGAIN ∨
      (env.RETURN_DTLS_EAGAIN_OR_TIMEOUT s (.ok 0)).1 = .error GNUTLS_E_TIMEDOUT) :
    (env._gnutls_io_check_recv session.calls
        (if session.dtls.blocking then session.dtls.actual_retrans_timeout_ms else 0) =
        .error GNUTLS_E_TIMEDOUT →
      ∀ r s1, _dtls_transmit env fuel (log_call session (io_event.io_check_recv
          (if session.dtls.blocking then session.dtls.actual_retrans_timeout_ms else 0))) =
          some (r, s1) →
        ∃ r2 s2, _dtls_wait_and_retransmit env fuel session = some (r2, s2) ∧ r2 ≠ .ok 0 ∧
          (r = .ok 0 → (r2, s2) = env.RETURN_DTLS_EAGAIN_OR_TIMEOUT s1 (.ok 0) ∧
            (r2 = .error GNUTLS_E_AGAIN ∨ r2 = .error GNUTLS_E_TIMEDOUT)) ∧
          (r ≠ .ok 0 → r2 = r ∧ s2 = s1)) ∧
    (env._gnutls_io_check_recv session.calls
        (if session.dtls.blocking then session.dtls.actual_retrans_timeout_ms else 0) ≠
        .error GNUTLS_E_TIMEDOUT →
      _dtls_wait_and_retransmit env fuel session = some (.ok 0,
        { session with
          dtls := { session.dtls with
            actual_retrans_timeout_ms := session.dtls.retrans_timeout_ms }
          calls := session.calls ++ [io_event.io_check_recv
            (if session.dtls.blocking then session.dtls.actual_retrans_timeout_ms else 0)] }))
    := by
  constructor
  · intro ht r s1 hrun
    unfold _dtls_wait_and_retransmit _dtls_retransmit
    simp only
    rw [if_pos ht, hrun]
    dsimp only
    by_cases h0 : r = .ok 0
    · subst h0
      rw [if_pos rfl]
      refine ⟨_, _, rfl, ?_, fun _ => ⟨rfl, hagain s1⟩, fun h => absurd rfl h⟩
      rcases hagain s1 with h | h
      · rw [h]
        exact fun hc => by cases hc
      · rw [h]
        exact fun hc => by cases hc
    · rw [if_neg h0]
      exact ⟨r, s1, rfl, h0, fun h => absurd h h0, fun _ => ⟨rfl, rfl⟩⟩
  · intro hne
    unfold _dtls_wait_and_retransmit
    simp only
    rw [if_neg hne]
    rfl

/-- C24 at a concrete input: the last flight (ChangeCipherSpec and Finished)
has been sent, the timer of 1 ms has run out and the peer stays silent; the
flight is sent once more and `GNUTLS_E_AGAIN` is returned. -/
theorem wait_and_retransmit_result_witness :
    _dtls_transmit sample_env_silent_peer 5
      (log_call sample_session_last_flight (io_event.io_check_recv 1)) =
      some (.ok 0, sample_session_resent) ∧
    ∃ r2 s2, _dtls_wait_and_retransmit sample_env_silent_peer 5 sample_session_last_flight =
        some (r2, s2) ∧ r2 ≠ .ok 0 ∧
      (r2 = .error GNUTLS_E_AGAIN ∨ r2 = .error GNUTLS_E_TIMEDOUT) :=
  ⟨by decide,
    match (wait_and_retransmit_result sample_env_silent_peer 5 sample_session_last_flight
      (fun _ => Or.inl rfl)).1 rfl (.ok 0) sample_session_resent (by decide) with
    | ⟨r2, s2, h1, h2, h3, _⟩ => ⟨r2, s2, h1, h2, (h3 rfl).2⟩⟩

/-! ## Theorems: duplicates and rejections -/

/-- Behind the rotation, the sequence number that is the last live entry is
reported as replayed. -/
theorem record_check_tail_eq_top (W m : Nat) (rp : record_parameters_st) (seq : Nat)
    (hW32 : W < 4294967296) (h : window_inv W m rp) (hseq : seq = window_top rp) :
    (record_check_tail W rp seq).1 = -1 := by
  obtain ⟨hl, h1, h2, hI, hJ, hJe⟩ := h
  have e1 : sub_u32 rp.record_sw_size 1 = rp.record_sw_size - 1 := by
    unfold sub_u32
    omega
  have et : slot rp.record_sw (rp.record_sw_size - 1) = window_top rp := rfl
  simp only [record_check_tail, e1, et]
  rw [if_neg (by omega), if_pos hseq]

/-- The sequence number that is the last live entry of a window that has seen a
record is reported as replayed by `_dtls_record_check`. -/
theorem record_check_seq_eq_top (W m : Nat) (rp : record_parameters_st) (seq : Nat)
    (hW : MOVE_SIZE < W) (hW32 : W < 4294967296) (h : window_inv W m rp)
    (hseq : seq = window_top rp) :
    (record_check_seq W rp seq).1 = -1 := by
  have h' := h
  obtain ⟨hl, h1, h2, hI, hJ, hJe⟩ := h'
  have hW20 : 20 < W := hW
  have hne : ¬ rp.record_sw_size = 0 := by omega
  rw [record_check_seq_eq, if_neg hne]
  by_cases c0 : seq ≤ slot rp.record_sw 0
  · rw [if_pos c0]
  · rw [if_neg c0]
    by_cases cW : rp.record_sw_size = W
    · rw [if_pos cW]
      obtain ⟨r1, _, r3⟩ := window_inv_rot W m rp MOVE_SIZE hW32 h (by decide)
        (by unfold MOVE_SIZE; omega)
      exact record_check_tail_eq_top W m _ seq hW32 r1 (by rw [r3]; exact hseq)
    · rw [if_neg cW]
      exact record_check_tail_eq_top W m rp seq hW32 h hseq

/-- Behind the rotation, a sequence number below the last live entry that is
accepted is written to its own slot; the size and the last live entry stay. -/
theorem record_check_tail_insert (W m : Nat) (rp : record_parameters_st) (seq : Nat)
    (hW32 : W < 4294967296) (h : window_inv W m rp) (hlt : seq < window_top rp)
    (hacc : (record_check_tail W rp seq).1 = 0) :
    (record_check_tail W rp seq).2.record_sw_size = rp.record_sw_size ∧
    window_top (record_check_tail W rp seq).2 = window_top rp ∧
    slot (record_check_tail W rp seq).2.record_sw
      (rp.record_sw_size - 1 - (window_top rp - seq)) = seq := by
  have n0 : ¬ ((-1 : Int) = 0) := by decide
  obtain ⟨hl, h1, h2, hI, hJ, hJe⟩ := h
  have e1 : sub_u32 rp.record_sw_size 1 = rp.record_sw_size - 1 := by
    unfold sub_u32
    omega
  have et : slot rp.record_sw (rp.record_sw_size - 1) = window_top rp := rfl
  simp only [record_check_tail, e1, et] at hacc ⊢
  rw [if_pos hlt] at hacc ⊢
  by_cases c2 : window_top rp - seq ≥ rp.record_sw_size
  · rw [if_pos c2] at hacc
    exact absurd hacc n0
  · rw [if_neg c2] at hacc ⊢
    have eo : (rp.record_sw_size - 1 - (window_top rp - seq)) % 4294967296 =
        rp.record_sw_size - 1 - (window_top rp - seq) := by omega
    rw [eo] at hacc ⊢
    by_cases c3 : slot rp.record_sw (rp.record_sw_size - 1 - (window_top rp - seq)) = seq
    · rw [if_pos c3] at hacc
      exact absurd hacc n0
    · rw [if_neg c3]
      refine ⟨rfl, ?_, ?_⟩
      · show slot (rp.record_sw.set (rp.record_sw_size - 1 - (window_top rp - seq)) seq)
          (rp.record_sw_size - 1) = window_top rp
        rw [slot_set _ _ _ _ (by omega), if_neg (by omega), et]
      · show slot (rp.record_sw.set (rp.record_sw_size - 1 - (window_top rp - seq)) seq)
          (rp.record_sw_size - 1 - (window_top rp - seq)) = seq
        rw [slot_set _ _ _ _ (by omega), if_pos rfl]

/-- Behind the rotation, a sequence number below the last live entry whose own
slot already holds it is reported as replayed. -/
theorem record_check_tail_found (W m : Nat) (rp : record_parameters_st) (seq : Nat)
    (hW32 : W < 4294967296) (h : window_inv W m rp) (hlt : seq < window_top rp)
    (hslot : slot rp.record_sw (rp.record_sw_size - 1 - (window_top rp - seq)) = seq) :
    (record_check_tail W rp seq).1 = -1 := by
  obtain ⟨hl, h1, h2, hI, hJ, hJe⟩ := h
  have e1 : sub_u32 rp.record_sw_size 1 = rp.record_sw_size - 1 := by
    unfold sub_u32
    omega
  have et : slot rp.record_sw (rp.record_sw_size - 1) = window_top rp := rfl
  simp only [record_check_tail, e1, et]
  rw [if_pos hlt]
  by_cases c2 : window_top rp - seq ≥ rp.record_sw_size
  · rw [if_pos c2]
  · rw [if_neg c2]
    have eo : (rp.record_sw_size - 1 - (window_top rp - seq)) % 4294967296 =
        rp.record_sw_size - 1 - (window_top rp - seq) := by omega
    rw [eo, if_pos hslot]

/-- On a window that has seen a record, a sequence number that
`_dtls_record_check` accepts is reported as replayed by the call that follows. -/
theorem record_check_seq_twice (W m : Nat) (rp : record_parameters_st) (seq : Nat)
    (hW : MOVE_SIZE < W) (hW32 : W < 4294967296) (h : window_inv W m rp)
    (hacc : (record_check_seq W rp seq).1 = 0) :
    (record_check_seq W (record_check_seq W rp seq).2 seq).1 = -1 := by
  have n0 : ¬ ((-1 : Int) = 0) := by decide
  have hinv2 := record_check_seq_inv W m rp seq hW hW32 h
  have h' := h
  obtain ⟨hl, h1, h2, hI, hJ, hJe⟩ := h'
  have hW20 : 20 < W := hW
  have hne : ¬ rp.record_sw_size = 0 := by omega
  have hres : record_check_seq W rp seq =
      if seq ≤ slot rp.record_sw 0 then (-1, rp)
      else record_check_tail W
        (if rp.record_sw_size = W then rot_window rp MOVE_SIZE else rp) seq := by
    rw [record_check_seq_eq, if_neg hne]
  rw [hres] at hacc hinv2 ⊢
  by_cases c0 : seq ≤ slot rp.record_sw 0
  · rw [if_pos c0] at hacc
    exact absurd hacc n0
  · rw [if_neg c0] at hacc hinv2 ⊢
    have key : ∀ rp1, window_inv W m rp1 → rp1.record_sw_size ≠ W →
        (record_check_tail W rp1 seq).1 = 0 →
        window_inv W m (record_check_tail W rp1 seq).2 →
        (record_check_seq W (record_check_tail W rp1 seq).2 seq).1 = -1 := by
      intro rp1 hi1 hsz hacc1 hi2
      by_cases clt : seq < window_top rp1
      · obtain ⟨i1, i2, i3⟩ := record_check_tail_insert W m rp1 seq hW32 hi1 clt hacc1
        have hi2' := hi2
        obtain ⟨_, k1, _, _, _, _⟩ := hi2'
        rw [record_check_seq_eq, if_neg (by omega)]
        by_cases c1 : seq ≤ slot (record_check_tail W rp1 seq).2.record_sw 0
        · rw [if_pos c1]
        · rw [if_neg c1, if_neg (by rw [i1]; exact hsz)]
          apply record_check_tail_found W m _ seq hW32 hi2 (by rw [i2]; exact clt)
          rw [i1, i2]
          exact i3
      · obtain ⟨_, t2, _, _⟩ := record_check_tail_top W m rp1 seq hW32 hi1
        have htop := t2 hacc1
        apply record_check_seq_eq_top W m _ seq hW hW32 hi2
        rw [htop]
        omega
    by_cases cW : rp.record_sw_size = W
    · rw [if_pos cW] at hacc hinv2 ⊢
      obtain ⟨r1, r2, _⟩ := window_inv_rot W m rp MOVE_SIZE hW32 h (by decide)
        (by unfold MOVE_SIZE; omega)
      exact key _ r1 (by rw [r2]; unfold MOVE_SIZE; omega) hacc hinv2
    · rw [if_neg cW] at hacc hinv2 ⊢
      exact key rp h cW hacc hinv2

/-- C31: on a window that started empty, a sequence number that a call of
`_dtls_record_check` accepts is refused (return value -1) by the very next call
on the same window, whichever branch accepted it and whether or not the second
call rotates a full window.  `W` is `DTLS_RECORD_WINDOW_SIZE`, larger than
`MOVE_SIZE` and an `unsigned int`. -/
theorem immediate_duplicate (W : Nat) (hW : MOVE_SIZE < W) (hW32 : W < 4294967296)
    (before : List uint64) (s s2 : uint64) (hsame : parse_seq s2 = parse_seq s)
    (hacc : (_dtls_record_check W (run_checks W (empty_window W) before) s).1 = 0) :
    (_dtls_record_check W (_dtls_record_check W (run_checks W (empty_window W) before) s).2
      s2).1 = -1 := by
  have hW20 : 20 < W := hW
  have h0 := run_checks_ok W hW hW32 before (empty_window W) (Or.inl rfl)
  unfold _dtls_record_check at hacc ⊢
  rw [hsame]
  rcases h0 with h0 | h0
  · rw [h0] at hacc ⊢
    have hinv := record_check_first W (parse_seq s) (by omega)
    have htop : window_top (record_check_seq W (empty_window W) (parse_seq s)).2 =
        parse_seq s := by
      have hlen : 0 < (List.replicate W 0).length := by
        rw [List.length_replicate]
        omega
      rw [record_check_seq_eq]
      simp only [empty_window, if_true]
      show slot ((List.replicate W 0).set 0 (parse_seq s)) (1 - 1) = parse_seq s
      rw [slot_set _ _ _ _ hlen, if_pos rfl]
    exact record_check_seq_eq_top W 0 _ _ hW hW32 hinv htop.symm
  · exact record_check_seq_twice W 0 _ _ hW hW32 h0 hacc

/-- C31 at a concrete input: on a window of 64 slots after 1 and 40 the large
jump to 73 is accepted and fills the window; the second 73 rotates the full
window and is refused. -/
theorem immediate_duplicate_witness :
    (_dtls_record_check 64 (run_checks 64 (empty_window 64) [seq_bytes 1, seq_bytes 40])
      (seq_bytes 73)).2.record_sw_size = 64 ∧
    (_dtls_record_check 64
      (_dtls_record_check 64 (run_checks 64 (empty_window 64) [seq_bytes 1, seq_bytes 40])
        (seq_bytes 73)).2 (seq_bytes 73)).1 = -1 :=
  ⟨by decide, immediate_duplicate 64 (by decide) (by decide) [seq_bytes 1, seq_bytes 40]
    (seq_bytes 73) (seq_bytes 73) rfl (by decide)⟩

/-- The branches behind the rotation return the window they were given when
they report a replay. -/
theorem record_check_tail_reject (W : Nat) (rp : record_parameters_st) (seq : Nat)
    (hrej : (record_check_tail W rp seq).1 = -1) :
    (record_check_tail W rp seq).2 = rp := by
  unfold record_check_tail at hrej ⊢
  simp only at hrej ⊢
  split_ifs at hrej ⊢
  all_goals rfl

/-- C32, the claim as stated fails: a window of 64 slots is full after the
sequence numbers 1 and 64; the call with 64 again returns -1 and leaves
`record_sw_size = 44` and `record_sw[0] = 0` where they were 64 and 1. -/
theorem rejection_counterexample :
    (run_checks 64 (empty_window 64) [seq_bytes 1, seq_bytes 64]).record_sw_size = 64 ∧
    slot (run_checks 64 (empty_window 64) [seq_bytes 1, seq_bytes 64]).record_sw 0 = 1 ∧
    (_dtls_record_check 64 (run_checks 64 (empty_window 64) [seq_bytes 1, seq_bytes 64])
      (seq_bytes 64)).1 = -1 ∧
    (_dtls_record_check 64 (run_checks 64 (empty_window 64) [seq_bytes 1, seq_bytes 64])
      (seq_bytes 64)).2.record_sw_size = 44 ∧
    slot (_dtls_record_check 64 (run_checks 64 (empty_window 64) [seq_bytes 1, seq_bytes 64])
      (seq_bytes 64)).2.record_sw 0 = 0 := by
  decide

/-- C32 as amended: when `_dtls_record_check` returns -1, the window is as
before the call if it was not full or if the sequence number is at most
`record_sw[0]`; on a full window a refused sequence number above `record_sw[0]`
leaves the window rotated by `MOVE_SIZE`: the size is `W - MOVE_SIZE`, the
entry of slot `i + MOVE_SIZE` is in slot `i`, and the last live entry is the
same.  `W` is `DTLS_RECORD_WINDOW_SIZE`, larger than `MOVE_SIZE` and an
`unsigned int`. -/
theorem rejection_effect (W : Nat) (hW : MOVE_SIZE < W) (hW32 : W < 4294967296)
    (rp : record_parameters_st) (s : uint64) (hlen : rp.record_sw.length = W)
    (hrej : (_dtls_record_check W rp s).1 = -1) :
    (rp.record_sw_size ≠ W ∨ parse_seq s ≤ slot rp.record_sw 0 →
      (_dtls_record_check W rp s).2 = rp) ∧
    (rp.record_sw_size = W → slot rp.record_sw 0 < parse_seq s →
      (_dtls_record_check W rp s).2 = rot_window rp MOVE_SIZE ∧
      (_dtls_record_check W rp s).2.record_sw_size = W - MOVE_SIZE ∧
      (∀ i, i < W - MOVE_SIZE →
        slot (_dtls_record_check W rp s).2.record_sw i = slot rp.record_sw (i + MOVE_SIZE)) ∧
      slot (_dtls_record_check W rp s).2.record_sw
          ((_dtls_record_check W rp s).2.record_sw_size - 1) =
        slot rp.record_sw (rp.record_sw_size - 1)) := by
  have n1 : ¬ ((0 : Int) = -1) := by decide
  have hW20 : 20 < W := hW
  unfold _dtls_record_check at hrej ⊢
  by_cases hz : rp.record_sw_size = 0
  · rw [record_check_seq_eq, if_pos hz] at hrej
    exact absurd hrej n1
  have hres : record_check_seq W rp (parse_seq s) =
      if parse_seq s ≤ slot rp.record_sw 0 then (-1, rp)
      else record_check_tail W
        (if rp.record_sw_size = W then rot_window rp MOVE_SIZE else rp) (parse_seq s) := by
    rw [record_check_seq_eq, if_neg hz]
  rw [hres] at hrej ⊢
  constructor
  · intro hc
    by_cases c0 : parse_seq s ≤ slot rp.record_sw 0
    · rw [if_pos c0]
    · rw [if_neg c0] at hrej ⊢
      have hnW : ¬ rp.record_sw_size = W := by
        rcases hc with hc | hc
        · exact hc
        · exact absurd hc c0
      rw [if_neg hnW] at hrej ⊢
      exact record_check_tail_reject W rp _ hrej
  · intro hfull hgt
    have c0 : ¬ parse_seq s ≤ slot rp.record_sw 0 := by omega
    rw [if_neg c0, if_pos hfull] at hrej ⊢
    rw [record_check_tail_reject W _ _ hrej]
    have hs : sub_u32 rp.record_sw_size MOVE_SIZE = W - MOVE_SIZE := by
      unfold sub_u32 MOVE_SIZE
      omega
    have hfit : MOVE_SIZE + (W - MOVE_SIZE) ≤ rp.record_sw.length := by
      unfold MOVE_SIZE
      omega
    refine ⟨rfl, ?_, ?_, ?_⟩
    · simp only [rot_window, hs]
    · intro i hi
      simp only [rot_window, hs]
      rw [slot_memmove _ _ _ _ hfit, if_pos hi, Nat.add_comm]
    · have e : MOVE_SIZE + (W - MOVE_SIZE - 1) = rp.record_sw_size - 1 := by
        unfold MOVE_SIZE
        omega
      simp only [rot_window, hs]
      rw [slot_memmove _ _ _ _ hfit, if_pos (by unfold MOVE_SIZE; omega), e]

/-- C32 as amended, at a concrete input: on a window of 64 slots that holds 1
and 40 in 40 live slots the sequence number 1 is refused and the window is as
before. -/
theorem rejection_effect_witness :
    (_dtls_record_check 64 (run_checks 64 (empty_window 64) [seq_bytes 1, seq_bytes 40])
      (seq_bytes 1)).2 = run_checks 64 (empty_window 64) [seq_bytes 1, seq_bytes 40] :=
  (rejection_effect 64 (by decide) (by decide)
    (run_checks 64 (empty_window 64) [seq_bytes 1, seq_bytes 40]) (seq_bytes 1) (by decide)
    (by decide)).1 (Or.inl (by decide))

/-! ## Theorems: fragment header, first send, termination -/

/-- C33: under the conditions of the fragmentation (a handshake message, a
fragment MTU `m = data_mtu - 12 ≥ 1`, no `unsigned int` overflow, no failing
send, the scratch buffer available, enough fuel) every record that
`transmit_message` sends is `12 + frag_len` bytes long, which is at most the
data MTU, with byte 0 the handshake type, bytes 1-3 the total length
`data_size` as a big-endian 24-bit value, bytes 4-5 the handshake sequence as a
big-endian 16-bit value, bytes 6-8 the fragment offset, bytes 9-11 the fragment
length, followed by the `frag_len` payload bytes from the offset on. -/
theorem fragment_header_layout (env : dtls_env) (fuel : Nat) (session : session_st)
    (bufel : mbuffer_st) (buf : Option (List Nat))
    (hccs : bufel.type ≠ env.GNUTLS_CHANGE_CIPHER_SPEC)
    (hdm : 13 ≤ gnutls_dtls_get_data_mtu env session)
    (hsz : bufel.udata.length + (gnutls_dtls_get_data_mtu env session - 12) < 4294967296)
    (hsend : ∀ calls d,
      ret_neg (env._gnutls_send_int calls bufel.type bufel.htype bufel.epoch d) = false)
    (hmalloc : buf = none →
      env.gnutls_malloc session.calls (gnutls_dtls_get_data_mtu env session) = true)
    (hbuf : ∀ b, buf = some b → gnutls_dtls_get_data_mtu env session ≤ b.length)
    (hfuel : bufel.udata.length / (gnutls_dtls_get_data_mtu env session - 12) + 1 < fuel) :
    (∃ r b2, transmit_message env fuel session bufel buf =
        some (r, add_calls session
          ((fragment_offsets (gnutls_dtls_get_data_mtu env session - 12)
            bufel.udata.length).map
            (fun o => io_event.send_int bufel.type bufel.htype bufel.epoch
              (fragment_record bufel o
                (min (gnutls_dtls_get_data_mtu env session - 12) (bufel.udata.length - o))))),
          some b2)) ∧
    ∀ o frag_len, frag_len = min (gnutls_dtls_get_data_mtu env session - 12)
        (bufel.udata.length - o) →
      (fragment_record bufel o frag_len).length = 12 + frag_len ∧
      (fragment_record bufel o frag_len).length ≤ gnutls_dtls_get_data_mtu env session ∧
      byte_at (fragment_record bufel o frag_len) 0 = bufel.htype % 256 ∧
      byte_at (fragment_record bufel o frag_len) 1 * 65536 +
        byte_at (fragment_record bufel o frag_len) 2 * 256 +
        byte_at (fragment_record bufel o frag_len) 3 = bufel.udata.length % 16777216 ∧
      byte_at (fragment_record bufel o frag_len) 4 * 256 +
        byte_at (fragment_record bufel o frag_len) 5 = bufel.handshake_sequence % 65536 ∧
      byte_at (fragment_record bufel o frag_len) 6 * 65536 +
        byte_at (fragment_record bufel o frag_len) 7 * 256 +
        byte_at (fragment_record bufel o frag_len) 8 = o % 16777216 ∧
      byte_at (fragment_record bufel o frag_len) 9 * 65536 +
        byte_at (fragment_record bufel o frag_len) 10 * 256 +
        byte_at (fragment_record bufel o frag_len) 11 = frag_len % 16777216 ∧
      (fragment_record bufel o frag_len).drop 12 = (bufel.udata.drop o).take frag_len := by
  constructor
  · obtain ⟨r, b2, h, _⟩ := transmit_message_fragments env fuel session bufel buf hccs hdm hsz
      hsend hmalloc hbuf hfuel
    exact ⟨r, b2, h⟩
  · intro o frag_len hfl
    have hlen : (fragment_record bufel o frag_len).length = 12 + frag_len := by
      simp only [fragment_record, List.length_append, List.length_cons, List.length_nil,
        List.length_take, List.length_drop]
      omega
    refine ⟨hlen, ?_, ?_, ?_, ?_, ?_, ?_, rfl⟩
    · rw [hlen]
      omega
    · rfl
    · simp only [fragment_record, byte_at, List.cons_append, List.getD_cons_succ,
        List.getD_cons_zero]
      omega
    · simp only [fragment_record, byte_at, List.cons_append, List.getD_cons_succ,
        List.getD_cons_zero]
      omega
    · simp only [fragment_record, byte_at, List.cons_append, List.getD_cons_succ,
        List.getD_cons_zero]
      omega
    · simp only [fragment_record, byte_at, List.cons_append, List.getD_cons_succ,
        List.getD_cons_zero]
      omega

/-- C33 at a concrete input: the second fragment of a message of 5 bytes with
handshake type 1 and sequence 0 and a fragment MTU of 2 (MTU 27, overhead 13). -/
theorem fragment_header_layout_witness :
    fragment_record (sample_message 1 0 5) 2 2 = [1, 0, 0, 5, 0, 0, 0, 0, 2, 0, 0, 2, 2, 3] ∧
    (fragment_record (sample_message 1 0 5) 2 2).length = 12 + 2 ∧
    (fragment_record (sample_message 1 0 5) 2 2).length ≤
      gnutls_dtls_get_data_mtu sample_env
        { sample_session [] with dtls := { sample_dtls with mtu := 27 } } :=
  have h := (fragment_header_layout sample_env 4
    { sample_session [] with dtls := { sample_dtls with mtu := 27 } }
    (sample_message 1 0 5) none (by decide) (by decide) (by decide)
    (fun _ _ => rfl) (fun _ => rfl) (fun _ h => by cases h) (by decide)).2 2 2 (by decide)
  ⟨by decide, h.1, h.2.1⟩

/-- C34 as amended: the transmission step of `_dtls_transmit` on a flight that
has not been sent (`flight_init = 0`), when no send fails, the scratch buffer
can be allocated, the record overhead stays the same during the call, the data
MTU is at least 13 (room for the fragment header and one byte) and
`data_size + m` stays below `2^32` for each handshake message (and the fuel
covers the fragments): every message is sent once, `flight_init` becomes 1, the timer
and the timeout used for the wait are the configured base (no doubling), and
`last_flight` is 1 if the handshake type of the last message in the buffer is
Finished and 0 otherwise. -/
theorem first_send_state (env : dtls_env) (fuel : Nat) (session : session_st)
    (last : mbuffer_st) (diff timeout last_type : Nat)
    (hinit : session.dtls.flight_init = false)
    (hlast : session.handshake_send_buffer.getLast? = some last)
    (hsend : ∀ calls t h e d, ret_neg (env._gnutls_send_int calls t h e d) = false)
    (hmalloc : ∀ calls n, env.gnutls_malloc calls n = true)
    (hov : ∀ c1 c2, env._gnutls_record_overhead_rt c1 = env._gnutls_record_overhead_rt c2)
    (hdm : 13 ≤ gnutls_dtls_get_data_mtu env session)
    (hmsgs : ∀ b ∈ session.handshake_send_buffer, b.type ≠ env.GNUTLS_CHANGE_CIPHER_SPEC →
      b.udata.length + (gnutls_dtls_get_data_mtu env session - 12) < 4294967296 ∧
      b.udata.length / (gnutls_dtls_get_data_mtu env session - 12) + 1 < fuel) :
    ∃ s2 b2, dtls_send_phase env fuel session none diff timeout last_type =
        some (.inr (s2, b2, session.dtls.retrans_timeout_ms, last.htype)) ∧
      s2.dtls.flight_init = true ∧
      s2.dtls.actual_retrans_timeout_ms = session.dtls.retrans_timeout_ms ∧
      s2.dtls.last_flight = decide (last.htype = env.GNUTLS_HANDSHAKE_FINISHED) ∧
      s2.handshake_send_buffer = session.handshake_send_buffer ∧
      s2.calls = session.calls ++
        flight_sends env.GNUTLS_CHANGE_CIPHER_SPEC (gnutls_dtls_get_data_mtu env session - 12)
          session.handshake_send_buffer ++ [io_event.gettime] := by
  obtain ⟨r, b1, lt, hsends, hr⟩ := transmit_flight_sends env fuel hsend hmalloc hov
    session.handshake_send_buffer session none last_type hdm hmsgs (fun _ h => by cases h)
  obtain ⟨_, _, _, _, f6⟩ := transmit_flight_session env fuel _ _ _ _ _ _ _ _ hsends
  have hlt : lt = last.htype := by
    rw [f6 hr]
    simp only [hlast, Option.map_some', Option.getD_some]
  have hphase := send_phase_first env fuel session _ none b1 diff timeout last_type lt r hinit
    hsends hr
  rw [hlt] at hphase
  exact ⟨_, b1, hphase, rfl, rfl, rfl, rfl, rfl⟩

/-- C34 at a concrete input: the first send of a flight that ends in Finished
and the first send of a flight that does not. -/
theorem first_send_state_witness :
    (∃ s2 b2, dtls_send_phase sample_env 4 (sample_session [sample_ccs, sample_message 20 3 5])
        none 0 1000 0 = some (.inr (s2, b2, 1000, 20)) ∧
      s2.dtls.flight_init = true ∧ s2.dtls.actual_retrans_timeout_ms = 1000 ∧
      s2.dtls.last_flight = true) ∧
    (∃ s2 b2, dtls_send_phase sample_env 4 (sample_session [sample_message 1 0 5])
        none 0 1000 0 = some (.inr (s2, b2, 1000, 1)) ∧
      s2.dtls.flight_init = true ∧ s2.dtls.actual_retrans_timeout_ms = 1000 ∧
      s2.dtls.last_flight = false) :=
  ⟨match first_send_state sample_env 4 (sample_session [sample_ccs, sample_message 20 3 5])
      (sample_message 20 3 5) 0 1000 0 rfl rfl (fun _ _ _ _ _ => rfl) (fun _ _ => rfl)
      (fun _ _ => rfl) (by decide) (by decide) with
    | ⟨s2, b2, h1, h2, h3, h4, _⟩ => ⟨s2, b2, h1, h2, h3, h4⟩,
   match first_send_state sample_env 4 (sample_session [sample_message 1 0 5])
      (sample_message 1 0 5) 0 1000 0 rfl rfl (fun _ _ _ _ _ => rfl) (fun _ _ => rfl)
      (fun _ _ => rfl) (by decide) (by decide) with
    | ⟨s2, b2, h1, h2, h3, h4, _⟩ => ⟨s2, b2, h1, h2, h3, h4⟩⟩

/-- The fragmentation loop ends, whatever the sends return, when the fragment
MTU `m` is at least 1, `data_size + m` does not overflow and the fuel covers
the loop tests: started at the offset `k * m` with `n` fragments left
(`k + n = size / m + 1`) it returns after at most `n` sends. -/
theorem transmit_fragments_terminates (env : dtls_env) (bufel : mbuffer_st) (m : Nat)
    (hm : 1 ≤ m) (hsz : bufel.udata.length + m < 4294967296) :
    ∀ (n fuel k : Nat) (mtu_data : List Nat) (ret : ret_t) (calls : List io_event),
      n < fuel → k + n = bufel.udata.length / m + 1 →
      ∃ r calls2 b, transmit_fragments env bufel m fuel (k * m) mtu_data ret calls =
          some (r, calls2, b) ∧ calls2.length ≤ calls.length + n := by
  have hq1 : bufel.udata.length / m * m ≤ bufel.udata.length := Nat.div_mul_le_self _ _
  have hq2 : bufel.udata.length < (bufel.udata.length / m + 1) * m := by
    have := Nat.lt_mul_div_succ bufel.udata.length (by omega : 0 < m)
    rw [Nat.mul_comm] at this
    exact this
  have h32 : bufel.udata.length % 4294967296 = bufel.udata.length :=
    Nat.mod_eq_of_lt (by omega)
  intro n
  induction n with
  | zero =>
    intro fuel k mtu_data ret calls hfuel hk
    obtain ⟨f, rfl⟩ : ∃ f, fuel = f + 1 := ⟨fuel - 1, by omega⟩
    have hgt : ¬ k * m ≤ bufel.udata.length % 4294967296 := by
      rw [h32]
      have : k = bufel.udata.length / m + 1 := by omega
      rw [this]
      omega
    simp only [transmit_fragments, if_neg hgt]
    exact ⟨_, _, _, rfl, Nat.le_refl _⟩
  | succ n ih =>
    intro fuel k mtu_data ret calls hfuel hk
    obtain ⟨f, rfl⟩ : ∃ f, fuel = f + 1 := ⟨fuel - 1, by omega⟩
    have hkq : k ≤ bufel.udata.length / m := by omega
    have hle : k * m ≤ bufel.udata.length :=
      Nat.le_trans (Nat.mul_le_mul_right m hkq) hq1
    have hnext : (k * m + m) % 4294967296 = (k + 1) * m := by
      rw [Nat.succ_mul]
      exact Nat.mod_eq_of_lt (by omega)
    unfold transmit_fragments
    simp only
    rw [if_pos (by rw [h32]; exact hle), hnext]
    generalize (if (k + 1) * m > bufel.udata.length % 4294967296
      then bufel.udata.length % 4294967296 - k * m else m) = frag_len
    split_ifs with hn
    · refine ⟨_, _, _, rfl, ?_⟩
      rw [List.length_append, List.length_singleton]
      omega
    · obtain ⟨r, c, b, hrun, hc⟩ := ih f (k + 1) _ _ _ (by omega) (by omega)
      refine ⟨r, c, b, hrun, ?_⟩
      rw [List.length_append, List.length_singleton] at hc
      omega

/-- The loop with the record of the loop variable computes what
`transmit_fragments` computes. -/
theorem transmit_fragments_traced_fst (env : dtls_env) (bufel : mbuffer_st) (m : Nat) :
    ∀ (fuel offset : Nat) (mtu_data : List Nat) (ret : ret_t) (calls : List io_event),
      (transmit_fragments_traced env bufel m fuel offset mtu_data ret calls).map Prod.fst =
        transmit_fragments env bufel m fuel offset mtu_data ret calls := by
  intro fuel
  induction fuel with
  | zero =>
    intro offset mtu_data ret calls
    rfl
  | succ f ih =>
    intro offset mtu_data ret calls
    unfold transmit_fragments_traced transmit_fragments
    simp only
    split_ifs
    all_goals first
      | rfl
      | (rw [← ih]
         generalize transmit_fragments_traced env bufel m f _ _ _ _ = X
         cases X with
         | none => rfl
         | some x => rfl)

/-- The values of the loop variable of the fragmentation loop, when the
fragment MTU `m` is at least 1 and `data_size + m` does not overflow: started at
`k * m` with `n` fragments left (`k + n = size / m + 1`), the loop is left
either by its test, after `n` sends, having seen the `n + 1` values
`k * m, (k + 1) * m, …`, the last send (if any) not having failed, or by a
failed send, having seen only the values up to the offset of that send. -/
theorem transmit_fragments_traced_run (env : dtls_env) (bufel : mbuffer_st) (m : Nat)
    (hm : 1 ≤ m) (hsz : bufel.udata.length + m < 4294967296) :
    ∀ (n fuel k : Nat) (mtu_data : List Nat) (ret : ret_t) (calls : List io_event)
      (res : ret_t × List io_event × List Nat) (offsets : List Nat),
      k + n = bufel.udata.length / m + 1 →
      transmit_fragments_traced env bufel m fuel (k * m) mtu_data ret calls =
        some (res, offsets) →
      ∃ cnt, offsets = (List.range cnt).map (fun j => (k + j) * m) ∧
        ((cnt = n + 1 ∧ res.2.1.length = calls.length + n ∧ (n = 0 → res.1 = ret) ∧
            (0 < n → ret_neg res.1 = false)) ∨
          (1 ≤ cnt ∧ cnt ≤ n ∧ res.2.1.length = calls.length + cnt ∧
            ret_neg res.1 = true)) := by
  have hq1 : bufel.udata.length / m * m ≤ bufel.udata.length := Nat.div_mul_le_self _ _
  have hq2 : bufel.udata.length < (bufel.udata.length / m + 1) * m := by
    have := Nat.lt_mul_div_succ bufel.udata.length (by omega : 0 < m)
    rw [Nat.mul_comm] at this
    exact this
  have h32 : bufel.udata.length % 4294967296 = bufel.udata.length :=
    Nat.mod_eq_of_lt (by omega)
  intro n
  induction n with
  | zero =>
    intro fuel k mtu_data ret calls res offsets hk h
    cases fuel with
    | zero => cases h
    | succ f =>
      have hgt : ¬ k * m ≤ bufel.udata.length % 4294967296 := by
        rw [h32]
        have : k = bufel.udata.length / m + 1 := by omega
        rw [this]
        omega
      simp only [transmit_fragments_traced, if_neg hgt, Option.some.injEq,
        Prod.mk.injEq] at h
      obtain ⟨h1, h2⟩ := h
      subst h1
      subst h2
      exact ⟨1, rfl, Or.inl ⟨rfl, rfl, fun _ => rfl, fun h0 => absurd h0 (Nat.lt_irrefl 0)⟩⟩
  | succ n ih =>
    intro fuel k mtu_data ret calls res offsets hk h
    cases fuel with
    | zero => cases h
    | succ f =>
      have hkq : k ≤ bufel.udata.length / m := by omega
      have hle : k * m ≤ bufel.udata.length :=
        Nat.le_trans (Nat.mul_le_mul_right m hkq) hq1
      have hnext : (k * m + m) % 4294967296 = (k + 1) * m := by
        rw [Nat.succ_mul]
        exact Nat.mod_eq_of_lt (by omega)
      unfold transmit_fragments_traced at h
      simp only at h
      rw [if_pos (by rw [h32]; exact hle), hnext] at h
      generalize (if (k + 1) * m > bufel.udata.length % 4294967296
        then bufel.udata.length % 4294967296 - k * m else m) = frag_len at h
      split_ifs at h with hn
      · simp only [Option.some.injEq, Prod.mk.injEq] at h
        obtain ⟨h1, h2⟩ := h
        subst h1
        subst h2
        refine ⟨1, rfl, Or.inr ⟨Nat.le_refl 1, by omega, ?_, hn⟩⟩
        simp only [List.length_append, List.length_singleton]
      · split at h
        · cases h
        · rename_i res2 offs2 heq
          simp only [Option.some.injEq, Prod.mk.injEq] at h
          obtain ⟨h1, h2⟩ := h
          subst h1
          subst h2
          obtain ⟨cnt, hoffs, hcase⟩ := ih f (k + 1) _ _ _ _ _ (by omega) heq
          have hfun : (fun j => (k + 1 + j) * m) = (fun j => (k + (j + 1)) * m) := by
            funext j
            have : k + 1 + j = k + (j + 1) := by omega
            rw [this]
          refine ⟨cnt + 1, ?_, ?_⟩
          · rw [hoffs, hfun]
            conv_rhs => rw [List.range_succ_eq_map, List.map_cons, List.map_map]
            rfl
          · rcases hcase with ⟨c1, c2, c3, c4⟩ | ⟨c1, c2, c3, c4⟩
            · refine Or.inl ⟨by omega, ?_, fun h0 => absurd h0 (Nat.succ_ne_zero n), ?_⟩
              · rw [c2, List.length_append, List.length_singleton]
                omega
              · intro _
                by_cases hn0 : n = 0
                · rw [c3 hn0]
                  exact Bool.eq_false_iff.mpr hn
                · exact c4 (by omega)
            · refine Or.inr ⟨by omega, by omega, ?_, c4⟩
              rw [c3, List.length_append, List.length_singleton]
              omega

/-- C39: for a handshake message, when the fragment MTU `m` (the data MTU minus
12, as an `unsigned int`) is at least 1 and `data_size + m` does not overflow
an `unsigned int`, the fragmentation loop of `transmit_message` ends whatever
the sends return: with fuel for `data_size / m + 2` loop tests the function
returns, after at most `data_size / m + 1` sends.  The loop with a record of
its loop variable computes what the loop of the function computes, and for
every scratch buffer and call history the values of the loop variable at the
loop tests are `0, m, 2m, …, (cnt - 1) * m`, strictly increasing: either all
`data_size / m + 2` of them, after `data_size / m + 1` sends of which the last
did not fail, or, when a send failed, only those up to the offset of that
send; each `j * m` with `j ≤ data_size / m` passes the loop test and
`(data_size / m + 1) * m` is above `data_size`.  When moreover the data MTU is
at least 13, no send fails and the scratch buffer is there or can be
allocated, the sends that `transmit_message` makes are those of the fragments
at the values `j * m`, `j ≤ data_size / m`, of the loop variable, in order. -/
theorem fragmentation_terminates (env : dtls_env) (fuel : Nat) (session : session_st)
    (bufel : mbuffer_st) (buf : Option (List Nat))
    (hccs : bufel.type ≠ env.GNUTLS_CHANGE_CIPHER_SPEC)
    (hm : 1 ≤ sub_u32 (gnutls_dtls_get_data_mtu env session) DTLS_HANDSHAKE_HEADER_SIZE)
    (hsz : bufel.udata.length +
      sub_u32 (gnutls_dtls_get_data_mtu env session) DTLS_HANDSHAKE_HEADER_SIZE < 4294967296)
    (hfuel : bufel.udata.length /
      sub_u32 (gnutls_dtls_get_data_mtu env session) DTLS_HANDSHAKE_HEADER_SIZE + 1 < fuel) :
    (∃ r s2 b2, transmit_message env fuel session bufel buf = some (r, s2, b2) ∧
      s2.calls.length ≤ session.calls.length + (bufel.udata.length /
        sub_u32 (gnutls_dtls_get_data_mtu env session) DTLS_HANDSHAKE_HEADER_SIZE + 1)) ∧
    (∀ (f offset : Nat) (mtu_data : List Nat) (ret : ret_t) (calls : List io_event),
      (transmit_fragments_traced env bufel
          (sub_u32 (gnutls_dtls_get_data_mtu env session) DTLS_HANDSHAKE_HEADER_SIZE)
          f offset mtu_data ret calls).map Prod.fst =
        transmit_fragments env bufel
          (sub_u32 (gnutls_dtls_get_data_mtu env session) DTLS_HANDSHAKE_HEADER_SIZE)
          f offset mtu_data ret calls) ∧
    (∀ (mtu_data : List Nat) (ret : ret_t) (calls : List io_event), ∃ res cnt,
      transmit_fragments env bufel
          (sub_u32 (gnutls_dtls_get_data_mtu env session) DTLS_HANDSHAKE_HEADER_SIZE)
          fuel 0 mtu_data ret calls = some res ∧
      transmit_fragments_traced env bufel
          (sub_u32 (gnutls_dtls_get_data_mtu env session) DTLS_HANDSHAKE_HEADER_SIZE)
          fuel 0 mtu_data ret calls =
        some (res, (List.range cnt).map (fun j => j *
          sub_u32 (gnutls_dtls_get_data_mtu env session) DTLS_HANDSHAKE_HEADER_SIZE)) ∧
      ((cnt = bufel.udata.length /
            sub_u32 (gnutls_dtls_get_data_mtu env session) DTLS_HANDSHAKE_HEADER_SIZE + 2 ∧
          ret_neg res.1 = false ∧
          res.2.1.length = calls.length + (bufel.udata.length /
            sub_u32 (gnutls_dtls_get_data_mtu env session) DTLS_HANDSHAKE_HEADER_SIZE + 1)) ∨
        (1 ≤ cnt ∧
          cnt ≤ bufel.udata.length /
            sub_u32 (gnutls_dtls_get_data_mtu env session) DTLS_HANDSHAKE_HEADER_SIZE + 1 ∧
          ret_neg res.1 = true ∧ res.2.1.length = calls.length + cnt))) ∧
    (∀ cnt, List.Pairwise (fun a b => a < b)
      ((List.range cnt).map (fun j => j *
        sub_u32 (gnutls_dtls_get_data_mtu env session) DTLS_HANDSHAKE_HEADER_SIZE))) ∧
    (∀ j, j ≤ bufel.udata.length /
        sub_u32 (gnutls_dtls_get_data_mtu env session) DTLS_HANDSHAKE_HEADER_SIZE →
      j * sub_u32 (gnutls_dtls_get_data_mtu env session) DTLS_HANDSHAKE_HEADER_SIZE ≤
        bufel.udata.length) ∧
    bufel.udata.length < (bufel.udata.length /
        sub_u32 (gnutls_dtls_get_data_mtu env session) DTLS_HANDSHAKE_HEADER_SIZE + 1) *
      sub_u32 (gnutls_dtls_get_data_mtu env session) DTLS_HANDSHAKE_HEADER_SIZE ∧
    (13 ≤ gnutls_dtls_get_data_mtu env session →
      (∀ calls d,
        ret_neg (env._gnutls_send_int calls bufel.type bufel.htype bufel.epoch d) = false) →
      (buf = none →
        env.gnutls_malloc session.calls (gnutls_dtls_get_data_mtu env session) = true) →
      (∀ b, buf = some b → gnutls_dtls_get_data_mtu env session ≤ b.length) →
      ∃ r b2, transmit_message env fuel session bufel buf =
          some (r, add_calls session
            (((List.range (bufel.udata.length /
                sub_u32 (gnutls_dtls_get_data_mtu env session) DTLS_HANDSHAKE_HEADER_SIZE +
                  1)).map
              (fun j => j *
                sub_u32 (gnutls_dtls_get_data_mtu env session) DTLS_HANDSHAKE_HEADER_SIZE)).map
              (fragment_send bufel
                (sub_u32 (gnutls_dtls_get_data_mtu env session) DTLS_HANDSHAKE_HEADER_SIZE))),
            some b2) ∧
        ret_neg r = false) := by
  have hsends : 13 ≤ gnutls_dtls_get_data_mtu env session →
      (∀ calls d,
        ret_neg (env._gnutls_send_int calls bufel.type bufel.htype bufel.epoch d) = false) →
      (buf = none →
        env.gnutls_malloc session.calls (gnutls_dtls_get_data_mtu env session) = true) →
      (∀ b, buf = some b → gnutls_dtls_get_data_mtu env session ≤ b.length) →
      ∃ r b2, transmit_message env fuel session bufel buf =
          some (r, add_calls session
            (((List.range (bufel.udata.length /
                sub_u32 (gnutls_dtls_get_data_mtu env session) DTLS_HANDSHAKE_HEADER_SIZE +
                  1)).map
              (fun j => j *
                sub_u32 (gnutls_dtls_get_data_mtu env session) DTLS_HANDSHAKE_HEADER_SIZE)).map
              (fragment_send bufel
                (sub_u32 (gnutls_dtls_get_data_mtu env session) DTLS_HANDSHAKE_HEADER_SIZE))),
            some b2) ∧
        ret_neg r = false := by
    intro hdm hsend hmalloc hbuf
    have hlt := data_mtu_lt env session
    have e : sub_u32 (gnutls_dtls_get_data_mtu env session) DTLS_HANDSHAKE_HEADER_SIZE =
        gnutls_dtls_get_data_mtu env session - 12 := by
      unfold sub_u32 DTLS_HANDSHAKE_HEADER_SIZE
      omega
    rw [e] at hsz hfuel ⊢
    exact transmit_message_fragments env fuel session bufel buf hccs hdm hsz hsend hmalloc hbuf
      hfuel
  generalize hmdef : sub_u32 (gnutls_dtls_get_data_mtu env session)
    DTLS_HANDSHAKE_HEADER_SIZE = m at hm hsz hfuel hsends ⊢
  refine ⟨?_, ?_, ?_, ?_, ?_, ?_, hsends⟩
  · have key : ∀ (mtu_data : List Nat), ∃ r calls2 b,
        transmit_fragments env bufel m fuel 0 mtu_data (Except.ok 0) session.calls =
          some (r, calls2, b) ∧
        calls2.length ≤ session.calls.length + (bufel.udata.length / m + 1) := by
      intro mtu_data
      have := transmit_fragments_terminates env bufel m hm hsz (bufel.udata.length / m + 1)
        fuel 0 mtu_data (Except.ok 0) session.calls hfuel (by omega)
      rw [Nat.zero_mul] at this
      exact this
    unfold transmit_message
    simp only [hmdef, if_neg hccs]
    cases buf with
    | some b0 =>
      obtain ⟨r, c, b, hrun, hc⟩ := key
        (_gnutls_write_uint16 bufel.handshake_sequence
          (_gnutls_write_uint24 (bufel.udata.length % 4294967296)
            (b0.set 0 (bufel.htype % 256)) 1) 4)
      simp only [hrun]
      exact ⟨_, _, _, rfl, hc⟩
    | none =>
      by_cases hmal : env.gnutls_malloc session.calls
          ((m + DTLS_HANDSHAKE_HEADER_SIZE) % 4294967296) = true
      · obtain ⟨r, c, b, hrun, hc⟩ := key
          (_gnutls_write_uint16 bufel.handshake_sequence
            (_gnutls_write_uint24 (bufel.udata.length % 4294967296)
              ((List.replicate ((m + DTLS_HANDSHAKE_HEADER_SIZE) % 4294967296) 0).set 0
                (bufel.htype % 256)) 1) 4)
        simp only [hmal, if_true, hrun]
        exact ⟨_, _, _, rfl, hc⟩
      · simp only [hmal, Bool.false_eq_true, if_false]
        exact ⟨_, _, _, rfl, Nat.le_add_right _ _⟩
  · exact transmit_fragments_traced_fst env bufel m
  · intro mtu_data ret calls
    obtain ⟨r, c, b, hrun, _⟩ := transmit_fragments_terminates env bufel m hm hsz
      (bufel.udata.length / m + 1) fuel 0 mtu_data ret calls hfuel (by omega)
    rw [Nat.zero_mul] at hrun
    have hfst := transmit_fragments_traced_fst env bufel m fuel 0 mtu_data ret calls
    rw [hrun] at hfst
    cases htr : transmit_fragments_traced env bufel m fuel 0 mtu_data ret calls with
    | none =>
      rw [htr] at hfst
      cases hfst
    | some x =>
      obtain ⟨res, offsets⟩ := x
      rw [htr] at hfst
      simp only [Option.map_some', Option.some.injEq] at hfst
      subst hfst
      have htr0 : transmit_fragments_traced env bufel m fuel (0 * m) mtu_data ret calls =
          some ((r, c, b), offsets) := by
        rw [Nat.zero_mul]
        exact htr
      obtain ⟨cnt, hoffs, hcase⟩ := transmit_fragments_traced_run env bufel m hm hsz
        (bufel.udata.length / m + 1) fuel 0 mtu_data ret calls _ _ (by omega) htr0
      simp only [Nat.zero_add] at hoffs
      refine ⟨(r, c, b), cnt, hrun, ?_, ?_⟩
      · rw [hoffs]
      · rcases hcase with ⟨c1, c2, _, c4⟩ | ⟨c1, c2, c3, c4⟩
        · exact Or.inl ⟨c1, c4 (Nat.succ_pos _), c2⟩
        · exact Or.inr ⟨c1, c2, c4, c3⟩
  · intro cnt
    apply List.Pairwise.map _ _ (List.pairwise_lt_range _)
    intro a b hab
    exact Nat.mul_lt_mul_of_pos_right hab (by omega)
  · intro j hj
    exact Nat.le_trans (Nat.mul_le_mul_right m hj) (Nat.div_mul_le_self _ _)
  · have := Nat.lt_mul_div_succ bufel.udata.length (by omega : 0 < m)
    rw [Nat.mul_comm] at this
    exact this

/-- C39 at a concrete input: a message of 5 bytes with a fragment MTU of 2
(MTU 27, overhead 13): `transmit_message` returns after 3 sends, and the loop
variable takes the values 0, 2, 4 and 6. -/
theorem fragmentation_terminates_witness :
    (∃ r s2 b2, transmit_message sample_env 4
        { sample_session [] with dtls := { sample_dtls with mtu := 27 } }
        (sample_message 1 0 5) none = some (r, s2, b2) ∧
      s2.calls.length ≤
        ({ sample_session [] with dtls := { sample_dtls with mtu := 27 } } :
          session_st).calls.length +
        ((sample_message 1 0 5).udata.length /
          sub_u32 (gnutls_dtls_get_data_mtu sample_env
            { sample_session [] with dtls := { sample_dtls with mtu := 27 } })
            DTLS_HANDSHAKE_HEADER_SIZE + 1)) ∧
    (transmit_message sample_env 4
        { sample_session [] with dtls := { sample_dtls with mtu := 27 } }
        (sample_message 1 0 5) none).map (fun x => x.2.1.calls.length) = some 3 ∧
    (transmit_fragments_traced sample_env (sample_message 1 0 5) 2 4 0
        (List.replicate 14 0) (.ok 0) []).map Prod.snd = some [0, 2, 4, 6] ∧
    (transmit_fragments_traced sample_env_send_fails (sample_message 1 0 5) 2 4 0
        (List.replicate 14 0) (.ok 0) []).map Prod.snd = some [0] :=
  ⟨(fragmentation_terminates sample_env 4
    { sample_session [] with dtls := { sample_dtls with mtu := 27 } }
    (sample_message 1 0 5) none (by decide) (by decide) (by decide) (by decide)).1,
    by decide, by decide, by decide⟩

/-! ## Theorems: cookie echo and reads of the message -/

/-- C37: for a non-empty key (and a successful HMAC computation giving a
`C_HASH_SIZE`-byte digest), if `d` is the datagram that
`gnutls_dtls_cookie_send` hands to the push function and a message has at
least `78 + sid` bytes with `sid = msg[59] ≤ 32`, `msg[60 + sid] = 16` and the
16 bytes from `msg[61 + sid]` equal to `d[28..43]`, then
`gnutls_dtls_cookie_verify` with the same key and client data returns 0 and
the prestate is `(msg[10], msg[18], 0)`. -/
theorem cookie_echo_verifies (GH HVR : Nat) (hmac : hmac_fn) (key_data : List Nat)
    (key_size : Nat) (client_data digest d msg : List Nat)
    (pre prestate : gnutls_dtls_prestate_st) (push_func : push_fn) (hkey : key_size ≠ 0)
    (hmac_ok : hmac key_data key_size client_data = .ok digest)
    (hlen : digest.length = C_HASH_SIZE)
    (hsend : (gnutls_dtls_cookie_send GH HVR hmac (some ⟨some key_data, key_size⟩) client_data
      pre push_func).2 = [d])
    (hsid : byte_at msg 59 ≤ 32) (hsize : 78 + byte_at msg 59 ≤ msg.length)
    (hclen : byte_at msg (60 + byte_at msg 59) = 16)
    (hcookie : (msg.drop (61 + byte_at msg 59)).take 16 = (d.drop 28).take 16) :
    gnutls_dtls_cookie_verify hmac (some ⟨some key_data, key_size⟩) client_data msg prestate =
      (.ok (), { record_seq := byte_at msg 10, hsk_read_seq := byte_at msg 18,
                 hsk_write_seq := 0 }) := by
  have h16 : 16 ≤ digest.length := by rw [hlen]; decide
  have hl16 : (digest.take 16).length = 16 := by rw [List.length_take]; omega
  rw [cookie_send_cascade GH HVR hmac key_data key_size client_data digest pre push_func
    hkey hmac_ok h16] at hsend
  have hd : d = hello_verify_datagram GH HVR pre (digest.take 16) := by
    simp only [List.cons.injEq, and_true] at hsend
    exact hsend.symm
  obtain ⟨_, _, _, f4⟩ := hello_verify_datagram_fields GH HVR pre (digest.take 16) hl16
  rw [← hd] at f4
  rw [cookie_verify_cascade hmac key_data key_size client_data msg prestate hkey, hmac_ok]
  have hb : ¬ bad_framing msg := by
    unfold bad_framing
    omega
  rw [if_neg hb, if_neg (not_not_intro hclen)]
  simp only
  rw [if_pos (by rw [hcookie, f4])]

/-- C37 at a concrete input: the reply for the prestate `(5, 7, 2)` and a
ClientHello with record sequence byte 1 and handshake sequence byte 1 that
echoes its cookie. -/
theorem cookie_echo_verifies_witness :
    gnutls_dtls_cookie_verify sample_hmac sample_key [10, 0, 0, 1]
      (sample_client_hello sample_cookie) ⟨9, 9, 9⟩ =
      (.ok (), { record_seq := byte_at (sample_client_hello sample_cookie) 10,
                 hsk_read_seq := byte_at (sample_client_hello sample_cookie) 18,
                 hsk_write_seq := 0 }) ∧
    byte_at (sample_client_hello sample_cookie) 10 = 1 ∧
    byte_at (sample_client_hello sample_cookie) 18 = 1 :=
  ⟨cookie_echo_verifies 22 3 sample_hmac [1, 2, 3] 3 [10, 0, 0, 1]
    (sample_cookie ++ [133, 140, 147, 154]) (hello_verify_datagram 22 3 ⟨5, 7, 2⟩ sample_cookie)
    (sample_client_hello sample_cookie) ⟨5, 7, 2⟩ ⟨9, 9, 9⟩ sample_push (by decide) (by decide)
    (by decide) (by decide) (by decide) (by decide) (by decide) (by decide),
    by decide, by decide⟩

/-- C38: for every message (of every size, 0 included) and every content,
`gnutls_dtls_cookie_verify` reads the message only at indices below `msg_size`:
the function with every read checked (index 59, index `60 + sid`, the 16
cookie bytes from `61 + sid`, the indices 10 and 18) never finds an index out
of range and gives the result of the plain function. -/
theorem cookie_verify_reads_in_bounds (hmac : hmac_fn) (key : Option gnutls_datum_t)
    (client_data msg : List Nat) (prestate : gnutls_dtls_prestate_st) :
    gnutls_dtls_cookie_verify_checked hmac key client_data msg prestate =
      some (gnutls_dtls_cookie_verify hmac key client_data msg prestate) := by
  have e59 : 34 + DTLS_RECORD_HEADER_SIZE + DTLS_HANDSHAKE_HEADER_SIZE = 59 := rfl
  have e18 : DTLS_RECORD_HEADER_SIZE + 5 = 18 := rfl
  cases key with
  | none => rfl
  | some k =>
    obtain ⟨data, size⟩ := k
    cases data with
    | none => rfl
    | some key_data =>
      simp only [gnutls_dtls_cookie_verify_checked, gnutls_dtls_cookie_verify, e59, e18,
        COOKIE_SIZE, COOKIE_MAC_SIZE]
      by_cases hk : size = 0
      · rw [if_pos hk, if_pos hk]
      rw [if_neg hk, if_neg hk]
      by_cases h1 : msg.length < 59 + 1
      · rw [if_pos h1, if_pos h1]
      rw [if_neg h1, if_neg h1]
      have r1 : checked_byte msg 59 = some (byte_at msg 59) := by
        unfold checked_byte
        rw [if_pos (by omega)]
      simp only [r1]
      by_cases h2 : byte_at msg 59 > 32 ∨ msg.length < 59 + 1 + byte_at msg 59 + 1
      · rw [if_pos h2, if_pos h2]
      rw [if_neg h2, if_neg h2]
      have r2 : checked_byte msg (59 + 1 + byte_at msg 59) =
          some (byte_at msg (59 + 1 + byte_at msg 59)) := by
        unfold checked_byte
        rw [if_pos (by omega)]
      simp only [r2]
      by_cases h3 : msg.length <
          59 + 1 + byte_at msg 59 + 1 + byte_at msg (59 + 1 + byte_at msg 59) + 1
      · rw [if_pos h3, if_pos h3]
      rw [if_neg h3, if_neg h3]
      by_cases h4 : byte_at msg (59 + 1 + byte_at msg 59) ≠ 16
      · rw [if_pos h4, if_pos h4]
      rw [if_neg h4, if_neg h4]
      have h4' : byte_at msg (59 + 1 + byte_at msg 59) = 16 := not_not.mp h4
      cases hmac key_data size client_data with
      | error e => rfl
      | ok digest =>
        have r3 : checked_bytes msg (59 + 1 + byte_at msg 59 + 1) 16 =
            some ((msg.drop (59 + 1 + byte_at msg 59 + 1)).take 16) := by
          unfold checked_bytes
          rw [if_pos (by omega)]
        have r4 : checked_byte msg 10 = some (byte_at msg 10) := by
          unfold checked_byte
          rw [if_pos (by omega)]
        have r5 : checked_byte msg 18 = some (byte_at msg 18) := by
          unfold checked_byte
          rw [if_pos (by omega)]
        have hm : memcmp_ne digest ((msg.drop (59 + 1 + byte_at msg 59 + 1)).take 16) 16 =
            memcmp_ne digest (msg.drop (59 + 1 + byte_at msg 59 + 1)) 16 := by
          unfold memcmp_ne
          rw [List.take_take, Nat.min_self]
        simp only [r3, r4, r5, hm]
        split_ifs <;> rfl

/-! ## Theorems: re-entry of the transmitter and the retransmission timer -/

/-- `_dtls_transmit` is the block for a call in non-blocking mode followed by
the code at the place the block leaves to. -/
theorem transmit_eq_reentry (env : dtls_env) (fuel : Nat) (session : session_st) :
    _dtls_transmit env fuel session =
      dtls_resume env fuel
        (dtls_reentry env (log_call session io_event.gettime) (env.gettime session.calls)).1
        (env.gettime session.calls)
        (dtls_reentry env (log_call session io_event.gettime) (env.gettime session.calls)).2 := by
  unfold _dtls_transmit dtls_reentry
  simp only
  split_ifs <;> rfl

/-- One iteration of the loop of `_dtls_transmit`: the test of the total
timeout, the (re)transmission step, then the rest of the iteration. -/
theorem transmit_loop_step (env : dtls_env) (fuel : Nat) (session : session_st)
    (buf : Option (List Nat)) (now : timespec) (last_type : Nat) :
    dtls_transmit_loop env (fuel + 1) session buf now last_type =
      if env.timespec_sub_ms now session.dtls.handshake_start_time ≥
          session.dtls.total_timeout_ms then
        some (dtls_end_flight env session (.error GNUTLS_E_TIMEDOUT))
      else
        match dtls_send_phase env fuel session buf
          (env.timespec_sub_ms now session.dtls.last_retransmit)
          session.dtls.actual_retrans_timeout_ms last_type with
        | none => none
        | some (.inl (ret, session)) => some (dtls_end_flight env session ret)
        | some (.inr (session, buf, timeout, last_type)) =>
          dtls_after_send env fuel session buf timeout last_type := by
  rw [dtls_transmit_loop]
  rfl

/-- The (re)transmission step for a flight that has been sent before
(`flight_init = 1`): `last_flight`, `flight_init` and `blocking` are as before,
and the calls added are sends and readings of the clock. -/
theorem send_phase_resend_calls (env : dtls_env) (fuel : Nat) (session : session_st)
    (buf : Option (List Nat)) (diff timeout last_type : Nat)
    (hinit : session.dtls.flight_init = true) :
    (∀ r s2, dtls_send_phase env fuel session buf diff timeout last_type =
        some (.inl (r, s2)) →
      s2.dtls = session.dtls ∧
      s2.handshake_send_buffer = session.handshake_send_buffer ∧
      ∃ evs, s2.calls = session.calls ++ evs ∧ ∀ e ∈ evs, is_send_int e = true) ∧
    (∀ s2 b2 t2 lt2, dtls_send_phase env fuel session buf diff timeout last_type =
        some (.inr (s2, b2, t2, lt2)) →
      s2.dtls.last_flight = session.dtls.last_flight ∧
      s2.dtls.flight_init = true ∧
      ∃ evs, s2.calls = session.calls ++ evs ∧
        ∀ e ∈ evs, is_send_int e = true ∨ e = io_event.gettime) := by
  unfold dtls_send_phase
  by_cases hc : session.dtls.flight_init = false ∨
      diff ≥ session.dtls.actual_retrans_timeout_ms
  · rw [if_pos hc]
    cases hf : transmit_flight env fuel session.handshake_send_buffer session buf last_type with
    | none =>
      refine ⟨?_, ?_⟩
      · intro r s2 h
        cases h
      · intro s2 b2 t2 lt2 h
        cases h
    | some x =>
      obtain ⟨ret, s1, b1, lt1⟩ := x
      obtain ⟨f1, f2, _, ⟨evs, f4, f5⟩, _⟩ :=
        transmit_flight_session env fuel _ _ _ _ _ _ _ _ hf
      have hfi : ¬ (s1.dtls.flight_init = false) := by
        rw [f1, hinit]
        exact Bool.noConfusion
      by_cases hn : ret_neg ret = true
      · simp only [hn, if_true]
        refine ⟨?_, ?_⟩
        · intro r s2 h
          simp only [Option.some.injEq, Sum.inl.injEq, Prod.mk.injEq] at h
          rw [← h.2]
          exact ⟨f1, f2, evs, f4, f5⟩
        · intro s2 b2 t2 lt2 h
          cases h
      · simp only [hn, log_call, hfi, Bool.false_eq_true, if_false, UPDATE_TIMER]
        refine ⟨?_, ?_⟩
        · intro r s2 h
          cases h
        · intro s2 b2 t2 lt2 h
          cases h
          have hlf : s1.dtls.last_flight = session.dtls.last_flight :=
            congrArg dtls_st.last_flight f1
          refine ⟨hlf, ?_, evs ++ [io_event.gettime], ?_, ?_⟩
          · rfl
          · simp only [f4, List.append_assoc]
          · intro e he
            rcases List.mem_append.mp he with he | he
            · exact Or.inl (f5 e he)
            · exact Or.inr (List.mem_singleton.mp he)
  · rw [if_neg hc]
    refine ⟨?_, ?_⟩
    · intro r s2 h
      cases h
    · intro s2 b2 t2 lt2 h
      simp only [Option.some.injEq, Sum.inr.injEq, Prod.mk.injEq] at h
      rw [← h.1]
      exact ⟨rfl, hinit, [], (List.append_nil _).symm, fun e he => absurd he (List.not_mem_nil e)⟩

/-- The loop of `_dtls_transmit` for a last flight that has been sent before
(`flight_init = 1`, `last_flight = 1`): whatever it returns, the receive side
is not polled. -/
theorem transmit_loop_last_flight (env : dtls_env) (fuel : Nat) (session : session_st)
    (buf : Option (List Nat)) (now : timespec) (last_type : Nat) (r : ret_t) (s2 : session_st)
    (hinit : session.dtls.flight_init = true) (hlast : session.dtls.last_flight = true)
    (h : dtls_transmit_loop env fuel session buf now last_type = some (r, s2)) :
    ∃ evs, s2.calls = session.calls ++ evs ∧ ∀ e ∈ evs, is_check_recv e = false := by
  have hend : ∀ s evs0, s.calls = session.calls ++ evs0 →
      (∀ e ∈ evs0, is_check_recv e = false) → ∀ r0,
      some (dtls_end_flight env s r0) = some (r, s2) →
      ∃ evs, s2.calls = session.calls ++ evs ∧ ∀ e ∈ evs, is_check_recv e = false := by
    intro s evs0 hs h0 r0 he
    obtain ⟨_, _, _, evs, d3, d4⟩ := dtls_end_flight_session env s r0
    have e2 : s2 = (dtls_end_flight env s r0).2 := by
      rw [Option.some.injEq] at he
      rw [he]
    refine ⟨evs0 ++ evs, ?_, ?_⟩
    · rw [e2, d3, hs, List.append_assoc]
    · intro e hm
      rcases List.mem_append.mp hm with hm | hm
      · exact h0 e hm
      · have := d4 e hm
        cases e <;> first | rfl | cases this
  cases fuel with
  | zero =>
    simp only [dtls_transmit_loop] at h
    cases h
  | succ f =>
    rw [transmit_loop_step] at h
    by_cases ht : env.timespec_sub_ms now session.dtls.handshake_start_time ≥
        session.dtls.total_timeout_ms
    · rw [if_pos ht] at h
      exact hend session [] (List.append_nil _).symm
        (fun e he => absurd he (List.not_mem_nil e)) _ h
    · rw [if_neg ht] at h
      obtain ⟨p1, p2⟩ := send_phase_resend_calls env f session buf
        (env.timespec_sub_ms now session.dtls.last_retransmit)
        session.dtls.actual_retrans_timeout_ms last_type hinit
      split at h
      · cases h
      · rename_i ret s1 hp
        obtain ⟨_, _, evs, q1, q2⟩ := p1 _ _ hp
        refine hend s1 evs q1 ?_ _ h
        intro e he
        have := q2 e he
        cases e <;> first | rfl | cases this
      · rename_i s1 b1 t1 lt1 hp
        obtain ⟨q0, _, evs, q1, q2⟩ := p2 _ _ _ _ hp
        have hl1 : s1.dtls.last_flight = true := q0.trans hlast
        have hevs : ∀ e ∈ evs ++ [io_event.io_write_flush], is_check_recv e = false := by
          intro e he
          rcases List.mem_append.mp he with he | he
          · rcases q2 e he with hq | hq
            · cases e <;> first | rfl | cases hq
            · rw [hq]
              rfl
          · rw [List.mem_singleton.mp he]
            rfl
        have hcalls : (log_call s1 io_event.io_write_flush).calls =
            session.calls ++ (evs ++ [io_event.io_write_flush]) := by
          simp only [log_call, q1, List.append_assoc]
        unfold dtls_after_send at h
        simp only at h
        by_cases hn : ret_neg (env._gnutls_io_write_flush s1.calls) = true
        · rw [if_pos hn] at h
          simp only [dtls_cleanup, Option.some.injEq, Prod.mk.injEq] at h
          rw [← h.2]
          exact ⟨_, hcalls, hevs⟩
        · rw [if_neg hn] at h
          have hl2 : (log_call s1 io_event.io_write_flush).dtls.last_flight = true := hl1
          rw [if_pos hl2] at h
          simp only [dtls_cleanup, Option.some.injEq, Prod.mk.injEq] at h
          rw [← h.2]
          exact ⟨_, hcalls, hevs⟩

/-- C35 (the claim as stated fails): a call in non-blocking mode for the LAST
flight of a session that is not asynchronous flushes and then polls the receive
side with zero timeout; so does a call for a flight that is not the last one of
an asynchronous session. -/
theorem reentry_poll_counterexample :
    sample_session_nonblocking.dtls.flight_init = true ∧
    sample_session_nonblocking.dtls.blocking = false ∧
    sample_session_nonblocking.dtls.last_flight = true ∧
    sample_env._dtls_is_async
      (log_call (log_call sample_session_nonblocking io_event.gettime)
        io_event.io_write_flush) = false ∧
    (_dtls_transmit sample_env 5 sample_session_nonblocking).map (fun x => x.2.calls) =
      some [io_event.gettime, io_event.io_write_flush, io_event.io_check_recv 0,
        io_event.recv_in_buffers, io_event.parse_record_buffered_msgs,
        io_event.epoch_refcount_dec 0, io_event.epoch_refcount_dec 0] ∧
    sample_session_waiting.dtls.flight_init = true ∧
    sample_session_waiting.dtls.blocking = false ∧
    sample_session_waiting.dtls.last_flight = false ∧
    sample_env_async._dtls_is_async
      (log_call (log_call sample_session_waiting io_event.gettime)
        io_event.io_write_flush) = true ∧
    (_dtls_transmit sample_env_async 5 sample_session_waiting).map (fun x => x.2.calls) =
      some [io_event.gettime, io_event.io_write_flush, io_event.io_check_recv 0,
        io_event.recv_in_buffers, io_event.parse_record_buffered_msgs,
        io_event.epoch_refcount_dec 0] := by
  decide

/-- C35, amended: when `_dtls_transmit` is called with `flight_init = 1` and
`blocking = 0` and the flush of pending writes does not fail, the call is the
block for non-blocking re-entry followed by the code at the place that block
leaves to, and the block polls the receive side with zero timeout right after
the flush if and only if this is not the last flight OR the session is not
asynchronous.  When this is the last flight and the session is asynchronous
the block only flushes and goes on to the loop, and nothing that the whole
call does is a poll of the receive side. -/
theorem reentry_poll (env : dtls_env) (fuel : Nat) (session : session_st)
    (hinit : session.dtls.flight_init = true) (hblock : session.dtls.blocking = false)
    (hflush : ret_neg (env._gnutls_io_write_flush (session.calls ++ [io_event.gettime])) =
      false) :
    _dtls_transmit env fuel session =
      dtls_resume env fuel
        (dtls_reentry env (log_call session io_event.gettime) (env.gettime session.calls)).1
        (env.gettime session.calls)
        (dtls_reentry env (log_call session io_event.gettime) (env.gettime session.calls)).2 ∧
    ((session.dtls.last_flight = false ∨
        env._dtls_is_async (log_call (log_call session io_event.gettime)
          io_event.io_write_flush) = false) →
      ∃ rest,
        (dtls_reentry env (log_call session io_event.gettime)
          (env.gettime session.calls)).1.calls =
          session.calls ++ [io_event.gettime, io_event.io_write_flush,
            io_event.io_check_recv 0] ++ rest ∧
        ∀ e ∈ rest, e = io_event.recv_in_buffers ∨ e = io_event.parse_record_buffered_msgs) ∧
    ((session.dtls.last_flight = true ∧
        env._dtls_is_async (log_call (log_call session io_event.gettime)
          io_event.io_write_flush) = true) →
      dtls_reentry env (log_call session io_event.gettime) (env.gettime session.calls) =
        (log_call (log_call session io_event.gettime) io_event.io_write_flush,
          transmit_exit.to_loop) ∧
      ∀ r s2, _dtls_transmit env fuel session = some (r, s2) →
        ∃ evs, s2.calls = session.calls ++ [io_event.gettime, io_event.io_write_flush] ++ evs ∧
          ∀ e ∈ evs, is_check_recv e = false) := by
  have hcond : (log_call session io_event.gettime).dtls.flight_init = true ∧
      (log_call session io_event.gettime).dtls.blocking = false := ⟨hinit, hblock⟩
  have hfl : ¬ (ret_neg (env._gnutls_io_write_flush
      (log_call session io_event.gettime).calls) = true) := by
    have e : (log_call session io_event.gettime).calls = session.calls ++ [io_event.gettime] :=
      rfl
    rw [e, hflush]
    exact Bool.noConfusion
  refine ⟨transmit_eq_reentry env fuel session, ?_, ?_⟩
  · intro hpoll
    have hpoll2 : (log_call (log_call session io_event.gettime)
        io_event.io_write_flush).dtls.last_flight = false ∨
        env._dtls_is_async (log_call (log_call session io_event.gettime)
          io_event.io_write_flush) = false := hpoll
    unfold dtls_reentry
    simp only
    rw [if_pos hcond, if_neg hfl, if_pos hpoll2]
    have hnil : ∀ s : session_st, s.calls = (session.calls ++ [io_event.gettime] ++
        [io_event.io_write_flush]) ++ [io_event.io_check_recv 0] →
        ∃ rest, s.calls = session.calls ++ [io_event.gettime, io_event.io_write_flush,
            io_event.io_check_recv 0] ++ rest ∧
          ∀ e ∈ rest, e = io_event.recv_in_buffers ∨
            e = io_event.parse_record_buffered_msgs := by
      intro s hs
      refine ⟨[], ?_, fun e he => absurd he (List.not_mem_nil e)⟩
      rw [hs]
      simp only [List.append_assoc, List.singleton_append, List.append_nil, List.cons_append,
        List.nil_append]
    have hhp : ∀ s : session_st, s.calls = (session.calls ++ [io_event.gettime] ++
        [io_event.io_write_flush]) ++ [io_event.io_check_recv 0] →
        ∃ rest, (is_next_hpacket_expected env s).2.calls =
          session.calls ++ [io_event.gettime, io_event.io_write_flush,
            io_event.io_check_recv 0] ++ rest ∧
          ∀ e ∈ rest, e = io_event.recv_in_buffers ∨
            e = io_event.parse_record_buffered_msgs := by
      intro s hs
      unfold is_next_hpacket_expected
      simp only [log_call]
      split_ifs
      · refine ⟨[io_event.recv_in_buffers], ?_, ?_⟩
        · rw [hs]
          simp only [List.append_assoc, List.singleton_append, List.cons_append,
            List.nil_append]
        · intro e he
          exact Or.inl (List.mem_singleton.mp he)
      all_goals
        refine ⟨[io_event.recv_in_buffers, io_event.parse_record_buffered_msgs], ?_, ?_⟩
        · rw [hs]
          simp only [List.append_assoc, List.singleton_append, List.cons_append,
            List.nil_append]
        · intro e he
          simp only [List.mem_cons, List.mem_singleton, List.not_mem_nil, or_false] at he
          exact he
    split_ifs
    all_goals first
      | exact hnil _ rfl
      | exact hhp _ rfl
  · rintro ⟨hlast, hasync⟩
    have hnp : ¬ ((log_call (log_call session io_event.gettime)
        io_event.io_write_flush).dtls.last_flight = false ∨
        env._dtls_is_async (log_call (log_call session io_event.gettime)
          io_event.io_write_flush) = false) := by
      rintro (h | h)
      · have h2 : session.dtls.last_flight = false := h
        rw [hlast] at h2
        cases h2
      · rw [hasync] at h
        cases h
    have hre : dtls_reentry env (log_call session io_event.gettime)
        (env.gettime session.calls) =
        (log_call (log_call session io_event.gettime) io_event.io_write_flush,
          transmit_exit.to_loop) := by
      unfold dtls_reentry
      simp only
      rw [if_pos hcond, if_neg hfl, if_neg hnp]
    refine ⟨hre, ?_⟩
    intro r s2 h
    rw [transmit_eq_reentry, hre] at h
    obtain ⟨evs, e1, e2⟩ := transmit_loop_last_flight env fuel
      (log_call (log_call session io_event.gettime) io_event.io_write_flush) none
      (env.gettime session.calls) 0 r s2 hinit hlast h
    refine ⟨evs, ?_, e2⟩
    rw [e1]
    simp only [log_call, List.append_assoc, List.singleton_append]

/-- C35 (amended) at concrete inputs: the last flight of a session that is not
asynchronous is followed by a poll; for the last flight of an asynchronous
session the call flushes, enters the loop and flushes again, without a poll. -/
theorem reentry_poll_witness :
    (∃ rest,
      (dtls_reentry sample_env (log_call sample_session_nonblocking io_event.gettime)
        (sample_env.gettime sample_session_nonblocking.calls)).1.calls =
        sample_session_nonblocking.calls ++ [io_event.gettime, io_event.io_write_flush,
          io_event.io_check_recv 0] ++ rest ∧
      ∀ e ∈ rest, e = io_event.recv_in_buffers ∨ e = io_event.parse_record_buffered_msgs) ∧
    dtls_reentry sample_env_async (log_call sample_session_nonblocking io_event.gettime)
        (sample_env_async.gettime sample_session_nonblocking.calls) =
      (log_call (log_call sample_session_nonblocking io_event.gettime) io_event.io_write_flush,
        transmit_exit.to_loop) ∧
    (_dtls_transmit sample_env_async 5 sample_session_nonblocking).map (fun x => x.2.calls) =
      some [io_event.gettime, io_event.io_write_flush, io_event.io_write_flush] :=
  ⟨(reentry_poll sample_env 5 sample_session_nonblocking rfl rfl rfl).2.1 (Or.inr rfl),
    ((reentry_poll sample_env_async 5 sample_session_nonblocking rfl rfl rfl).2.2
      ⟨rfl, rfl⟩).1,
    by decide⟩

/-- `is_next_hpacket_expected` leaves the DTLS sub-state and the send buffer as
they are, and the calls it adds are calls of `_gnutls_recv_in_buffers` and
`_gnutls_parse_record_buffered_msgs`. -/
theorem is_next_hpacket_expected_calls (env : dtls_env) (session : session_st) :
    (is_next_hpacket_expected env session).2.dtls = session.dtls ∧
    (is_next_hpacket_expected env session).2.handshake_send_buffer =
      session.handshake_send_buffer ∧
    ∃ rest, (is_next_hpacket_expected env session).2.calls = session.calls ++ rest ∧
      ∀ e ∈ rest, e = io_event.recv_in_buffers ∨ e = io_event.parse_record_buffered_msgs := by
  unfold is_next_hpacket_expected
  simp only [log_call]
  split_ifs
  · refine ⟨rfl, rfl, [io_event.recv_in_buffers], rfl, ?_⟩
    intro e he
    exact Or.inl (List.mem_singleton.mp he)
  all_goals
    refine ⟨rfl, rfl, [io_event.recv_in_buffers, io_event.parse_record_buffered_msgs], ?_, ?_⟩
    · simp only [List.append_assoc, List.singleton_append]
    · intro e he
      simp only [List.mem_cons, List.mem_singleton, List.not_mem_nil, or_false] at he
      exact he

/-- C36: for a flight that has been sent before (`flight_init = 1`), the
(re)transmission step of a loop iteration of `_dtls_transmit` does nothing when
`diff = now - last_retransmit` is below `actual_retrans_timeout_ms` (no send, no
change of the session), so a step that fails in a send or that adds a call has
`diff >= actual_retrans_timeout_ms`; an iteration before the timer (and the
total timeout) has expired goes straight to the flush.  In particular a call in
non-blocking mode that finds the repeated previous flight of the peer
(`GNUTLS_E_UNEXPECTED_HANDSHAKE_PACKET`) before the timer has expired goes on
with the flush of the loop, with no send among the calls up to there. -/
theorem resend_rate_limited (env : dtls_env) (fuel : Nat) (session : session_st)
    (buf : Option (List Nat)) (last_type : Nat)
    (hinit : session.dtls.flight_init = true) :
    (∀ diff timeout, diff < session.dtls.actual_retrans_timeout_ms →
      dtls_send_phase env fuel session buf diff timeout last_type =
        some (.inr (session, buf, timeout, last_type))) ∧
    (∀ diff timeout r s2,
      dtls_send_phase env fuel session buf diff timeout last_type = some (.inl (r, s2)) →
      diff ≥ session.dtls.actual_retrans_timeout_ms) ∧
    (∀ diff timeout s2 b2 t2 lt2,
      dtls_send_phase env fuel session buf diff timeout last_type =
        some (.inr (s2, b2, t2, lt2)) →
      s2.calls ≠ session.calls → diff ≥ session.dtls.actual_retrans_timeout_ms) ∧
    (∀ now,
      env.timespec_sub_ms now session.dtls.handshake_start_time <
        session.dtls.total_timeout_ms →
      env.timespec_sub_ms now session.dtls.last_retransmit <
        session.dtls.actual_retrans_timeout_ms →
      dtls_transmit_loop env (fuel + 1) session buf now last_type =
        dtls_after_send env fuel session buf session.dtls.actual_retrans_timeout_ms
          last_type) ∧
    (session.dtls.blocking = false →
      ret_neg (env._gnutls_io_write_flush (session.calls ++ [io_event.gettime])) = false →
      (session.dtls.last_flight = false ∨
        env._dtls_is_async (log_call (log_call session io_event.gettime)
          io_event.io_write_flush) = false) →
      env._gnutls_io_check_recv
        (session.calls ++ [io_event.gettime] ++ [io_event.io_write_flush]) 0 = .ok 0 →
      (is_next_hpacket_expected env
        (log_call (log_call (log_call session io_event.gettime) io_event.io_write_flush)
          (io_event.io_check_recv 0))).1 = .error GNUTLS_E_UNEXPECTED_HANDSHAKE_PACKET →
      env.timespec_sub_ms (env.gettime session.calls) session.dtls.handshake_start_time <
        session.dtls.total_timeout_ms →
      env.timespec_sub_ms (env.gettime session.calls) session.dtls.last_retransmit <
        session.dtls.actual_retrans_timeout_ms →
      _dtls_transmit env (fuel + 1) session =
        dtls_after_send env fuel
          (is_next_hpacket_expected env
            (log_call (log_call (log_call session io_event.gettime) io_event.io_write_flush)
              (io_event.io_check_recv 0))).2
          none session.dtls.actual_retrans_timeout_ms 0 ∧
      ∃ rest,
        (is_next_hpacket_expected env
          (log_call (log_call (log_call session io_event.gettime) io_event.io_write_flush)
            (io_event.io_check_recv 0))).2.calls =
          session.calls ++ [io_event.gettime, io_event.io_write_flush,
            io_event.io_check_recv 0] ++ rest ∧
        ∀ e ∈ rest, e = io_event.recv_in_buffers ∨
          e = io_event.parse_record_buffered_msgs) := by
  have hquiet : ∀ (s : session_st) (b : Option (List Nat)) (lt diff timeout : Nat),
      s.dtls.flight_init = true → diff < s.dtls.actual_retrans_timeout_ms →
      dtls_send_phase env fuel s b diff timeout lt = some (.inr (s, b, timeout, lt)) := by
    intro s b lt diff timeout hi hd
    unfold dtls_send_phase
    have hc : ¬ (s.dtls.flight_init = false ∨ diff ≥ s.dtls.actual_retrans_timeout_ms) := by
      rintro (h | h)
      · rw [hi] at h
        cases h
      · omega
    rw [if_neg hc]
  have hiter : ∀ (s : session_st) (b : Option (List Nat)) (lt : Nat) (now : timespec),
      s.dtls.flight_init = true →
      env.timespec_sub_ms now s.dtls.handshake_start_time < s.dtls.total_timeout_ms →
      env.timespec_sub_ms now s.dtls.last_retransmit < s.dtls.actual_retrans_timeout_ms →
      dtls_transmit_loop env (fuel + 1) s b now lt =
        dtls_after_send env fuel s b s.dtls.actual_retrans_timeout_ms lt := by
    intro s b lt now hi ht hd
    rw [transmit_loop_step, if_neg (by omega), hquiet s b lt _ _ hi hd]
  refine ⟨fun diff timeout hd => hquiet session buf last_type diff timeout hinit hd, ?_, ?_,
    fun now ht hd => hiter session buf last_type now hinit ht hd, ?_⟩
  · intro diff timeout r s2 h
    by_contra hd
    rw [hquiet session buf last_type diff timeout hinit (by omega)] at h
    cases h
  · intro diff timeout s2 b2 t2 lt2 h hne
    by_contra hd
    rw [hquiet session buf last_type diff timeout hinit (by omega)] at h
    cases h
    exact hne rfl
  · intro hblock hflush hpoll hrecv hhp ht hd
    have hcond : (log_call session io_event.gettime).dtls.flight_init = true ∧
        (log_call session io_event.gettime).dtls.blocking = false := ⟨hinit, hblock⟩
    have hfl : ¬ (ret_neg (env._gnutls_io_write_flush
        (log_call session io_event.gettime).calls) = true) := by
      have e : (log_call session io_event.gettime).calls =
          session.calls ++ [io_event.gettime] := rfl
      rw [e, hflush]
      exact Bool.noConfusion
    have hpoll2 : (log_call (log_call session io_event.gettime)
        io_event.io_write_flush).dtls.last_flight = false ∨
        env._dtls_is_async (log_call (log_call session io_event.gettime)
          io_event.io_write_flush) = false := hpoll
    have hrecv2 : env._gnutls_io_check_recv
        (log_call (log_call session io_event.gettime) io_event.io_write_flush).calls 0 =
        .ok 0 := hrecv
    obtain ⟨n1, _, rest, n3, n4⟩ := is_next_hpacket_expected_calls env
      (log_call (log_call (log_call session io_event.gettime) io_event.io_write_flush)
        (io_event.io_check_recv 0))
    refine ⟨?_, rest, ?_, n4⟩
    · have hre : dtls_reentry env (log_call session io_event.gettime)
          (env.gettime session.calls) =
          ((is_next_hpacket_expected env
            (log_call (log_call (log_call session io_event.gettime) io_event.io_write_flush)
              (io_event.io_check_recv 0))).2, transmit_exit.to_loop) := by
        unfold dtls_reentry
        simp only
        rw [if_pos hcond, if_neg hfl, if_pos hpoll2, hrecv2]
        simp only [reduceCtorEq, if_false, if_true, hhp, or_self, ret_neg, ne_eq,
          not_true_eq_false, and_false]
        exact if_neg (by decide)
      rw [transmit_eq_reentry, hre]
      simp only [dtls_resume]
      have hi3 : (is_next_hpacket_expected env
          (log_call (log_call (log_call session io_event.gettime) io_event.io_write_flush)
            (io_event.io_check_recv 0))).2.dtls = session.dtls := n1
      have e := hiter _ none 0 (env.gettime session.calls)
        ((congrArg dtls_st.flight_init hi3).trans hinit)
        (by rw [hi3]; exact ht) (by rw [hi3]; exact hd)
      rw [e, hi3]
    · rw [n3]
      simp only [log_call, List.append_assoc, List.singleton_append, List.cons_append,
        List.nil_append]

/-- C36 at concrete inputs: with a timer of 1 ms and `diff = 0` the step sends
nothing; a call in non-blocking mode that finds the repeated flight of the peer
at time 0 goes on with the flush and returns 0 without a send. -/
theorem resend_rate_limited_witness :
    dtls_send_phase sample_env 5 sample_session_last_flight none 0 1 0 =
      some (.inr (sample_session_last_flight, none, 1, 0)) ∧
    _dtls_transmit sample_env_peer_repeats (5 + 1) sample_session_nonblocking =
      dtls_after_send sample_env_peer_repeats 5
        (is_next_hpacket_expected sample_env_peer_repeats
          (log_call (log_call (log_call sample_session_nonblocking io_event.gettime)
            io_event.io_write_flush) (io_event.io_check_recv 0))).2
        none sample_session_nonblocking.dtls.actual_retrans_timeout_ms 0 ∧
    _dtls_transmit sample_env_peer_repeats 6 sample_session_nonblocking =
      some (.ok 0, add_calls sample_session_nonblocking
        [io_event.gettime, io_event.io_write_flush, io_event.io_check_recv 0,
          io_event.recv_in_buffers, io_event.parse_record_buffered_msgs,
          io_event.io_write_flush]) :=
  ⟨(resend_rate_limited sample_env 5 sample_session_last_flight none 0 rfl).1 0 1 (by decide),
    ((resend_rate_limited sample_env_peer_repeats 5 sample_session_nonblocking none 0
      rfl).2.2.2.2 rfl rfl (Or.inr rfl) rfl (by decide) (by decide) (by decide)).1,
    by decide⟩

/-! ## Theorems: unmasking of GOST private keys -/

/-- With enough fuel `bit_length` is the binary length: it is at most `b`
exactly when the number is below `2^b`. -/
theorem bit_length_le_iff : ∀ (fuel n b : Nat), n ≤ fuel →
    (bit_length fuel n ≤ b ↔ n < 2 ^ b) := by
  intro fuel
  induction fuel with
  | zero =>
    intro n b hn
    have h0 : n = 0 := Nat.le_zero.mp hn
    rw [h0]
    simp only [bit_length, Nat.zero_le, true_iff]
    exact Nat.two_pow_pos _
  | succ f ih =>
    intro n b hn
    unfold bit_length
    by_cases h0 : n = 0
    · rw [if_pos h0, h0]
      simp only [Nat.zero_le, true_iff]
      exact Nat.two_pow_pos _
    · rw [if_neg h0]
      cases b with
      | zero =>
        simp only [pow_zero, Nat.lt_one_iff]
        constructor
        · intro h
          omega
        · intro h
          exact absurd h h0
      | succ b =>
        have hhalf : n / 2 ≤ f := by omega
        have := ih (n / 2) b hhalf
        rw [Nat.add_le_add_iff_right, this, pow_succ]
        omega

/-- The binary length of a positive number after a shift to the right by less
than its length. -/
theorem bit_length_shift (n b : Nat) (hb : b < bit_length n n) :
    n / 2 ^ b ≠ 0 ∧ bit_length (n / 2 ^ b) (n / 2 ^ b) = bit_length n n - b := by
  have hpos : 0 < 2 ^ b := Nat.two_pow_pos b
  have hge : 2 ^ b ≤ n := by
    by_contra h
    have := (bit_length_le_iff n n b (Nat.le_refl n)).mpr (by omega)
    omega
  have hne : n / 2 ^ b ≠ 0 := by
    have : 1 ≤ n / 2 ^ b := (Nat.le_div_iff_mul_le hpos).mpr (by omega)
    omega
  have key : ∀ c, bit_length (n / 2 ^ b) (n / 2 ^ b) ≤ c ↔ bit_length n n ≤ c + b := by
    intro c
    rw [bit_length_le_iff _ _ c (Nat.le_refl _), bit_length_le_iff _ _ (c + b) (Nat.le_refl _),
      Nat.div_lt_iff_lt_mul hpos, pow_add]
  refine ⟨hne, ?_⟩
  have h1 := (key (bit_length (n / 2 ^ b) (n / 2 ^ b))).mp (Nat.le_refl _)
  have h2 := (key (bit_length n n - b)).mpr (by omega)
  omega

/-- The loop of `gostdsa_unmask_key` on a key `s * n` with `s = 1` or `s = -1`
and `n` positive of binary length `keybits`: with enough fuel it is left with
`unmasked * key` congruent modulo `q` to the initial `unmasked` times the
product of the base-`2^bits` digits of `n`, each taken with the sign `s`. -/
theorem unmask_loop_run (bits : Nat) (q : Int) (hbits : 1 ≤ bits) (s : Int)
    (hs : s = 1 ∨ s = -1) :
    ∀ (fuel : Nat) (u : Int) (n : Nat), n ≠ 0 → bit_length n n < 4294967296 →
      bit_length n n ≤ fuel * bits →
      ∃ u2 k2, unmask_loop bits q fuel u (s * (n : Int)) (bit_length n n) = some (u2, k2) ∧
        (u2 * k2) % q =
          (u * ((Nat.digits (2 ^ bits) n).map (fun d : Nat => s * (d : Int))).prod) % q := by
  have hB : 1 < 2 ^ bits := Nat.one_lt_two_pow (by omega)
  have hneg : ∀ a b : Int, (-a).tmod b = -(a.tmod b) := by
    intro a b
    rw [Int.tmod_def, Int.tmod_def, Int.neg_tdiv]
    ring
  have htm : ∀ n : Nat, Int.tmod (s * (n : Int)) ((2 ^ bits : Nat) : Int) =
      s * ((n % 2 ^ bits : Nat) : Int) := by
    intro n
    rcases hs with h | h
    · rw [h, one_mul, one_mul, Int.ofNat_tmod]
    · rw [h, neg_one_mul, neg_one_mul, hneg, Int.ofNat_tmod]
  have htd : ∀ n : Nat, Int.tdiv (s * (n : Int)) ((2 ^ bits : Nat) : Int) =
      s * ((n / 2 ^ bits : Nat) : Int) := by
    intro n
    rcases hs with h | h
    · rw [h, one_mul, one_mul, Int.ofNat_tdiv]
    · rw [h, neg_one_mul, neg_one_mul, Int.neg_tdiv, Int.ofNat_tdiv]
  intro fuel
  induction fuel with
  | zero =>
    intro u n hn _ hf
    have : n < 2 ^ 0 := (bit_length_le_iff n n 0 (Nat.le_refl n)).mp (by omega)
    simp only [pow_zero, Nat.lt_one_iff] at this
    exact absurd this hn
  | succ f ih =>
    intro u n hn h32 hf
    unfold unmask_loop
    by_cases hk : bit_length n n > bits
    · rw [if_pos hk]
      obtain ⟨s1, s2⟩ := bit_length_shift n bits hk
      have hsub : sub_u32 (bit_length n n) bits = bit_length n n - bits := by
        unfold sub_u32
        omega
      have hf2 : bit_length (n / 2 ^ bits) (n / 2 ^ bits) ≤ f * bits := by
        rw [s2]
        have : (f + 1) * bits = f * bits + bits := Nat.succ_mul f bits
        omega
      obtain ⟨u2, k2, r1, r2⟩ := ih ((u * (s * ((n % 2 ^ bits : Nat) : Int))) % q)
        (n / 2 ^ bits) s1 (by omega) hf2
      refine ⟨u2, k2, ?_, ?_⟩
      · simp only
        rw [htm, htd, hsub, ← s2]
        exact r1
      · have e : (u * (s * ((n % 2 ^ bits : Nat) : Int))) % q *
            ((Nat.digits (2 ^ bits) (n / 2 ^ bits)).map (fun d : Nat => s * (d : Int))).prod % q =
            u * (s * ((n % 2 ^ bits : Nat) : Int)) *
              ((Nat.digits (2 ^ bits) (n / 2 ^ bits)).map (fun d : Nat => s * (d : Int))).prod % q :=
          Int.ModEq.mul_right _ (Int.mod_modEq _ _)
        rw [r2, Nat.digits_def' hB (Nat.pos_of_ne_zero hn), List.map_cons, List.prod_cons, e,
          Int.mul_assoc]
    · rw [if_neg hk]
      have hlt : n < 2 ^ bits := (bit_length_le_iff n n bits (Nat.le_refl n)).mp (by omega)
      refine ⟨u, s * (n : Int), rfl, ?_⟩
      rw [Nat.digits_of_lt _ _ hn hlt]
      simp only [List.map_cons, List.map_nil, List.prod_cons, List.prod_nil, mul_one]

/-- For a curve other than the two GOST curves, `gostdsa_unmask_key` given a
key of more binary digits than the curve bit size calls `abort()`: it does not
return, whatever the fuel. -/
theorem unmask_key_aborts (ecc_bit_size : ecc_curve → Nat) (fuel : Nat) (key : Int)
    (h : ecc_bit_size ecc_curve.other % 4294967296 < mpz_sizeinbase2 key % 4294967296) :
    gostdsa_unmask_key ecc_bit_size fuel ecc_curve.other key = none := by
  unfold gostdsa_unmask_key
  simp only
  rw [if_neg (by omega)]

set_option maxRecDepth 4000 in
/-- C40, the claim as stated fails: for a curve of 256 bits that is neither
`gost_gc256b` nor `gost_gc512a` and the key `2^256`, of 257 binary digits,
`gostdsa_unmask_key` does not return 0: it calls `abort()`. -/
theorem unmask_key_counterexample :
    mpz_sizeinbase2 ((2 ^ 256 : Nat) : Int) = 257 ∧
    ∀ fuel, gostdsa_unmask_key (fun _ => 256) fuel ecc_curve.other ((2 ^ 256 : Nat) : Int) =
      none :=
  ⟨by decide, fun fuel => unmask_key_aborts (fun _ => 256) fuel _ (by decide)⟩

/-- C40 as amended: for a curve bit size `b` with `1 ≤ b < 2^32`, a key whose
absolute value has fewer than `2^32` binary digits and enough fuel: every value
that `gostdsa_unmask_key` returns is 0; when the bit length of the key is at
most `b` it returns 0 and leaves the key unchanged, for every curve; otherwise
it calls `abort()` for a curve other than `gost_gc256b` and `gost_gc512a`, and
for these two, with their group order `q`, it returns 0 and the key is the
product of all the base-`2^b` digits of the old key (each with the sign of the
key, as the truncating division gives them) reduced modulo `q`, a value in
`0 .. q-1`; for a key that is not negative this is the product of the
base-`2^b` digits of the key. -/
theorem unmask_key_product (ecc_bit_size : ecc_curve → Nat) (fuel : Nat) (ecc : ecc_curve)
    (key : Int) (hbits : 1 ≤ ecc_bit_size ecc) (hb32 : ecc_bit_size ecc < 4294967296)
    (hk32 : mpz_sizeinbase2 key < 4294967296)
    (hfuel : mpz_sizeinbase2 key ≤ fuel * ecc_bit_size ecc) :
    (∀ r k, gostdsa_unmask_key ecc_bit_size fuel ecc key = some (r, k) → r = 0) ∧
    (mpz_sizeinbase2 key ≤ ecc_bit_size ecc →
      gostdsa_unmask_key ecc_bit_size fuel ecc key = some (0, key)) ∧
    (ecc_bit_size ecc < mpz_sizeinbase2 key →
      (ecc = ecc_curve.other → gostdsa_unmask_key ecc_bit_size fuel ecc key = none) ∧
      ∀ q, (ecc = ecc_curve.gost_gc256b ∧ q = GOST_GC256B_Q) ∨
          (ecc = ecc_curve.gost_gc512a ∧ q = GOST_GC512A_Q) →
        gostdsa_unmask_key ecc_bit_size fuel ecc key =
          some (0, ((Nat.digits (2 ^ ecc_bit_size ecc) key.natAbs).map
            (fun d : Nat => key.sign * (d : Int))).prod % q) ∧
        0 ≤ ((Nat.digits (2 ^ ecc_bit_size ecc) key.natAbs).map
          (fun d : Nat => key.sign * (d : Int))).prod % q ∧
        ((Nat.digits (2 ^ ecc_bit_size ecc) key.natAbs).map
          (fun d : Nat => key.sign * (d : Int))).prod % q < q ∧
        (0 ≤ key →
          gostdsa_unmask_key ecc_bit_size fuel ecc key =
            some (0, ((Nat.digits (2 ^ ecc_bit_size ecc) key.toNat).prod : Int) % q))) := by
  have hbm : ecc_bit_size ecc % 4294967296 = ecc_bit_size ecc := Nat.mod_eq_of_lt hb32
  have hkm : mpz_sizeinbase2 key % 4294967296 = mpz_sizeinbase2 key := Nat.mod_eq_of_lt hk32
  have hsmall : mpz_sizeinbase2 key ≤ ecc_bit_size ecc →
      gostdsa_unmask_key ecc_bit_size fuel ecc key = some (0, key) := by
    intro h
    unfold gostdsa_unmask_key
    simp only [hbm, hkm]
    rw [if_pos h]
  have hlarge : ∀ q, ecc_bit_size ecc < mpz_sizeinbase2 key →
      (match ecc with
        | .gost_gc256b => some GOST_GC256B_Q
        | .gost_gc512a => some GOST_GC512A_Q
        | .other => (none : Option Int)) = some q →
      gostdsa_unmask_key ecc_bit_size fuel ecc key =
        some (0, ((Nat.digits (2 ^ ecc_bit_size ecc) key.natAbs).map
          (fun d : Nat => key.sign * (d : Int))).prod % q) := by
    intro q h hq
    have hk0 : key ≠ 0 := by
      intro h0
      rw [h0] at h
      have : mpz_sizeinbase2 (0 : Int) = 1 := rfl
      omega
    have hs : key.sign = 1 ∨ key.sign = -1 := by
      rcases lt_trichotomy key 0 with hlt | heq | hgt
      · exact Or.inr (Int.sign_eq_neg_one_of_neg hlt)
      · exact absurd heq hk0
      · exact Or.inl (Int.sign_eq_one_of_pos hgt)
    have hn : key.natAbs ≠ 0 := Int.natAbs_ne_zero.mpr hk0
    have hsz : mpz_sizeinbase2 key = bit_length key.natAbs key.natAbs := by
      unfold mpz_sizeinbase2
      rw [if_neg hk0]
    have hkey : key.sign * (key.natAbs : Int) = key := Int.sign_mul_natAbs key
    generalize key.sign = s at hs hkey ⊢
    generalize key.natAbs = n at hn hsz hkey ⊢
    rw [hsz] at h hk32 hfuel hkm
    have hB : 1 < 2 ^ ecc_bit_size ecc := Nat.one_lt_two_pow (by omega)
    have hneg : ∀ a b : Int, (-a).tmod b = -(a.tmod b) := by
      intro a b
      rw [Int.tmod_def, Int.tmod_def, Int.neg_tdiv]
      ring
    have htm : Int.tmod (s * (n : Int)) ((2 ^ ecc_bit_size ecc : Nat) : Int) =
        s * ((n % 2 ^ ecc_bit_size ecc : Nat) : Int) := by
      rcases hs with h1 | h1
      · rw [h1, one_mul, one_mul, Int.ofNat_tmod]
      · rw [h1, neg_one_mul, neg_one_mul, hneg, Int.ofNat_tmod]
    have htd : Int.tdiv (s * (n : Int)) ((2 ^ ecc_bit_size ecc : Nat) : Int) =
        s * ((n / 2 ^ ecc_bit_size ecc : Nat) : Int) := by
      rcases hs with h1 | h1
      · rw [h1, one_mul, one_mul, Int.ofNat_tdiv]
      · rw [h1, neg_one_mul, neg_one_mul, Int.neg_tdiv, Int.ofNat_tdiv]
    obtain ⟨s1, s2⟩ := bit_length_shift n (ecc_bit_size ecc) h
    have hsub : sub_u32 (bit_length n n) (ecc_bit_size ecc) =
        bit_length n n - ecc_bit_size ecc := by
      unfold sub_u32
      omega
    obtain ⟨u2, k2, r1, r2⟩ := unmask_loop_run (ecc_bit_size ecc) q hbits s hs fuel
      (s * ((n % 2 ^ ecc_bit_size ecc : Nat) : Int)) (n / 2 ^ ecc_bit_size ecc) s1 (by omega)
      (by omega)
    unfold gostdsa_unmask_key
    simp only [hbm, hsz, hkm]
    rw [if_neg (by omega), hq]
    simp only
    rw [← hkey, htm, htd, hsub, ← s2, r1]
    simp only
    rw [r2, Nat.digits_def' hB (Nat.pos_of_ne_zero hn), List.map_cons, List.prod_cons]
  refine ⟨?_, hsmall, ?_⟩
  · intro r k h
    unfold gostdsa_unmask_key at h
    simp only at h
    split_ifs at h
    · simp only [Option.some.injEq, Prod.mk.injEq] at h
      exact h.1.symm
    · split at h
      · cases h
      · split at h
        · cases h
        · simp only [Option.some.injEq, Prod.mk.injEq] at h
          exact h.1.symm
  · intro h
    refine ⟨?_, ?_⟩
    · intro he
      subst he
      exact unmask_key_aborts ecc_bit_size fuel key (by omega)
    · intro q hq
      have hqpos : 0 < q := by
        rcases hq with ⟨_, e⟩ | ⟨_, e⟩
        · rw [e]
          decide
        · rw [e]
          decide
      have hres : gostdsa_unmask_key ecc_bit_size fuel ecc key =
          some (0, ((Nat.digits (2 ^ ecc_bit_size ecc) key.natAbs).map
            (fun d : Nat => key.sign * (d : Int))).prod % q) := by
        rcases hq with ⟨e1, e2⟩ | ⟨e1, e2⟩
        · exact hlarge q h (by rw [e1, e2])
        · exact hlarge q h (by rw [e1, e2])
      refine ⟨hres, Int.emod_nonneg _ (by omega), Int.emod_lt_of_pos _ hqpos, ?_⟩
      intro hkey
      rw [hres]
      have hk0 : key ≠ 0 := by
        intro h0
        rw [h0] at h
        have : mpz_sizeinbase2 (0 : Int) = 1 := rfl
        omega
      have hsign : key.sign = 1 := Int.sign_eq_one_of_pos (by omega)
      have hfun : (fun d : Nat => key.sign * (d : Int)) = Nat.cast := by
        funext d
        rw [hsign, one_mul]
      have hnat : key.natAbs = key.toNat := by omega
      rw [hfun, ← Nat.cast_list_prod, hnat]

set_option maxRecDepth 4000 in
/-- C40 (amended) at concrete inputs: on the 256-bit curve the key
`3 * 2^256 + 5`, with the base-`2^256` digits 5 and 3, becomes 15, and so does
its negative; a key of 256 bits is unchanged. -/
theorem unmask_key_product_witness :
    gostdsa_unmask_key (fun _ => 256) 3 ecc_curve.gost_gc256b ((3 * 2 ^ 256 + 5 : Nat) : Int) =
      some (0, ((Nat.digits (2 ^ 256) (Int.toNat ((3 * 2 ^ 256 + 5 : Nat) : Int))).prod : Int) %
        GOST_GC256B_Q) ∧
    gostdsa_unmask_key (fun _ => 256) 3 ecc_curve.gost_gc256b ((3 * 2 ^ 256 + 5 : Nat) : Int) =
      some (0, 15) ∧
    gostdsa_unmask_key (fun _ => 256) 3 ecc_curve.gost_gc256b
      (-((3 * 2 ^ 256 + 5 : Nat) : Int)) = some (0, 15) ∧
    gostdsa_unmask_key (fun _ => 256) 3 ecc_curve.gost_gc256b ((2 ^ 255 + 1 : Nat) : Int) =
      some (0, ((2 ^ 255 + 1 : Nat) : Int)) :=
  ⟨(((unmask_key_product (fun _ => 256) 3 ecc_curve.gost_gc256b ((3 * 2 ^ 256 + 5 : Nat) : Int)
      (by decide) (by decide) (by decide) (by decide)).2.2
      (by decide)).2 GOST_GC256B_Q (Or.inl ⟨rfl, rfl⟩)).2.2.2 (Int.ofNat_nonneg _),
    by decide,
    by decide,
    (unmask_key_product (fun _ => 256) 3 ecc_curve.gost_gc256b ((2 ^ 255 + 1 : Nat) : Int)
      (by decide) (by decide) (by decide) (by decide)).2.1 (by decide)⟩

/-! ## Theorems: a data MTU that leaves no room for a payload byte -/

/-- With a fragment MTU of 0 and sends that do not fail, the fragmentation
loop started at offset 0 never ends: it runs out of every amount of fuel. -/
theorem transmit_fragments_stuck (env : dtls_env) (bufel : mbuffer_st)
    (hsend : ∀ calls t h e d, ret_neg (env._gnutls_send_int calls t h e d) = false) :
    ∀ (fuel : Nat) (mtu_data : List Nat) (ret : ret_t) (calls : List io_event),
      transmit_fragments env bufel 0 fuel 0 mtu_data ret calls = none := by
  intro fuel
  induction fuel with
  | zero =>
    intro mtu_data ret calls
    rfl
  | succ f ih =>
    intro mtu_data ret calls
    unfold transmit_fragments
    simp only [Nat.zero_le, if_true, Nat.add_zero, Nat.zero_mod, hsend, Bool.false_eq_true,
      if_false]
    exact ih _ _ _

/-- With a data MTU of exactly the 12 bytes of the handshake header (a
fragment MTU of 0), sends that do not fail and a scratch buffer that can be
allocated, `_dtls_transmit` called with `flight_init = 0`, the budget not used
up and a handshake message at the head of the send buffer never returns; nor
does the transmission step of its loop. -/
theorem transmit_stuck_small_mtu (env : dtls_env) (session : session_st) (cur : mbuffer_st)
    (rest : List mbuffer_st)
    (hsend : ∀ calls t h e d, ret_neg (env._gnutls_send_int calls t h e d) = false)
    (hmalloc : ∀ calls n, env.gnutls_malloc calls n = true)
    (hov : ∀ c1 c2, env._gnutls_record_overhead_rt c1 = env._gnutls_record_overhead_rt c2)
    (hmtu : sub_u32 (gnutls_dtls_get_data_mtu env session) DTLS_HANDSHAKE_HEADER_SIZE = 0)
    (hbuf : session.handshake_send_buffer = cur :: rest)
    (hccs : cur.type ≠ env.GNUTLS_CHANGE_CIPHER_SPEC)
    (hinit : session.dtls.flight_init = false)
    (hbudget : env.timespec_sub_ms (env.gettime session.calls)
      session.dtls.handshake_start_time < session.dtls.total_timeout_ms) :
    (∀ fuel diff timeout last_type,
      dtls_send_phase env fuel session none diff timeout last_type = none) ∧
    ∀ fuel, _dtls_transmit env fuel session = none := by
  have hmsg : ∀ (fuel : Nat) (s : session_st) (buf : Option (List Nat)),
      s.dtls = session.dtls →
      s.calls = session.calls ∨ s.calls = session.calls ++ [io_event.gettime] →
      transmit_message env fuel s cur buf = none := by
    intro fuel s buf hd hc
    have hm : sub_u32 (gnutls_dtls_get_data_mtu env s) DTLS_HANDSHAKE_HEADER_SIZE = 0 := by
      rw [← hmtu]
      unfold gnutls_dtls_get_data_mtu
      rw [hd, hov s.calls session.calls]
    unfold transmit_message
    simp only [hm, if_neg hccs, hmalloc, if_true]
    cases buf with
    | none =>
      simp only
      rw [transmit_fragments_stuck env cur hsend]
    | some b =>
      simp only
      rw [transmit_fragments_stuck env cur hsend]
  have hflight : ∀ (fuel : Nat) (s : session_st) (last_type : Nat),
      s.dtls = session.dtls →
      s.calls = session.calls ∨ s.calls = session.calls ++ [io_event.gettime] →
      transmit_flight env fuel (cur :: rest) s none last_type = none := by
    intro fuel s last_type hd hc
    simp only [transmit_flight, hmsg fuel s none hd hc]
  have hphase : ∀ (fuel : Nat) (s : session_st) (diff timeout last_type : Nat),
      s.dtls = session.dtls → s.handshake_send_buffer = session.handshake_send_buffer →
      s.calls = session.calls ∨ s.calls = session.calls ++ [io_event.gettime] →
      dtls_send_phase env fuel s none diff timeout last_type = none := by
    intro fuel s diff timeout last_type hd hb hc
    unfold dtls_send_phase
    have hi : s.dtls.flight_init = false := by
      rw [hd]
      exact hinit
    rw [if_pos (Or.inl hi), hb, hbuf, hflight fuel s last_type hd hc]
  refine ⟨fun fuel diff timeout last_type =>
    hphase fuel session diff timeout last_type rfl rfl (Or.inl rfl), ?_⟩
  intro fuel
  unfold _dtls_transmit
  simp only
  have hnot : ¬ ((log_call session io_event.gettime).dtls.flight_init = true ∧
      (log_call session io_event.gettime).dtls.blocking = false) := by
    rintro ⟨h1, _⟩
    have h2 : session.dtls.flight_init = true := h1
    rw [hinit] at h2
    cases h2
  rw [if_neg hnot]
  cases fuel with
  | zero => rfl
  | succ f =>
    rw [transmit_loop_step]
    have hb2 : ¬ (env.timespec_sub_ms (env.gettime session.calls)
        (log_call session io_event.gettime).dtls.handshake_start_time ≥
        (log_call session io_event.gettime).dtls.total_timeout_ms) := by
      simp only [log_call]
      omega
    rw [if_neg hb2, hphase f (log_call session io_event.gettime) _ _ _ rfl rfl (Or.inr rfl)]

/-- C20, the claim as stated fails: with `flight_init = 0`, the budget not used
up, a flight that is one Finished message, every send and the flush
succeeding, but a data MTU of 12, `_dtls_transmit` does not return: the
fragmentation loop sends records with an empty payload at offset 0 for ever. -/
theorem terminal_flight_counterexample :
    (sample_session_small_mtu [sample_message 20 3 5]).dtls.flight_init = false ∧
    sample_env.timespec_sub_ms
        (sample_env.gettime (sample_session_small_mtu [sample_message 20 3 5]).calls)
        (sample_session_small_mtu [sample_message 20 3 5]).dtls.handshake_start_time <
      (sample_session_small_mtu [sample_message 20 3 5]).dtls.total_timeout_ms ∧
    (sample_message 20 3 5).htype = sample_env.GNUTLS_HANDSHAKE_FINISHED ∧
    (∀ calls t h e d, ret_neg (sample_env._gnutls_send_int calls t h e d) = false) ∧
    (∀ calls, ret_neg (sample_env._gnutls_io_write_flush calls) = false) ∧
    gnutls_dtls_get_data_mtu sample_env (sample_session_small_mtu [sample_message 20 3 5]) =
      12 ∧
    ∀ fuel, _dtls_transmit sample_env fuel (sample_session_small_mtu [sample_message 20 3 5]) =
      none :=
  ⟨rfl, by decide, rfl, fun _ _ _ _ _ => rfl, fun _ => rfl, by decide,
    (transmit_stuck_small_mtu sample_env (sample_session_small_mtu [sample_message 20 3 5])
      (sample_message 20 3 5) [] (fun _ _ _ _ _ => rfl) (fun _ _ => rfl) (fun _ _ => rfl)
      (by decide) rfl (by decide) rfl (by decide)).2⟩

/-- C21, the claim as stated fails: in blocking mode with `flight_init = 0`, the
budget not used up, a flight of one handshake message that is not Finished,
every send and the flush succeeding, the receive check returning 0 and a
message of the peer buffered, but a data MTU of 12, `_dtls_transmit` does not
return. -/
theorem happy_path_counterexample :
    (sample_session_small_mtu [sample_message 1 0 5]).dtls.blocking = true ∧
    (sample_session_small_mtu [sample_message 1 0 5]).dtls.flight_init = false ∧
    sample_env.timespec_sub_ms
        (sample_env.gettime (sample_session_small_mtu [sample_message 1 0 5]).calls)
        (sample_session_small_mtu [sample_message 1 0 5]).dtls.handshake_start_time <
      (sample_session_small_mtu [sample_message 1 0 5]).dtls.total_timeout_ms ∧
    (sample_message 1 0 5).htype ≠ sample_env.GNUTLS_HANDSHAKE_FINISHED ∧
    (∀ calls t h e d, ret_neg (sample_env._gnutls_send_int calls t h e d) = false) ∧
    (∀ calls, ret_neg (sample_env._gnutls_io_write_flush calls) = false) ∧
    (∀ calls ms, sample_env._gnutls_io_check_recv calls ms = .ok 0) ∧
    (∀ calls, 0 < sample_env.handshake_recv_buffer_size calls) ∧
    gnutls_dtls_get_data_mtu sample_env (sample_session_small_mtu [sample_message 1 0 5]) =
      12 ∧
    ∀ fuel, _dtls_transmit sample_env fuel (sample_session_small_mtu [sample_message 1 0 5]) =
      none :=
  ⟨rfl, rfl, by decide, by decide, fun _ _ _ _ _ => rfl, fun _ => rfl, fun _ _ => rfl,
    fun _ => Nat.zero_lt_one, by decide,
    (transmit_stuck_small_mtu sample_env (sample_session_small_mtu [sample_message 1 0 5])
      (sample_message 1 0 5) [] (fun _ _ _ _ _ => rfl) (fun _ _ => rfl) (fun _ _ => rfl)
      (by decide) rfl (by decide) rfl (by decide)).2⟩

/-- C34, the claim as stated fails: with `flight_init = 0` and every send
succeeding, but a data MTU of 12, the transmission step of `_dtls_transmit`
does not come to an end, so `flight_init`, the timer and `last_flight` are
never set; the call does not return. -/
theorem first_send_counterexample :
    (sample_session_small_mtu [sample_message 2 1 7, sample_message 14 2 0]).dtls.flight_init =
      false ∧
    (∀ calls t h e d, ret_neg (sample_env._gnutls_send_int calls t h e d) = false) ∧
    gnutls_dtls_get_data_mtu sample_env
      (sample_session_small_mtu [sample_message 2 1 7, sample_message 14 2 0]) = 12 ∧
    (∀ fuel diff timeout last_type,
      dtls_send_phase sample_env fuel
        (sample_session_small_mtu [sample_message 2 1 7, sample_message 14 2 0])
        none diff timeout last_type = none) ∧
    ∀ fuel, _dtls_transmit sample_env fuel
      (sample_session_small_mtu [sample_message 2 1 7, sample_message 14 2 0]) = none :=
  ⟨rfl, fun _ _ _ _ _ => rfl, by decide,
    (transmit_stuck_small_mtu sample_env
      (sample_session_small_mtu [sample_message 2 1 7, sample_message 14 2 0])
      (sample_message 2 1 7) [sample_message 14 2 0] (fun _ _ _ _ _ => rfl) (fun _ _ => rfl)
      (fun _ _ => rfl) (by decide) rfl (by decide) rfl (by decide)).1,
    (transmit_stuck_small_mtu sample_env
      (sample_session_small_mtu [sample_message 2 1 7, sample_message 14 2 0])
      (sample_message 2 1 7) [sample_message 14 2 0] (fun _ _ _ _ _ => rfl) (fun _ _ => rfl)
      (fun _ _ => rfl) (by decide) rfl (by decide) rfl (by decide)).2⟩

/-- C15, the claim as stated fails: with `MAX_DTLS_TIMEOUT = 60000` a re-send of
a flight whose timer is 2147483653 ms (a base that `gnutls_dtls_set_timeouts`
stores as it is) leaves the timer 10, the double taken as an `unsigned int`
being 10, where `(2 * old) mod MAX_DTLS_TIMEOUT` is 47306. -/
theorem retransmit_backoff_counterexample :
    (gnutls_dtls_set_timeouts (sample_session []) 2147483653 60000).dtls.retrans_timeout_ms =
      2147483653 ∧
    (UPDATE_TIMER sample_env { sample_session [] with
      dtls := { sample_dtls with actual_retrans_timeout_ms := 2147483653 } }
      ).dtls.actual_retrans_timeout_ms = 10 ∧
    (2 * 2147483653) % sample_env.MAX_DTLS_TIMEOUT = 47306 ∧
    (dtls_send_phase sample_env 5
      { sample_session [sample_ccs] with
        dtls := { sample_dtls with
          flight_init := true, total_timeout_ms := 4294967295,
          actual_retrans_timeout_ms := 2147483653 } }
      none 2147483653 2147483653 0).map
        (fun x => x.elim (fun _ => 0) (fun y => y.1.dtls.actual_retrans_timeout_ms)) =
      some 10 := by
  decide

end GnutlsDtls
